import Mathlib

/-!
# Cluster reconciliation controller (pkg/operator/ceph/cluster/controller.go)

A shallow embedding of the Ceph cluster controller of Rook: the namespace
registry (`clusterMap`), the add / update / delete handlers, the node and
device-inventory handlers, the version gate, the bounded creation and update
polls, the deletion drain, the finalizer bookkeeping and the stop channels.
The mon endpoint flattening and the CSI cluster configuration of the package
mon, of which only the test is at hand, are modelled from the specification.

Conventions of the embedding.

* The controller is a record that is passed through every handler.  Next to
  the fields of the Go struct it carries a chronological `trace` of the
  effects the handler had on the outside world (status writes, invocations of
  the creation routine, started sub-controllers, closed stop channels, ...).
* Calls that leave the file (the API server, the version probe, the creation
  routine, the volume-attachment listing) answer through an `Env` record: one
  field per call site, indexed by the attempt number where the call sits in a
  loop.  Theorems quantify over every `Env`.
* A handler returns `Run.ok` with the new controller, `Run.crash` when the Go
  code would raise a runtime panic (nil dereference, closing a closed
  channel), and `Run.hang` when a loop did not finish within its fuel.
-/

namespace Rook

/-! ## Data model -/

/-- The type cephver.CephVersion: the version of the storage engine. -/
structure CephVersion where
  Major : Nat
  Minor : Nat
  Extra : Nat
  Build : Nat
deriving DecidableEq

/-- The type cephv1.ClusterState: the lifecycle state written to the resource status. -/
inductive ClusterState where
  | Connecting
  | Creating
  | Created
  | Updating
  | Error
  | Connected
deriving DecidableEq

/-- The type ClusterInfo: what is known about a running cluster (the fields read here). -/
structure ClusterInfo where
  Monitors : List (String × String)
  CephVersion : Rook.CephVersion
deriving DecidableEq

/-- The field Spec.Mon of the cluster resource. -/
structure MonSpec where
  Count : Int
deriving DecidableEq

/-- The field Spec.CephVersion of the cluster resource. -/
structure CephVersionSpec where
  Image : String
deriving DecidableEq

/-- The field Spec.External of the cluster resource. -/
structure ExternalSpec where
  Enable : Bool
deriving DecidableEq

/-- The field Spec.Storage of the cluster resource.  `AnyUseAllDevices` is the
value of the method `AnyUseAllDevices()` on it. -/
structure StorageScopeSpec where
  UseAllNodes : Bool
  AnyUseAllDevices : Bool
deriving DecidableEq

/-- The type cephv1.ClusterSpec, restricted to the fields the controller reads. -/
structure ClusterSpec where
  Mon : MonSpec
  CephVersion : CephVersionSpec
  External : ExternalSpec
  Storage : StorageScopeSpec
deriving DecidableEq

/-- The type cephv1.CephCluster: the desired-state resource delivered with an event. -/
structure CephCluster where
  Namespace : String
  Name : String
  DeletionTimestamp : Option Nat
  Finalizers : List String
  Spec : ClusterSpec
deriving DecidableEq

/-- An attachment of a volume; `ClusterName` is the namespace of the owning cluster. -/
structure Attachment where
  ClusterName : String
deriving DecidableEq

/-- A volume resource with its attachments (one item of a VolumeList). -/
structure Volume where
  Name : String
  Attachments : List Attachment
deriving DecidableEq

/-- The type v1.Node, restricted to what can tell two node objects apart here:
the name, the hostname label, the unschedulable flag and the taints. -/
structure Node where
  Name : String
  Hostname : String
  Unschedulable : Bool
  Taints : List String
deriving DecidableEq

/-- The type sys.LocalDisk of a discovered device, with the fields that
identify and describe it. -/
structure LocalDisk where
  Name : String
  UUID : String
  Size : Nat
  Rotational : Bool
  Readonly : Bool
  Filesystem : String
  /-- the field Type of the source -/
  DiskType : String
  HasChildren : Bool
deriving DecidableEq

/-- The type v1.ConfigMap, restricted to its name and its data (a Go map from
string to string, as an association list). -/
structure ConfigMap where
  Name : String
  Data : List (String × String)
deriving DecidableEq

/-- The payload of an event handler (`obj interface{}`): a cluster resource, a
node, a config map, or an object of some other type. -/
inductive Obj where
  | cephCluster (c : CephCluster)
  | node (n : Node)
  | configMap (cm : ConfigMap)
  | foreign (kind : String)
deriving DecidableEq

/-- The sub-controllers started at the end of initializeCluster. -/
inductive SubController where
  | pool
  | objectStore
  | objectStoreUser
  | filesystem
  | nfs
deriving DecidableEq

/-- The health loops started at the end of initializeCluster. -/
inductive HealthLoop where
  | mon
  | osd
  | cephStatus
deriving DecidableEq

/-- Effects of a handler on the outside world, in the order they happen. -/
inductive Event where
  | updateClusterStatus (ns name : String) (state : ClusterState) (message : String)
  | addClusterCallback (external : Bool)
  | loadClusterInfo (ns : String)
  | writeConnectionConfig (ns : String)
  | detectCephVersion (image : String)
  | getCephMonVersion (ns : String)
  | createInstance (ns : String) (version : CephVersion)
  | startController (kind : SubController) (ns : String) (stopCh : Nat)
  | startHealth (kind : HealthLoop) (ns : String) (stopCh : Nat)
  | closeStopCh (stopCh : Nat)
  | listVolumeAttachments (operatorNamespace : String)
  | getAllCephDaemonVersions (ns : String)
  | getCephCluster (ns name : String)
  | updateCephCluster (ns name : String) (finalizers : List String)
  | sleep (seconds : Nat)
deriving DecidableEq

/-- The type cluster: the runtime state of one cluster.  `stopCh` is the
identity of its stop channel, `initCompleted` the value of `initialized()`,
`monsClusterInfo` the field `mons.ClusterInfo`. -/
structure Cluster where
  Namespace : String
  crdName : String
  Spec : ClusterSpec
  Info : Option ClusterInfo
  monsClusterInfo : Option ClusterInfo
  stopCh : Nat
  initCompleted : Bool
deriving DecidableEq

/-- The type ClusterController.  `clusterMap` is the Go map as an association
list without duplicate keys; `trace`, `closedChs` (the stop channels closed so
far) and `nextCh` (the next fresh channel) are bookkeeping of the embedding. -/
structure ClusterController where
  devicesInUse : Bool
  rookImage : String
  clusterMap : List (String × Cluster)
  hasAddClusterCallback : Bool
  trace : List Event
  closedChs : List Nat
  nextCh : Nat
deriving DecidableEq

/-- The outcome of running a handler. -/
inductive Run (α : Type) where
  | ok (a : α)
  | crash
  | hang
deriving DecidableEq

/-- Sequencing of outcomes. -/
def Run.bind {α β : Type} (r : Run α) (f : α → Run β) : Run β :=
  match r with
  | .ok a => f a
  | .crash => .crash
  | .hang => .hang

/-- The versions of the running daemons, as returned by GetAllCephDaemonVersions. -/
structure CephDaemonsVersions where
  Overall : List (String × Nat)
deriving DecidableEq

/-- What one call of `cluster.createInstance` did: the error it returned and
the cluster's `Info` and `initialized()` afterwards. -/
structure CreateResult where
  err : Option String
  Info : Option ClusterInfo
  initCompleted : Bool
deriving DecidableEq

/-- The answers of the outside world during one handler invocation. -/
structure Env where
  /-- os.Getenv(k8sutil.PodNamespaceEnvVar) -/
  operatorNamespace : String
  /-- mon.DefaultMonCount -/
  defaultMonCount : Int
  /-- mon.LoadClusterInfo at the start of initializeCluster (an error comes with no info) -/
  loadClusterInfo : Except String ClusterInfo
  /-- mon.WriteConnectionConfig at the start of initializeCluster -/
  writeConnectionConfig : Option String
  /-- ticks the creation poll receives before its timeout closes the channel -/
  createTicks : Nat
  /-- cluster.detectCephVersion in attempt i of the creation poll -/
  detectCephVersion : Nat → Except String CephVersion
  /-- cluster.validateCephVersion in attempt i of the creation poll -/
  validateCephVersion : Nat → CephVersion → Option String
  /-- cluster.createInstance in attempt i of the creation poll -/
  createInstance : Nat → CreateResult
  /-- mon.LoadClusterInfo in iteration i of configureExternalCephCluster -/
  extLoadClusterInfo : Nat → Except String ClusterInfo
  /-- mon.WriteConnectionConfig in configureExternalCephCluster -/
  extWriteConnectionConfig : Option String
  /-- client.GetCephMonVersion -/
  getCephMonVersion : Except String CephVersion
  /-- cluster.detectCephVersion in configureExternalCephCluster -/
  extDetectCephVersion : Except String CephVersion
  /-- CephClusters(namespace).Get in addFinalizer -/
  getCephCluster : Except String CephCluster
  /-- CephClusters(namespace).Update in addFinalizer -/
  addFinalizerUpdate : Option String
  /-- CephClusters(namespace).Update in attempt i of removeFinalizer -/
  removeFinalizerUpdate : Nat → Option String
  /-- clusterChanged(old spec, new spec, cluster) -/
  clusterChanged : ClusterSpec → ClusterSpec → Cluster → Bool
  /-- cluster.detectCephVersion for the new image in onUpdate -/
  updDetectCephVersion : Except String CephVersion
  /-- cluster.validateCephVersion for the new image in onUpdate -/
  updValidateCephVersion : CephVersion → Option String
  /-- client.GetAllCephDaemonVersions -/
  getAllCephDaemonVersions : Except String CephDaemonsVersions
  /-- diffImageSpecAndClusterRunningVersion -/
  diffImageSpecAndClusterRunningVersion : CephVersion → CephDaemonsVersions → Except String Bool
  /-- client.IsCephHealthy -/
  isCephHealthy : Bool
  /-- ticks the update poll receives before its timeout closes the channel -/
  updateTicks : Nat
  /-- cluster.createInstance in attempt i of the update (0 is the immediate one) -/
  updCreateInstance : Nat → CreateResult
  /-- volumeAttachment.List in listing i of handleDelete -/
  listVolumeAttachments : Nat → Except String (List Volume)
  /-- the method String() of a version, used in messages -/
  versionString : CephVersion → String
  /-- k8sutil.GetNodeSchedulable on a node -/
  getNodeSchedulable : Node → Bool
  /-- k8sutil.NodeIsTolerable on a node and the tolerations of the osd placement of a cluster -/
  nodeIsTolerable : Node → Cluster → Bool
  /-- k8sutil.ValidNode on a node and the placement `All()` of a cluster -/
  validNodeAll : Node → Cluster → Bool
  /-- k8sutil.ValidNode on a node and the osd placement of a cluster -/
  validNodeOSD : Node → Cluster → Bool
  /-- cluster.createInstance for cluster i in the range over the registry of a node handler -/
  nodeCreateInstance : Nat → CreateResult
  /-- the constant discoverDaemon.LocalDiskCMData, the key of the device list in a config map -/
  localDiskCMData : String
  /-- the JSON decoding of a device list, as done by discoverDaemon.DeviceListsEqual -/
  parseDevices : String → Except String (List LocalDisk)
  /-- cluster.createInstance for cluster i in the range over the registry of onDeviceCMUpdate -/
  deviceCreateInstance : Nat → CreateResult

/-! ## Constants -/

/-- The constant clusterCreateInterval, in seconds. -/
def clusterCreateInterval : Nat := 6

/-- The constant clusterCreateTimeout, in seconds. -/
def clusterCreateTimeout : Nat := 60 * 60

/-- The constant updateClusterInterval, in seconds. -/
def updateClusterInterval : Nat := 30

/-- The constant updateClusterTimeout, in seconds. -/
def updateClusterTimeout : Nat := 1 * 3600

/-- The constant clusterDeleteRetryInterval, in seconds. -/
def clusterDeleteRetryInterval : Nat := 2

/-- The constant clusterDeleteMaxRetries. -/
def clusterDeleteMaxRetries : Nat := 15

/-- The error wait.ErrWaitTimeout. -/
def ErrWaitTimeout : String := "timed out waiting for the condition"

/-! ## The registry -/

/-- The map read `m[k]` with its presence flag. -/
def mapGet : List (String × Cluster) → String → Option Cluster
  | [], _ => none
  | (k1, v) :: rest, k => if k1 = k then some v else mapGet rest k

/-- The map write `m[k] = v`: replaces the entry of `k` or adds one. -/
def mapSet : List (String × Cluster) → String → Cluster → List (String × Cluster)
  | [], k, v => [(k, v)]
  | (k1, v1) :: rest, k, v => if k1 = k then (k, v) :: rest else (k1, v1) :: mapSet rest k v

/-- The builtin `delete(m, k)`. -/
def mapDelete (m : List (String × Cluster)) (k : String) : List (String × Cluster) :=
  m.filter (fun e => decide (e.1 ≠ k))

/-- A write through the pointer stored under `k`: the entry is replaced when
there is one, and nothing is added otherwise. -/
def mapStore (m : List (String × Cluster)) (k : String) (v : Cluster) : List (String × Cluster) :=
  m.map (fun e => if e.1 = k then (k, v) else e)

/-- NewClusterController: the empty controller. -/
def NewClusterController (rookImage : String) (hasCallback : Bool) : ClusterController :=
  { devicesInUse := false, rookImage := rookImage, clusterMap := [],
    hasAddClusterCallback := hasCallback, trace := [], closedChs := [], nextCh := 0 }

/-- Appends one effect to the trace. -/
def emit (c : ClusterController) (e : Event) : ClusterController :=
  { c with trace := c.trace ++ [e] }

/-- The controller after the effects `tr`. -/
def addTrace (c : ClusterController) (tr : List Event) : ClusterController :=
  { c with trace := c.trace ++ tr }

/-- Go: getClusterObject.  A payload of the cluster type is returned, any other
payload is an error. -/
def getClusterObject : Obj → Except String CephCluster
  | .cephCluster cl => .ok cl
  | .node _ => .error "not a known cluster object: Node"
  | .configMap _ => .error "not a known cluster object: ConfigMap"
  | .foreign kind => .error ("not a known cluster object: " ++ kind)

/-- Go: updateClusterStatus.  The write of state and message to the resource
status is recorded in the trace. -/
def updateClusterStatus (c : ClusterController) (ns name : String) (state : ClusterState)
    (message : String) : ClusterController :=
  emit c (.updateClusterStatus ns name state message)

/-! ## Version gate -/

/-- The three results of detectAndValidateCephVersion. -/
structure VersionCheck where
  version : Option CephVersion
  canRetry : Bool
  err : Option String
deriving DecidableEq

/-- Go: detectAndValidateCephVersion.  `detect` is the result of
cluster.detectCephVersion and `validate` stands for cluster.validateCephVersion. -/
def detectAndValidateCephVersion (detect : Except String CephVersion)
    (validate : CephVersion → Option String) : VersionCheck :=
  match detect with
  | .error err => { version := none, canRetry := true, err := some err }
  | .ok version =>
    match validate version with
    | some err => { version := none, canRetry := false, err := some err }
    | none => { version := some version, canRetry := false, err := none }

/-! ## Deletion drain -/

/-- The attachment search of handleDelete (the loop labelled AttachmentLoop):
is some attachment of some volume tagged with the namespace? -/
def attachmentsExist (items : List Volume) (ns : String) : Bool :=
  items.any (fun vol => vol.Attachments.any (fun a => decide (a.ClusterName = ns)))

/-- The loop of handleDelete.  `retryCount` counts the listings that found an
attachment; listing number `retryCount` is the one made next. -/
def handleDeleteLoop (env : Env) (ns : String) (retryInterval : Nat) :
    Nat → Nat → ClusterController → Run (ClusterController × Option String)
  | 0, _, _ => .hang
  | fuel + 1, retryCount, c =>
    let c1 := emit c (.listVolumeAttachments env.operatorNamespace)
    match env.listVolumeAttachments retryCount with
    | .error err =>
      .ok (c1, some ("failed to get volume attachments for operator namespace "
        ++ env.operatorNamespace ++ ": " ++ err))
    | .ok items =>
      if !attachmentsExist items ns then .ok (c1, none)
      else if retryCount + 1 = clusterDeleteMaxRetries then .ok (c1, none)
      else handleDeleteLoop env ns retryInterval fuel (retryCount + 1) (emit c1 (.sleep retryInterval))

/-- Go: handleDelete.  The loop starts with retryCount = 0, so
clusterDeleteMaxRetries iterations are all it can make. -/
def handleDelete (env : Env) (c : ClusterController) (cluster : CephCluster)
    (retryInterval : Nat) : Run (ClusterController × Option String) :=
  handleDeleteLoop env cluster.Namespace retryInterval clusterDeleteMaxRetries 0 c

/-! ## Finalizer -/

/-- The type opkit.CustomResource (the fields set for the cluster resource). -/
structure CustomResource where
  Name : String
  Plural : String
  Group : String
  Version : String
  Kind : String
deriving DecidableEq

/-- Go: ClusterResource.  The group is the constant cephv1.CustomResourceGroup,
which the comment in addFinalizer spells out ("cephcluster.ceph.rook.io"). -/
def ClusterResource : CustomResource :=
  { Name := "cephcluster", Plural := "cephclusters", Group := "ceph.rook.io",
    Version := "v1", Kind := "CephCluster" }

/-- Go: finalizerName = fmt.Sprintf("%s.%s", ClusterResource.Name, ClusterResource.Group). -/
def finalizerName : String := ClusterResource.Name ++ "." ++ ClusterResource.Group

/-- The search loop of addFinalizer and removeFinalizer: the index of the
first finalizer equal to `fname`, counting from `i`. -/
def findFinalizer (fname : String) : List String → Nat → Option Nat
  | [], _ => none
  | f :: rest, i => if f = fname then some i else findFinalizer fname rest (i + 1)

/-- Go: addFinalizer. -/
def addFinalizer (env : Env) (c : ClusterController) (ns name : String) :
    ClusterController × Option String :=
  let c1 := emit c (.getCephCluster ns name)
  match env.getCephCluster with
  | .error err => (c1, some err)
  | .ok clust =>
    match findFinalizer finalizerName clust.Finalizers 0 with
    | some _ => (c1, none)
    | none =>
      let c2 := emit c1 (.updateCephCluster clust.Namespace clust.Name
        (clust.Finalizers ++ [finalizerName]))
      match env.addFinalizerUpdate with
      | some err => (c2, some ("failed to add finalizer to cluster. " ++ err))
      | none => (c2, none)

/-- The retry loop of removeFinalizer (`for i := 0; i < maxRetries; i++`):
`left` is maxRetries - i. -/
def removeFinalizerRetry (env : Env) (ns name : String) (finalizers : List String) :
    Nat → Nat → ClusterController → ClusterController
  | 0, _, c => c
  | left + 1, i, c =>
    let c1 := emit c (.updateCephCluster ns name finalizers)
    match env.removeFinalizerUpdate i with
    | some _ => removeFinalizerRetry env ns name finalizers left (i + 1) (emit c1 (.sleep 5))
    | none => c1

/-- Go: removeFinalizer. -/
def removeFinalizer (env : Env) (c : ClusterController) (obj : Obj) : ClusterController :=
  match obj with
  | .cephCluster cl =>
    match findFinalizer finalizerName cl.Finalizers 0 with
    | none => c
    | some i =>
      removeFinalizerRetry env cl.Namespace cl.Name
        (cl.Finalizers.take i ++ cl.Finalizers.drop (i + 1)) 5 0 c
  | .node _ => c
  | .configMap _ => c
  | .foreign _ => c

/-! ## Configuration of a local and of an external cluster -/

/-- Modelled from the spec: the function cephver.IsIdentical, which is outside
the files at hand.  Two versions are identical when major, minor and patch
agree, whatever the build. -/
def IsIdentical (a b : CephVersion) : Bool :=
  decide (a.Major = b.Major) && decide (a.Minor = b.Minor) && decide (a.Extra = b.Extra)

/-- Go: configureLocalCephCluster. -/
def configureLocalCephCluster (c : ClusterController) (cluster : Cluster)
    (clusterObj : CephCluster) : ClusterController × Option String :=
  if c.devicesInUse && cluster.Spec.Storage.AnyUseAllDevices then
    (updateClusterStatus c clusterObj.Namespace clusterObj.Name .Error
      "using all devices in more than one namespace is not supported",
     some "using all devices in more than one namespace is not supported")
  else if cluster.Spec.Storage.AnyUseAllDevices then
    ({ c with devicesInUse := true }, none)
  else (c, none)

/-- The loop of configureExternalCephCluster; `i` counts its iterations. -/
def configureExternalLoop (env : Env) (ns name : String) :
    Nat → Nat → ClusterController → Cluster → Run (ClusterController × Cluster × Option String)
  | 0, _, _, _ => .hang
  | fuel + 1, i, c, cluster =>
    let c1 := emit c (.loadClusterInfo ns)
    match env.extLoadClusterInfo i with
    | .error _ =>
      configureExternalLoop env ns name fuel (i + 1) (emit c1 (.sleep 10))
        { cluster with Info := none }
    | .ok info =>
      let cluster1 := { cluster with Info := some info }
      let c2 := emit c1 (.writeConnectionConfig ns)
      match env.extWriteConnectionConfig with
      | some err => .ok (c2, cluster1, some ("failed to write connection info " ++ err))
      | none =>
        let c3 := emit c2 (.getCephMonVersion ns)
        match env.getCephMonVersion with
        | .error err => .ok (c3, cluster1, some ("failed to get ceph mon version. " ++ err))
        | .ok cephMonVersion =>
          let c4 := emit c3 (.detectCephVersion cluster.Spec.CephVersion.Image)
          match env.extDetectCephVersion with
          | .error err => .ok (c4, cluster1, some ("unknown ceph major version. " ++ err))
          | .ok specCephVersion =>
            let cluster2 := { cluster1 with Info := some { info with CephVersion := cephMonVersion } }
            if !IsIdentical specCephVersion cephMonVersion then
              .ok (c4, cluster2, some ("wrong ceph version " ++ env.versionString specCephVersion
                ++ ", external cluster version is " ++ env.versionString cephMonVersion
                ++ ", they must match"))
            else .ok (updateClusterStatus c4 ns name .Connected "", cluster2, none)

/-- Go: configureExternalCephCluster. -/
def configureExternalCephCluster (env : Env) (fuel : Nat) (c : ClusterController)
    (ns name : String) (cluster : Cluster) :
    Run (ClusterController × Cluster × Option String) :=
  configureExternalLoop env ns name fuel 0 (updateClusterStatus c ns name .Connecting "") cluster

/-! ## Bounded polling -/

/-- The library function wait.Poll(interval, timeout, condition).  The
condition is evaluated on every tick and once more when the timeout closes the
tick channel; `ticks` is the number of ticks received before that.  The result
is the error of the condition, no error when the condition was met, and
ErrWaitTimeout otherwise.  `i` numbers the evaluations. -/
def pollLoop {σ : Type} (cond : Nat → σ → Run ((Bool × Option String) × σ)) :
    Nat → Nat → σ → Run (Option String × σ)
  | 0, i, s =>
    (cond i s).bind fun r =>
      match r.1.2 with
      | some err => .ok (some err, r.2)
      | none => if r.1.1 then .ok (none, r.2) else .ok (some ErrWaitTimeout, r.2)
  | ticks + 1, i, s =>
    (cond i s).bind fun r =>
      match r.1.2 with
      | some err => .ok (some err, r.2)
      | none => if r.1.1 then .ok (none, r.2) else pollLoop cond ticks (i + 1) r.2

/-! ## Initialization -/

/-- The variables the condition of the creation poll works on. -/
structure CreatePoll where
  c : ClusterController
  cluster : Cluster
  failedMessage : String
  state : ClusterState
deriving DecidableEq

/-- The condition of the creation poll in initializeCluster (the closure
passed to wait.Poll), evaluation number `i`. -/
def createClusterAttempt (env : Env) (clusterObj : CephCluster) (i : Nat) (s : CreatePoll) :
    Run ((Bool × Option String) × CreatePoll) :=
  let c1 := emit s.c (.detectCephVersion s.cluster.Spec.CephVersion.Image)
  let check := detectAndValidateCephVersion (env.detectCephVersion i) (env.validateCephVersion i)
  match check.err with
  | some err =>
    let s1 := { s with c := c1, failedMessage := "failed the ceph version check. " ++ err }
    if !check.canRetry then .ok ((true, none), s1) else .ok ((false, none), s1)
  | none =>
    match check.version with
    | none => .crash
    | some cephVersion =>
      let c2 := updateClusterStatus c1 clusterObj.Namespace clusterObj.Name .Creating ""
      let c3 := emit c2 (.createInstance s.cluster.Namespace cephVersion)
      let r := env.createInstance i
      let cluster1 := { s.cluster with Info := r.Info, initCompleted := r.initCompleted }
      match r.err with
      | some err =>
        let failedMessage :=
          "failed to create cluster in namespace " ++ s.cluster.Namespace ++ ". " ++ err
        .ok ((false, none),
          { c := c3, cluster := cluster1, failedMessage := failedMessage, state := s.state })
      | none =>
        .ok ((true, none),
          { c := c3, cluster := cluster1, failedMessage := "", state := .Created })

/-- The controller after the write of `cluster` through its pointer in the registry. -/
def storeCluster (c : ClusterController) (key : String) (cluster : Cluster) : ClusterController :=
  { c with clusterMap := mapStore c.clusterMap key cluster }

/-- The end of initializeCluster: the sub-controllers, the health loops and the finalizer. -/
def startCluster (env : Env) (c : ClusterController) (key : String) (cluster : Cluster)
    (clusterObj : CephCluster) : ClusterController :=
  let ns := cluster.Namespace
  let ch := cluster.stopCh
  let c1 := emit c (.startController .pool ns ch)
  let c2 := emit c1 (.startController .objectStore ns ch)
  let c3 := emit c2 (.startController .objectStoreUser ns ch)
  let c4 := emit c3 (.startController .filesystem ns ch)
  let c5 := emit c4 (.startController .nfs ns ch)
  let cluster1 :=
    if cluster.Spec.External.Enable then { cluster with monsClusterInfo := cluster.Info }
    else cluster
  let c6 := emit c5 (.startHealth .mon ns ch)
  let c7 := if !cluster.Spec.External.Enable then emit c6 (.startHealth .osd ns ch) else c6
  let c8 := emit c7 (.startHealth .cephStatus ns ch)
  storeCluster (addFinalizer env c8 clusterObj.Namespace clusterObj.Name).1 key cluster1

/-- The part of initializeCluster from the creation poll on. -/
def initializeClusterPoll (env : Env) (fuel : Nat) (c : ClusterController) (key : String)
    (cluster : Cluster) (clusterObj : CephCluster) : Run ClusterController :=
  (pollLoop (createClusterAttempt env clusterObj) env.createTicks 0
    { c := c, cluster := cluster, failedMessage := "", state := .Error }).bind fun r =>
  let s := r.2
  let c1 := updateClusterStatus s.c clusterObj.Namespace clusterObj.Name s.state s.failedMessage
  if s.state = .Error then .ok (storeCluster c1 key s.cluster)
  else
    (if !s.cluster.Spec.External.Enable then
      .ok ((configureLocalCephCluster c1 s.cluster clusterObj).1, s.cluster,
        (configureLocalCephCluster c1 s.cluster clusterObj).2)
    else
      configureExternalCephCluster env fuel c1 clusterObj.Namespace clusterObj.Name s.cluster).bind
    fun q =>
      match q.2.2 with
      | some _ => .ok (storeCluster q.1 key q.2.1)
      | none => .ok (startCluster env q.1 key q.2.1 clusterObj)

/-- The default of the mon count at the start of initializeCluster: a count of
0 becomes mon.DefaultMonCount. -/
def applyMonDefault (env : Env) (spec : ClusterSpec) : ClusterSpec :=
  if spec.Mon.Count = 0 then { spec with Mon := { Count := env.defaultMonCount } } else spec

/-- Go: initializeCluster.  `key` is the registry key under which `cluster` is stored. -/
def initializeCluster (env : Env) (fuel : Nat) (c : ClusterController) (key : String)
    (cluster : Cluster) (clusterObj : CephCluster) : Run ClusterController :=
  let cluster1 := { cluster with Spec := applyMonDefault env clusterObj.Spec }
  let c1 := emit c (.loadClusterInfo cluster1.Namespace)
  match env.loadClusterInfo with
  | .ok info =>
    let cluster2 := { cluster1 with Info := some info }
    let c2 := emit c1 (.writeConnectionConfig cluster1.Namespace)
    match env.writeConnectionConfig with
    | some _ => .ok (storeCluster c2 key cluster2)
    | none => initializeClusterPoll env fuel c2 key cluster2 clusterObj
  | .error _ => initializeClusterPoll env fuel c1 key { cluster1 with Info := none } clusterObj

/-! ## Add -/

/-- Modelled from the spec: the constructor newCluster, which is outside the
files at hand.  The runtime state of a cluster is created on its add event with
the namespace and name of the resource, its spec, a fresh stop channel, no
observed info and not initialized. -/
def newCluster (clusterObj : CephCluster) (stopCh : Nat) : Cluster :=
  { Namespace := clusterObj.Namespace, crdName := clusterObj.Name, Spec := clusterObj.Spec,
    Info := none, monsClusterInfo := none, stopCh := stopCh, initCompleted := false }

/-- Go: onAdd. -/
def onAdd (env : Env) (fuel : Nat) (c : ClusterController) (obj : Obj) : Run ClusterController :=
  match getClusterObject obj with
  | .error _ => .ok c
  | .ok clusterObj =>
    match mapGet c.clusterMap clusterObj.Namespace with
    | some _ => .ok c
    | none =>
      let cluster := newCluster clusterObj c.nextCh
      let c1 := { c with clusterMap := mapSet c.clusterMap cluster.Namespace cluster,
                         nextCh := c.nextCh + 1 }
      let c2 :=
        if c1.hasAddClusterCallback then emit c1 (.addClusterCallback cluster.Spec.External.Enable)
        else c1
      initializeCluster env fuel c2 cluster.Namespace cluster clusterObj

/-! ## Update -/

/-- The variables the update attempts work on. -/
structure UpdatePoll where
  c : ClusterController
  cluster : Cluster
deriving DecidableEq

/-- Go: handleUpdate, attempt number `i` of one update. -/
def handleUpdate (env : Env) (crdName : String) (i : Nat) (s : UpdatePoll) :
    Run ((Bool × Option String) × UpdatePoll) :=
  let c1 := updateClusterStatus s.c s.cluster.Namespace crdName .Updating ""
  match s.cluster.Info with
  | none => .crash
  | some info =>
    let c2 := emit c1 (.createInstance s.cluster.Namespace info.CephVersion)
    let r := env.updCreateInstance i
    let cluster1 := { s.cluster with Info := r.Info, initCompleted := r.initCompleted }
    match r.err with
    | some _ => .ok ((false, none), { c := c2, cluster := cluster1 })
    | none =>
      .ok ((true, none),
        { c := updateClusterStatus c2 s.cluster.Namespace crdName .Created "",
          cluster := cluster1 })

/-- The block of onUpdate guarded by `versionChanged`: may the upgrade proceed? -/
def upgradeGate (env : Env) (versionChanged : Bool) (cluster : Cluster)
    (runningVersions : CephDaemonsVersions) : Run Bool :=
  if versionChanged then
    match cluster.Info with
    | none => .crash
    | some info =>
      match env.diffImageSpecAndClusterRunningVersion info.CephVersion runningVersions with
      | .error _ => .ok false
      | .ok updateOrNot =>
        if updateOrNot then
          if !env.isCephHealthy then .ok false else .ok true
        else .ok true
  else .ok true

/-- The first step of the supported update in onUpdate: when the image
changed, the version of the new image is detected, validated and recorded.
The flag of the result tells whether the handler goes on. -/
def detectNewImage (env : Env) (c : ClusterController) (cluster : Cluster)
    (oldClust newClust : CephCluster) : Run (ClusterController × Cluster × Bool) :=
  if oldClust.Spec.CephVersion.Image ≠ newClust.Spec.CephVersion.Image then
    let c1 := emit c (.detectCephVersion newClust.Spec.CephVersion.Image)
    let check := detectAndValidateCephVersion env.updDetectCephVersion env.updValidateCephVersion
    match check.err with
    | some _ => .ok (c1, cluster, false)
    | none =>
      match check.version with
      | none => .crash
      | some version =>
        match cluster.Info with
        | none => .crash
        | some info =>
          .ok (c1, { cluster with Info := some { info with CephVersion := version } }, true)
  else .ok (c, cluster, true)

/-- The part of onUpdate that orchestrates a supported update of an initialized
cluster (from "if the image changed" to the end of the handler). -/
def updateCluster (env : Env) (c : ClusterController) (key : String) (cluster : Cluster)
    (oldClust newClust : CephCluster) : Run ClusterController :=
  let versionChanged := false
  (detectNewImage env c cluster oldClust newClust).bind fun st =>
  if !st.2.2 then .ok (storeCluster st.1 key st.2.1)
  else
    let cluster1 := { st.2.1 with Spec := newClust.Spec }
    let c2 := emit st.1 (.getAllCephDaemonVersions cluster1.Namespace)
    match env.getAllCephDaemonVersions with
    | .error _ => .ok (storeCluster c2 key cluster1)
    | .ok runningVersions =>
      (upgradeGate env versionChanged cluster1 runningVersions).bind fun proceed =>
      if !proceed then .ok (storeCluster c2 key cluster1)
      else
        (handleUpdate env newClust.Name 0 { c := c2, cluster := cluster1 }).bind fun r =>
        if r.1.1 then .ok (storeCluster r.2.c key r.2.cluster)
        else
          (pollLoop (fun i => handleUpdate env newClust.Name (i + 1)) env.updateTicks 0 r.2).bind
          fun p =>
            match p.1 with
            | some err =>
              .ok (storeCluster
                (updateClusterStatus p.2.c newClust.Namespace newClust.Name .Error
                  ("giving up trying to update cluster in namespace " ++ p.2.cluster.Namespace
                    ++ " after 1h0m0s. " ++ err))
                key p.2.cluster)
            | none =>
              if versionChanged then
                .ok (storeCluster (emit p.2.c (.getAllCephDaemonVersions p.2.cluster.Namespace))
                  key p.2.cluster)
              else .ok (storeCluster p.2.c key p.2.cluster)

/-- The guard shared by onUpdate and onDelete: another resource is registered
in the namespace of the event (`ok && existing.crdName != name`). -/
def otherClusterRegistered (c : ClusterController) (clust : CephCluster) : Bool :=
  match mapGet c.clusterMap clust.Namespace with
  | some existing => decide (existing.crdName ≠ clust.Name)
  | none => false

/-- Go: onUpdate. -/
def onUpdate (env : Env) (fuel : Nat) (c : ClusterController) (oldObj newObj : Obj) :
    Run ClusterController :=
  match getClusterObject oldObj with
  | .error _ => .ok c
  | .ok oldClust =>
    match getClusterObject newObj with
    | .error _ => .ok c
    | .ok newClust =>
      if otherClusterRegistered c newClust then .ok c
      else if newClust.DeletionTimestamp.isSome then
        (handleDelete env c newClust clusterDeleteRetryInterval).bind fun r =>
          match r.2 with
          | some _ => .ok r.1
          | none => .ok (removeFinalizer env r.1 (.cephCluster newClust))
      else
        match mapGet c.clusterMap newClust.Namespace with
        | none => .ok c
        | some cluster =>
          if !cluster.initCompleted then
            initializeCluster env fuel c newClust.Namespace cluster newClust
          else if !env.clusterChanged oldClust.Spec newClust.Spec cluster then .ok c
          else updateCluster env c newClust.Namespace cluster oldClust newClust

/-! ## Delete -/

/-- The builtin close on the stop channel of a cluster: closing a channel that
is already closed is a runtime panic. -/
def closeStopCh (c : ClusterController) (ch : Nat) : Run ClusterController :=
  if ch ∈ c.closedChs then .crash
  else .ok { emit c (.closeStopCh ch) with closedChs := ch :: c.closedChs }

/-- Go: onDelete. -/
def onDelete (env : Env) (c : ClusterController) (obj : Obj) : Run ClusterController :=
  match getClusterObject obj with
  | .error _ => .ok c
  | .ok clust =>
    if otherClusterRegistered c clust then .ok c
    else
      (handleDelete env c clust clusterDeleteRetryInterval).bind fun r =>
      (match mapGet r.1.clusterMap clust.Namespace with
        | some cluster =>
          (closeStopCh r.1 cluster.stopCh).bind fun c2 =>
            .ok { c2 with clusterMap := mapDelete c2.clusterMap clust.Namespace }
        | none => .ok r.1).bind fun c3 =>
      if clust.Spec.Storage.AnyUseAllDevices then .ok { c3 with devicesInUse := false }
      else .ok c3

/-! ## Node events -/

/-- One iteration of the loop of onK8sNodeAdd over the registry, for the
cluster stored under `key`, the `i`-th of the range. -/
def nodeAddCluster (env : Env) (newNode : Node) (i : Nat) (key : String) (cluster : Cluster)
    (c : ClusterController) : ClusterController :=
  if env.nodeIsTolerable newNode cluster = false then c
  else if cluster.Spec.Storage.UseAllNodes = false then c
  else
    match cluster.Info with
    | none => c
    | some info =>
      if env.validNodeAll newNode cluster then
        storeCluster (emit c (.createInstance cluster.Namespace info.CephVersion)) key
          { cluster with Info := (env.nodeCreateInstance i).Info,
                         initCompleted := (env.nodeCreateInstance i).initCompleted }
      else c

/-- The loop of onK8sNodeAdd over the entries of the registry. -/
def nodeAddLoop (env : Env) (newNode : Node) :
    List (String × Cluster) → Nat → ClusterController → ClusterController
  | [], _, c => c
  | (key, cluster) :: rest, i, c =>
    nodeAddLoop env newNode rest (i + 1) (nodeAddCluster env newNode i key cluster c)

/-- Go: onK8sNodeAdd.  A payload that is not a node is only logged, and the
nil node is dereferenced right after. -/
def onK8sNodeAdd (env : Env) (c : ClusterController) (obj : Obj) : Run ClusterController :=
  match obj with
  | .node newNode =>
    if env.getNodeSchedulable newNode = false then .ok c
    else .ok (nodeAddLoop env newNode c.clusterMap 0 c)
  | .cephCluster _ => .crash
  | .configMap _ => .crash
  | .foreign _ => .crash

/-- One iteration of the loop of onK8sNodeUpdate over the registry, for the
cluster stored under `key`, the `i`-th of the range. -/
def nodeUpdateCluster (env : Env) (newNode : Node) (i : Nat) (key : String) (cluster : Cluster)
    (c : ClusterController) : ClusterController :=
  match cluster.Info with
  | none => c
  | some info =>
    if env.validNodeOSD newNode cluster then
      storeCluster (emit c (.createInstance cluster.Namespace info.CephVersion)) key
        { cluster with Info := (env.nodeCreateInstance i).Info,
                       initCompleted := (env.nodeCreateInstance i).initCompleted }
    else c

/-- The loop of onK8sNodeUpdate over the entries of the registry. -/
def nodeUpdateLoop (env : Env) (newNode : Node) :
    List (String × Cluster) → Nat → ClusterController → ClusterController
  | [], _, c => c
  | (key, cluster) :: rest, i, c =>
    nodeUpdateLoop env newNode rest (i + 1) (nodeUpdateCluster env newNode i key cluster c)

/-- Go: onK8sNodeUpdate.  reflect.DeepEqual on the payloads is their equality. -/
def onK8sNodeUpdate (env : Env) (c : ClusterController) (oldObj newObj : Obj) :
    Run ClusterController :=
  if oldObj = newObj then .ok c
  else
    match newObj with
    | .node newNode =>
      match oldObj with
      | .node oldNode =>
        let newNodeSchedulable := env.getNodeSchedulable newNode
        let oldNodeSchedulable := env.getNodeSchedulable oldNode
        if oldNodeSchedulable = false ∧ newNodeSchedulable = false then .ok c
        else if oldNodeSchedulable = true ∧ newNodeSchedulable = true then .ok c
        else .ok (nodeUpdateLoop env newNode c.clusterMap 0 c)
      | .cephCluster _ => .ok c
      | .configMap _ => .ok c
      | .foreign _ => .ok c
    | .cephCluster _ => .ok c
    | .configMap _ => .ok c
    | .foreign _ => .ok c

/-! ## Device inventory events -/

/-- Modelled from the spec: discoverDaemon.DeviceListsEqual is not in the
sources at hand.  Both device strings are decoded (by `parse`, the JSON
decoding of a device list); a string that does not decode is an error;
otherwise the two lists are compared as sets, whatever their order. -/
def DeviceListsEqual (parse : String → Except String (List LocalDisk))
    (oldDevStr newDevStr : String) : Except String Bool :=
  match parse oldDevStr with
  | .error e => .error e
  | .ok oldDevs =>
    match parse newDevStr with
    | .error e => .error e
    | .ok newDevs =>
      .ok (oldDevs.all (fun d => decide (d ∈ newDevs)) &&
           newDevs.all (fun d => decide (d ∈ oldDevs)))

/-- One iteration of the loop of onDeviceCMUpdate over the registry, for the
cluster stored under `key`, the `i`-th of the range.  An error of
createInstance is only logged. -/
def deviceUpdateCluster (env : Env) (i : Nat) (key : String) (cluster : Cluster)
    (c : ClusterController) : ClusterController :=
  match cluster.Info with
  | none => c
  | some info =>
    storeCluster (emit c (.createInstance cluster.Namespace info.CephVersion)) key
      { cluster with Info := (env.deviceCreateInstance i).Info,
                     initCompleted := (env.deviceCreateInstance i).initCompleted }

/-- The loop of onDeviceCMUpdate over the entries of the registry. -/
def deviceUpdateLoop (env : Env) :
    List (String × Cluster) → Nat → ClusterController → ClusterController
  | [], _, c => c
  | (key, cluster) :: rest, i, c =>
    deviceUpdateLoop env rest (i + 1) (deviceUpdateCluster env i key cluster c)

/-- Go: onDeviceCMUpdate. -/
def onDeviceCMUpdate (env : Env) (c : ClusterController) (oldObj newObj : Obj) :
    Run ClusterController :=
  match oldObj with
  | .configMap oldCm =>
    match newObj with
    | .configMap newCm =>
      match oldCm.Data.lookup env.localDiskCMData with
      | none => .ok c
      | some oldDevStr =>
        match newCm.Data.lookup env.localDiskCMData with
        | none => .ok c
        | some newDevStr =>
          match DeviceListsEqual env.parseDevices oldDevStr newDevStr with
          | .error _ => .ok c
          | .ok devicesEqual =>
            if devicesEqual then .ok c
            else .ok (deviceUpdateLoop env c.clusterMap 0 c)
    | .cephCluster _ => .ok c
    | .node _ => .ok c
    | .foreign _ => .ok c
  | .cephCluster _ => .ok c
  | .node _ => .ok c
  | .foreign _ => .ok c

/-! ## Stopping the watch -/

/-- The loop of StopWatch over the entries of the registry: the stop channel
of each cluster is closed. -/
def stopWatchLoop : List (String × Cluster) → ClusterController → Run ClusterController
  | [], c => .ok c
  | (_, cluster) :: rest, c => (closeStopCh c cluster.stopCh).bind (stopWatchLoop rest)

/-- Go: StopWatch.  Every stop channel of the registry is closed, then the
registry is replaced by an empty one. -/
def StopWatch (c : ClusterController) : Run ClusterController :=
  (stopWatchLoop c.clusterMap c).bind fun c1 => .ok { c1 with clusterMap := [] }

/-! ## Observations on traces -/

/-- The effects of a drain that makes `n` listings: a listing, then a wait
before every further listing. -/
def drainTrace (operatorNamespace : String) (retryInterval : Nat) : Nat → List Event
  | 0 => []
  | 1 => [.listVolumeAttachments operatorNamespace]
  | n + 2 =>
    .listVolumeAttachments operatorNamespace :: .sleep retryInterval ::
      drainTrace operatorNamespace retryInterval (n + 1)

/-- Is the event a listing of the volume attachments? -/
def Event.isListing : Event → Bool
  | .listVolumeAttachments _ => true
  | _ => false

/-- Is the event a wait? -/
def Event.isSleep : Event → Bool
  | .sleep _ => true
  | _ => false

/-- The number of listings in a trace. -/
def listings (tr : List Event) : Nat := (tr.filter Event.isListing).length

/-- The number of waits in a trace. -/
def sleeps (tr : List Event) : Nat := (tr.filter Event.isSleep).length

/-- Is the event the start of a sub-controller or of a health loop? -/
def Event.isStart : Event → Bool
  | .startController _ _ _ => true
  | .startHealth _ _ _ => true
  | _ => false

/-- Is the event an invocation of the creation routine? -/
def Event.isCreate : Event → Bool
  | .createInstance _ _ => true
  | _ => false

/-- The number of invocations of the creation routine in a trace. -/
def creations (tr : List Event) : Nat := (tr.filter Event.isCreate).length

/-- Attempt `j` of the creation poll passes the version check and its creation succeeds. -/
def attemptSucceeds (env : Env) (j : Nat) : Prop :=
  ∃ v, env.detectCephVersion j = .ok v ∧ env.validateCephVersion j v = none ∧
    (env.createInstance j).err = none

/-- Attempt `j` of the creation poll fails its version check for good: the
probe succeeds and validation rejects the version with error `e`. -/
def attemptRejected (env : Env) (j : Nat) (e : String) : Prop :=
  ∃ v, env.detectCephVersion j = .ok v ∧ env.validateCephVersion j v = some e

/-- Attempt `j` of the creation poll fails in a way that is retried: the probe
fails, or the version check passes and the creation routine fails. -/
def attemptRetries (env : Env) (j : Nat) : Prop :=
  (∃ e, env.detectCephVersion j = .error e) ∨
  (∃ v e, env.detectCephVersion j = .ok v ∧ env.validateCephVersion j v = none ∧
    (env.createInstance j).err = some e)

/-- The message `msg` is the one attempt `j` of the creation poll leaves in
failedMessage when it fails, for a cluster in namespace `ns`. -/
def attemptFailsWith (env : Env) (ns : String) (j : Nat) (msg : String) : Prop :=
  (∃ e, env.detectCephVersion j = .error e ∧ msg = "failed the ceph version check. " ++ e) ∨
  (∃ e, attemptRejected env j e ∧ msg = "failed the ceph version check. " ++ e) ∨
  (∃ v e, env.detectCephVersion j = .ok v ∧ env.validateCephVersion j v = none ∧
    (env.createInstance j).err = some e ∧
    msg = "failed to create cluster in namespace " ++ ns ++ ". " ++ e)

/-- The effects of attempt `i` of the creation poll: the probe and, when the
version check passes, the Creating status and the creation routine. -/
def attemptTrace (env : Env) (clusterObj : CephCluster) (image ns : String) (i : Nat) :
    List Event :=
  match (detectAndValidateCephVersion (env.detectCephVersion i)
      (env.validateCephVersion i)).version with
  | some v =>
    [.detectCephVersion image,
     .updateClusterStatus clusterObj.Namespace clusterObj.Name .Creating "",
     .createInstance ns v]
  | none => [.detectCephVersion image]

/-- The effects of the `n` attempts of the creation poll from attempt `i` on. -/
def pollTrace (env : Env) (clusterObj : CephCluster) (image ns : String) : Nat → Nat → List Event
  | 0, _ => []
  | n + 1, i =>
    attemptTrace env clusterObj image ns i ++ pollTrace env clusterObj image ns n (i + 1)

/-- The effects of initializeCluster before its creation poll. -/
def initTrace (env : Env) (ns : String) : List Event :=
  match env.loadClusterInfo with
  | .ok _ => [.loadClusterInfo ns, .writeConnectionConfig ns]
  | .error _ => [.loadClusterInfo ns]

/-- The creation poll of initializeCluster is reached: loading the cluster
info fails, or the connection config is written without error. -/
def pollReached (env : Env) : Prop :=
  (∃ e, env.loadClusterInfo = .error e) ∨ env.writeConnectionConfig = none

/-- The two runtime states are the same cluster: they agree on everything
but the observed info and the initialized flag. -/
def sameIdentity (a b : Cluster) : Prop :=
  a.Namespace = b.Namespace ∧ a.crdName = b.crdName ∧ a.Spec = b.Spec ∧ a.stopCh = b.stopCh ∧
    a.monsClusterInfo = b.monsClusterInfo

/-- The starts at the end of initializeCluster: five sub-controllers and the
health loops (the osd loop for a local cluster only). -/
def startTrace (external : Bool) (ns : String) (ch : Nat) : List Event :=
  [.startController .pool ns ch, .startController .objectStore ns ch,
   .startController .objectStoreUser ns ch, .startController .filesystem ns ch,
   .startController .nfs ns ch, .startHealth .mon ns ch] ++
  (if external then [] else [.startHealth .osd ns ch]) ++ [.startHealth .cephStatus ns ch]

/-- Attempt `j` of an update (0 is the immediate one) fails: the creation
routine returns an error. -/
def updateFails (env : Env) (j : Nat) : Prop := ∃ e, (env.updCreateInstance j).err = some e

/-- Attempt `j` of an update succeeds: the creation routine returns no error. -/
def updateSucceeds (env : Env) (j : Nat) : Prop := (env.updCreateInstance j).err = none

/-- The message of the status written when an update is given up. -/
def giveUpMessage (ns : String) : String :=
  "giving up trying to update cluster in namespace " ++ ns ++ " after 1h0m0s. " ++ ErrWaitTimeout

/-- Is the event a write of the resource (the persisting of its finalizers)? -/
def Event.isResourceWrite : Event → Bool
  | .updateCephCluster _ _ _ => true
  | _ => false

/-- An event of the cluster watcher with the answers of the outside world
during its handling. -/
inductive ControllerEvent where
  | add (env : Env) (fuel : Nat) (obj : Obj)
  | delete (env : Env) (obj : Obj)
  | update (env : Env) (fuel : Nat) (oldObj newObj : Obj)
  | stopWatch

/-- The controller handles the events one after the other. -/
def runEvents : List ControllerEvent → ClusterController → Run ClusterController
  | [], c => .ok c
  | .add env fuel obj :: rest, c => (onAdd env fuel c obj).bind (runEvents rest)
  | .delete env obj :: rest, c => (onDelete env c obj).bind (runEvents rest)
  | .update env fuel oldObj newObj :: rest, c =>
    (onUpdate env fuel c oldObj newObj).bind (runEvents rest)
  | .stopWatch :: rest, c => (StopWatch c).bind (runEvents rest)

/-- The namespace holds a live cluster with the all-devices policy: it is
registered, its spec uses all devices, and it got past its local
configuration (its sub-controllers were started on its stop channel, which is
still open). -/
def liveAllDevices (c : ClusterController) (ns : String) : Bool :=
  match mapGet c.clusterMap ns with
  | some cl =>
    cl.Spec.Storage.AnyUseAllDevices &&
      decide (Event.startController .pool ns cl.stopCh ∈ c.trace) &&
      decide (cl.stopCh ∉ c.closedChs)
  | none => false

/-! ## Sample inputs -/

/-- A version of the storage engine. -/
def sampleVersion : CephVersion := { Major := 14, Minor := 2, Extra := 4, Build := 0 }

/-- The observed info of a running cluster. -/
def sampleInfo : ClusterInfo :=
  { Monitors := [("a", "10.0.0.1:6789")], CephVersion := sampleVersion }

/-- A cluster spec; the argument is the all-devices policy. -/
def sampleSpec (allDevices : Bool) : ClusterSpec :=
  { Mon := { Count := 3 }, CephVersion := { Image := "ceph/ceph:v14.2.4" },
    External := { Enable := false },
    Storage := { UseAllNodes := true, AnyUseAllDevices := allDevices } }

/-- A cluster resource in namespace `ns`. -/
def sampleResource (ns name : String) (allDevices : Bool) : CephCluster :=
  { Namespace := ns, Name := name, DeletionTimestamp := none, Finalizers := [],
    Spec := sampleSpec allDevices }

/-- A discovered disk of the given name. -/
def sampleDisk (name : String) : LocalDisk :=
  { Name := name, UUID := "uuid-" ++ name, Size := 1024, Rotational := true, Readonly := false,
    Filesystem := "", DiskType := "disk", HasChildren := false }

/-- A decoding of device lists that knows three inventories: the disks sda and
sdb in both orders, and the disk sda alone. -/
def sampleParseDevices (s : String) : Except String (List LocalDisk) :=
  if s = "[sda,sdb]" then .ok [sampleDisk "sda", sampleDisk "sdb"]
  else if s = "[sdb,sda]" then .ok [sampleDisk "sdb", sampleDisk "sda"]
  else if s = "[sda]" then .ok [sampleDisk "sda"]
  else .error "invalid character"

/-- A config map of the discovery daemon with the device string `devs`. -/
def deviceConfigMap (devs : String) : ConfigMap :=
  { Name := "local-device-node1", Data := [("devices", devs)] }

/-- An outside world in which every call succeeds at once and no volume is attached. -/
def quietEnv : Env :=
  { operatorNamespace := "rook-ceph-system"
    defaultMonCount := 3
    loadClusterInfo := .error "not found"
    writeConnectionConfig := none
    createTicks := 2
    detectCephVersion := fun _ => .ok sampleVersion
    validateCephVersion := fun _ _ => none
    createInstance := fun _ => { err := none, Info := some sampleInfo, initCompleted := true }
    extLoadClusterInfo := fun _ => .ok sampleInfo
    extWriteConnectionConfig := none
    getCephMonVersion := .ok sampleVersion
    extDetectCephVersion := .ok sampleVersion
    getCephCluster := .error "not found"
    addFinalizerUpdate := none
    removeFinalizerUpdate := fun _ => none
    clusterChanged := fun _ _ _ => true
    updDetectCephVersion := .ok sampleVersion
    updValidateCephVersion := fun _ => none
    getAllCephDaemonVersions := .ok { Overall := [] }
    diffImageSpecAndClusterRunningVersion := fun _ _ => .ok true
    isCephHealthy := true
    updateTicks := 2
    updCreateInstance := fun _ => { err := none, Info := some sampleInfo, initCompleted := true }
    listVolumeAttachments := fun _ => .ok []
    versionString := fun _ => "v"
    getNodeSchedulable := fun n => !n.Unschedulable
    nodeIsTolerable := fun _ _ => true
    validNodeAll := fun _ _ => true
    validNodeOSD := fun _ _ => true
    nodeCreateInstance := fun _ =>
      { err := none, Info := some sampleInfo, initCompleted := true }
    localDiskCMData := "devices"
    parseDevices := sampleParseDevices
    deviceCreateInstance := fun _ =>
      { err := none, Info := some sampleInfo, initCompleted := true } }

/-- A volume attached in the namespace `ns`. -/
def attachedVolume (ns : String) : Volume :=
  { Name := "pvc-1", Attachments := [{ ClusterName := ns }] }

/-- An outside world in which a volume of namespace `ns` stays attached for ever. -/
def stuckEnv (ns : String) : Env :=
  { quietEnv with listVolumeAttachments := fun _ => .ok [attachedVolume ns] }

/-- An outside world in which only volumes of other namespaces are attached. -/
def foreignEnv : Env :=
  { quietEnv with
    listVolumeAttachments := fun _ => .ok [attachedVolume "team-a", attachedVolume "team-b"] }

/-- An outside world in which validation rejects every probed version. -/
def rejectingEnv : Env :=
  { quietEnv with validateCephVersion := fun _ _ => some "unsupported ceph version" }

/-- The version of the image of `upgradeResource`. -/
def upgradeVersion : CephVersion := { Major := 15, Minor := 2, Extra := 0, Build := 0 }

/-- The resource of the cluster of `oneClusterController` with a new image. -/
def upgradeResource : CephCluster :=
  { sampleResource "rook-ceph" "my-cluster" false with
    Spec := { sampleSpec false with CephVersion := { Image := "ceph/ceph:v15.2.0" } } }

/-- An outside world in which the new image has a newer version than the
running daemons and the cluster is not healthy. -/
def unhealthyEnv : Env :=
  { quietEnv with
    updDetectCephVersion := .ok upgradeVersion
    diffImageSpecAndClusterRunningVersion := fun _ _ => .ok true
    isCephHealthy := false }

/-- The resource of the cluster of `oneClusterController` with a deletion
timestamp and the finalizer of the controller. -/
def deletedResource : CephCluster :=
  { sampleResource "rook-ceph" "my-cluster" false with
    DeletionTimestamp := some 1, Finalizers := [finalizerName] }

/-- The resource of the cluster of `oneClusterController` with the finalizer
of the controller, before its deletion was requested. -/
def finalizedResource : CephCluster :=
  { sampleResource "rook-ceph" "my-cluster" false with Finalizers := [finalizerName] }

/-- Four events: an all-devices cluster is added in namespace "a", a second one
is added in namespace "b" and deleted again, a third one is added in "c". -/
def allDevicesEvents : List ControllerEvent :=
  [.add quietEnv 1 (.cephCluster (sampleResource "a" "cluster-a" true)),
   .add quietEnv 1 (.cephCluster (sampleResource "b" "cluster-b" true)),
   .delete quietEnv (.cephCluster (sampleResource "b" "cluster-b" true)),
   .add quietEnv 1 (.cephCluster (sampleResource "c" "cluster-c" true))]

/-- A running cluster as the registry holds it. -/
def sampleCluster (ns name : String) (allDevices : Bool) (stopCh : Nat) : Cluster :=
  { Namespace := ns, crdName := name, Spec := sampleSpec allDevices, Info := some sampleInfo,
    monsClusterInfo := none, stopCh := stopCh, initCompleted := true }

/-- A controller with one running cluster, in namespace "rook-ceph". -/
def oneClusterController : ClusterController :=
  { devicesInUse := false, rookImage := "rook/ceph:v1.1",
    clusterMap := [("rook-ceph", sampleCluster "rook-ceph" "my-cluster" false 0)],
    hasAddClusterCallback := false, trace := [], closedChs := [], nextCh := 1 }

/-- A node that is cordoned. -/
def cordonedNode : Node :=
  { Name := "node-1", Hostname := "node-1", Unschedulable := true, Taints := [] }

/-- The node of `cordonedNode` after a taint was added; it is still cordoned. -/
def taintedNode : Node :=
  { Name := "node-1", Hostname := "node-1", Unschedulable := true, Taints := ["maintenance"] }

/-- The node of `cordonedNode` after it was uncordoned. -/
def schedulableNode : Node :=
  { Name := "node-1", Hostname := "node-1", Unschedulable := false, Taints := [] }

/-- A running cluster that does not use all nodes. -/
def listedNodesCluster : Cluster :=
  { sampleCluster "rook-ceph" "my-cluster" false 0 with
    Spec := { sampleSpec false with
      Storage := { UseAllNodes := false, AnyUseAllDevices := false } } }

/-- A controller whose one cluster does not use all nodes. -/
def listedNodesController : ClusterController :=
  { oneClusterController with clusterMap := [("rook-ceph", listedNodesCluster)] }

/-- A cluster resource that asks for -1 mons. -/
def negativeMonResource : CephCluster :=
  { sampleResource "rook-ceph" "my-cluster" false with
    Spec := { sampleSpec false with Mon := { Count := -1 } } }

/-- The finalizers of the resource after addFinalizer: the list it persists,
or the list as fetched when the finalizer is found and nothing is persisted. -/
def finalizersAfterAdd (fins : List String) : List String :=
  match findFinalizer finalizerName fins 0 with
  | some _ => fins
  | none => fins ++ [finalizerName]

/-- The finalizers of the resource after removeFinalizer: the list it persists,
or the list as it was when the finalizer is not found. -/
def finalizersAfterRemove (fins : List String) : List String :=
  match findFinalizer finalizerName fins 0 with
  | none => fins
  | some i => fins.take i ++ fins.drop (i + 1)

/-- The number of writes of the resource in a trace. -/
def resourceWrites (tr : List Event) : Nat := (tr.filter Event.isResourceWrite).length

/-- The effects of `k` failed attempts of removeFinalizer to persist the
resource: each is a write followed by a wait of 5 seconds. -/
def failedWrites (ns name : String) (fins : List String) : Nat → List Event
  | 0 => []
  | k + 1 => .updateCephCluster ns name fins :: .sleep 5 :: failedWrites ns name fins k

/-- A cluster resource with the controller's finalizer twice in its list. -/
def doubleFinalizerResource : CephCluster :=
  { sampleResource "rook-ceph" "my-cluster" false with
    Finalizers := [finalizerName, finalizerName] }

/-- An outside world in which the resource can never be written. -/
def readOnlyEnv : Env :=
  { quietEnv with removeFinalizerUpdate := fun _ => some "connection refused" }

/-- An outside world in which the resource is fetched without any finalizer. -/
def fetchedEnv : Env :=
  { quietEnv with getCephCluster := .ok (sampleResource "rook-ceph" "my-cluster" false) }

/-- An outside world in which the resource is fetched with the controller's finalizer. -/
def fetchedFinalizedEnv : Env :=
  { quietEnv with getCephCluster := .ok finalizedResource }

/-- The effects of `k` iterations of the loop of configureExternalCephCluster
that find no cluster info: each is a load followed by a wait of 10 seconds. -/
def waitTrace (ns : String) : Nat → List Event
  | 0 => []
  | k + 1 => .loadClusterInfo ns :: .sleep 10 :: waitTrace ns k

/-- Is the event a write of the status Connected? -/
def Event.isConnected : Event → Bool
  | .updateClusterStatus _ _ .Connected _ => true
  | _ => false

/-- Is the event a write of the status Error? -/
def Event.isErrorStatus : Event → Bool
  | .updateClusterStatus _ _ .Error _ => true
  | _ => false

/-- The state and the message of a status write. -/
def Event.status? : Event → Option (ClusterState × String)
  | .updateClusterStatus _ _ state message => some (state, message)
  | _ => none

/-- The last status written in a trace. -/
def lastStatus (tr : List Event) : Option (ClusterState × String) :=
  (tr.filterMap Event.status?).getLast?

/-- The message of the all-devices conflict in configureLocalCephCluster. -/
def conflictMessage : String := "using all devices in more than one namespace is not supported"

/-- The resource of an external cluster. -/
def externalResource : CephCluster :=
  { sampleResource "rook-ceph" "my-cluster" false with
    Spec := { sampleSpec false with
      CephVersion := { Image := "ceph/ceph:v15.2.0" }, External := { Enable := true } } }

/-- An outside world in which the image of the resource has version 15.2.0 and
the monitors of the external cluster run 14.2.4. -/
def mismatchEnv : Env :=
  { quietEnv with
    detectCephVersion := fun _ => .ok upgradeVersion
    extDetectCephVersion := .ok upgradeVersion
    getCephMonVersion := .ok sampleVersion }

/-- A controller with one running cluster that holds the all-devices flag. -/
def busyController : ClusterController :=
  { oneClusterController with
    devicesInUse := true
    clusterMap := [("rook-ceph", sampleCluster "rook-ceph" "my-cluster" true 0)] }

/-- A cluster that is registered while its info was not loaded yet. -/
def pendingCluster : Cluster :=
  { sampleCluster "pending" "pending-cluster" true 1 with Info := none, initCompleted := false }

/-- A controller with a cluster without info, registered before a running one. -/
def pendingFirstController : ClusterController :=
  { oneClusterController with
    clusterMap := [("pending", pendingCluster),
                   ("rook-ceph", sampleCluster "rook-ceph" "my-cluster" false 0)],
    nextCh := 2 }

/-- The runtime state of the cluster when initializeCluster reaches its
creation poll: the spec of the resource with the mon default, and the info as
loaded (nil when loading failed). -/
def clusterAtPoll (env : Env) (cluster : Cluster) (clusterObj : CephCluster) : Cluster :=
  { cluster with
    Spec := applyMonDefault env clusterObj.Spec,
    Info := match env.loadClusterInfo with
      | .ok info => some info
      | .error _ => none }

/-- The creation poll of initializeCluster, run on the controller and the
cluster as they are when the poll is reached. -/
def creationPoll (env : Env) (c : ClusterController) (cluster : Cluster)
    (clusterObj : CephCluster) : Run (Option String × CreatePoll) :=
  pollLoop (createClusterAttempt env clusterObj) env.createTicks 0
    { c := addTrace c (initTrace env cluster.Namespace),
      cluster := clusterAtPoll env cluster clusterObj, failedMessage := "", state := .Error }

/-- The mode-specific configuration step of initializeCluster (the branch on
`cluster.Spec.External.Enable` after the creation poll). -/
def configureCluster (env : Env) (fuel : Nat) (c : ClusterController) (cluster : Cluster)
    (clusterObj : CephCluster) : Run (ClusterController × Cluster × Option String) :=
  if !cluster.Spec.External.Enable then
    .ok ((configureLocalCephCluster c cluster clusterObj).1, cluster,
      (configureLocalCephCluster c cluster clusterObj).2)
  else
    configureExternalCephCluster env fuel c clusterObj.Namespace clusterObj.Name cluster

/-- The stop channels of the clusters in the registry. -/
def registryChannels (m : List (String × Cluster)) : List Nat := m.map (fun e => e.2.stopCh)

/-- The controller `c1` has the registry and the channels of `c`. -/
def sameRegistry (c c1 : ClusterController) : Prop :=
  c1.clusterMap = c.clusterMap ∧ c1.closedChs = c.closedChs ∧ c1.nextCh = c.nextCh

/-- The controller `c1` has the channels of `c`, and its registry is that of
`c`, but for a write through the pointer stored under `key` of a cluster with
stop channel `ch`. -/
def storedOver (c c1 : ClusterController) (key : String) (ch : Nat) : Prop :=
  c1.closedChs = c.closedChs ∧ c1.nextCh = c.nextCh ∧
  (c1.clusterMap = c.clusterMap ∨
    ∃ v : Cluster, v.stopCh = ch ∧ c1.clusterMap = mapStore c.clusterMap key v)

/-- The bookkeeping of the stop channels is consistent: the registry holds a
namespace once, no two registered clusters share a stop channel, no registered
cluster has a closed stop channel, no channel was closed twice, and every
channel in use was handed out before. -/
def channelsConsistent (c : ClusterController) : Prop :=
  (c.clusterMap.map Prod.fst).Nodup ∧
  (registryChannels c.clusterMap ++ c.closedChs).Nodup ∧
  ∀ ch ∈ registryChannels c.clusterMap ++ c.closedChs, ch < c.nextCh

/-- A cluster is added and deleted, a second one is added and updated, and the watch is
stopped. -/
def stopEvents : List ControllerEvent :=
  [.add quietEnv 1 (.cephCluster (sampleResource "a" "cluster-a" false)),
   .delete quietEnv (.cephCluster (sampleResource "a" "cluster-a" false)),
   .add quietEnv 1 (.cephCluster (sampleResource "b" "cluster-b" false)),
   .update quietEnv 1 (.cephCluster (sampleResource "b" "cluster-b" false))
     (.cephCluster (sampleResource "b" "cluster-b" false)),
   .stopWatch]

/-! ## Mon endpoints and the CSI cluster configuration -/

/-- The type cephconfig.MonInfo: the name of a mon and its endpoint. -/
structure MonInfo where
  Name : String
  Endpoint : String
deriving DecidableEq

/-- The library function strings.Split for a separator of one character, on
the characters of the string: the pieces between the separators, one piece
(the empty one) for the empty string. -/
def splitChars (sep : Char) : List Char → List (List Char)
  | [] => [[]]
  | c :: rest =>
    if c = sep then [] :: splitChars sep rest
    else
      match splitChars sep rest with
      | [] => [[c]]
      | p :: ps => (c :: p) :: ps

/-- The library function strings.Join for a separator of one character, on the
characters of the strings. -/
def joinChars (sep : Char) : List (List Char) → List Char
  | [] => []
  | [p] => p
  | p :: q :: ps => p ++ sep :: joinChars sep (q :: ps)

/-- The write `mons[k] = v` on a map of mons (an association list): replaces
the entry of `k` or adds one. -/
def monMapSet : List (String × MonInfo) → String → MonInfo → List (String × MonInfo)
  | [], k, v => [(k, v)]
  | (k1, v1) :: rest, k, v => if k1 = k then (k, v) :: rest else (k1, v1) :: monMapSet rest k v

/-- Modelled from the spec: the function FlattenMonEndpoints of the package
mon is not in the sources at hand, only its test.  Every mon of the map
becomes `name=endpoint`, and the pieces are joined with commas, in the order
of the map. -/
def FlattenMonEndpoints (mons : List (String × MonInfo)) : String :=
  String.mk (joinChars ',' (mons.map fun e => e.2.Name.data ++ '=' :: e.2.Endpoint.data))

/-- Modelled from the spec: the loop of ParseMonEndpoints over the pieces of
its input.  A piece that is not of the form `name=endpoint` is skipped. -/
def parseMonParts (mons : List (String × MonInfo)) (rawMons : List (List Char)) :
    List (String × MonInfo) :=
  rawMons.foldl (fun acc rawMon =>
    match splitChars '=' rawMon with
    | [name, endpoint] =>
      monMapSet acc (String.mk name) { Name := String.mk name, Endpoint := String.mk endpoint }
    | _ => acc) mons

/-- Modelled from the spec: the function ParseMonEndpoints of the package mon
is not in the sources at hand, only its test.  The input is split at the
commas, every piece at the equals sign, and the mon of every piece is stored
in the result under its name. -/
def ParseMonEndpoints (input : String) : List (String × MonInfo) :=
  parseMonParts [] (splitChars ',' input.data)

/-- The map of the one mon of the test: foo at 1.2.3.4:5000. -/
def fooMons : List (String × MonInfo) :=
  [("foo", { Name := "foo", Endpoint := "1.2.3.4:5000" })]

/-- The map of the test with the second mon: bar at 2.3.4.5:6000. -/
def fooBarMons : List (String × MonInfo) :=
  [("foo", { Name := "foo", Endpoint := "1.2.3.4:5000" }),
   ("bar", { Name := "bar", Endpoint := "2.3.4.5:6000" })]

/-- Modelled from the spec: the type csiClusterConfigEntry of the package mon
is not in the sources at hand.  An entry of the CSI cluster configuration: the
id of a cluster and the endpoints of its monitors. -/
structure CsiClusterConfigEntry where
  ClusterID : String
  Monitors : List String
deriving DecidableEq

/-- Modelled from the spec: the endpoints of the mons of a map, in the order
of the map (the helper monEndpoints of the package mon is not in the sources
at hand). -/
def monEndpoints (mons : List (String × MonInfo)) : List String :=
  mons.map fun e => e.2.Endpoint

/-- The value of a hexadecimal digit. -/
def hexVal (c : Char) : Option Nat :=
  if '0' ≤ c ∧ c ≤ '9' then some (c.toNat - '0'.toNat)
  else if 'a' ≤ c ∧ c ≤ 'f' then some (c.toNat - 'a'.toNat + 10)
  else if 'A' ≤ c ∧ c ≤ 'F' then some (c.toNat - 'A'.toNat + 10)
  else none

/-- The value of four hexadecimal digits. -/
def hex4 (a b c d : Char) : Option Nat :=
  match hexVal a, hexVal b, hexVal c, hexVal d with
  | some x, some y, some z, some w => some (((x * 16 + y) * 16 + z) * 16 + w)
  | _, _, _, _ => none

/-- The hexadecimal digit of a value below 16. -/
def hexDigit (n : Nat) : Char :=
  if n < 10 then Char.ofNat ('0'.toNat + n) else Char.ofNat ('a'.toNat + (n - 10))

/-- The code unit is a high surrogate (D800 to DBFF). -/
def isHighSurrogate (n : Nat) : Bool := decide (0xD800 ≤ n) && decide (n < 0xDC00)

/-- The code unit is a low surrogate (DC00 to DFFF). -/
def isLowSurrogate (n : Nat) : Bool := decide (0xDC00 ≤ n) && decide (n < 0xE000)

/-- The JSON form of a character of a string: the quote, the backslash and the
control characters are escaped, every other character stands for itself. -/
def escapeChar (c : Char) : List Char :=
  if c = '"' then ['\\', '"']
  else if c = '\\' then ['\\', '\\']
  else if c = '\n' then ['\\', 'n']
  else if c = '\r' then ['\\', 'r']
  else if c = '\t' then ['\\', 't']
  else if c.toNat < 0x20 then
    ['\\', 'u', '0', '0', hexDigit (c.toNat / 16), hexDigit (c.toNat % 16)]
  else [c]

/-- The JSON form of the characters of a string. -/
def escapeChars : List Char → List Char
  | [] => []
  | c :: cs => escapeChar c ++ escapeChars cs

/-- A JSON string: the characters in their JSON form, between double quotes. -/
def quoteChars (s : String) : List Char := '"' :: (escapeChars s.data ++ ['"'])

/-- Modelled from the spec: the JSON object of an entry,
`{"clusterID":<id>,"monitors":[<endpoint>,...]}`, without spaces. -/
def formatEntry (e : CsiClusterConfigEntry) : List Char :=
  '\x7b' :: (quoteChars "clusterID" ++ ':' :: (quoteChars e.ClusterID ++ ',' ::
    (quoteChars "monitors" ++ ':' :: '[' ::
      (joinChars ',' (e.Monitors.map quoteChars) ++ [']', '\x7d']))))

/-- The string holds no double quote and no backslash. -/
def cleanString (s : String) : Prop := '"' ∉ s.data ∧ '\\' ∉ s.data

/-- The pieces of a list, each after a comma. -/
def commaTail : List (List Char) → List Char
  | [] => []
  | p :: ps => ',' :: (p ++ commaTail ps)

/-- Modelled from the spec: the function formatCsiClusterConfig of the package
mon is not in the sources at hand.  The configuration is a JSON array with one
object per entry, in the order of the entries. -/
def formatCsiClusterConfig (cc : List CsiClusterConfigEntry) : String :=
  String.mk ('[' :: joinChars ',' (cc.map formatEntry) ++ [']'])

/-! ### The JSON texts of a configuration

The grammar of JSON (RFC 8259), as relations between a text and what it
denotes.  Whitespace may stand before every token.  The configuration is an
array of objects; in an object the members come in any order, the member
clusterID has a string, the member monitors an array of strings, a member
with another key has any JSON value and is ignored, a key that is missing
leaves its field empty, and of a key that comes twice the last member counts.
-/

/-- JSON whitespace: spaces, line feeds, tabs and carriage returns. -/
def WsText (cs : List Char) : Prop := ∀ c ∈ cs, c = ' ' ∨ c = '\n' ∨ c = '\t' ∨ c = '\r'

/-- The text starts with the escape of a low surrogate (DC00 to DFFF). -/
def LowEscapeStart (cs : List Char) : Prop :=
  ∃ e f g h m tail, cs = '\\' :: 'u' :: e :: f :: g :: h :: tail ∧ hex4 e f g h = some m ∧
    isLowSurrogate m = true

/-- The texts of a JSON escape after its backslash, and the character each
denotes.  The escape of a surrogate pair denotes the character of the pair;
the escape of a low surrogate that is not the second half of a pair denotes
the replacement character U+FFFD. -/
inductive EscapeText : Char → List Char → Prop where
  | quote : EscapeText '"' ['"']
  | backslash : EscapeText '\\' ['\\']
  | slash : EscapeText '/' ['/']
  | backspace : EscapeText '\x08' ['b']
  | formFeed : EscapeText '\x0c' ['f']
  | lineFeed : EscapeText '\n' ['n']
  | carriageReturn : EscapeText '\r' ['r']
  | tab : EscapeText '\t' ['t']
  | unicode (a b c d : Char) (n : Nat) : hex4 a b c d = some n →
      isHighSurrogate n = false → isLowSurrogate n = false →
      EscapeText (Char.ofNat n) ['u', a, b, c, d]
  | pair (a b c d e f g h : Char) (n m : Nat) : hex4 a b c d = some n →
      isHighSurrogate n = true → hex4 e f g h = some m → isLowSurrogate m = true →
      EscapeText (Char.ofNat (0x10000 + (n - 0xD800) * 0x400 + (m - 0xDC00)))
        ['u', a, b, c, d, '\\', 'u', e, f, g, h]
  | lone (a b c d : Char) (n : Nat) : hex4 a b c d = some n → isLowSurrogate n = true →
      EscapeText (Char.ofNat 0xFFFD) ['u', a, b, c, d]

/-- The texts between the quotes of a JSON string, and the characters each
denotes: a character other than the quote, the backslash and the control
characters stands for itself, and a backslash starts an escape.  The escape of
a high surrogate that no escape of a low surrogate follows denotes the
replacement character U+FFFD. -/
inductive StringBodyText : List Char → List Char → Prop where
  | nil : StringBodyText [] []
  | raw (c : Char) (s cs : List Char) : c ≠ '"' → c ≠ '\\' → 0x20 ≤ c.toNat →
      StringBodyText s cs → StringBodyText (c :: s) (c :: cs)
  | escape (c : Char) (e s cs : List Char) : EscapeText c e → StringBodyText s cs →
      StringBodyText (c :: s) ('\\' :: (e ++ cs))
  | loneHigh (a b c d : Char) (n : Nat) (s cs : List Char) : hex4 a b c d = some n →
      isHighSurrogate n = true → ¬ LowEscapeStart cs → StringBodyText s cs →
      StringBodyText (Char.ofNat 0xFFFD :: s) ('\\' :: 'u' :: a :: b :: c :: d :: cs)

/-- The texts of a JSON string, and the string each denotes. -/
def StringText (s : String) (cs : List Char) : Prop :=
  ∃ body, cs = '"' :: (body ++ ['"']) ∧ StringBodyText s.data body

/-- One digit or more. -/
def DigitsText (cs : List Char) : Prop := cs ≠ [] ∧ ∀ c ∈ cs, c.isDigit = true

/-- The integer part of a JSON number: a zero, or digits that do not start
with a zero. -/
def IntText (cs : List Char) : Prop := cs = ['0'] ∨ (DigitsText cs ∧ cs.head? ≠ some '0')

/-- The fraction of a JSON number: nothing, or a point and digits. -/
def FracText (cs : List Char) : Prop := cs = [] ∨ ∃ ds, cs = '.' :: ds ∧ DigitsText ds

/-- The exponent of a JSON number: nothing, or the letter e, a sign or none,
and digits. -/
def ExpText (cs : List Char) : Prop :=
  cs = [] ∨ ∃ e sign ds, cs = e :: (sign ++ ds) ∧ (e = 'e' ∨ e = 'E') ∧
    (sign = [] ∨ sign = ['+'] ∨ sign = ['-']) ∧ DigitsText ds

/-- The texts of a JSON number: a minus sign or none, the integer part, the
fraction and the exponent. -/
def NumberText (cs : List Char) : Prop :=
  ∃ sign int frac exp, cs = sign ++ (int ++ (frac ++ exp)) ∧ (sign = [] ∨ sign = ['-']) ∧
    IntText int ∧ FracText frac ∧ ExpText exp

mutual
/-- The texts of a JSON value: a string, a number, a literal, an array or an
object. -/
inductive ValueText : List Char → Prop where
  | string (s : String) (cs : List Char) : StringText s cs → ValueText cs
  | number (cs : List Char) : NumberText cs → ValueText cs
  | litTrue : ValueText ['t', 'r', 'u', 'e']
  | litFalse : ValueText ['f', 'a', 'l', 's', 'e']
  | litNull : ValueText ['n', 'u', 'l', 'l']
  | emptyArray (w : List Char) : WsText w → ValueText ('[' :: (w ++ [']']))
  | array (w v tail : List Char) : WsText w → ValueText v → ElementsTailText tail →
      ValueText ('[' :: (w ++ (v ++ tail)))
  | emptyObject (w : List Char) : WsText w → ValueText ('\x7b' :: (w ++ ['\x7d']))
  | object (w : List Char) (k : String) (ktext w1 w2 v tail : List Char) :
      WsText w → StringText k ktext → WsText w1 → WsText w2 → ValueText v →
      MembersTailText tail →
      ValueText ('\x7b' :: (w ++ (ktext ++ (w1 ++ (':' :: (w2 ++ (v ++ tail)))))))
/-- The text of a JSON array after an element: further elements, each after a
comma, and the closing bracket. -/
inductive ElementsTailText : List Char → Prop where
  | close (w : List Char) : WsText w → ElementsTailText (w ++ [']'])
  | more (w w1 v tail : List Char) : WsText w → WsText w1 → ValueText v →
      ElementsTailText tail → ElementsTailText (w ++ (',' :: (w1 ++ (v ++ tail))))
/-- The text of a JSON object after a member: further members (a key, a colon
and a value), each after a comma, and the closing brace. -/
inductive MembersTailText : List Char → Prop where
  | close (w : List Char) : WsText w → MembersTailText (w ++ ['\x7d'])
  | more (w w0 : List Char) (k : String) (ktext w1 w2 v tail : List Char) :
      WsText w → WsText w0 → StringText k ktext → WsText w1 → WsText w2 → ValueText v →
      MembersTailText tail →
      MembersTailText (w ++ (',' :: (w0 ++ (ktext ++ (w1 ++ (':' :: (w2 ++ (v ++ tail))))))))
end

/-- The text of a JSON array of strings after an element, and the strings it
denotes. -/
inductive StringsTailText : List String → List Char → Prop where
  | close (w : List Char) : WsText w → StringsTailText [] (w ++ [']'])
  | more (w w1 : List Char) (s : String) (stext : List Char) (ms : List String)
      (tail : List Char) : WsText w → WsText w1 → StringText s stext →
      StringsTailText ms tail → StringsTailText (s :: ms) (w ++ (',' :: (w1 ++ (stext ++ tail))))

/-- The texts of a JSON array of strings, and the strings each denotes. -/
inductive StringsText : List String → List Char → Prop where
  | empty (w : List Char) : WsText w → StringsText [] ('[' :: (w ++ [']']))
  | cons (w : List Char) (s : String) (stext : List Char) (ms : List String)
      (tail : List Char) : WsText w → StringText s stext → StringsTailText ms tail →
      StringsText (s :: ms) ('[' :: (w ++ (stext ++ tail)))

/-- The texts of one member of the object of an entry, with the entry before
and after it: the member clusterID sets the id to its string, the member
monitors sets the monitors to its array of strings, and a member with another
key has any JSON value and changes nothing. -/
inductive EntryMemberText :
    CsiClusterConfigEntry → CsiClusterConfigEntry → List Char → Prop where
  | clusterID (e : CsiClusterConfigEntry) (w ktext w1 w2 : List Char) (id : String)
      (idtext : List Char) : WsText w → StringText "clusterID" ktext → WsText w1 → WsText w2 →
      StringText id idtext →
      EntryMemberText e { e with ClusterID := id }
        (w ++ (ktext ++ (w1 ++ (':' :: (w2 ++ idtext)))))
  | monitors (e : CsiClusterConfigEntry) (w ktext w1 w2 : List Char) (ms : List String)
      (mtext : List Char) : WsText w → StringText "monitors" ktext → WsText w1 → WsText w2 →
      StringsText ms mtext →
      EntryMemberText e { e with Monitors := ms }
        (w ++ (ktext ++ (w1 ++ (':' :: (w2 ++ mtext)))))
  | other (e : CsiClusterConfigEntry) (w : List Char) (k : String) (ktext w1 w2 v : List Char) :
      k ≠ "clusterID" → k ≠ "monitors" → WsText w → StringText k ktext → WsText w1 →
      WsText w2 → ValueText v →
      EntryMemberText e e (w ++ (ktext ++ (w1 ++ (':' :: (w2 ++ v)))))

/-- The text of the object of an entry after a member, with the entry before
and after it. -/
inductive EntryTailText :
    CsiClusterConfigEntry → CsiClusterConfigEntry → List Char → Prop where
  | close (e : CsiClusterConfigEntry) (w : List Char) : WsText w →
      EntryTailText e e (w ++ ['\x7d'])
  | more (e e1 e2 : CsiClusterConfigEntry) (w m tail : List Char) : WsText w →
      EntryMemberText e e1 m → EntryTailText e1 e2 tail →
      EntryTailText e e2 (w ++ (',' :: (m ++ tail)))

/-- The texts of the JSON object of an entry, and the entry each denotes. -/
inductive EntryText : CsiClusterConfigEntry → List Char → Prop where
  | empty (w : List Char) : WsText w →
      EntryText { ClusterID := "", Monitors := [] } ('\x7b' :: (w ++ ['\x7d']))
  | members (e1 e : CsiClusterConfigEntry) (m tail : List Char) :
      EntryMemberText { ClusterID := "", Monitors := [] } e1 m → EntryTailText e1 e tail →
      EntryText e ('\x7b' :: (m ++ tail))

/-- The text of the array of entries after an entry, and the entries it
denotes. -/
inductive EntriesTailText : List CsiClusterConfigEntry → List Char → Prop where
  | close (w : List Char) : WsText w → EntriesTailText [] (w ++ [']'])
  | more (w w1 : List Char) (e : CsiClusterConfigEntry) (etext : List Char)
      (es : List CsiClusterConfigEntry) (tail : List Char) : WsText w → WsText w1 →
      EntryText e etext → EntriesTailText es tail →
      EntriesTailText (e :: es) (w ++ (',' :: (w1 ++ (etext ++ tail))))

/-- The texts of the JSON array of entries, and the entries each denotes. -/
inductive EntriesText : List CsiClusterConfigEntry → List Char → Prop where
  | empty (w : List Char) : WsText w → EntriesText [] ('[' :: (w ++ [']']))
  | cons (w : List Char) (e : CsiClusterConfigEntry) (etext : List Char)
      (es : List CsiClusterConfigEntry) (tail : List Char) : WsText w → EntryText e etext →
      EntriesTailText es tail → EntriesText (e :: es) ('[' :: (w ++ (etext ++ tail)))

/-- Modelled from the spec: the payloads that parse as a CSI cluster
configuration, and the configuration each denotes: a JSON array of objects
with the members clusterID and monitors, with whitespace before and after. -/
def ConfigText (cc : List CsiClusterConfigEntry) (cs : List Char) : Prop :=
  ∃ w1 text w2, cs = w1 ++ (text ++ w2) ∧ WsText w1 ∧ WsText w2 ∧ EntriesText cc text

/-- What may follow a JSON value: the end of the text, whitespace, a comma, a
closing bracket or a closing brace. -/
def Delimited (cs : List Char) : Prop :=
  ∀ c rest, cs = c :: rest →
    c = ' ' ∨ c = '\n' ∨ c = '\t' ∨ c = '\r' ∨ c = ',' ∨ c = ']' ∨ c = '\x7d'

/-! ### The reader of the JSON texts -/

/-- Drops the JSON whitespace at the start of the input. -/
def skipWs : List Char → List Char
  | [] => []
  | c :: rest =>
    if c = ' ' ∨ c = '\n' ∨ c = '\t' ∨ c = '\r' then skipWs rest else c :: rest

/-- Reads the character `ch`, after whitespace. -/
def expectChar (ch : Char) (cs : List Char) : Option (List Char) :=
  match skipWs cs with
  | c :: rest => if c = ch then some rest else none
  | [] => none

/-- Reads the escape of a low surrogate, backslash and all. -/
def lowSurrogateAt : List Char → Option (Nat × List Char)
  | bs :: u :: a :: b :: c :: d :: rest =>
    if bs = '\\' ∧ u = 'u' then
      match hex4 a b c d with
      | some m => if isLowSurrogate m then some (m, rest) else none
      | none => none
    else none
  | _ => none

/-- The character of a JSON escape of one letter. -/
def simpleEscape (e : Char) : Option Char :=
  if e = '"' then some '"'
  else if e = '\\' then some '\\'
  else if e = '/' then some '/'
  else if e = 'b' then some '\x08'
  else if e = 'f' then some '\x0c'
  else if e = 'n' then some '\n'
  else if e = 'r' then some '\r'
  else if e = 't' then some '\t'
  else none

/-- Reads the four digits of a JSON escape with the letter u, and the low
surrogate that follows a high one. -/
def parseUnicode : List Char → Option (Char × List Char)
  | a :: b :: c :: d :: rest1 =>
    match hex4 a b c d with
    | none => none
    | some n =>
      if isHighSurrogate n then
        match lowSurrogateAt rest1 with
        | some (m, rest2) =>
          some (Char.ofNat (0x10000 + (n - 0xD800) * 0x400 + (m - 0xDC00)), rest2)
        | none => some (Char.ofNat 0xFFFD, rest1)
      else if isLowSurrogate n then some (Char.ofNat 0xFFFD, rest1)
      else some (Char.ofNat n, rest1)
  | _ => none

/-- Reads a JSON escape after its backslash. -/
def parseEscape : List Char → Option (Char × List Char)
  | [] => none
  | e :: rest =>
    if e = 'u' then parseUnicode rest
    else
      match simpleEscape e with
      | some ch => some (ch, rest)
      | none => none

/-- Reads a JSON string after its opening quote, up to the closing quote;
`acc` holds the characters read, last one first.  A control character that is
not escaped is an error.  Every step takes one unit of fuel. -/
def parseStringBody : Nat → List Char → List Char → Option (String × List Char)
  | 0, _, _ => none
  | _ + 1, [], _ => none
  | fuel + 1, c :: rest, acc =>
    if c = '"' then some (String.mk acc.reverse, rest)
    else if c = '\\' then
      match parseEscape rest with
      | some (ch, rest1) => parseStringBody fuel rest1 (ch :: acc)
      | none => none
    else if c.toNat < 0x20 then none
    else parseStringBody fuel rest (c :: acc)

/-- Reads a JSON string, after whitespace. -/
def parseString (cs : List Char) : Option (String × List Char) :=
  match expectChar '"' cs with
  | some rest => parseStringBody rest.length rest []
  | none => none

/-- Drops the digits at the start of the input. -/
def skipDigits : List Char → List Char
  | [] => []
  | c :: rest => if c.isDigit then skipDigits rest else c :: rest

/-- Reads one digit or more. -/
def expectDigits : List Char → Option (List Char)
  | [] => none
  | c :: rest => if c.isDigit then some (skipDigits rest) else none

/-- Reads the minus sign of a JSON number, when there is one. -/
def skipSign : List Char → List Char
  | [] => []
  | c :: rest => if c = '-' then rest else c :: rest

/-- Reads the integer part of a JSON number: a zero, or digits that do not
start with a zero. -/
def skipInt : List Char → Option (List Char)
  | [] => none
  | c :: rest =>
    if c = '0' then some rest
    else if c.isDigit then some (skipDigits rest)
    else none

/-- Reads the fraction of a JSON number, when there is one. -/
def skipFrac : List Char → Option (List Char)
  | [] => some []
  | c :: rest => if c = '.' then expectDigits rest else some (c :: rest)

/-- Reads the exponent of a JSON number, when there is one. -/
def skipExp : List Char → Option (List Char)
  | [] => some []
  | c :: rest =>
    if c = 'e' ∨ c = 'E' then
      match rest with
      | [] => none
      | s :: rest1 => if s = '+' ∨ s = '-' then expectDigits rest1 else expectDigits (s :: rest1)
    else some (c :: rest)

/-- Reads a JSON number. -/
def skipNumber (cs : List Char) : Option (List Char) :=
  match skipInt (skipSign cs) with
  | none => none
  | some cs1 =>
    match skipFrac cs1 with
    | none => none
    | some cs2 => skipExp cs2

/-- Reads the characters `lit`. -/
def expectLit : List Char → List Char → Option (List Char)
  | [], cs => some cs
  | _ :: _, [] => none
  | l :: ls, c :: cs => if l = c then expectLit ls cs else none

/-- What the reader of any JSON value is at: a value, the rest of an array
after an element, or the rest of an object after a member. -/
inductive JsonMode where
  | value
  | elements
  | members

/-- Reads any JSON value (mode value), the rest of an array after an element
(mode elements) or the rest of an object after a member (mode members), and
returns what follows it.  Every level of nesting and every element takes one
unit of fuel. -/
def skipJson : Nat → JsonMode → List Char → Option (List Char)
  | 0, _, _ => none
  | fuel + 1, .value, cs =>
    match skipWs cs with
    | [] => none
    | c :: rest =>
      if c = '"' then (parseStringBody rest.length rest []).map Prod.snd
      else if c = '[' then
        match expectChar ']' rest with
        | some rest1 => some rest1
        | none =>
          match skipJson fuel .value rest with
          | some rest1 => skipJson fuel .elements rest1
          | none => none
      else if c = '\x7b' then
        match expectChar '\x7d' rest with
        | some rest1 => some rest1
        | none =>
          match parseString rest with
          | some (_, rest1) =>
            match expectChar ':' rest1 with
            | some rest2 =>
              match skipJson fuel .value rest2 with
              | some rest3 => skipJson fuel .members rest3
              | none => none
            | none => none
          | none => none
      else if c = 't' then expectLit ['r', 'u', 'e'] rest
      else if c = 'f' then expectLit ['a', 'l', 's', 'e'] rest
      else if c = 'n' then expectLit ['u', 'l', 'l'] rest
      else skipNumber (c :: rest)
  | fuel + 1, .elements, cs =>
    match skipWs cs with
    | [] => none
    | c :: rest =>
      if c = ']' then some rest
      else if c = ',' then
        match skipJson fuel .value rest with
        | some rest1 => skipJson fuel .elements rest1
        | none => none
      else none
  | fuel + 1, .members, cs =>
    match skipWs cs with
    | [] => none
    | c :: rest =>
      if c = '\x7d' then some rest
      else if c = ',' then
        match parseString rest with
        | some (_, rest1) =>
          match expectChar ':' rest1 with
          | some rest2 =>
            match skipJson fuel .value rest2 with
            | some rest3 => skipJson fuel .members rest3
            | none => none
          | none => none
        | none => none
      else none

/-- Reads the rest of a JSON array of strings after an element: a closing
bracket, or a comma and one more element.  `acc` holds the elements read, last
one first. -/
def parseStringsTail : Nat → List Char → List String → Option (List String × List Char)
  | 0, _, _ => none
  | fuel + 1, cs, acc =>
    match skipWs cs with
    | [] => none
    | c :: rest =>
      if c = ']' then some (acc.reverse, rest)
      else if c = ',' then
        match parseString rest with
        | some (s, rest1) => parseStringsTail fuel rest1 (s :: acc)
        | none => none
      else none

/-- Reads a JSON array of strings. -/
def parseStrings (cs : List Char) : Option (List String × List Char) :=
  match expectChar '[' cs with
  | none => none
  | some rest =>
    match expectChar ']' rest with
    | some rest1 => some ([], rest1)
    | none =>
      match parseString rest with
      | some (s, rest1) => parseStringsTail (rest1.length + 1) rest1 [s]
      | none => none

/-- Reads the value of a member of the object of an entry, after the key and
the colon: a string for clusterID, an array of strings for monitors, any JSON
value (which is dropped) for another key. -/
def parseMemberValue (key : String) (e : CsiClusterConfigEntry) (cs : List Char) :
    Option (CsiClusterConfigEntry × List Char) :=
  if key = "clusterID" then
    match parseString cs with
    | some (id, rest) => some ({ e with ClusterID := id }, rest)
    | none => none
  else if key = "monitors" then
    match parseStrings cs with
    | some (ms, rest) => some ({ e with Monitors := ms }, rest)
    | none => none
  else
    match skipJson (cs.length + 1) .value cs with
    | some rest => some (e, rest)
    | none => none

/-- Reads one member of the object of an entry: the key, the colon and the
value. -/
def parseMember (e : CsiClusterConfigEntry) (cs : List Char) :
    Option (CsiClusterConfigEntry × List Char) :=
  match parseString cs with
  | some (key, rest) =>
    match expectChar ':' rest with
    | some rest1 => parseMemberValue key e rest1
    | none => none
  | none => none

/-- Reads the rest of the object of an entry after a member: a closing brace,
or a comma and one more member. -/
def parseMembersTail :
    Nat → List Char → CsiClusterConfigEntry → Option (CsiClusterConfigEntry × List Char)
  | 0, _, _ => none
  | fuel + 1, cs, e =>
    match skipWs cs with
    | [] => none
    | c :: rest =>
      if c = '\x7d' then some (e, rest)
      else if c = ',' then
        match parseMember e rest with
        | some (e1, rest1) => parseMembersTail fuel rest1 e1
        | none => none
      else none

/-- Reads the JSON object of an entry.  The fields start empty. -/
def parseEntry (cs : List Char) : Option (CsiClusterConfigEntry × List Char) :=
  match expectChar '\x7b' cs with
  | none => none
  | some rest =>
    match expectChar '\x7d' rest with
    | some rest1 => some ({ ClusterID := "", Monitors := [] }, rest1)
    | none =>
      match parseMember { ClusterID := "", Monitors := [] } rest with
      | some (e, rest1) => parseMembersTail (rest1.length + 1) rest1 e
      | none => none

/-- Reads the rest of the JSON array of entries after an entry. -/
def parseEntriesTail :
    Nat → List Char → List CsiClusterConfigEntry →
      Option (List CsiClusterConfigEntry × List Char)
  | 0, _, _ => none
  | fuel + 1, cs, acc =>
    match skipWs cs with
    | [] => none
    | c :: rest =>
      if c = ']' then some (acc.reverse, rest)
      else if c = ',' then
        match parseEntry rest with
        | some (e, rest1) => parseEntriesTail fuel rest1 (e :: acc)
        | none => none
      else none

/-- Reads the JSON array of entries. -/
def parseEntries (cs : List Char) : Option (List CsiClusterConfigEntry × List Char) :=
  match expectChar '[' cs with
  | none => none
  | some rest =>
    match expectChar ']' rest with
    | some rest1 => some ([], rest1)
    | none =>
      match parseEntry rest with
      | some (e, rest1) => parseEntriesTail (rest1.length + 1) rest1 [e]
      | none => none

/-- Modelled from the spec: the function parseCsiClusterConfig of the package
mon is not in the sources at hand.  The payload parses when it is a JSON array
of objects and nothing but whitespace follows it; in an object the member
clusterID must hold a string and the member monitors an array of strings, the
members may come in any order, members with other keys are ignored, and a key
that is missing leaves its field empty.  Every other payload is an error. -/
def parseCsiClusterConfig (c : String) : Except String (List CsiClusterConfigEntry) :=
  match parseEntries c.data with
  | some (cc, rest) =>
    if skipWs rest = [] then .ok cc
    else .error "failed to unmarshal csi cluster config: invalid character after top-level value"
  | none => .error "failed to unmarshal csi cluster config: invalid character"

/-- Modelled from the spec: the loop of UpdateCsiClusterConfig over the
entries.  The first entry with the id `clusterKey` gets the monitors `ms`;
when there is none, a new entry is added at the end. -/
def upsertEntry :
    List CsiClusterConfigEntry → String → List String → List CsiClusterConfigEntry
  | [], clusterKey, ms => [{ ClusterID := clusterKey, Monitors := ms }]
  | e :: rest, clusterKey, ms =>
    if e.ClusterID = clusterKey then { e with Monitors := ms } :: rest
    else e :: upsertEntry rest clusterKey ms

/-- Modelled from the spec: the function UpdateCsiClusterConfig of the package
mon is not in the sources at hand, only its test.  The current payload is
parsed (an error when it does not parse), the entry of the cluster is replaced
or added, and the configuration is formatted again. -/
def UpdateCsiClusterConfig (curr clusterKey : String) (mons : List (String × MonInfo)) :
    Except String String :=
  match parseCsiClusterConfig curr with
  | .error e => .error ("failed to parse current csi cluster config: " ++ e)
  | .ok cc => .ok (formatCsiClusterConfig (upsertEntry cc clusterKey (monEndpoints mons)))

/-- The three mons of the cluster beta in the test. -/
def betaMons : List (String × MonInfo) :=
  [("foo", { Name := "foo", Endpoint := "1.2.3.4:5000" }),
   ("bar", { Name := "bar", Endpoint := "2.3.4.5:6000" }),
   ("baz", { Name := "baz", Endpoint := "3.4.5.6:7000" })]

/-- The configuration of the test with the clusters alpha and beta. -/
def alphaBetaConfig : List CsiClusterConfigEntry :=
  [{ ClusterID := "alpha", Monitors := ["1.2.3.4:5000", "2.3.4.5:6000"] },
   { ClusterID := "beta", Monitors := ["1.2.3.4:5000", "2.3.4.5:6000", "3.4.5.6:7000"] }]

/-- The strings of the entry hold no double quote and no backslash. -/
def cleanEntry (e : CsiClusterConfigEntry) : Prop :=
  cleanString e.ClusterID ∧ ∀ m ∈ e.Monitors, cleanString m

/-- The filter of the loop of onK8sNodeAdd before its call of the creation
routine: the node is tolerable, the cluster uses all nodes, and the node is
valid for the placement of the cluster. -/
def nodeAddReady (env : Env) (newNode : Node) (cluster : Cluster) : Bool :=
  env.nodeIsTolerable newNode cluster && cluster.Spec.Storage.UseAllNodes &&
    env.validNodeAll newNode cluster

/-- The filter of the loop of onK8sNodeUpdate before its call of the creation
routine: the node is valid for the osd placement of the cluster. -/
def nodeUpdateReady (env : Env) (newNode : Node) (cluster : Cluster) : Bool :=
  env.validNodeOSD newNode cluster

/-- The filter of the loop of onDeviceCMUpdate: every cluster passes. -/
def deviceReady (_ : Cluster) : Bool := true

/-- The invocations of the creation routine expected of a handler loop over
the entries of the registry: one for every cluster that has observed info and
passes the filter `ready` of the handler, in the order of the range, with the
namespace of the cluster and the version of its info.  A cluster without info
contributes none. -/
def loopCreations (ready : Cluster → Bool) : List (String × Cluster) → List Event
  | [] => []
  | (_, cluster) :: rest =>
    match cluster.Info with
    | some info =>
      if ready cluster then
        .createInstance cluster.Namespace info.CephVersion :: loopCreations ready rest
      else loopCreations ready rest
    | none => loopCreations ready rest

/-- A node that went from cordoned to schedulable, with three clusters in the
registry: a running one, one without info, and a second running one. -/
def pendingMiddleController : ClusterController :=
  { oneClusterController with
    clusterMap := [("rook-ceph", sampleCluster "rook-ceph" "my-cluster" false 0),
                   ("pending", pendingCluster),
                   ("late", sampleCluster "late" "late-cluster" false 2)],
    nextCh := 3 }

/-! ## Theorems -/

@[simp]
theorem emit_trace (c : ClusterController) (e : Event) : (emit c e).trace = c.trace ++ [e] := rfl

@[simp]
theorem emit_clusterMap (c : ClusterController) (e : Event) :
    (emit c e).clusterMap = c.clusterMap := rfl

@[simp]
theorem emit_devicesInUse (c : ClusterController) (e : Event) :
    (emit c e).devicesInUse = c.devicesInUse := rfl

@[simp]
theorem emit_closedChs (c : ClusterController) (e : Event) :
    (emit c e).closedChs = c.closedChs := rfl

@[simp]
theorem emit_nextCh (c : ClusterController) (e : Event) : (emit c e).nextCh = c.nextCh := rfl

/-- An effect is appended to the trace and nothing else changes. -/
theorem emit_eq (c : ClusterController) (e : Event) :
    emit c e = { c with trace := c.trace ++ [e] } := rfl

theorem attachmentsExist_eq_true {items : List Volume} {ns : String}
    (h : ∃ vol ∈ items, ∃ a ∈ vol.Attachments, a.ClusterName = ns) :
    attachmentsExist items ns = true := by
  obtain ⟨vol, hvol, a, ha, hns⟩ := h
  simp only [attachmentsExist, List.any_eq_true, decide_eq_true_eq]
  exact ⟨vol, hvol, a, ha, hns⟩

theorem attachmentsExist_eq_false {items : List Volume} {ns : String}
    (h : ∀ vol ∈ items, ∀ a ∈ vol.Attachments, a.ClusterName ≠ ns) :
    attachmentsExist items ns = false := by
  rw [Bool.eq_false_iff]
  intro hex
  simp only [attachmentsExist, List.any_eq_true, decide_eq_true_eq] at hex
  obtain ⟨vol, hvol, a, ha, hns⟩ := hex
  exact h vol hvol a ha hns

/-- The drain that finds an attachment in the listings `r, ..., r + k - 1` and
none in listing `r + k` makes `k + 1` listings and succeeds. -/
theorem handleDeleteLoop_drained (env : Env) (ns : String) (retryInterval : Nat) :
    ∀ (k fuel r : Nat) (c : ClusterController), k < fuel → r + k < clusterDeleteMaxRetries →
      (∀ i, r ≤ i → i < r + k →
        ∃ items, env.listVolumeAttachments i = .ok items ∧ attachmentsExist items ns = true) →
      (∃ items, env.listVolumeAttachments (r + k) = .ok items ∧
        attachmentsExist items ns = false) →
      handleDeleteLoop env ns retryInterval fuel r c =
        .ok ({ c with trace := c.trace ++ drainTrace env.operatorNamespace retryInterval (k + 1) },
          none) := by
  intro k
  induction k with
  | zero =>
    intro fuel r c hfuel _ _ hlast
    obtain ⟨items, hitems, hnone⟩ := hlast
    obtain ⟨f, rfl⟩ : ∃ f, fuel = f + 1 := ⟨fuel - 1, by omega⟩
    simp only [Nat.add_zero] at hitems
    simp [handleDeleteLoop, hitems, hnone, drainTrace, emit_eq]
  | succ k ih =>
    intro fuel r c hfuel hbound hbusy hlast
    obtain ⟨f, rfl⟩ : ∃ f, fuel = f + 1 := ⟨fuel - 1, by omega⟩
    obtain ⟨items, hitems, hsome⟩ := hbusy r (Nat.le_refl r) (by omega)
    have hne : ¬ (r + 1 = clusterDeleteMaxRetries) := by omega
    have hlast1 : ∃ items, env.listVolumeAttachments (r + 1 + k) = .ok items ∧
        attachmentsExist items ns = false := by
      have : r + 1 + k = r + (k + 1) := by omega
      rw [this]; exact hlast
    have hrec := ih f (r + 1)
      (emit (emit c (.listVolumeAttachments env.operatorNamespace)) (.sleep retryInterval))
      (by omega) (by omega) (fun i h1 h2 => hbusy i (by omega) (by omega)) hlast1
    simp only [handleDeleteLoop, hitems, hsome, hne, Bool.not_true, Bool.false_eq_true,
      if_false, hrec]
    simp [drainTrace, emit_eq]

/-- The drain that finds an attachment in every listing from `r` on stops when
the retry count reaches clusterDeleteMaxRetries, and succeeds. -/
theorem handleDeleteLoop_exhausted (env : Env) (ns : String) (retryInterval : Nat) :
    ∀ (m fuel r : Nat) (c : ClusterController), m < fuel →
      r + m + 1 = clusterDeleteMaxRetries →
      (∀ i, r ≤ i → i < clusterDeleteMaxRetries →
        ∃ items, env.listVolumeAttachments i = .ok items ∧ attachmentsExist items ns = true) →
      handleDeleteLoop env ns retryInterval fuel r c =
        .ok ({ c with trace := c.trace ++ drainTrace env.operatorNamespace retryInterval (m + 1) },
          none) := by
  intro m
  induction m with
  | zero =>
    intro fuel r c hfuel hbound hbusy
    obtain ⟨f, rfl⟩ : ∃ f, fuel = f + 1 := ⟨fuel - 1, by omega⟩
    obtain ⟨items, hitems, hsome⟩ := hbusy r (Nat.le_refl r) (by omega)
    have hlast : r + 1 = clusterDeleteMaxRetries := by omega
    simp [handleDeleteLoop, hitems, hsome, hlast, drainTrace, emit_eq]
  | succ m ih =>
    intro fuel r c hfuel hbound hbusy
    obtain ⟨f, rfl⟩ : ∃ f, fuel = f + 1 := ⟨fuel - 1, by omega⟩
    obtain ⟨items, hitems, hsome⟩ := hbusy r (Nat.le_refl r) (by omega)
    have hne : ¬ (r + 1 = clusterDeleteMaxRetries) := by omega
    have hrec := ih f (r + 1)
      (emit (emit c (.listVolumeAttachments env.operatorNamespace)) (.sleep retryInterval))
      (by omega) (by omega) (fun i h1 h2 => hbusy i (by omega) h2)
    simp only [handleDeleteLoop, hitems, hsome, hne, Bool.not_true, Bool.false_eq_true,
      if_false, hrec]
    simp [drainTrace, emit_eq]

theorem listings_append (a b : List Event) : listings (a ++ b) = listings a + listings b := by
  simp [listings]

theorem sleeps_append (a b : List Event) : sleeps (a ++ b) = sleeps a + sleeps b := by
  simp [sleeps]

theorem listings_drainTrace (ns : String) (t : Nat) :
    ∀ n, listings (drainTrace ns t n) = n
  | 0 => rfl
  | 1 => rfl
  | n + 2 => by
    have ih := listings_drainTrace ns t (n + 1)
    simp only [listings] at ih
    simp [drainTrace, listings, Event.isListing, ih]

theorem sleeps_drainTrace (ns : String) (t : Nat) :
    ∀ n, sleeps (drainTrace ns t (n + 1)) = n
  | 0 => rfl
  | n + 1 => by
    have ih := sleeps_drainTrace ns t n
    simp only [sleeps] at ih
    simp [drainTrace, sleeps, Event.isSleep, ih]

theorem mapGet_mapDelete_self (m : List (String × Cluster)) (k : String) :
    mapGet (mapDelete m k) k = none := by
  induction m with
  | nil => rfl
  | cons e rest ih =>
    obtain ⟨k1, v⟩ := e
    by_cases h : k1 = k
    · simpa [mapDelete, h] using ih
    · simpa [mapDelete, h, mapGet] using ih

/-- C1: an add event for a namespace that is already in the registry changes
nothing: onAdd returns the controller as it was, so the registry with the
existing entry of that namespace is unchanged (nothing inserted or replaced)
and the trace is unchanged (no status write, no version probe, no creation:
no initialization step was taken for the new resource). -/
theorem onAdd_registered_namespace_is_rejected (env : Env) (fuel : Nat) (c : ClusterController)
    (clusterObj : CephCluster) (existing : Cluster)
    (hreg : mapGet c.clusterMap clusterObj.Namespace = some existing) :
    onAdd env fuel c (.cephCluster clusterObj) = .ok c := by
  simp [onAdd, getClusterObject, hreg]

/-- The theorem above for a second resource in the namespace of a running cluster. -/
theorem onAdd_registered_namespace_is_rejected_witness :
    onAdd quietEnv 5 oneClusterController
        (.cephCluster (sampleResource "rook-ceph" "second-cluster" true)) =
      .ok oneClusterController :=
  onAdd_registered_namespace_is_rejected quietEnv 5 oneClusterController
    (sampleResource "rook-ceph" "second-cluster" true)
    (sampleCluster "rook-ceph" "my-cluster" false 0) (by decide)

/-- C4: when every listing reports an attachment tagged with the namespace of
the deleted cluster, handleDelete makes exactly clusterDeleteMaxRetries (15)
listings and returns without error; onDelete then closes the stop channel of
the registered cluster and removes its entry from the registry. -/
theorem handleDelete_gives_up_after_max_retries (env : Env) (c : ClusterController)
    (clust : CephCluster) (cluster : Cluster) (retryInterval : Nat)
    (hstuck : ∀ i, ∃ items, env.listVolumeAttachments i = .ok items ∧
      ∃ vol ∈ items, ∃ a ∈ vol.Attachments, a.ClusterName = clust.Namespace)
    (hreg : mapGet c.clusterMap clust.Namespace = some cluster)
    (hname : cluster.crdName = clust.Name)
    (hopen : cluster.stopCh ∉ c.closedChs) :
    (∃ c1, handleDelete env c clust retryInterval = .ok (c1, none) ∧
      listings c1.trace = listings c.trace + clusterDeleteMaxRetries ∧
      clusterDeleteMaxRetries = 15) ∧
    (∃ c2, onDelete env c (.cephCluster clust) = .ok c2 ∧
      listings c2.trace = listings c.trace + clusterDeleteMaxRetries ∧
      Event.closeStopCh cluster.stopCh ∈ c2.trace ∧
      cluster.stopCh ∈ c2.closedChs ∧
      mapGet c2.clusterMap clust.Namespace = none) := by
  have hbusy : ∀ i, 0 ≤ i → i < clusterDeleteMaxRetries →
      ∃ items, env.listVolumeAttachments i = .ok items ∧
      attachmentsExist items clust.Namespace = true := by
    intro i _ _
    obtain ⟨items, hitems, hex⟩ := hstuck i
    exact ⟨items, hitems, attachmentsExist_eq_true hex⟩
  have hrun : ∀ t, handleDelete env c clust t =
      .ok ({ c with trace := c.trace ++ drainTrace env.operatorNamespace t 15 }, none) := by
    intro t
    exact handleDeleteLoop_exhausted env clust.Namespace t 14 clusterDeleteMaxRetries 0 c
      (by decide) (by decide) hbusy
  refine ⟨⟨_, hrun retryInterval, ?_, rfl⟩, ?_⟩
  · simp [listings_append, listings_drainTrace, clusterDeleteMaxRetries]
  · have hother : otherClusterRegistered c clust = false := by
      simp [otherClusterRegistered, hreg, hname]
    have hdel : onDelete env c (.cephCluster clust) = .ok
        { c with
          devicesInUse := if clust.Spec.Storage.AnyUseAllDevices then false else c.devicesInUse
          trace := c.trace ++ drainTrace env.operatorNamespace clusterDeleteRetryInterval 15
            ++ [.closeStopCh cluster.stopCh]
          closedChs := cluster.stopCh :: c.closedChs
          clusterMap := mapDelete c.clusterMap clust.Namespace } := by
      simp only [onDelete, getClusterObject, hother, hrun, Run.bind, hreg, closeStopCh, hopen,
        if_false, Bool.false_eq_true]
      by_cases hall : clust.Spec.Storage.AnyUseAllDevices = true
      · simp only [hall, if_true]
        rfl
      · simp only [hall, if_false]
        rfl
    refine ⟨_, hdel, ?_, ?_, ?_, ?_⟩
    · show listings (c.trace ++ drainTrace env.operatorNamespace clusterDeleteRetryInterval 15
        ++ [.closeStopCh cluster.stopCh]) = listings c.trace + clusterDeleteMaxRetries
      rw [listings_append, listings_append, listings_drainTrace]
      rfl
    · simp
    · simp
    · simp [mapGet_mapDelete_self]

/-- The theorem above for a volume that stays attached in the namespace of a running cluster. -/
theorem handleDelete_gives_up_after_max_retries_witness :
    (∃ c1, handleDelete (stuckEnv "rook-ceph") oneClusterController
        (sampleResource "rook-ceph" "my-cluster" false) 2 = .ok (c1, none) ∧
      listings c1.trace = listings oneClusterController.trace + clusterDeleteMaxRetries ∧
      clusterDeleteMaxRetries = 15) ∧
    (∃ c2, onDelete (stuckEnv "rook-ceph") oneClusterController
        (.cephCluster (sampleResource "rook-ceph" "my-cluster" false)) = .ok c2 ∧
      listings c2.trace = listings oneClusterController.trace + clusterDeleteMaxRetries ∧
      Event.closeStopCh (sampleCluster "rook-ceph" "my-cluster" false 0).stopCh ∈ c2.trace ∧
      (sampleCluster "rook-ceph" "my-cluster" false 0).stopCh ∈ c2.closedChs ∧
      mapGet c2.clusterMap (sampleResource "rook-ceph" "my-cluster" false).Namespace = none) :=
  handleDelete_gives_up_after_max_retries (stuckEnv "rook-ceph") oneClusterController
    (sampleResource "rook-ceph" "my-cluster" false)
    (sampleCluster "rook-ceph" "my-cluster" false 0) 2
    (fun _ => ⟨[attachedVolume "rook-ceph"], rfl, attachedVolume "rook-ceph",
      List.mem_singleton.mpr rfl, { ClusterName := "rook-ceph" }, List.mem_singleton.mpr rfl, rfl⟩)
    (by decide) rfl (by decide)

/-- C5: handleDelete filters the attachments by their cluster tag.  Let
listing `k` be the first that contains no attachment tagged with the namespace
of the deleted cluster (the listings before it each contain one), whatever
attachments of other namespaces it holds.  Then handleDelete returns success
and polls no further than that listing: it makes min (k + 1, 15) listings,
with a wait between two listings, so for `k < clusterDeleteMaxRetries` listing
`k` is its last one.  For `k = 0` this is exactly one listing and no wait. -/
theorem handleDelete_stops_at_first_clean_listing (env : Env) (c : ClusterController)
    (clust : CephCluster) (retryInterval k : Nat) (items : List Volume)
    (hbusy : ∀ i, i < k → ∃ vols, env.listVolumeAttachments i = .ok vols ∧
      ∃ vol ∈ vols, ∃ a ∈ vol.Attachments, a.ClusterName = clust.Namespace)
    (hlist : env.listVolumeAttachments k = .ok items)
    (hclean : ∀ vol ∈ items, ∀ a ∈ vol.Attachments, a.ClusterName ≠ clust.Namespace) :
    ∃ c1, handleDelete env c clust retryInterval = .ok (c1, none) ∧
      c1.trace = c.trace ++ drainTrace env.operatorNamespace retryInterval
        (min (k + 1) clusterDeleteMaxRetries) ∧
      listings c1.trace = listings c.trace + min (k + 1) clusterDeleteMaxRetries ∧
      sleeps c1.trace = sleeps c.trace + min k (clusterDeleteMaxRetries - 1) := by
  have hbusy1 : ∀ i, i < k → ∃ vols, env.listVolumeAttachments i = .ok vols ∧
      attachmentsExist vols clust.Namespace = true := by
    intro i hi
    obtain ⟨vols, hvols, hex⟩ := hbusy i hi
    exact ⟨vols, hvols, attachmentsExist_eq_true hex⟩
  by_cases hk : k < clusterDeleteMaxRetries
  · have hrun := handleDeleteLoop_drained env clust.Namespace retryInterval k
      clusterDeleteMaxRetries 0 c hk (by omega) (fun i _ h2 => hbusy1 i (by omega))
      ⟨items, by simpa using hlist, attachmentsExist_eq_false hclean⟩
    have hmin : min (k + 1) clusterDeleteMaxRetries = k + 1 := by omega
    have hmin1 : min k (clusterDeleteMaxRetries - 1) = k := by omega
    rw [hmin, hmin1]
    refine ⟨_, hrun, rfl, ?_, ?_⟩
    · show listings (c.trace ++ drainTrace env.operatorNamespace retryInterval (k + 1)) = _
      rw [listings_append, listings_drainTrace]
    · show sleeps (c.trace ++ drainTrace env.operatorNamespace retryInterval (k + 1)) = _
      rw [sleeps_append, sleeps_drainTrace]
  · have hrun := handleDeleteLoop_exhausted env clust.Namespace retryInterval 14
      clusterDeleteMaxRetries 0 c (by decide) (by decide) (fun i _ h2 => hbusy1 i (by omega))
    have hmin : min (k + 1) clusterDeleteMaxRetries = 14 + 1 := by
      have : clusterDeleteMaxRetries = 15 := rfl
      omega
    have hmin1 : min k (clusterDeleteMaxRetries - 1) = 14 := by
      have : clusterDeleteMaxRetries = 15 := rfl
      omega
    rw [hmin, hmin1]
    refine ⟨_, hrun, rfl, ?_, ?_⟩
    · show listings (c.trace ++ drainTrace env.operatorNamespace retryInterval (14 + 1)) = _
      rw [listings_append, listings_drainTrace]
    · show sleeps (c.trace ++ drainTrace env.operatorNamespace retryInterval (14 + 1)) = _
      rw [sleeps_append, sleeps_drainTrace]

/-- The theorem above at a first listing that holds attachments of two other
namespaces only: one listing, no wait. -/
theorem handleDelete_stops_at_first_clean_listing_witness :
    ∃ c1, handleDelete foreignEnv oneClusterController
        (sampleResource "rook-ceph" "my-cluster" false) 2 = .ok (c1, none) ∧
      c1.trace = oneClusterController.trace ++ drainTrace foreignEnv.operatorNamespace 2
        (min (0 + 1) clusterDeleteMaxRetries) ∧
      listings c1.trace = listings oneClusterController.trace +
        min (0 + 1) clusterDeleteMaxRetries ∧
      sleeps c1.trace = sleeps oneClusterController.trace +
        min 0 (clusterDeleteMaxRetries - 1) :=
  handleDelete_stops_at_first_clean_listing foreignEnv oneClusterController
    (sampleResource "rook-ceph" "my-cluster" false) 2 0
    [attachedVolume "team-a", attachedVolume "team-b"] (fun _ h => absurd h (by omega))
    rfl (by decide)

/-- C6: detectAndValidateCephVersion classifies its failures.  It returns an
error flagged retryable exactly when the probe of the image fails (the error
is the probe's), an error flagged non-retryable exactly when the probe
succeeds and validation rejects the probed version (the error is the
validation's), and a version with no error exactly when both succeed (the
version is the probed one). -/
theorem detectAndValidateCephVersion_classifies (detect : Except String CephVersion)
    (validate : CephVersion → Option String) :
    (∀ e, ((detectAndValidateCephVersion detect validate).err = some e ∧
        (detectAndValidateCephVersion detect validate).canRetry = true) ↔ detect = .error e) ∧
    (∀ e, ((detectAndValidateCephVersion detect validate).err = some e ∧
        (detectAndValidateCephVersion detect validate).canRetry = false) ↔
      ∃ v, detect = .ok v ∧ validate v = some e) ∧
    (∀ v, ((detectAndValidateCephVersion detect validate).version = some v ∧
        (detectAndValidateCephVersion detect validate).err = none) ↔
      (detect = .ok v ∧ validate v = none)) ∧
    ((detectAndValidateCephVersion detect validate).err = none ↔
      ∃ v, (detectAndValidateCephVersion detect validate).version = some v) := by
  cases detect with
  | error e0 => simp [detectAndValidateCephVersion]
  | ok v0 =>
    cases hv : validate v0 with
    | none =>
      simp only [detectAndValidateCephVersion, hv]
      refine ⟨?_, ?_, ?_, ?_⟩
      · intro e; simp
      · intro e; simp [hv]
      · intro v
        constructor
        · rintro ⟨h1, _⟩
          have h2 : v0 = v := Option.some.inj h1
          subst h2
          exact ⟨rfl, hv⟩
        · rintro ⟨h1, _⟩
          have h2 : v0 = v := Except.ok.inj h1
          subst h2
          exact ⟨rfl, trivial⟩
      · simp
    | some e1 =>
      simp only [detectAndValidateCephVersion, hv]
      refine ⟨?_, ?_, ?_, ?_⟩
      · intro e; simp
      · intro e
        constructor
        · rintro ⟨h1, _⟩
          have h2 : e1 = e := Option.some.inj h1
          subst h2
          exact ⟨v0, rfl, hv⟩
        · rintro ⟨v, h1, h2⟩
          have h3 : v0 = v := Except.ok.inj h1
          subst h3
          rw [hv] at h2
          exact ⟨h2, trivial⟩
      · intro v
        constructor
        · rintro ⟨h1, _⟩
          exact absurd h1 (by simp)
        · rintro ⟨h1, h2⟩
          have h3 : v0 = v := Except.ok.inj h1
          subst h3
          rw [hv] at h2
          exact absurd h2 (by simp)
      · simp

/-! ### The creation poll -/

theorem attemptRetries_not_succeeds {env : Env} {j : Nat} (h : attemptRetries env j) :
    ¬ attemptSucceeds env j := by
  rintro ⟨v, hd, hv, hc⟩
  rcases h with ⟨e, he⟩ | ⟨v1, e, hd1, _, hc1⟩
  · rw [hd] at he; cases he
  · rw [hc] at hc1; cases hc1

theorem attemptRejected_not_retries {env : Env} {j : Nat} {e : String}
    (h : attemptRejected env j e) : ¬ attemptRetries env j := by
  obtain ⟨v, hd, hv⟩ := h
  rintro (⟨e1, he⟩ | ⟨v1, e1, hd1, hv1, _⟩)
  · rw [hd] at he; cases he
  · rw [hd] at hd1
    cases hd1
    rw [hv] at hv1; cases hv1

theorem attemptRejected_not_succeeds {env : Env} {j : Nat} {e : String}
    (h : attemptRejected env j e) : ¬ attemptSucceeds env j := by
  obtain ⟨v, hd, hv⟩ := h
  rintro ⟨v1, hd1, hv1, _⟩
  rw [hd] at hd1
  cases hd1
  rw [hv] at hv1; cases hv1

theorem attemptSucceeds_not_retries {env : Env} {j : Nat} (h : attemptSucceeds env j) :
    ¬ attemptRetries env j := fun hr => attemptRetries_not_succeeds hr h

/-- What one evaluation of the condition of the creation poll does, by the
answers of the outside world. -/
theorem createClusterAttempt_cases (env : Env) (clusterObj : CephCluster) (i : Nat)
    (s : CreatePoll) :
    ∃ done s1, createClusterAttempt env clusterObj i s = .ok ((done, none), s1) ∧
      s1.c = addTrace s.c
        (attemptTrace env clusterObj s.cluster.Spec.CephVersion.Image s.cluster.Namespace i) ∧
      sameIdentity s1.cluster s.cluster ∧
      ((done = false ∧ attemptRetries env i ∧ s1.state = s.state ∧
          attemptFailsWith env s.cluster.Namespace i s1.failedMessage) ∨
       (done = true ∧ attemptSucceeds env i ∧ s1.state = .Created ∧ s1.failedMessage = "") ∨
       (done = true ∧ (∃ e, attemptRejected env i e) ∧ s1.state = s.state ∧
          attemptFailsWith env s.cluster.Namespace i s1.failedMessage)) := by
  cases hd : env.detectCephVersion i with
  | error e =>
    refine ⟨false,
      { s with c := emit s.c (.detectCephVersion s.cluster.Spec.CephVersion.Image),
               failedMessage := "failed the ceph version check. " ++ e },
      ?_, ?_, ?_, Or.inl ⟨rfl, Or.inl ⟨e, hd⟩, rfl, Or.inl ⟨e, hd, rfl⟩⟩⟩
    · simp [createClusterAttempt, detectAndValidateCephVersion, hd]
    · simp [attemptTrace, detectAndValidateCephVersion, hd, emit_eq, addTrace]
    · exact ⟨rfl, rfl, rfl, rfl, rfl⟩
  | ok v =>
    cases hv : env.validateCephVersion i v with
    | some e =>
      refine ⟨true,
        { s with c := emit s.c (.detectCephVersion s.cluster.Spec.CephVersion.Image),
                 failedMessage := "failed the ceph version check. " ++ e },
        ?_, ?_, ?_,
        Or.inr (Or.inr ⟨rfl, ⟨e, v, hd, hv⟩, rfl, Or.inr (Or.inl ⟨e, ⟨v, hd, hv⟩, rfl⟩)⟩)⟩
      · simp [createClusterAttempt, detectAndValidateCephVersion, hd, hv]
      · simp [attemptTrace, detectAndValidateCephVersion, hd, hv, emit_eq, addTrace]
      · exact ⟨rfl, rfl, rfl, rfl, rfl⟩
    | none =>
      cases hc : (env.createInstance i).err with
      | some e =>
        refine ⟨false,
          { c := emit (updateClusterStatus
                (emit s.c (.detectCephVersion s.cluster.Spec.CephVersion.Image))
                clusterObj.Namespace clusterObj.Name .Creating "")
              (.createInstance s.cluster.Namespace v),
            cluster := { s.cluster with Info := (env.createInstance i).Info,
                                        initCompleted := (env.createInstance i).initCompleted },
            failedMessage := "failed to create cluster in namespace " ++ s.cluster.Namespace
              ++ ". " ++ e,
            state := s.state },
          ?_, ?_, ?_,
          Or.inl ⟨rfl, Or.inr ⟨v, e, hd, hv, hc⟩, rfl, Or.inr (Or.inr ⟨v, e, hd, hv, hc, rfl⟩)⟩⟩
        · simp [createClusterAttempt, detectAndValidateCephVersion, hd, hv, hc]
        · simp [attemptTrace, detectAndValidateCephVersion, hd, hv, emit_eq, updateClusterStatus,
            addTrace]
        · exact ⟨rfl, rfl, rfl, rfl, rfl⟩
      | none =>
        refine ⟨true,
          { c := emit (updateClusterStatus
                (emit s.c (.detectCephVersion s.cluster.Spec.CephVersion.Image))
                clusterObj.Namespace clusterObj.Name .Creating "")
              (.createInstance s.cluster.Namespace v),
            cluster := { s.cluster with Info := (env.createInstance i).Info,
                                        initCompleted := (env.createInstance i).initCompleted },
            failedMessage := "",
            state := .Created },
          ?_, ?_, ?_, Or.inr (Or.inl ⟨rfl, ⟨v, hd, hv, hc⟩, rfl, rfl⟩)⟩
        · simp [createClusterAttempt, detectAndValidateCephVersion, hd, hv, hc]
        · simp [attemptTrace, detectAndValidateCephVersion, hd, hv, emit_eq, updateClusterStatus,
            addTrace]
        · exact ⟨rfl, rfl, rfl, rfl, rfl⟩

theorem addTrace_addTrace (c : ClusterController) (a b : List Event) :
    addTrace (addTrace c a) b = addTrace c (a ++ b) := by
  simp [addTrace]

@[simp]
theorem addTrace_trace (c : ClusterController) (a : List Event) :
    (addTrace c a).trace = c.trace ++ a := rfl

@[simp]
theorem addTrace_clusterMap (c : ClusterController) (a : List Event) :
    (addTrace c a).clusterMap = c.clusterMap := rfl

@[simp]
theorem addTrace_devicesInUse (c : ClusterController) (a : List Event) :
    (addTrace c a).devicesInUse = c.devicesInUse := rfl

@[simp]
theorem addTrace_closedChs (c : ClusterController) (a : List Event) :
    (addTrace c a).closedChs = c.closedChs := rfl

theorem sameIdentity_trans {a b c : Cluster} (h1 : sameIdentity a b) (h2 : sameIdentity b c) :
    sameIdentity a c := by
  obtain ⟨p1, p2, p3, p4, p5⟩ := h1
  obtain ⟨q1, q2, q3, q4, q5⟩ := h2
  exact ⟨p1.trans q1, p2.trans q2, p3.trans q3, p4.trans q4, p5.trans q5⟩

theorem pollTrace_succ (env : Env) (clusterObj : CephCluster) (image ns : String) (n i : Nat) :
    pollTrace env clusterObj image ns (n + 1) i =
      attemptTrace env clusterObj image ns i ++ pollTrace env clusterObj image ns n (i + 1) := rfl

/-- The creation poll, from attempt `i` with `t` ticks left: it returns, its
last attempt `L` is the first one that does not ask for a retry or else the one
made when the timeout strikes, and state and message are those of attempt `L`. -/
theorem createPoll_run (env : Env) (clusterObj : CephCluster) :
    ∀ (t i : Nat) (s : CreatePoll), ∃ L err s1,
      pollLoop (createClusterAttempt env clusterObj) t i s = .ok (err, s1) ∧
      i ≤ L ∧ L ≤ i + t ∧
      (∀ j, i ≤ j → j < L → attemptRetries env j) ∧
      s1.c = addTrace s.c (pollTrace env clusterObj s.cluster.Spec.CephVersion.Image
        s.cluster.Namespace (L + 1 - i) i) ∧
      sameIdentity s1.cluster s.cluster ∧
      ((attemptSucceeds env L ∧ s1.state = .Created ∧ s1.failedMessage = "") ∨
       ((∃ e, attemptRejected env L e) ∧ s1.state = s.state ∧
          attemptFailsWith env s.cluster.Namespace L s1.failedMessage) ∨
       (L = i + t ∧ attemptRetries env L ∧ s1.state = s.state ∧
          attemptFailsWith env s.cluster.Namespace L s1.failedMessage)) := by
  intro t
  induction t with
  | zero =>
    intro i s
    obtain ⟨done, s1, hrun, htr, hid, hcase⟩ := createClusterAttempt_cases env clusterObj i s
    have h1 : i + 1 - i = 1 := by omega
    rcases hcase with ⟨hdone, hretry, hst, hmsg⟩ | ⟨hdone, hsucc, hst, hmsg⟩ |
      ⟨hdone, hrej, hst, hmsg⟩
    · subst hdone
      refine ⟨i, some ErrWaitTimeout, s1, ?_, le_refl i, by omega, fun j h1 h2 => by omega, ?_,
        hid, Or.inr (Or.inr ⟨rfl, hretry, hst, hmsg⟩)⟩
      · simp [pollLoop, hrun, Run.bind]
      · rw [htr, h1]; simp [pollTrace]
    · subst hdone
      refine ⟨i, none, s1, ?_, le_refl i, by omega, fun j h1 h2 => by omega, ?_,
        hid, Or.inl ⟨hsucc, hst, hmsg⟩⟩
      · simp [pollLoop, hrun, Run.bind]
      · rw [htr, h1]; simp [pollTrace]
    · subst hdone
      refine ⟨i, none, s1, ?_, le_refl i, by omega, fun j h1 h2 => by omega, ?_,
        hid, Or.inr (Or.inl ⟨hrej, hst, hmsg⟩)⟩
      · simp [pollLoop, hrun, Run.bind]
      · rw [htr, h1]; simp [pollTrace]
  | succ t ih =>
    intro i s
    obtain ⟨done, s1, hrun, htr, hid, hcase⟩ := createClusterAttempt_cases env clusterObj i s
    have h1 : i + 1 - i = 1 := by omega
    rcases hcase with ⟨hdone, hretry, hst, hmsg⟩ | ⟨hdone, hsucc, hst, hmsg⟩ |
      ⟨hdone, hrej, hst, hmsg⟩
    · subst hdone
      obtain ⟨L, err, s2, hrun2, hle, hub, hbefore, htr2, hid2, hcase2⟩ := ih (i + 1) s1
      obtain ⟨hns, _, hspec, _, _⟩ := hid
      rw [hns, hspec] at htr2
      rw [hns, hst] at hcase2
      refine ⟨L, err, s2, ?_, by omega, by omega, ?_, ?_, sameIdentity_trans hid2
        ⟨hns, ‹_›, hspec, ‹_›, ‹_›⟩, ?_⟩
      · simp [pollLoop, hrun, Run.bind, hrun2]
      · intro j hj1 hj2
        by_cases hji : j = i
        · subst hji; exact hretry
        · exact hbefore j (by omega) hj2
      · have h2 : L + 1 - i = (L + 1 - (i + 1)) + 1 := by omega
        rw [htr2, htr, addTrace_addTrace, h2, pollTrace_succ]
      · rcases hcase2 with h | h | ⟨hL, h⟩
        · exact Or.inl h
        · exact Or.inr (Or.inl h)
        · exact Or.inr (Or.inr ⟨by omega, h⟩)
    · subst hdone
      refine ⟨i, none, s1, ?_, le_refl i, by omega, fun j h1 h2 => by omega, ?_,
        hid, Or.inl ⟨hsucc, hst, hmsg⟩⟩
      · simp [pollLoop, hrun, Run.bind]
      · rw [htr, h1]; simp [pollTrace]
    · subst hdone
      refine ⟨i, none, s1, ?_, le_refl i, by omega, fun j h1 h2 => by omega, ?_,
        hid, Or.inr (Or.inl ⟨hrej, hst, hmsg⟩)⟩
      · simp [pollLoop, hrun, Run.bind]
      · rw [htr, h1]; simp [pollTrace]

@[simp]
theorem storeCluster_trace (c : ClusterController) (key : String) (cl : Cluster) :
    (storeCluster c key cl).trace = c.trace := rfl

@[simp]
theorem storeCluster_devicesInUse (c : ClusterController) (key : String) (cl : Cluster) :
    (storeCluster c key cl).devicesInUse = c.devicesInUse := rfl

@[simp]
theorem storeCluster_closedChs (c : ClusterController) (key : String) (cl : Cluster) :
    (storeCluster c key cl).closedChs = c.closedChs := rfl

@[simp]
theorem applyMonDefault_image (env : Env) (spec : ClusterSpec) :
    (applyMonDefault env spec).CephVersion.Image = spec.CephVersion.Image := by
  unfold applyMonDefault
  split <;> rfl

@[simp]
theorem applyMonDefault_external (env : Env) (spec : ClusterSpec) :
    (applyMonDefault env spec).External = spec.External := by
  unfold applyMonDefault
  split <;> rfl

@[simp]
theorem applyMonDefault_storage (env : Env) (spec : ClusterSpec) :
    (applyMonDefault env spec).Storage = spec.Storage := by
  unfold applyMonDefault
  split <;> rfl

/-- When the creation poll is reached, initializeCluster is its second part
run on the cluster with the defaulted spec and the loaded info. -/
theorem initializeCluster_reaches_poll (env : Env) (fuel : Nat) (c : ClusterController)
    (key : String) (cluster : Cluster) (clusterObj : CephCluster) (hreach : pollReached env) :
    ∃ cl, cl.Namespace = cluster.Namespace ∧ cl.crdName = cluster.crdName ∧
      cl.Spec = applyMonDefault env clusterObj.Spec ∧ cl.stopCh = cluster.stopCh ∧
      initializeCluster env fuel c key cluster clusterObj =
        initializeClusterPoll env fuel (addTrace c (initTrace env cluster.Namespace)) key cl
          clusterObj := by
  cases hload : env.loadClusterInfo with
  | error e =>
    refine ⟨{ cluster with Spec := applyMonDefault env clusterObj.Spec, Info := none },
      rfl, rfl, rfl, rfl, ?_⟩
    simp [initializeCluster, hload, initTrace, emit_eq, addTrace]
  | ok info =>
    have hw : env.writeConnectionConfig = none := by
      rcases hreach with ⟨e, he⟩ | h
      · rw [hload] at he; cases he
      · exact h
    refine ⟨{ cluster with Spec := applyMonDefault env clusterObj.Spec, Info := some info },
      rfl, rfl, rfl, rfl, ?_⟩
    simp [initializeCluster, hload, hw, initTrace, emit_eq, addTrace]

/-- The second part of initializeCluster when the creation poll ends in Error:
the status is written and the handler returns. -/
theorem initializeClusterPoll_of_error (env : Env) (fuel : Nat) (c : ClusterController)
    (key : String) (cluster : Cluster) (clusterObj : CephCluster) (err : Option String)
    (s1 : CreatePoll)
    (hrun : pollLoop (createClusterAttempt env clusterObj) env.createTicks 0
      { c := c, cluster := cluster, failedMessage := "", state := .Error } = .ok (err, s1))
    (hst : s1.state = .Error) :
    initializeClusterPoll env fuel c key cluster clusterObj =
      .ok (storeCluster (updateClusterStatus s1.c clusterObj.Namespace clusterObj.Name .Error
        s1.failedMessage) key s1.cluster) := by
  simp [initializeClusterPoll, hrun, Run.bind, hst]

theorem attemptRejected_message {env : Env} {ns : String} {i : Nat} {e msg : String}
    (hrej : attemptRejected env i e) (hmsg : attemptFailsWith env ns i msg) :
    msg = "failed the ceph version check. " ++ e := by
  obtain ⟨v, hd, hv⟩ := hrej
  rcases hmsg with ⟨e1, hd1, _⟩ | ⟨e1, ⟨v1, hd1, hv1⟩, h⟩ | ⟨v1, e1, hd1, hv1, _, _⟩
  · rw [hd] at hd1; cases hd1
  · rw [hd] at hd1
    cases hd1
    rw [hv] at hv1
    cases hv1
    exact h
  · rw [hd] at hd1
    cases hd1
    rw [hv] at hv1; cases hv1

theorem append_ne_empty_of_left (a b : String) (h : a.length ≠ 0) : a ++ b ≠ "" := by
  intro hab
  have := congrArg String.length hab
  simp [String.length_append] at this
  exact h this.1

theorem pollTrace_no_start (env : Env) (clusterObj : CephCluster) (image ns : String) :
    ∀ (n i : Nat) (ev : Event), ev ∈ pollTrace env clusterObj image ns n i → ev.isStart = false := by
  intro n
  induction n with
  | zero => intro i ev h; simp [pollTrace] at h
  | succ n ih =>
    intro i ev h
    rw [pollTrace_succ, List.mem_append] at h
    rcases h with h | h
    · unfold attemptTrace at h
      split at h
      · simp at h
        rcases h with h | h | h <;> subst h <;> rfl
      · simp at h
        subst h; rfl
    · exact ih (i + 1) ev h

theorem initTrace_no_start (env : Env) (ns : String) (ev : Event) (h : ev ∈ initTrace env ns) :
    ev.isStart = false := by
  unfold initTrace at h
  split at h
  · simp at h
    rcases h with h | h <;> subst h <;> rfl
  · simp at h
    subst h; rfl

theorem creations_append (a b : List Event) : creations (a ++ b) = creations a + creations b := by
  simp [creations]

theorem creations_initTrace (env : Env) (ns : String) : creations (initTrace env ns) = 0 := by
  unfold initTrace
  split <;> rfl

/-- C7: when attempt `i` of the creation poll of initializeCluster is made
(the poll is reached, `i` is within its ticks and the attempts before it asked
for a retry) and its version check fails with a non-retryable error `e`, the
poll ends there without success.  initializeCluster returns; after the effects
of the attempts before `i` its trace holds just the probe of attempt `i` and
the write of status Error with the non-empty message of that failure.  So the
creation routine runs neither in attempt `i` nor later, and no sub-controller
or health loop is started. -/
theorem initializeCluster_rejected_version_ends_poll (env : Env) (fuel : Nat)
    (c : ClusterController) (key : String) (cluster : Cluster) (clusterObj : CephCluster)
    (i : Nat) (e : String)
    (hreach : pollReached env)
    (hi : i ≤ env.createTicks)
    (hbefore : ∀ j, j < i → attemptRetries env j)
    (hrej : attemptRejected env i e) :
    ∃ c1, initializeCluster env fuel c key cluster clusterObj = .ok c1 ∧
      c1.trace = c.trace ++ initTrace env cluster.Namespace ++
        pollTrace env clusterObj clusterObj.Spec.CephVersion.Image cluster.Namespace i 0 ++
        [.detectCephVersion clusterObj.Spec.CephVersion.Image,
         .updateClusterStatus clusterObj.Namespace clusterObj.Name .Error
           ("failed the ceph version check. " ++ e)] ∧
      "failed the ceph version check. " ++ e ≠ "" ∧
      creations c1.trace = creations c.trace +
        creations (pollTrace env clusterObj clusterObj.Spec.CephVersion.Image
          cluster.Namespace i 0) ∧
      (∀ ev ∈ c1.trace, ev.isStart = true → ev ∈ c.trace) := by
  obtain ⟨cl, hns, _, hspec, _, hinit⟩ :=
    initializeCluster_reaches_poll env fuel c key cluster clusterObj hreach
  obtain ⟨L, err, s1, hrun, _, hub, hretr, htr, hid, hcase⟩ :=
    createPoll_run env clusterObj env.createTicks 0
      { c := addTrace c (initTrace env cluster.Namespace), cluster := cl, failedMessage := "",
        state := .Error }
  have hL : L = i := by
    rcases Nat.lt_trichotomy L i with h | h | h
    · exfalso
      have hr := hbefore L h
      rcases hcase with ⟨hs, _⟩ | ⟨⟨e1, hr1⟩, _⟩ | ⟨hLt, _⟩
      · exact attemptRetries_not_succeeds hr hs
      · exact attemptRejected_not_retries hr1 hr
      · omega
    · exact h
    · exact absurd (hretr i (Nat.zero_le i) h) (attemptRejected_not_retries hrej)
  subst hL
  have hstate : s1.state = .Error ∧
      s1.failedMessage = "failed the ceph version check. " ++ e := by
    rcases hcase with ⟨hs, _⟩ | ⟨_, hst, hmsg⟩ | ⟨_, hr, _⟩
    · exact absurd hs (attemptRejected_not_succeeds hrej)
    · exact ⟨hst, attemptRejected_message hrej hmsg⟩
    · exact absurd hr (attemptRejected_not_retries hrej)
  have hattempt : attemptTrace env clusterObj clusterObj.Spec.CephVersion.Image
      cluster.Namespace L = [.detectCephVersion clusterObj.Spec.CephVersion.Image] := by
    obtain ⟨v, hd, hv⟩ := hrej
    simp [attemptTrace, detectAndValidateCephVersion, hd, hv]
  have hpoll : ∀ n k, pollTrace env clusterObj clusterObj.Spec.CephVersion.Image
      cluster.Namespace (n + 1) k =
      pollTrace env clusterObj clusterObj.Spec.CephVersion.Image cluster.Namespace n k ++
        attemptTrace env clusterObj clusterObj.Spec.CephVersion.Image cluster.Namespace
          (k + n) := by
    intro n
    induction n with
    | zero => intro k; simp [pollTrace]
    | succ n ih =>
      intro k
      rw [pollTrace_succ, ih (k + 1), pollTrace_succ, List.append_assoc]
      have : k + 1 + n = k + (n + 1) := by omega
      rw [this]
  have hres := initializeClusterPoll_of_error env fuel
    (addTrace c (initTrace env cluster.Namespace)) key cl clusterObj err s1 hrun hstate.1
  have htrace : (storeCluster (updateClusterStatus s1.c clusterObj.Namespace clusterObj.Name
      .Error s1.failedMessage) key s1.cluster).trace =
      c.trace ++ initTrace env cluster.Namespace ++
        pollTrace env clusterObj clusterObj.Spec.CephVersion.Image cluster.Namespace L 0 ++
        [.detectCephVersion clusterObj.Spec.CephVersion.Image,
         .updateClusterStatus clusterObj.Namespace clusterObj.Name .Error
           ("failed the ceph version check. " ++ e)] := by
    have h0 : L + 1 - 0 = L + 1 := by omega
    simp only [storeCluster_trace, updateClusterStatus, emit_trace, htr, addTrace_trace,
      hstate.2, hspec, hns, applyMonDefault_image, h0, hpoll L 0, Nat.zero_add, hattempt]
    simp
  refine ⟨_, hinit.trans hres, htrace, append_ne_empty_of_left _ _ (by decide), ?_, ?_⟩
  · rw [htrace]
    simp only [creations_append, creations_initTrace]
    simp [creations, Event.isCreate]
  · intro ev hev hstart
    rw [htrace] at hev
    simp only [List.mem_append, List.mem_cons, List.mem_singleton] at hev
    rcases hev with ((hev | hev) | hev) | hev
    · exact hev
    · rw [initTrace_no_start env _ ev hev] at hstart; cases hstart
    · rw [pollTrace_no_start env clusterObj _ _ _ _ ev hev] at hstart; cases hstart
    · rcases hev with hev | hev | hev
      · subst hev; cases hstart
      · subst hev; cases hstart
      · cases hev

/-- The theorem above when validation rejects the version in the first attempt. -/
theorem initializeCluster_rejected_version_ends_poll_witness :
    ∃ c1, initializeCluster rejectingEnv 1 (NewClusterController "rook/ceph:v1.1" false)
        "rook-ceph" (newCluster (sampleResource "rook-ceph" "my-cluster" false) 0)
        (sampleResource "rook-ceph" "my-cluster" false) = .ok c1 ∧
      c1.trace = (NewClusterController "rook/ceph:v1.1" false).trace ++
        initTrace rejectingEnv
          (newCluster (sampleResource "rook-ceph" "my-cluster" false) 0).Namespace ++
        pollTrace rejectingEnv (sampleResource "rook-ceph" "my-cluster" false)
          (sampleResource "rook-ceph" "my-cluster" false).Spec.CephVersion.Image
          (newCluster (sampleResource "rook-ceph" "my-cluster" false) 0).Namespace 0 0 ++
        [.detectCephVersion (sampleResource "rook-ceph" "my-cluster" false).Spec.CephVersion.Image,
         .updateClusterStatus (sampleResource "rook-ceph" "my-cluster" false).Namespace
           (sampleResource "rook-ceph" "my-cluster" false).Name .Error
           ("failed the ceph version check. " ++ "unsupported ceph version")] ∧
      "failed the ceph version check. " ++ "unsupported ceph version" ≠ "" ∧
      creations c1.trace = creations (NewClusterController "rook/ceph:v1.1" false).trace +
        creations (pollTrace rejectingEnv (sampleResource "rook-ceph" "my-cluster" false)
          (sampleResource "rook-ceph" "my-cluster" false).Spec.CephVersion.Image
          (newCluster (sampleResource "rook-ceph" "my-cluster" false) 0).Namespace 0 0) ∧
      (∀ ev ∈ c1.trace, ev.isStart = true →
        ev ∈ (NewClusterController "rook/ceph:v1.1" false).trace) :=
  initializeCluster_rejected_version_ends_poll rejectingEnv 1
    (NewClusterController "rook/ceph:v1.1" false) "rook-ceph"
    (newCluster (sampleResource "rook-ceph" "my-cluster" false) 0)
    (sampleResource "rook-ceph" "my-cluster" false) 0 "unsupported ceph version"
    (Or.inl ⟨"not found", rfl⟩) (Nat.zero_le _) (fun j h => absurd h (Nat.not_lt_zero j))
    ⟨sampleVersion, rfl, rfl⟩

/-- An iteration of the loop of configureExternalCephCluster that loads the
cluster info returns. -/
theorem configureExternalLoop_found (env : Env) (ns name : String) (f i : Nat)
    (c : ClusterController) (cl : Cluster) (info : ClusterInfo)
    (hinfo : env.extLoadClusterInfo i = .ok info) :
    ∃ r tr, configureExternalLoop env ns name (f + 1) i c cl = .ok r ∧ r.1 = addTrace c tr := by
  simp only [configureExternalLoop, hinfo]
  cases env.extWriteConnectionConfig with
  | some e => exact ⟨_, _, rfl, by simp [emit_eq, addTrace]; rfl⟩
  | none =>
    cases env.getCephMonVersion with
    | error e => exact ⟨_, _, rfl, by simp [emit_eq, addTrace]; rfl⟩
    | ok mv =>
      cases env.extDetectCephVersion with
      | error e => exact ⟨_, _, rfl, by simp [emit_eq, addTrace]; rfl⟩
      | ok sv =>
        by_cases hid : IsIdentical sv mv = true
        · simp only [hid, Bool.not_true, Bool.false_eq_true, if_false]
          exact ⟨_, _, rfl, by simp [emit_eq, addTrace, updateClusterStatus]; rfl⟩
        · simp only [hid, Bool.not_false, if_true]
          exact ⟨_, _, rfl, by simp [emit_eq, addTrace]; rfl⟩

/-- The loop of configureExternalCephCluster returns once the cluster info can
be loaded, given fuel for the iterations before that. -/
theorem configureExternalLoop_returns (env : Env) (ns name : String) :
    ∀ (k fuel i : Nat) (c : ClusterController) (cl : Cluster), k < fuel →
      (∃ info, env.extLoadClusterInfo (i + k) = .ok info) →
      ∃ r tr, configureExternalLoop env ns name fuel i c cl = .ok r ∧ r.1 = addTrace c tr := by
  intro k
  induction k with
  | zero =>
    intro fuel i c cl hfuel hload
    obtain ⟨info, hinfo⟩ := hload
    obtain ⟨f, rfl⟩ : ∃ f, fuel = f + 1 := ⟨fuel - 1, by omega⟩
    exact configureExternalLoop_found env ns name f i c cl info (by simpa using hinfo)
  | succ k ih =>
    intro fuel i c cl hfuel hload
    obtain ⟨f, rfl⟩ : ∃ f, fuel = f + 1 := ⟨fuel - 1, by omega⟩
    cases hi : env.extLoadClusterInfo i with
    | ok info => exact configureExternalLoop_found env ns name f i c cl info hi
    | error e =>
      have hload1 : ∃ info, env.extLoadClusterInfo (i + 1 + k) = .ok info := by
        have : i + 1 + k = i + (k + 1) := by omega
        rw [this]; exact hload
      obtain ⟨r, tr, hr, htr⟩ := ih f (i + 1)
        (emit (emit c (.loadClusterInfo ns)) (.sleep 10)) { cl with Info := none }
        (by omega) hload1
      refine ⟨r, [.loadClusterInfo ns, .sleep 10] ++ tr, ?_, ?_⟩
      · simp only [configureExternalLoop, hi, hr]
      · rw [htr]; simp [emit_eq, addTrace]

theorem addFinalizer_trace (env : Env) (c : ClusterController) (ns name : String) :
    ∃ tr, (addFinalizer env c ns name).1.trace = c.trace ++ tr := by
  unfold addFinalizer
  cases hg : env.getCephCluster with
  | error e => exact ⟨[.getCephCluster ns name], by simp⟩
  | ok clust =>
    cases hf : findFinalizer finalizerName clust.Finalizers 0 with
    | some i => exact ⟨[.getCephCluster ns name], by simp [hf]⟩
    | none =>
      cases hu : env.addFinalizerUpdate with
      | some e =>
        exact ⟨[.getCephCluster ns name, .updateCephCluster clust.Namespace clust.Name
          (clust.Finalizers ++ [finalizerName])], by simp [hf, hu]⟩
      | none =>
        exact ⟨[.getCephCluster ns name, .updateCephCluster clust.Namespace clust.Name
          (clust.Finalizers ++ [finalizerName])], by simp [hf, hu]⟩

/-- The end of initializeCluster starts the sub-controllers and the health
loops and then adds the finalizer. -/
theorem startCluster_trace (env : Env) (c : ClusterController) (key : String) (cl : Cluster)
    (clusterObj : CephCluster) :
    ∃ tr, (startCluster env c key cl clusterObj).trace =
      c.trace ++ startTrace cl.Spec.External.Enable cl.Namespace cl.stopCh ++ tr := by
  unfold startCluster
  by_cases hext : cl.Spec.External.Enable = true
  · obtain ⟨tr, htr⟩ := addFinalizer_trace env
      (emit (emit (emit (emit (emit (emit (emit c (.startController .pool cl.Namespace cl.stopCh))
        (.startController .objectStore cl.Namespace cl.stopCh))
        (.startController .objectStoreUser cl.Namespace cl.stopCh))
        (.startController .filesystem cl.Namespace cl.stopCh))
        (.startController .nfs cl.Namespace cl.stopCh))
        (.startHealth .mon cl.Namespace cl.stopCh))
        (.startHealth .cephStatus cl.Namespace cl.stopCh))
      clusterObj.Namespace clusterObj.Name
    refine ⟨tr, ?_⟩
    simp only [hext, Bool.not_true, Bool.false_eq_true, if_false, if_true, storeCluster_trace, htr,
      emit_trace, List.append_assoc, startTrace]
    simp
  · obtain ⟨tr, htr⟩ := addFinalizer_trace env
      (emit (emit (emit (emit (emit (emit (emit (emit c
        (.startController .pool cl.Namespace cl.stopCh))
        (.startController .objectStore cl.Namespace cl.stopCh))
        (.startController .objectStoreUser cl.Namespace cl.stopCh))
        (.startController .filesystem cl.Namespace cl.stopCh))
        (.startController .nfs cl.Namespace cl.stopCh))
        (.startHealth .mon cl.Namespace cl.stopCh))
        (.startHealth .osd cl.Namespace cl.stopCh))
        (.startHealth .cephStatus cl.Namespace cl.stopCh))
      clusterObj.Namespace clusterObj.Name
    refine ⟨tr, ?_⟩
    simp only [hext, Bool.not_false, if_false, if_true, storeCluster_trace, htr,
      emit_trace, List.append_assoc, startTrace]
    simp

theorem configureLocalCephCluster_trace (c : ClusterController) (cl : Cluster)
    (clusterObj : CephCluster) :
    ∃ tr, (configureLocalCephCluster c cl clusterObj).1.trace = c.trace ++ tr := by
  unfold configureLocalCephCluster
  split
  · exact ⟨[_], rfl⟩
  · split
    · exact ⟨[], by simp⟩
    · exact ⟨[], by simp⟩

/-- The second part of initializeCluster returns (given fuel for the wait of
an external cluster): right after the poll it writes the state and the message
the poll left, and when the state is Error nothing follows. -/
theorem initializeClusterPoll_returns (env : Env) (fuel : Nat) (c : ClusterController)
    (key : String) (cluster : Cluster) (clusterObj : CephCluster) (err : Option String)
    (s1 : CreatePoll)
    (hrun : pollLoop (createClusterAttempt env clusterObj) env.createTicks 0
      { c := c, cluster := cluster, failedMessage := "", state := .Error } = .ok (err, s1))
    (hfuel : s1.cluster.Spec.External.Enable = true →
      ∃ k, k < fuel ∧ ∃ info, env.extLoadClusterInfo k = .ok info) :
    ∃ c1 rest, initializeClusterPoll env fuel c key cluster clusterObj = .ok c1 ∧
      c1.trace = s1.c.trace ++
        [.updateClusterStatus clusterObj.Namespace clusterObj.Name s1.state s1.failedMessage]
        ++ rest ∧
      (s1.state = .Error → rest = []) := by
  by_cases hst : s1.state = .Error
  · refine ⟨_, [], initializeClusterPoll_of_error env fuel c key cluster clusterObj err s1 hrun hst,
      ?_, fun _ => rfl⟩
    simp [updateClusterStatus, hst]
  · by_cases hext : s1.cluster.Spec.External.Enable = true
    · obtain ⟨k, hk, hload⟩ := hfuel hext
      obtain ⟨r, tr, hr, htr⟩ := configureExternalLoop_returns env clusterObj.Namespace
        clusterObj.Name k fuel 0
        (updateClusterStatus
          (updateClusterStatus s1.c clusterObj.Namespace clusterObj.Name s1.state s1.failedMessage)
          clusterObj.Namespace clusterObj.Name .Connecting "")
        s1.cluster hk (by simpa using hload)
      cases hq : r.2.2 with
      | some e =>
        refine ⟨storeCluster r.1 key r.2.1,
          [.updateClusterStatus clusterObj.Namespace clusterObj.Name .Connecting ""] ++ tr,
          ?_, ?_, fun h => absurd h hst⟩
        · simp only [initializeClusterPoll, hrun, Run.bind, hst, if_false, hext, Bool.not_true,
            Bool.false_eq_true, configureExternalCephCluster, hr, hq]
        · rw [storeCluster_trace, htr]
          simp [updateClusterStatus]
      | none =>
        obtain ⟨tr2, htr2⟩ := startCluster_trace env r.1 key r.2.1 clusterObj
        refine ⟨startCluster env r.1 key r.2.1 clusterObj,
          [.updateClusterStatus clusterObj.Namespace clusterObj.Name .Connecting ""] ++ tr ++
            startTrace r.2.1.Spec.External.Enable r.2.1.Namespace r.2.1.stopCh ++ tr2, ?_, ?_,
          fun h => absurd h hst⟩
        · simp only [initializeClusterPoll, hrun, Run.bind, hst, if_false, hext, Bool.not_true,
            Bool.false_eq_true, configureExternalCephCluster, hr, hq]
        · rw [htr2, htr]
          simp [updateClusterStatus]
    · obtain ⟨tr1, htr1⟩ := configureLocalCephCluster_trace
        (updateClusterStatus s1.c clusterObj.Namespace clusterObj.Name s1.state s1.failedMessage)
        s1.cluster clusterObj
      cases hq : (configureLocalCephCluster
          (updateClusterStatus s1.c clusterObj.Namespace clusterObj.Name s1.state s1.failedMessage)
          s1.cluster clusterObj).2 with
      | some e =>
        refine ⟨storeCluster (configureLocalCephCluster
          (updateClusterStatus s1.c clusterObj.Namespace clusterObj.Name s1.state s1.failedMessage)
          s1.cluster clusterObj).1 key s1.cluster, tr1, ?_, ?_, fun h => absurd h hst⟩
        · simp only [initializeClusterPoll, hrun, Run.bind, hst, if_false, hext, Bool.not_false,
            if_true, hq]
        · rw [storeCluster_trace, htr1]
          simp [updateClusterStatus]
      | none =>
        obtain ⟨tr2, htr2⟩ := startCluster_trace env (configureLocalCephCluster
          (updateClusterStatus s1.c clusterObj.Namespace clusterObj.Name s1.state s1.failedMessage)
          s1.cluster clusterObj).1 key s1.cluster clusterObj
        refine ⟨startCluster env (configureLocalCephCluster
          (updateClusterStatus s1.c clusterObj.Namespace clusterObj.Name s1.state s1.failedMessage)
          s1.cluster clusterObj).1 key s1.cluster clusterObj,
          tr1 ++ startTrace s1.cluster.Spec.External.Enable s1.cluster.Namespace
          s1.cluster.stopCh ++ tr2, ?_, ?_, fun h => absurd h hst⟩
        · simp only [initializeClusterPoll, hrun, Run.bind, hst, if_false, hext, Bool.not_false,
            if_true, hq]
        · rw [htr2, htr1]
          simp [updateClusterStatus]

theorem attemptTrace_create (env : Env) (clusterObj : CephCluster) (image ns : String)
    (j : Nat) (v : CephVersion)
    (h : Event.createInstance ns v ∈ attemptTrace env clusterObj image ns j) :
    env.detectCephVersion j = .ok v ∧ env.validateCephVersion j v = none := by
  unfold attemptTrace detectAndValidateCephVersion at h
  cases hd : env.detectCephVersion j with
  | error e => simp [hd] at h
  | ok v1 =>
    cases hv : env.validateCephVersion j v1 with
    | some e => simp [hd, hv] at h
    | none =>
      simp [hd, hv] at h
      subst h
      exact ⟨rfl, hv⟩

/-- C8: the status initializeCluster writes after its creation poll.  The
attempts `0, ..., L` are the ones the poll makes (the attempts before `L` asked
for a retry), and right after their effects the trace holds the write of
`st` and `msg`.  `st` is Created with the empty message if and only if one of
these attempts passed the version check and had its creation routine succeed;
otherwise `st` is Error and `msg` is the failure message of the last attempt
`L`, which either was rejected for good or was the attempt made at the timeout.
The creation routine appears in the effects of an attempt only when the
version check of that attempt passed. -/
theorem initializeCluster_status_after_poll (env : Env) (fuel : Nat) (c : ClusterController)
    (key : String) (cluster : Cluster) (clusterObj : CephCluster)
    (hreach : pollReached env)
    (hfuel : clusterObj.Spec.External.Enable = true →
      ∃ k, k < fuel ∧ ∃ info, env.extLoadClusterInfo k = .ok info) :
    ∃ L st msg rest c1,
      initializeCluster env fuel c key cluster clusterObj = .ok c1 ∧
      L ≤ env.createTicks ∧ (∀ j, j < L → attemptRetries env j) ∧
      c1.trace = c.trace ++ initTrace env cluster.Namespace ++
        pollTrace env clusterObj clusterObj.Spec.CephVersion.Image cluster.Namespace (L + 1) 0 ++
        [.updateClusterStatus clusterObj.Namespace clusterObj.Name st msg] ++ rest ∧
      ((st = .Created ∧ msg = "") ↔ ∃ j, j ≤ L ∧ attemptSucceeds env j) ∧
      ((¬ ∃ j, j ≤ L ∧ attemptSucceeds env j) →
        st = .Error ∧ attemptFailsWith env cluster.Namespace L msg ∧ rest = [] ∧
        (L = env.createTicks ∨ ∃ e, attemptRejected env L e)) ∧
      (∀ j v, Event.createInstance cluster.Namespace v ∈
          attemptTrace env clusterObj clusterObj.Spec.CephVersion.Image cluster.Namespace j →
        env.detectCephVersion j = .ok v ∧ env.validateCephVersion j v = none) := by
  obtain ⟨cl, hns, _, hspec, _, hinit⟩ :=
    initializeCluster_reaches_poll env fuel c key cluster clusterObj hreach
  obtain ⟨L, err, s1, hrun, _, hub, hretr, htr, hid, hcase⟩ :=
    createPoll_run env clusterObj env.createTicks 0
      { c := addTrace c (initTrace env cluster.Namespace), cluster := cl, failedMessage := "",
        state := .Error }
  have hext : s1.cluster.Spec.External.Enable = true →
      ∃ k, k < fuel ∧ ∃ info, env.extLoadClusterInfo k = .ok info := by
    intro h
    apply hfuel
    rw [hid.2.2.1] at h
    simpa [hspec] using h
  obtain ⟨c1, rest, hres, hc1, hrest⟩ := initializeClusterPoll_returns env fuel
    (addTrace c (initTrace env cluster.Namespace)) key cl clusterObj err s1 hrun hext
  have hbefore : ∀ j, j < L → attemptRetries env j := fun j hj => hretr j (Nat.zero_le j) hj
  have hnone : ∀ j, j < L → ¬ attemptSucceeds env j :=
    fun j hj => attemptRetries_not_succeeds (hbefore j hj)
  have htrace : c1.trace = c.trace ++ initTrace env cluster.Namespace ++
      pollTrace env clusterObj clusterObj.Spec.CephVersion.Image cluster.Namespace (L + 1) 0 ++
      [.updateClusterStatus clusterObj.Namespace clusterObj.Name s1.state s1.failedMessage]
      ++ rest := by
    have h0 : L + 1 - 0 = L + 1 := by omega
    rw [hc1, htr]
    simp only [addTrace_trace, hspec, hns, applyMonDefault_image, h0]
  refine ⟨L, s1.state, s1.failedMessage, rest, c1, hinit.trans hres, by omega, hbefore, htrace,
    ?_, ?_, attemptTrace_create env clusterObj _ _⟩
  · rcases hcase with ⟨hs, hst, hmsg⟩ | ⟨⟨e, hr⟩, hst, hmsg⟩ | ⟨hL, hr, hst, hmsg⟩
    · exact ⟨fun _ => ⟨L, le_refl L, hs⟩, fun _ => ⟨hst, hmsg⟩⟩
    · constructor
      · rintro ⟨h, _⟩
        rw [hst] at h; cases h
      · rintro ⟨j, hj, hs⟩
        rcases Nat.lt_or_eq_of_le hj with h | h
        · exact absurd hs (hnone j h)
        · subst h; exact absurd hs (attemptRejected_not_succeeds hr)
    · constructor
      · rintro ⟨h, _⟩
        rw [hst] at h; cases h
      · rintro ⟨j, hj, hs⟩
        rcases Nat.lt_or_eq_of_le hj with h | h
        · exact absurd hs (hnone j h)
        · subst h; exact absurd hs (attemptRetries_not_succeeds hr)
  · intro hno
    rcases hcase with ⟨hs, _, _⟩ | ⟨hr, hst, hmsg⟩ | ⟨hL, hr, hst, hmsg⟩
    · exact absurd ⟨L, le_refl L, hs⟩ hno
    · rw [hns] at hmsg
      exact ⟨hst, hmsg, hrest hst, Or.inr hr⟩
    · rw [hns] at hmsg
      exact ⟨hst, hmsg, hrest hst, Or.inl (by omega)⟩

/-- The theorem above for a local cluster in a world where every call succeeds. -/
theorem initializeCluster_status_after_poll_witness :
    ∃ L st msg rest c1,
      initializeCluster quietEnv 1 (NewClusterController "rook/ceph:v1.1" false) "rook-ceph"
        (newCluster (sampleResource "rook-ceph" "my-cluster" false) 0)
        (sampleResource "rook-ceph" "my-cluster" false) = .ok c1 ∧
      L ≤ quietEnv.createTicks ∧ (∀ j, j < L → attemptRetries quietEnv j) ∧
      c1.trace = (NewClusterController "rook/ceph:v1.1" false).trace ++
        initTrace quietEnv
          (newCluster (sampleResource "rook-ceph" "my-cluster" false) 0).Namespace ++
        pollTrace quietEnv (sampleResource "rook-ceph" "my-cluster" false)
          (sampleResource "rook-ceph" "my-cluster" false).Spec.CephVersion.Image
          (newCluster (sampleResource "rook-ceph" "my-cluster" false) 0).Namespace (L + 1) 0 ++
        [.updateClusterStatus (sampleResource "rook-ceph" "my-cluster" false).Namespace
          (sampleResource "rook-ceph" "my-cluster" false).Name st msg] ++ rest ∧
      ((st = .Created ∧ msg = "") ↔ ∃ j, j ≤ L ∧ attemptSucceeds quietEnv j) ∧
      ((¬ ∃ j, j ≤ L ∧ attemptSucceeds quietEnv j) →
        st = .Error ∧
        attemptFailsWith quietEnv
          (newCluster (sampleResource "rook-ceph" "my-cluster" false) 0).Namespace L msg ∧
        rest = [] ∧
        (L = quietEnv.createTicks ∨ ∃ e, attemptRejected quietEnv L e)) ∧
      (∀ j v, Event.createInstance
          (newCluster (sampleResource "rook-ceph" "my-cluster" false) 0).Namespace v ∈
          attemptTrace quietEnv (sampleResource "rook-ceph" "my-cluster" false)
            (sampleResource "rook-ceph" "my-cluster" false).Spec.CephVersion.Image
            (newCluster (sampleResource "rook-ceph" "my-cluster" false) 0).Namespace j →
        quietEnv.detectCephVersion j = .ok v ∧ quietEnv.validateCephVersion j v = none) :=
  initializeCluster_status_after_poll quietEnv 1 (NewClusterController "rook/ceph:v1.1" false)
    "rook-ceph" (newCluster (sampleResource "rook-ceph" "my-cluster" false) 0)
    (sampleResource "rook-ceph" "my-cluster" false) (Or.inl ⟨"not found", rfl⟩)
    (fun h => absurd h (by decide))

/-! ### The update attempts -/

theorem updateFails_not_succeeds {env : Env} {j : Nat} (h : updateFails env j) :
    ¬ updateSucceeds env j := by
  obtain ⟨e, he⟩ := h
  intro hs
  rw [updateSucceeds, he] at hs
  cases hs

/-- What one call of handleUpdate does when the observed info is set. -/
theorem handleUpdate_cases (env : Env) (name : String) (i : Nat) (s : UpdatePoll)
    (info : ClusterInfo) (hinfo : s.cluster.Info = some info) :
    ∃ done s1 tr, handleUpdate env name i s = .ok ((done, none), s1) ∧
      s1.c = addTrace s.c tr ∧ creations tr = 1 ∧
      s1.cluster.Namespace = s.cluster.Namespace ∧
      s1.cluster.Info = (env.updCreateInstance i).Info ∧
      ((done = false ∧ updateFails env i) ∨
       (done = true ∧ updateSucceeds env i ∧
        tr.getLast? = some (.updateClusterStatus s.cluster.Namespace name .Created ""))) := by
  cases hc : (env.updCreateInstance i).err with
  | some e =>
    refine ⟨false,
      { c := emit (updateClusterStatus s.c s.cluster.Namespace name .Updating "")
          (.createInstance s.cluster.Namespace info.CephVersion),
        cluster := { s.cluster with Info := (env.updCreateInstance i).Info,
                                    initCompleted := (env.updCreateInstance i).initCompleted } },
      [.updateClusterStatus s.cluster.Namespace name .Updating "",
       .createInstance s.cluster.Namespace info.CephVersion],
      ?_, ?_, rfl, rfl, rfl, Or.inl ⟨rfl, e, hc⟩⟩
    · simp [handleUpdate, hinfo, hc]
    · simp [updateClusterStatus, emit_eq, addTrace]
  | none =>
    refine ⟨true,
      { c := updateClusterStatus (emit (updateClusterStatus s.c s.cluster.Namespace name
            .Updating "") (.createInstance s.cluster.Namespace info.CephVersion))
          s.cluster.Namespace name .Created "",
        cluster := { s.cluster with Info := (env.updCreateInstance i).Info,
                                    initCompleted := (env.updCreateInstance i).initCompleted } },
      [.updateClusterStatus s.cluster.Namespace name .Updating "",
       .createInstance s.cluster.Namespace info.CephVersion,
       .updateClusterStatus s.cluster.Namespace name .Created ""],
      ?_, ?_, rfl, rfl, rfl, Or.inr ⟨rfl, hc, rfl⟩⟩
    · simp [handleUpdate, hinfo, hc]
    · simp [updateClusterStatus, emit_eq, addTrace]

/-- The update poll, from evaluation `i` with `t` ticks left: it returns; its
last evaluation `n` is the first that succeeds, or else the one made when the
timeout strikes, and then the result is ErrWaitTimeout.  Evaluation `j` of the
poll is attempt `j + 1` of the update. -/
theorem updatePoll_run (env : Env) (name : String)
    (hkeep : ∀ j, updateFails env j → (env.updCreateInstance j).Info ≠ none) :
    ∀ (t i : Nat) (s : UpdatePoll), s.cluster.Info ≠ none →
      ∃ n err s1 tr,
        pollLoop (fun k => handleUpdate env name (k + 1)) t i s = .ok (err, s1) ∧
        i ≤ n ∧ n ≤ i + t ∧
        (∀ j, i ≤ j → j < n → updateFails env (j + 1)) ∧
        s1.c = addTrace s.c tr ∧ creations tr = n + 1 - i ∧
        s1.cluster.Namespace = s.cluster.Namespace ∧
        ((updateSucceeds env (n + 1) ∧ err = none ∧
          tr.getLast? = some (.updateClusterStatus s.cluster.Namespace name .Created "")) ∨
         (n = i + t ∧ updateFails env (n + 1) ∧ err = some ErrWaitTimeout)) := by
  intro t
  induction t with
  | zero =>
    intro i s hinfo
    obtain ⟨info, hsome⟩ := Option.ne_none_iff_exists'.mp hinfo
    obtain ⟨done, s1, tr, hrun, htr, hcr, hns, _, hcase⟩ :=
      handleUpdate_cases env name (i + 1) s info hsome
    have h1 : i + 1 - i = 1 := by omega
    rcases hcase with ⟨hdone, hfail⟩ | ⟨hdone, hsucc, hlast⟩
    · subst hdone
      refine ⟨i, some ErrWaitTimeout, s1, tr, ?_, le_refl i, by omega, fun j h1 h2 => by omega,
        htr, by omega, hns, Or.inr ⟨rfl, hfail, rfl⟩⟩
      simp [pollLoop, hrun, Run.bind]
    · subst hdone
      refine ⟨i, none, s1, tr, ?_, le_refl i, by omega, fun j h1 h2 => by omega,
        htr, by omega, hns, Or.inl ⟨hsucc, rfl, hlast⟩⟩
      simp [pollLoop, hrun, Run.bind]
  | succ t ih =>
    intro i s hinfo
    obtain ⟨info, hsome⟩ := Option.ne_none_iff_exists'.mp hinfo
    obtain ⟨done, s1, tr, hrun, htr, hcr, hns, hinfo1, hcase⟩ :=
      handleUpdate_cases env name (i + 1) s info hsome
    rcases hcase with ⟨hdone, hfail⟩ | ⟨hdone, hsucc, hlast⟩
    · subst hdone
      have hinfo2 : s1.cluster.Info ≠ none := by
        rw [hinfo1]; exact hkeep (i + 1) hfail
      obtain ⟨n, err, s2, tr2, hrun2, hle, hub, hbefore, htr2, hcr2, hns2, hcase2⟩ :=
        ih (i + 1) s1 hinfo2
      refine ⟨n, err, s2, tr ++ tr2, ?_, by omega, by omega, ?_, ?_, ?_, hns2.trans hns, ?_⟩
      · simp [pollLoop, hrun, Run.bind, hrun2]
      · intro j hj1 hj2
        by_cases hji : j = i
        · subst hji; exact hfail
        · exact hbefore j (by omega) hj2
      · rw [htr2, htr, addTrace_addTrace]
      · rw [creations_append, hcr, hcr2]; omega
      · rcases hcase2 with ⟨hs, he, hl⟩ | ⟨hn, hf, he⟩
        · refine Or.inl ⟨hs, he, ?_⟩
          rw [hns] at hl
          rw [List.getLast?_append, hl]
          rfl
        · exact Or.inr ⟨by omega, hf, he⟩
    · subst hdone
      refine ⟨i, none, s1, tr, ?_, le_refl i, by omega, fun j h1 h2 => by omega,
        htr, by omega, hns, Or.inl ⟨hsucc, rfl, hlast⟩⟩
      simp [pollLoop, hrun, Run.bind]

/-- The first step of a supported update goes on when the image is unchanged
or the version of the new image is detected and valid. -/
theorem detectNewImage_passes (env : Env) (c : ClusterController) (cluster : Cluster)
    (oldClust newClust : CephCluster) (hinfo : cluster.Info ≠ none)
    (hgate : oldClust.Spec.CephVersion.Image = newClust.Spec.CephVersion.Image ∨
      ∃ v, env.updDetectCephVersion = .ok v ∧ env.updValidateCephVersion v = none) :
    ∃ tr cluster0, detectNewImage env c cluster oldClust newClust =
        .ok (addTrace c tr, cluster0, true) ∧
      creations tr = 0 ∧ cluster0.Info ≠ none ∧ cluster0.Namespace = cluster.Namespace := by
  obtain ⟨info, hsome⟩ := Option.ne_none_iff_exists'.mp hinfo
  by_cases himg : oldClust.Spec.CephVersion.Image = newClust.Spec.CephVersion.Image
  · refine ⟨[], cluster, ?_, rfl, hinfo, rfl⟩
    simp [detectNewImage, himg, addTrace]
  · rcases hgate with h | ⟨v, hd, hv⟩
    · exact absurd h himg
    · refine ⟨[.detectCephVersion newClust.Spec.CephVersion.Image],
        { cluster with Info := some { info with CephVersion := v } }, ?_, rfl, by simp, rfl⟩
      simp [detectNewImage, himg, detectAndValidateCephVersion, hd, hv, hsome, emit_eq, addTrace]

/-- C10: a supported update of an initialized cluster.  The creation routine
is attempted at once (attempt 0) and then on the ticks of the update poll
(attempts 1, 2, ..., at most `updateTicks + 1` of them, the last one when the
timeout strikes).  `n` is the last attempt made and the attempts before it
failed, so the routine ran `n + 1` times.  Either attempt `n` succeeded, and
the last effect is the write of status Created, with no attempt after it; or
every attempt up to the timeout failed, and the last effect is the write of
status Error with the give-up message. -/
theorem onUpdate_retries_until_success_or_timeout (env : Env) (fuel : Nat)
    (c : ClusterController) (oldClust newClust : CephCluster) (cluster : Cluster)
    (hreg : mapGet c.clusterMap newClust.Namespace = some cluster)
    (hname : cluster.crdName = newClust.Name)
    (hlive : newClust.DeletionTimestamp = none)
    (hinit : cluster.initCompleted = true)
    (hinfo : cluster.Info ≠ none)
    (hchanged : env.clusterChanged oldClust.Spec newClust.Spec cluster = true)
    (hgate : oldClust.Spec.CephVersion.Image = newClust.Spec.CephVersion.Image ∨
      ∃ v, env.updDetectCephVersion = .ok v ∧ env.updValidateCephVersion v = none)
    (hversions : ∃ vs, env.getAllCephDaemonVersions = .ok vs)
    (hkeep : ∀ j, updateFails env j → (env.updCreateInstance j).Info ≠ none) :
    ∃ n c1, onUpdate env fuel c (.cephCluster oldClust) (.cephCluster newClust) = .ok c1 ∧
      n ≤ env.updateTicks + 1 ∧ (∀ j, j < n → updateFails env j) ∧
      creations c1.trace = creations c.trace + (n + 1) ∧
      ((updateSucceeds env n ∧
        c1.trace.getLast? =
          some (.updateClusterStatus cluster.Namespace newClust.Name .Created "")) ∨
       (n = env.updateTicks + 1 ∧ updateFails env n ∧
        c1.trace.getLast? =
          some (.updateClusterStatus newClust.Namespace newClust.Name .Error
            (giveUpMessage cluster.Namespace)))) := by
  obtain ⟨tr0, cluster0, hdet, hcr0, hinfo0, hns0⟩ :=
    detectNewImage_passes env c cluster oldClust newClust hinfo hgate
  obtain ⟨vs, hvs⟩ := hversions
  obtain ⟨info0, hsome0⟩ := Option.ne_none_iff_exists'.mp hinfo0
  have hother : otherClusterRegistered c newClust = false := by
    simp [otherClusterRegistered, hreg, hname]
  have hstart : onUpdate env fuel c (.cephCluster oldClust) (.cephCluster newClust) =
      updateCluster env c newClust.Namespace cluster oldClust newClust := by
    simp [onUpdate, getClusterObject, hother, hlive, hreg, hinit, hchanged]
  obtain ⟨done, s1, tr1, hrun1, htr1, hcr1, hns1, hinfo1, hcase1⟩ :=
    handleUpdate_cases env newClust.Name 0
      { c := emit (addTrace c tr0) (.getAllCephDaemonVersions cluster0.Namespace),
        cluster := { cluster0 with Spec := newClust.Spec } } info0 hsome0
  have hs1 : s1.c.trace = c.trace ++ tr0 ++ [.getAllCephDaemonVersions cluster0.Namespace]
      ++ tr1 := by
    rw [htr1]; simp
  rcases hcase1 with ⟨hdone, hfail⟩ | ⟨hdone, hsucc, hlast⟩
  · subst hdone
    have hinfo2 : s1.cluster.Info ≠ none := by
      rw [hinfo1]; exact hkeep 0 hfail
    obtain ⟨n, err, s2, tr2, hrun2, _, hub, hbefore, htr2, hcr2, hns2, hcase2⟩ :=
      updatePoll_run env newClust.Name hkeep env.updateTicks 0 s1 hinfo2
    have hs2 : s2.c.trace = c.trace ++ tr0 ++ [.getAllCephDaemonVersions cluster0.Namespace]
        ++ tr1 ++ tr2 := by
      rw [htr2, addTrace_trace, hs1]
    have hcount : creations s2.c.trace = creations c.trace + (n + 1 + 1) := by
      rw [hs2]
      simp only [creations_append, hcr0, hcr1, hcr2]
      have : creations [Event.getAllCephDaemonVersions cluster0.Namespace] = 0 := rfl
      omega
    have hprev : ∀ j, j < n + 1 → updateFails env j := by
      intro j hj
      rcases Nat.eq_zero_or_pos j with h | h
      · subst h; exact hfail
      · have := hbefore (j - 1) (Nat.zero_le _) (by omega)
        have hj1 : j - 1 + 1 = j := by omega
        rwa [hj1] at this
    rcases hcase2 with ⟨hs, he, hl⟩ | ⟨hn, hf, he⟩
    · refine ⟨n + 1, storeCluster s2.c newClust.Namespace s2.cluster, ?_, by omega, hprev, ?_,
        Or.inl ⟨hs, ?_⟩⟩
      · rw [hstart]
        simp [updateCluster, hdet, Run.bind, hvs, upgradeGate, hrun1, hrun2, he]
      · rw [storeCluster_trace]; exact hcount
      · rw [storeCluster_trace, hs2, List.getLast?_append, hl]
        simp [hns1, hns0]
    · refine ⟨n + 1, storeCluster
          (updateClusterStatus s2.c newClust.Namespace newClust.Name .Error
            ("giving up trying to update cluster in namespace " ++ s2.cluster.Namespace
              ++ " after 1h0m0s. " ++ ErrWaitTimeout))
          newClust.Namespace s2.cluster, ?_, by omega, hprev, ?_, Or.inr ⟨by omega, hf, ?_⟩⟩
      · rw [hstart]
        simp [updateCluster, hdet, Run.bind, hvs, upgradeGate, hrun1, hrun2, he]
      · rw [storeCluster_trace]
        simp only [updateClusterStatus, emit_trace, creations_append, hcount]
        rfl
      · rw [storeCluster_trace]
        simp [updateClusterStatus, giveUpMessage, hns2, hns1, hns0]
  · subst hdone
    refine ⟨0, storeCluster s1.c newClust.Namespace s1.cluster, ?_, by omega,
      fun j hj => absurd hj (Nat.not_lt_zero j), ?_, Or.inl ⟨hsucc, ?_⟩⟩
    · rw [hstart]
      simp [updateCluster, hdet, Run.bind, hvs, upgradeGate, hrun1]
    · rw [storeCluster_trace, hs1]
      simp only [creations_append, hcr0, hcr1]
      have : creations [Event.getAllCephDaemonVersions cluster0.Namespace] = 0 := rfl
      omega
    · rw [storeCluster_trace, hs1, List.getLast?_append, hlast]
      simp [hns0]

/-! ### The deletion flow -/

theorem drainTrace_succ_succ (ns : String) (t n : Nat) :
    drainTrace ns t (n + 1 + 1) =
      .listVolumeAttachments ns :: .sleep t :: drainTrace ns t (n + 1) := rfl

/-- The loop of handleDelete returns when its fuel covers the retries left. -/
theorem handleDeleteLoop_returns (env : Env) (ns : String) (t : Nat) :
    ∀ (fuel r : Nat) (c : ClusterController), clusterDeleteMaxRetries ≤ r + fuel →
      r < clusterDeleteMaxRetries →
      ∃ m err, handleDeleteLoop env ns t fuel r c =
        .ok (addTrace c (drainTrace env.operatorNamespace t (m + 1)), err) := by
  intro fuel
  induction fuel with
  | zero => intro r c h1 h2; omega
  | succ f ih =>
    intro r c h1 h2
    cases hl : env.listVolumeAttachments r with
    | error e =>
      exact ⟨0, some ("failed to get volume attachments for operator namespace "
        ++ env.operatorNamespace ++ ": " ++ e),
        by simp [handleDeleteLoop, hl, drainTrace, emit_eq, addTrace]⟩
    | ok items =>
      by_cases hex : attachmentsExist items ns = true
      · by_cases hmax : r + 1 = clusterDeleteMaxRetries
        · exact ⟨0, none, by simp [handleDeleteLoop, hl, hex, hmax, drainTrace, emit_eq, addTrace]⟩
        · obtain ⟨m, err, hm⟩ := ih (r + 1)
            (emit (emit c (.listVolumeAttachments env.operatorNamespace)) (.sleep t))
            (by omega) (by omega)
          refine ⟨m + 1, err, ?_⟩
          simp only [handleDeleteLoop, hl, hex, hmax, Bool.not_true, Bool.false_eq_true, if_false,
            hm, drainTrace_succ_succ]
          simp [emit_eq, addTrace]
      · have hex1 : attachmentsExist items ns = false := by simpa using hex
        exact ⟨0, none, by simp [handleDeleteLoop, hl, hex1, drainTrace, emit_eq, addTrace]⟩

/-- Go: handleDelete always returns, after at least one listing. -/
theorem handleDelete_returns (env : Env) (c : ClusterController) (clust : CephCluster)
    (t : Nat) :
    ∃ m err, handleDelete env c clust t =
      .ok (addTrace c (drainTrace env.operatorNamespace t (m + 1)), err) :=
  handleDeleteLoop_returns env clust.Namespace t clusterDeleteMaxRetries 0 c (by omega)
    (by decide)

theorem drainTrace_no_write (ns : String) (t : Nat) :
    ∀ (n : Nat) (ev : Event), ev ∈ drainTrace ns t n → ev.isResourceWrite = false
  | 0, ev, h => by simp [drainTrace] at h
  | 1, ev, h => by
    simp [drainTrace] at h
    subst h; rfl
  | n + 2, ev, h => by
    rw [drainTrace_succ_succ] at h
    simp only [List.mem_cons] at h
    rcases h with h | h | h
    · subst h; rfl
    · subst h; rfl
    · exact drainTrace_no_write ns t (n + 1) ev h

theorem removeFinalizerRetry_trace (env : Env) (ns name : String) (fins : List String) :
    ∀ (left i : Nat) (c : ClusterController),
      ∃ tr, removeFinalizerRetry env ns name fins left i c = addTrace c tr ∧
        ∀ ev ∈ tr, ev = .updateCephCluster ns name fins ∨ ev = .sleep 5 := by
  intro left
  induction left with
  | zero => intro i c; exact ⟨[], by simp [removeFinalizerRetry, addTrace], by simp⟩
  | succ l ih =>
    intro i c
    cases hu : env.removeFinalizerUpdate i with
    | none =>
      refine ⟨[.updateCephCluster ns name fins], ?_, by simp⟩
      simp [removeFinalizerRetry, hu, emit_eq, addTrace]
    | some e =>
      obtain ⟨tr, htr, hev⟩ := ih (i + 1)
        (emit (emit c (.updateCephCluster ns name fins)) (.sleep 5))
      refine ⟨[.updateCephCluster ns name fins, .sleep 5] ++ tr, ?_, ?_⟩
      · simp only [removeFinalizerRetry, hu]
        rw [htr]
        simp [emit_eq, addTrace]
      · intro ev h
        simp only [List.cons_append, List.nil_append, List.mem_cons] at h
        rcases h with h | h | h
        · exact Or.inl h
        · exact Or.inr h
        · exact hev ev h

theorem removeFinalizer_trace (env : Env) (c : ClusterController) (cl : CephCluster) :
    ∃ tr, removeFinalizer env c (.cephCluster cl) = addTrace c tr ∧
      ∀ ev ∈ tr, ev.isResourceWrite = true ∨ ev = .sleep 5 := by
  cases hf : findFinalizer finalizerName cl.Finalizers 0 with
  | none => exact ⟨[], by simp [removeFinalizer, hf, addTrace], by simp⟩
  | some i =>
    obtain ⟨tr, htr, hev⟩ := removeFinalizerRetry_trace env cl.Namespace cl.Name
      (cl.Finalizers.take i ++ cl.Finalizers.drop (i + 1)) 5 0 c
    refine ⟨tr, by simp only [removeFinalizer, hf]; exact htr, ?_⟩
    intro ev h
    rcases hev ev h with h1 | h1
    · subst h1; exact Or.inl rfl
    · exact Or.inr h1

/-- C2, as the code has it: after an all-devices cluster was added in
namespace "a", a second one added in "b" (rejected by the exclusivity check)
and deleted again, the cluster of "a" is still live while devicesInUse is
false; the all-devices cluster then added in "c" is configured too, and two
live clusters use all devices. -/
theorem allDevices_flag_released_by_rejected_cluster :
    ∃ c3 c4,
      runEvents (allDevicesEvents.take 3) (NewClusterController "rook/ceph:v1.1" false) = .ok c3 ∧
      liveAllDevices c3 "a" = true ∧ c3.devicesInUse = false ∧
      runEvents allDevicesEvents (NewClusterController "rook/ceph:v1.1" false) = .ok c4 ∧
      liveAllDevices c4 "a" = true ∧ liveAllDevices c4 "c" = true := by
  refine ⟨_, _, rfl, ?_, ?_, rfl, ?_, ?_⟩ <;> decide

/-- C3, as the code has it: onUpdate for a resource with a deletion timestamp
writes the resource without its finalizer while the cluster is still in the
registry and its stop channel has not been closed. -/
theorem finalizer_cleared_while_cluster_registered :
    ∃ c1, onUpdate quietEnv 1 oneClusterController (.cephCluster finalizedResource)
        (.cephCluster deletedResource) = .ok c1 ∧
      Event.updateCephCluster "rook-ceph" "my-cluster" [] ∈ c1.trace ∧
      mapGet c1.clusterMap "rook-ceph" = mapGet oneClusterController.clusterMap "rook-ceph" ∧
      (mapGet c1.clusterMap "rook-ceph").isSome = true ∧
      c1.closedChs = [] ∧ Event.closeStopCh 0 ∉ c1.trace := by
  refine ⟨_, rfl, ?_, ?_, ?_, ?_, ?_⟩ <;> decide

/-- C3, amended: in onUpdate for a resource that carries a deletion timestamp
the finalizer is cleared only after the drain has finished, and only when
handleDelete reported no error: the trace grows by the listings and waits of
the drain, which hold no write of the resource, followed by the writes (and
waits) of removeFinalizer.  The step closes no stop channel and leaves the
registry and the all-devices flag as they were: firing the stop signal and
removing the entry is left to onDelete. -/
theorem onUpdate_clears_finalizer_after_drain (env : Env) (fuel : Nat) (c : ClusterController)
    (oldClust newClust : CephCluster) (hmark : newClust.DeletionTimestamp ≠ none) :
    ∃ c1 n tr,
      onUpdate env fuel c (.cephCluster oldClust) (.cephCluster newClust) = .ok c1 ∧
      c1.trace = c.trace ++ drainTrace env.operatorNamespace clusterDeleteRetryInterval n ++ tr ∧
      (∀ ev ∈ drainTrace env.operatorNamespace clusterDeleteRetryInterval n,
        ev.isResourceWrite = false) ∧
      (∀ ev ∈ tr, ev.isResourceWrite = true ∨ ev = .sleep 5) ∧
      (tr ≠ [] → ∃ c0, handleDelete env c newClust clusterDeleteRetryInterval = .ok (c0, none) ∧
        c0.trace = c.trace ++ drainTrace env.operatorNamespace clusterDeleteRetryInterval n) ∧
      c1.clusterMap = c.clusterMap ∧ c1.closedChs = c.closedChs ∧
      c1.devicesInUse = c.devicesInUse := by
  have hsome : newClust.DeletionTimestamp.isSome = true := by
    cases h : newClust.DeletionTimestamp with
    | none => exact absurd h hmark
    | some t => rfl
  by_cases hother : otherClusterRegistered c newClust = true
  · refine ⟨c, 0, [], ?_, by simp [drainTrace], drainTrace_no_write _ _ 0, by simp,
      fun h => absurd rfl h, rfl, rfl, rfl⟩
    simp [onUpdate, getClusterObject, hother]
  · obtain ⟨m, err, hrun⟩ := handleDelete_returns env c newClust clusterDeleteRetryInterval
    cases err with
    | some e =>
      refine ⟨addTrace c (drainTrace env.operatorNamespace clusterDeleteRetryInterval (m + 1)),
        m + 1, [], ?_, by simp, drainTrace_no_write _ _ _, by simp,
        fun h => absurd rfl h, rfl, rfl, rfl⟩
      simp [onUpdate, getClusterObject, hother, hsome, hrun, Run.bind]
    | none =>
      obtain ⟨tr, htr, hev⟩ := removeFinalizer_trace env
        (addTrace c (drainTrace env.operatorNamespace clusterDeleteRetryInterval (m + 1))) newClust
      refine ⟨removeFinalizer env
          (addTrace c (drainTrace env.operatorNamespace clusterDeleteRetryInterval (m + 1)))
          (.cephCluster newClust),
        m + 1, tr, ?_, ?_, drainTrace_no_write _ _ _, hev,
        fun _ => ⟨_, hrun, rfl⟩, ?_, ?_, ?_⟩
      · simp only [onUpdate, getClusterObject, hother, hsome, hrun, Run.bind, if_true,
          Bool.false_eq_true, if_false]
      · rw [htr]; simp
      · rw [htr]; rfl
      · rw [htr]; rfl
      · rw [htr]; rfl

/-- The theorem above for the deletion of a running cluster to which no volume is attached. -/
theorem onUpdate_clears_finalizer_after_drain_witness :
    ∃ c1 n tr,
      onUpdate quietEnv 1 oneClusterController (.cephCluster finalizedResource)
        (.cephCluster deletedResource) = .ok c1 ∧
      c1.trace = oneClusterController.trace ++
        drainTrace quietEnv.operatorNamespace clusterDeleteRetryInterval n ++ tr ∧
      (∀ ev ∈ drainTrace quietEnv.operatorNamespace clusterDeleteRetryInterval n,
        ev.isResourceWrite = false) ∧
      (∀ ev ∈ tr, ev.isResourceWrite = true ∨ ev = .sleep 5) ∧
      (tr ≠ [] → ∃ c0, handleDelete quietEnv oneClusterController deletedResource
          clusterDeleteRetryInterval = .ok (c0, none) ∧
        c0.trace = oneClusterController.trace ++
          drainTrace quietEnv.operatorNamespace clusterDeleteRetryInterval n) ∧
      c1.clusterMap = oneClusterController.clusterMap ∧
      c1.closedChs = oneClusterController.closedChs ∧
      c1.devicesInUse = oneClusterController.devicesInUse :=
  onUpdate_clears_finalizer_after_drain quietEnv 1 oneClusterController finalizedResource
    deletedResource (by decide)

/-- C9, as the code has it: the image of an initialized cluster changes, the
new version differs from the running daemons and the cluster is not healthy,
and the update goes ahead all the same.  The creation routine is invoked with
the new version, the registry holds the new spec, and the last status written
is Created. -/
theorem onUpdate_unhealthy_upgrade_goes_ahead :
    ∃ c1, onUpdate unhealthyEnv 1 oneClusterController
        (.cephCluster (sampleResource "rook-ceph" "my-cluster" false))
        (.cephCluster upgradeResource) = .ok c1 ∧
      unhealthyEnv.isCephHealthy = false ∧
      unhealthyEnv.diffImageSpecAndClusterRunningVersion upgradeVersion { Overall := [] } =
        .ok true ∧
      Event.createInstance "rook-ceph" upgradeVersion ∈ c1.trace ∧
      (mapGet c1.clusterMap "rook-ceph").map (fun cl => cl.Spec) = some upgradeResource.Spec ∧
      (mapGet oneClusterController.clusterMap "rook-ceph").map (fun cl => cl.Spec) =
        some (sampleSpec false) ∧
      c1.trace.getLast? = some (.updateClusterStatus "rook-ceph" "my-cluster" .Created "") := by
  refine ⟨_, rfl, rfl, rfl, ?_, ?_, ?_, ?_⟩ <;> decide

/-- The theorem above for a change of the storage policy of a running cluster. -/
theorem onUpdate_retries_until_success_or_timeout_witness :
    ∃ n c1, onUpdate quietEnv 1 oneClusterController
        (.cephCluster (sampleResource "rook-ceph" "my-cluster" false))
        (.cephCluster (sampleResource "rook-ceph" "my-cluster" true)) = .ok c1 ∧
      n ≤ quietEnv.updateTicks + 1 ∧ (∀ j, j < n → updateFails quietEnv j) ∧
      creations c1.trace = creations oneClusterController.trace + (n + 1) ∧
      ((updateSucceeds quietEnv n ∧
        c1.trace.getLast? =
          some (.updateClusterStatus (sampleCluster "rook-ceph" "my-cluster" false 0).Namespace
            (sampleResource "rook-ceph" "my-cluster" true).Name .Created "")) ∨
       (n = quietEnv.updateTicks + 1 ∧ updateFails quietEnv n ∧
        c1.trace.getLast? =
          some (.updateClusterStatus (sampleResource "rook-ceph" "my-cluster" true).Namespace
            (sampleResource "rook-ceph" "my-cluster" true).Name .Error
            (giveUpMessage (sampleCluster "rook-ceph" "my-cluster" false 0).Namespace)))) :=
  onUpdate_retries_until_success_or_timeout quietEnv 1 oneClusterController
    (sampleResource "rook-ceph" "my-cluster" false)
    (sampleResource "rook-ceph" "my-cluster" true)
    (sampleCluster "rook-ceph" "my-cluster" false 0)
    (by decide) rfl rfl rfl (by decide) rfl (Or.inl rfl) ⟨_, rfl⟩
    (fun j _ => by simp [quietEnv])

/-! ### Node events -/

/-- C19: a node update in which the old and the new node have the same
schedulability (both schedulable or both unschedulable) leaves the controller
as it was: no cluster is reconciled (the trace is unchanged, so the creation
routine is invoked for no cluster) and no controller state changes. -/
theorem onK8sNodeUpdate_same_schedulability_is_ignored (env : Env) (c : ClusterController)
    (oldNode newNode : Node)
    (hsame : env.getNodeSchedulable oldNode = env.getNodeSchedulable newNode) :
    onK8sNodeUpdate env c (.node oldNode) (.node newNode) = .ok c := by
  unfold onK8sNodeUpdate
  by_cases heq : Obj.node oldNode = Obj.node newNode
  · simp [heq]
  · cases hnew : env.getNodeSchedulable newNode <;> simp [heq, hsame, hnew]

/-- The theorem above for a cordoned node that gets a taint. -/
theorem onK8sNodeUpdate_same_schedulability_is_ignored_witness :
    onK8sNodeUpdate quietEnv oneClusterController (.node cordonedNode) (.node taintedNode) =
      .ok oneClusterController :=
  onK8sNodeUpdate_same_schedulability_is_ignored quietEnv oneClusterController cordonedNode
    taintedNode rfl

/-- In onK8sNodeAdd a cluster whose use-all-nodes flag is off is skipped. -/
theorem nodeAddCluster_skips_without_all_nodes (env : Env) (newNode : Node) (i : Nat)
    (key : String) (cluster : Cluster) (c : ClusterController)
    (hoff : cluster.Spec.Storage.UseAllNodes = false) :
    nodeAddCluster env newNode i key cluster c = c := by
  unfold nodeAddCluster
  split
  · rfl
  · simp [hoff]

/-- The node-add handler reconciles nothing when no cluster uses all nodes. -/
theorem onK8sNodeAdd_skips_clusters_without_all_nodes (env : Env) (newNode : Node)
    (c : ClusterController)
    (hoff : ∀ e ∈ c.clusterMap, e.2.Spec.Storage.UseAllNodes = false) :
    onK8sNodeAdd env c (.node newNode) = .ok c := by
  have hloop : ∀ (m : List (String × Cluster)) (i : Nat) (c1 : ClusterController),
      (∀ e ∈ m, e.2.Spec.Storage.UseAllNodes = false) →
      nodeAddLoop env newNode m i c1 = c1 := by
    intro m
    induction m with
    | nil => intro i c1 _; rfl
    | cons e rest ih =>
      intro i c1 h
      obtain ⟨key, cluster⟩ := e
      have h1 : cluster.Spec.Storage.UseAllNodes = false := h (key, cluster) (by simp)
      simp only [nodeAddLoop, nodeAddCluster_skips_without_all_nodes env newNode i key cluster c1 h1]
      exact ih (i + 1) c1 (fun e he => h e (by simp [he]))
  unfold onK8sNodeAdd
  by_cases hs : env.getNodeSchedulable newNode = false
  · simp [hs]
  · simp [hs, hloop c.clusterMap 0 c hoff]

/-- C20, as the code has it: the registry holds one cluster whose
use-all-nodes flag is off.  The node-add handler skips it for a schedulable
node, but the node-update handler, on the flip of that node from cordoned to
schedulable, invokes the creation routine for it. -/
theorem onK8sNodeUpdate_reconciles_cluster_without_all_nodes :
    (mapGet listedNodesController.clusterMap "rook-ceph").map
        (fun cl => cl.Spec.Storage.UseAllNodes) = some false ∧
      onK8sNodeAdd quietEnv listedNodesController (.node schedulableNode) =
        .ok listedNodesController ∧
      ∃ c1, onK8sNodeUpdate quietEnv listedNodesController (.node cordonedNode)
          (.node schedulableNode) = .ok c1 ∧
        Event.createInstance "rook-ceph" sampleVersion ∈ c1.trace ∧
        creations c1.trace = creations listedNodesController.trace + 1 := by
  refine ⟨by decide, by decide, _, rfl, ?_, ?_⟩ <;> decide

/-! ### The default of the mon count -/

/-- For a requested count that is not negative, and a default of at least 1,
the count after the default is at least 1. -/
theorem applyMonDefault_count_pos (env : Env) (spec : ClusterSpec)
    (hdef : 1 ≤ env.defaultMonCount) (hnn : 0 ≤ spec.Mon.Count) :
    1 ≤ (applyMonDefault env spec).Mon.Count := by
  unfold applyMonDefault
  split
  · exact hdef
  · omega

/-- C14, as the code has it: a requested mon count of -1 is not 0, so the
default is not applied; initialization goes on, and the cluster in the
registry has a mon count of -1, which is below 1. -/
theorem initializeCluster_keeps_negative_mon_count :
    (applyMonDefault quietEnv negativeMonResource.Spec).Mon.Count = -1 ∧
      ∃ c1, onAdd quietEnv 1 (NewClusterController "rook/ceph:v1.1" false)
          (.cephCluster negativeMonResource) = .ok c1 ∧
        (mapGet c1.clusterMap "rook-ceph").map (fun cl => cl.Spec.Mon.Count) = some (-1) ∧
        Event.createInstance "rook-ceph" sampleVersion ∈ c1.trace ∧
        ¬ ((1 : Int) ≤ -1) := by
  refine ⟨by decide, _, rfl, ?_, ?_, ?_⟩ <;> decide

/-! ### Finalizers -/

theorem findFinalizer_succ (fname : String) :
    ∀ (fins : List String) (k : Nat),
      findFinalizer fname fins (k + 1) = (findFinalizer fname fins k).map (· + 1) := by
  intro fins
  induction fins with
  | nil => intro k; rfl
  | cons f rest ih =>
    intro k
    by_cases h : f = fname
    · simp [findFinalizer, h]
    · simp [findFinalizer, h, ih]

theorem findFinalizer_eq_none_iff (fname : String) (fins : List String) (k : Nat) :
    findFinalizer fname fins k = none ↔ fname ∉ fins := by
  induction fins generalizing k with
  | nil => simp [findFinalizer]
  | cons f rest ih =>
    by_cases h : f = fname
    · simp [findFinalizer, h]
    · have h1 : ¬ fname = f := fun h2 => h h2.symm
      simp [findFinalizer, h, h1, ih]

/-- The element removed at the index the search returns is the first
occurrence: the list that is left is `List.erase`. -/
theorem take_drop_findFinalizer (fname : String) :
    ∀ (fins : List String) (i : Nat), findFinalizer fname fins 0 = some i →
      fins.take i ++ fins.drop (i + 1) = fins.erase fname := by
  intro fins
  induction fins with
  | nil => intro i h; simp [findFinalizer] at h
  | cons f rest ih =>
    intro i h
    by_cases hf : f = fname
    · subst hf
      simp [findFinalizer] at h
      subst h
      simp
    · simp only [findFinalizer, hf, if_false, Nat.zero_add] at h
      have h1 := findFinalizer_succ fname rest 0
      simp only [Nat.zero_add] at h1
      rw [h1] at h
      cases hr : findFinalizer fname rest 0 with
      | none => rw [hr] at h; simp at h
      | some j =>
        rw [hr] at h
        simp at h
        subst h
        have := ih j hr
        simp [List.erase_cons, hf, this]

theorem finalizersAfterRemove_eq_erase (fins : List String) :
    finalizersAfterRemove fins = fins.erase finalizerName := by
  unfold finalizersAfterRemove
  cases h : findFinalizer finalizerName fins 0 with
  | none =>
    have := (findFinalizer_eq_none_iff finalizerName fins 0).mp h
    simp [List.erase_of_not_mem this]
  | some i => simpa using take_drop_findFinalizer finalizerName fins i h

theorem removeFinalizer_of_absent (env : Env) (c : ClusterController) (cl : CephCluster)
    (h : finalizerName ∉ cl.Finalizers) : removeFinalizer env c (.cephCluster cl) = c := by
  have := (findFinalizer_eq_none_iff finalizerName cl.Finalizers 0).mpr h
  simp [removeFinalizer, this]

theorem removeFinalizer_of_present (env : Env) (c : ClusterController) (cl : CephCluster)
    (h : finalizerName ∈ cl.Finalizers) :
    removeFinalizer env c (.cephCluster cl) =
      removeFinalizerRetry env cl.Namespace cl.Name (finalizersAfterRemove cl.Finalizers) 5 0 c := by
  cases hf : findFinalizer finalizerName cl.Finalizers 0 with
  | none => exact absurd h ((findFinalizer_eq_none_iff finalizerName cl.Finalizers 0).mp hf)
  | some i => simp [removeFinalizer, finalizersAfterRemove, hf]

/-- The retry loop of removeFinalizer stops at the first write that succeeds. -/
theorem removeFinalizerRetry_succeeds (env : Env) (ns name : String) (fins : List String) :
    ∀ (k left i : Nat) (c : ClusterController), k < left →
      (∀ j, j < k → env.removeFinalizerUpdate (i + j) ≠ none) →
      env.removeFinalizerUpdate (i + k) = none →
      removeFinalizerRetry env ns name fins left i c =
        addTrace c (failedWrites ns name fins k ++ [.updateCephCluster ns name fins]) := by
  intro k
  induction k with
  | zero =>
    intro left i c hleft _ hok
    obtain ⟨l, rfl⟩ : ∃ l, left = l + 1 := ⟨left - 1, by omega⟩
    simp only [Nat.add_zero] at hok
    simp [removeFinalizerRetry, hok, failedWrites, emit_eq, addTrace]
  | succ k ih =>
    intro left i c hleft hfail hok
    obtain ⟨l, rfl⟩ : ∃ l, left = l + 1 := ⟨left - 1, by omega⟩
    have h0 := hfail 0 (by omega)
    simp only [Nat.add_zero] at h0
    obtain ⟨e, he⟩ := Option.ne_none_iff_exists'.mp h0
    have hrec := ih l (i + 1)
      (emit (emit c (.updateCephCluster ns name fins)) (.sleep 5)) (by omega)
      (fun j hj => by
        have := hfail (j + 1) (by omega)
        have h1 : i + (j + 1) = i + 1 + j := by omega
        rwa [h1] at this)
      (by
        have h1 : i + (k + 1) = i + 1 + k := by omega
        rwa [h1] at hok)
    simp only [removeFinalizerRetry, he, hrec]
    simp [failedWrites, emit_eq, addTrace]

/-- The retry loop of removeFinalizer gives up when every write it is allowed fails. -/
theorem removeFinalizerRetry_gives_up (env : Env) (ns name : String) (fins : List String) :
    ∀ (left i : Nat) (c : ClusterController),
      (∀ j, j < left → env.removeFinalizerUpdate (i + j) ≠ none) →
      removeFinalizerRetry env ns name fins left i c =
        addTrace c (failedWrites ns name fins left) := by
  intro left
  induction left with
  | zero => intro i c _; simp [removeFinalizerRetry, failedWrites, addTrace]
  | succ l ih =>
    intro i c hfail
    have h0 := hfail 0 (by omega)
    simp only [Nat.add_zero] at h0
    obtain ⟨e, he⟩ := Option.ne_none_iff_exists'.mp h0
    have hrec := ih (i + 1)
      (emit (emit c (.updateCephCluster ns name fins)) (.sleep 5))
      (fun j hj => by
        have := hfail (j + 1) (by omega)
        have h1 : i + (j + 1) = i + 1 + j := by omega
        rwa [h1] at this)
    simp only [removeFinalizerRetry, he, hrec]
    simp [failedWrites, emit_eq, addTrace]

theorem resourceWrites_append (a b : List Event) :
    resourceWrites (a ++ b) = resourceWrites a + resourceWrites b := by
  simp [resourceWrites]

theorem resourceWrites_failedWrites (ns name : String) (fins : List String) :
    ∀ k, resourceWrites (failedWrites ns name fins k) = k
  | 0 => rfl
  | k + 1 => by
    have ih := resourceWrites_failedWrites ns name fins k
    simp only [resourceWrites] at ih
    simp [failedWrites, resourceWrites, Event.isResourceWrite, Event.isSleep, ih]

theorem sleeps_failedWrites (ns name : String) (fins : List String) :
    ∀ k, sleeps (failedWrites ns name fins k) = k
  | 0 => rfl
  | k + 1 => by
    have ih := sleeps_failedWrites ns name fins k
    simp only [sleeps] at ih
    simp [failedWrites, sleeps, Event.isSleep, ih]

theorem addFinalizer_of_present (env : Env) (c : ClusterController) (ns name : String)
    (clust : CephCluster) (hget : env.getCephCluster = .ok clust)
    (h : finalizerName ∈ clust.Finalizers) :
    addFinalizer env c ns name = (emit c (.getCephCluster ns name), none) := by
  cases hf : findFinalizer finalizerName clust.Finalizers 0 with
  | none => exact absurd h ((findFinalizer_eq_none_iff finalizerName clust.Finalizers 0).mp hf)
  | some i => simp [addFinalizer, hget, hf]

theorem addFinalizer_of_absent (env : Env) (c : ClusterController) (ns name : String)
    (clust : CephCluster) (hget : env.getCephCluster = .ok clust)
    (h : finalizerName ∉ clust.Finalizers) :
    (addFinalizer env c ns name).1 = addTrace c [.getCephCluster ns name,
      .updateCephCluster clust.Namespace clust.Name (clust.Finalizers ++ [finalizerName])] := by
  have hf := (findFinalizer_eq_none_iff finalizerName clust.Finalizers 0).mpr h
  cases hu : env.addFinalizerUpdate <;> simp [addFinalizer, hget, hf, hu, emit_eq, addTrace]

theorem finalizersAfterAdd_of_present (fins : List String) (h : finalizerName ∈ fins) :
    finalizersAfterAdd fins = fins := by
  cases hf : findFinalizer finalizerName fins 0 with
  | none => exact absurd h ((findFinalizer_eq_none_iff finalizerName fins 0).mp hf)
  | some i => simp [finalizersAfterAdd, hf]

theorem finalizersAfterAdd_of_absent (fins : List String) (h : finalizerName ∉ fins) :
    finalizersAfterAdd fins = fins ++ [finalizerName] := by
  have hf := (findFinalizer_eq_none_iff finalizerName fins 0).mpr h
  simp [finalizersAfterAdd, hf]

theorem mem_finalizersAfterAdd (fins : List String) : finalizerName ∈ finalizersAfterAdd fins := by
  by_cases h : finalizerName ∈ fins
  · rw [finalizersAfterAdd_of_present fins h]; exact h
  · rw [finalizersAfterAdd_of_absent fins h]; simp

/-- The retry loop of removeFinalizer writes the resource when it may try at all. -/
theorem removeFinalizerRetry_writes (env : Env) (ns name : String) (fins : List String)
    (l i : Nat) (c : ClusterController) :
    (removeFinalizerRetry env ns name fins (l + 1) i c).trace ≠ c.trace := by
  cases hu : env.removeFinalizerUpdate i with
  | none => simp [removeFinalizerRetry, hu]
  | some e =>
    obtain ⟨tr2, htr2, _⟩ := removeFinalizerRetry_trace env ns name fins l (i + 1)
      (emit (emit c (.updateCephCluster ns name fins)) (.sleep 5))
    have hstep : removeFinalizerRetry env ns name fins (l + 1) i c =
        removeFinalizerRetry env ns name fins l (i + 1)
          (emit (emit c (.updateCephCluster ns name fins)) (.sleep 5)) := by
      simp only [removeFinalizerRetry, hu]
    rw [hstep, htr2]
    simp

/-- C15: addFinalizer is idempotent on the finalizer list of the resource it
fetches.  When the cluster finalizer is in the list, the list stays as it is
and nothing is persisted (the only effect is the fetch).  Otherwise the
finalizer is appended at the end and the resource is written with that list,
which then holds the finalizer exactly once.  A second addFinalizer, on the
resource as the first one left it, persists nothing, so adding twice gives the
same list as adding once. -/
theorem addFinalizer_is_idempotent (env env2 : Env) (c : ClusterController) (ns name : String)
    (clust : CephCluster)
    (hget : env.getCephCluster = .ok clust)
    (hget2 : env2.getCephCluster =
      .ok { clust with Finalizers := finalizersAfterAdd clust.Finalizers }) :
    (finalizerName ∈ clust.Finalizers →
      finalizersAfterAdd clust.Finalizers = clust.Finalizers ∧
      addFinalizer env c ns name = (emit c (.getCephCluster ns name), none)) ∧
    (finalizerName ∉ clust.Finalizers →
      finalizersAfterAdd clust.Finalizers = clust.Finalizers ++ [finalizerName] ∧
      (addFinalizer env c ns name).1 = addTrace c [.getCephCluster ns name,
        .updateCephCluster clust.Namespace clust.Name (clust.Finalizers ++ [finalizerName])] ∧
      (finalizersAfterAdd clust.Finalizers).count finalizerName = 1) ∧
    (∀ c1, addFinalizer env2 c1 ns name = (emit c1 (.getCephCluster ns name), none)) ∧
    finalizersAfterAdd (finalizersAfterAdd clust.Finalizers) =
      finalizersAfterAdd clust.Finalizers := by
  refine ⟨fun h => ⟨finalizersAfterAdd_of_present _ h,
      addFinalizer_of_present env c ns name clust hget h⟩, fun h => ⟨
      finalizersAfterAdd_of_absent _ h, addFinalizer_of_absent env c ns name clust hget h, ?_⟩,
    fun c1 => addFinalizer_of_present env2 c1 ns name _ hget2
      (mem_finalizersAfterAdd clust.Finalizers),
    finalizersAfterAdd_of_present _ (mem_finalizersAfterAdd clust.Finalizers)⟩
  rw [finalizersAfterAdd_of_absent _ h, List.count_append, List.count_eq_zero_of_not_mem h]
  simp

/-- The theorem above for a resource fetched without any finalizer. -/
theorem addFinalizer_is_idempotent_witness :
    (finalizerName ∈ (sampleResource "rook-ceph" "my-cluster" false).Finalizers →
      finalizersAfterAdd (sampleResource "rook-ceph" "my-cluster" false).Finalizers =
        (sampleResource "rook-ceph" "my-cluster" false).Finalizers ∧
      addFinalizer fetchedEnv oneClusterController "rook-ceph" "my-cluster" =
        (emit oneClusterController (.getCephCluster "rook-ceph" "my-cluster"), none)) ∧
    (finalizerName ∉ (sampleResource "rook-ceph" "my-cluster" false).Finalizers →
      finalizersAfterAdd (sampleResource "rook-ceph" "my-cluster" false).Finalizers =
        (sampleResource "rook-ceph" "my-cluster" false).Finalizers ++ [finalizerName] ∧
      (addFinalizer fetchedEnv oneClusterController "rook-ceph" "my-cluster").1 =
        addTrace oneClusterController [.getCephCluster "rook-ceph" "my-cluster",
          .updateCephCluster (sampleResource "rook-ceph" "my-cluster" false).Namespace
            (sampleResource "rook-ceph" "my-cluster" false).Name
            ((sampleResource "rook-ceph" "my-cluster" false).Finalizers ++ [finalizerName])] ∧
      (finalizersAfterAdd (sampleResource "rook-ceph" "my-cluster" false).Finalizers).count
        finalizerName = 1) ∧
    (∀ c1, addFinalizer fetchedFinalizedEnv c1 "rook-ceph" "my-cluster" =
      (emit c1 (.getCephCluster "rook-ceph" "my-cluster"), none)) ∧
    finalizersAfterAdd
        (finalizersAfterAdd (sampleResource "rook-ceph" "my-cluster" false).Finalizers) =
      finalizersAfterAdd (sampleResource "rook-ceph" "my-cluster" false).Finalizers :=
  addFinalizer_is_idempotent fetchedEnv fetchedFinalizedEnv oneClusterController "rook-ceph"
    "my-cluster" (sampleResource "rook-ceph" "my-cluster" false) rfl rfl

/-- C16, as the code has it: from a list that holds the cluster finalizer
twice, removeFinalizer persists the list with one instance left, and a second
removeFinalizer on that resource persists the empty list: removing twice does
not give the list of removing once. -/
theorem removeFinalizer_twice_differs_on_duplicates :
    removeFinalizer quietEnv oneClusterController (.cephCluster doubleFinalizerResource) =
        emit oneClusterController
          (.updateCephCluster "rook-ceph" "my-cluster" [finalizerName]) ∧
      finalizersAfterRemove doubleFinalizerResource.Finalizers = [finalizerName] ∧
      removeFinalizer quietEnv oneClusterController
          (.cephCluster { doubleFinalizerResource with
            Finalizers := finalizersAfterRemove doubleFinalizerResource.Finalizers }) =
        emit oneClusterController (.updateCephCluster "rook-ceph" "my-cluster" []) ∧
      finalizersAfterRemove (finalizersAfterRemove doubleFinalizerResource.Finalizers) ≠
        finalizersAfterRemove doubleFinalizerResource.Finalizers := by
  refine ⟨?_, ?_, ?_, ?_⟩ <;> decide

/-- C16, amended: on a list that holds the cluster finalizer at most once,
removeFinalizer is idempotent: removing twice yields the same list as removing
once, and a second removeFinalizer on the resource as the first one left it
changes nothing and persists nothing.  On every list without the finalizer
removeFinalizer changes nothing and persists nothing; on a list with it, every
write it makes is of the list without its first occurrence. -/
theorem removeFinalizer_is_idempotent_without_duplicates (env : Env) (c : ClusterController)
    (cl : CephCluster) (hcount : cl.Finalizers.count finalizerName ≤ 1) :
    finalizersAfterRemove (finalizersAfterRemove cl.Finalizers) =
      finalizersAfterRemove cl.Finalizers ∧
    (∀ c1, removeFinalizer env c1
      (.cephCluster { cl with Finalizers := finalizersAfterRemove cl.Finalizers }) = c1) ∧
    (finalizerName ∉ cl.Finalizers →
      removeFinalizer env c (.cephCluster cl) = c ∧
      finalizersAfterRemove cl.Finalizers = cl.Finalizers) ∧
    (finalizerName ∈ cl.Finalizers →
      ∃ tr, removeFinalizer env c (.cephCluster cl) = addTrace c tr ∧ tr ≠ [] ∧
        ∀ ev ∈ tr, ev = .updateCephCluster cl.Namespace cl.Name
          (finalizersAfterRemove cl.Finalizers) ∨ ev = .sleep 5) := by
  have hgone : finalizerName ∉ finalizersAfterRemove cl.Finalizers := by
    rw [finalizersAfterRemove_eq_erase]
    intro hmem
    have h1 := List.count_erase_self finalizerName cl.Finalizers
    have h2 : 0 < (cl.Finalizers.erase finalizerName).count finalizerName :=
      List.count_pos_iff.mpr hmem
    omega
  refine ⟨?_, fun c1 => removeFinalizer_of_absent env c1 _ hgone, fun h =>
    ⟨removeFinalizer_of_absent env c cl h, ?_⟩, fun h => ?_⟩
  · rw [finalizersAfterRemove_eq_erase (finalizersAfterRemove cl.Finalizers)]
    exact List.erase_of_not_mem hgone
  · rw [finalizersAfterRemove_eq_erase]
    exact List.erase_of_not_mem h
  · obtain ⟨tr, htr, hev⟩ := removeFinalizerRetry_trace env cl.Namespace cl.Name
      (finalizersAfterRemove cl.Finalizers) 5 0 c
    refine ⟨tr, by rw [removeFinalizer_of_present env c cl h]; exact htr, ?_, hev⟩
    intro hnil
    subst hnil
    have h1 : (removeFinalizerRetry env cl.Namespace cl.Name
        (finalizersAfterRemove cl.Finalizers) (4 + 1) 0 c).trace = c.trace := by
      rw [htr]; simp
    exact removeFinalizerRetry_writes env cl.Namespace cl.Name _ 4 0 c h1

/-- The theorem above for a resource that holds the finalizer once. -/
theorem removeFinalizer_is_idempotent_without_duplicates_witness :
    finalizersAfterRemove (finalizersAfterRemove deletedResource.Finalizers) =
      finalizersAfterRemove deletedResource.Finalizers ∧
    (∀ c1, removeFinalizer quietEnv c1
      (.cephCluster { deletedResource with
        Finalizers := finalizersAfterRemove deletedResource.Finalizers }) = c1) ∧
    (finalizerName ∉ deletedResource.Finalizers →
      removeFinalizer quietEnv oneClusterController (.cephCluster deletedResource) =
        oneClusterController ∧
      finalizersAfterRemove deletedResource.Finalizers = deletedResource.Finalizers) ∧
    (finalizerName ∈ deletedResource.Finalizers →
      ∃ tr, removeFinalizer quietEnv oneClusterController (.cephCluster deletedResource) =
          addTrace oneClusterController tr ∧ tr ≠ [] ∧
        ∀ ev ∈ tr, ev = .updateCephCluster deletedResource.Namespace deletedResource.Name
          (finalizersAfterRemove deletedResource.Finalizers) ∨ ev = .sleep 5) :=
  removeFinalizer_is_idempotent_without_duplicates quietEnv oneClusterController deletedResource
    (by decide)

/-- C17: when the cluster finalizer is in the list, removeFinalizer tries to
persist the resource at most 5 times.  Let the writes before attempt `k` fail
and, when `k` is one of the 5 attempts, let write `k` succeed.  Then
removeFinalizer returns with min (k + 1, 5) writes made: it stops at the first
write that succeeds, which is then its last effect, and when all 5 writes fail
it returns normally after exactly 5 writes (each followed by a wait). -/
theorem removeFinalizer_bounded_retries (env : Env) (c : ClusterController) (cl : CephCluster)
    (k : Nat) (hpresent : finalizerName ∈ cl.Finalizers)
    (hfail : ∀ j, j < k → j < 5 → env.removeFinalizerUpdate j ≠ none)
    (hstop : k < 5 → env.removeFinalizerUpdate k = none) :
    ∃ tr, removeFinalizer env c (.cephCluster cl) = addTrace c tr ∧
      resourceWrites tr = min (k + 1) 5 ∧ sleeps tr = min k 5 ∧
      (∀ ev ∈ tr, ev = .updateCephCluster cl.Namespace cl.Name
        (finalizersAfterRemove cl.Finalizers) ∨ ev = .sleep 5) ∧
      (k < 5 → tr.getLast? = some (.updateCephCluster cl.Namespace cl.Name
        (finalizersAfterRemove cl.Finalizers))) := by
  obtain ⟨tr0, htr0, hev0⟩ := removeFinalizerRetry_trace env cl.Namespace cl.Name
    (finalizersAfterRemove cl.Finalizers) 5 0 c
  rw [removeFinalizer_of_present env c cl hpresent]
  by_cases hk : k < 5
  · have hrun := removeFinalizerRetry_succeeds env cl.Namespace cl.Name
      (finalizersAfterRemove cl.Finalizers) k 5 0 c hk
      (fun j hj => by simpa using hfail j hj (by omega)) (by simpa using hstop hk)
    have hmin : min (k + 1) 5 = k + 1 := by omega
    have hmin1 : min k 5 = k := by omega
    refine ⟨_, hrun, ?_, ?_, ?_, fun _ => by simp⟩
    · rw [resourceWrites_append, resourceWrites_failedWrites, hmin]
      rfl
    · rw [sleeps_append, sleeps_failedWrites, hmin1]
      rfl
    · intro ev hev
      apply hev0
      have h1 := htr0.symm.trans hrun
      have h2 := congrArg ClusterController.trace h1
      simp only [addTrace_trace, List.append_cancel_left_eq] at h2
      rw [h2]; exact hev
  · have hrun := removeFinalizerRetry_gives_up env cl.Namespace cl.Name
      (finalizersAfterRemove cl.Finalizers) 5 0 c
      (fun j hj => by simpa using hfail j (by omega) hj)
    have hmin : min (k + 1) 5 = 5 := by omega
    have hmin1 : min k 5 = 5 := by omega
    refine ⟨_, hrun, ?_, ?_, ?_, fun h => absurd h hk⟩
    · rw [resourceWrites_failedWrites, hmin]
    · rw [sleeps_failedWrites, hmin1]
    · intro ev hev
      apply hev0
      have h1 := htr0.symm.trans hrun
      have h2 := congrArg ClusterController.trace h1
      simp only [addTrace_trace, List.append_cancel_left_eq] at h2
      rw [h2]; exact hev

/-- The theorem above when the resource can never be written: 5 writes, then
removeFinalizer gives up. -/
theorem removeFinalizer_bounded_retries_witness :
    ∃ tr, removeFinalizer readOnlyEnv oneClusterController (.cephCluster deletedResource) =
        addTrace oneClusterController tr ∧
      resourceWrites tr = min (5 + 1) 5 ∧ sleeps tr = min 5 5 ∧
      (∀ ev ∈ tr, ev = .updateCephCluster deletedResource.Namespace deletedResource.Name
        (finalizersAfterRemove deletedResource.Finalizers) ∨ ev = .sleep 5) ∧
      (5 < 5 → tr.getLast? = some (.updateCephCluster deletedResource.Namespace
        deletedResource.Name (finalizersAfterRemove deletedResource.Finalizers))) :=
  removeFinalizer_bounded_retries readOnlyEnv oneClusterController deletedResource 5
    (by decide) (fun _ _ _ h => by simp [readOnlyEnv] at h)
    (fun h => absurd h (by decide))

/-- C18, as the code has it: the finalizer identifier is not the plural name
of the resource joined to its group. -/
theorem finalizerName_is_not_plural :
    finalizerName ≠ ClusterResource.Plural ++ "." ++ ClusterResource.Group ∧
      ClusterResource.Plural ++ "." ++ ClusterResource.Group = "cephclusters.ceph.rook.io" ∧
      findFinalizer finalizerName ["cephclusters.ceph.rook.io"] 0 = none := by
  refine ⟨?_, ?_, ?_⟩ <;> decide

/-- C18, amended: the finalizer identifier is the (singular) name of the
cluster resource, a dot, and the resource group, "cephcluster.ceph.rook.io".
It is the string addFinalizer appends to the finalizers of the resource it
fetched, and the string whose first occurrence removeFinalizer takes out of
the list before it writes the resource. -/
theorem finalizerName_is_name_dot_group (env : Env) (c : ClusterController) (ns name : String)
    (clust cl : CephCluster)
    (hget : env.getCephCluster = .ok clust)
    (habsent : "cephcluster.ceph.rook.io" ∉ clust.Finalizers)
    (hpresent : "cephcluster.ceph.rook.io" ∈ cl.Finalizers)
    (hwrite : env.removeFinalizerUpdate 0 = none) :
    finalizerName = ClusterResource.Name ++ "." ++ ClusterResource.Group ∧
    finalizerName = "cephcluster.ceph.rook.io" ∧
    (addFinalizer env c ns name).1 = addTrace c [.getCephCluster ns name,
      .updateCephCluster clust.Namespace clust.Name
        (clust.Finalizers ++ ["cephcluster.ceph.rook.io"])] ∧
    removeFinalizer env c (.cephCluster cl) = addTrace c
      [.updateCephCluster cl.Namespace cl.Name (cl.Finalizers.erase "cephcluster.ceph.rook.io")] := by
  have hname : finalizerName = "cephcluster.ceph.rook.io" := by decide
  refine ⟨rfl, hname, ?_, ?_⟩
  · rw [← hname] at habsent ⊢
    exact addFinalizer_of_absent env c ns name clust hget habsent
  · rw [← hname] at hpresent ⊢
    rw [removeFinalizer_of_present env c cl hpresent, finalizersAfterRemove_eq_erase]
    have := removeFinalizerRetry_succeeds env cl.Namespace cl.Name
      (cl.Finalizers.erase finalizerName) 0 5 0 c (by decide)
      (fun j hj => absurd hj (Nat.not_lt_zero j)) (by simpa using hwrite)
    simpa [failedWrites] using this

/-- The theorem above for a resource fetched without finalizers and a deleted
resource that carries the finalizer. -/
theorem finalizerName_is_name_dot_group_witness :
    finalizerName = ClusterResource.Name ++ "." ++ ClusterResource.Group ∧
    finalizerName = "cephcluster.ceph.rook.io" ∧
    (addFinalizer fetchedEnv oneClusterController "rook-ceph" "my-cluster").1 =
      addTrace oneClusterController [.getCephCluster "rook-ceph" "my-cluster",
        .updateCephCluster (sampleResource "rook-ceph" "my-cluster" false).Namespace
          (sampleResource "rook-ceph" "my-cluster" false).Name
          ((sampleResource "rook-ceph" "my-cluster" false).Finalizers ++
            ["cephcluster.ceph.rook.io"])] ∧
    removeFinalizer fetchedEnv oneClusterController (.cephCluster deletedResource) =
      addTrace oneClusterController
        [.updateCephCluster deletedResource.Namespace deletedResource.Name
          (deletedResource.Finalizers.erase "cephcluster.ceph.rook.io")] :=
  finalizerName_is_name_dot_group fetchedEnv oneClusterController "rook-ceph" "my-cluster"
    (sampleResource "rook-ceph" "my-cluster" false) deletedResource rfl (by decide) (by decide)
    rfl

/-! ### An external cluster -/

theorem waitTrace_not_connected (ns : String) :
    ∀ (k : Nat) (ev : Event), ev ∈ waitTrace ns k → ev.isConnected = false
  | 0, ev, h => by simp [waitTrace] at h
  | k + 1, ev, h => by
    simp only [waitTrace, List.mem_cons] at h
    rcases h with h | h | h
    · subst h; rfl
    · subst h; rfl
    · exact waitTrace_not_connected ns k ev h

/-- The iterations of the loop of configureExternalCephCluster that find no
cluster info only load and wait. -/
theorem configureExternalLoop_waits (env : Env) (ns name : String) :
    ∀ (k fuel i : Nat) (c : ClusterController) (cl : Cluster),
      (∀ j, j < k → ∃ e, env.extLoadClusterInfo (i + j) = .error e) →
      ∃ cl1, cl1.Spec = cl.Spec ∧
        configureExternalLoop env ns name (fuel + k) i c cl =
          configureExternalLoop env ns name fuel (i + k) (addTrace c (waitTrace ns k)) cl1 := by
  intro k
  induction k with
  | zero => intro fuel i c cl _; exact ⟨cl, rfl, by simp [waitTrace, addTrace]⟩
  | succ k ih =>
    intro fuel i c cl hwait
    obtain ⟨e, he⟩ := hwait 0 (by omega)
    simp only [Nat.add_zero] at he
    obtain ⟨cl1, hspec, hrec⟩ := ih fuel (i + 1)
      (emit (emit c (.loadClusterInfo ns)) (.sleep 10)) { cl with Info := none }
      (fun j hj => by
        have := hwait (j + 1) (by omega)
        have h1 : i + (j + 1) = i + 1 + j := by omega
        rwa [h1] at this)
    refine ⟨cl1, hspec, ?_⟩
    have h1 : fuel + (k + 1) = (fuel + k) + 1 := by omega
    have h2 : i + (k + 1) = i + 1 + k := by omega
    rw [h1, h2]
    simp only [configureExternalLoop, he, hrec]
    simp [waitTrace, emit_eq, addTrace]

/-- The iteration of the loop of configureExternalCephCluster that finds the
cluster info: it succeeds exactly when the connection config is written, both
versions are obtained and they are identical, and it writes the status
Connected exactly then, as its last effect. -/
theorem configureExternalLoop_found_result (env : Env) (ns name : String) (f i : Nat)
    (c : ClusterController) (cl : Cluster) (info : ClusterInfo)
    (hinfo : env.extLoadClusterInfo i = .ok info) :
    ∃ c1 cl1 err tr, configureExternalLoop env ns name (f + 1) i c cl = .ok (c1, cl1, err) ∧
      c1 = addTrace c tr ∧
      (err = none ↔ (env.extWriteConnectionConfig = none ∧
        ∃ mv sv, env.getCephMonVersion = .ok mv ∧ env.extDetectCephVersion = .ok sv ∧
          IsIdentical sv mv = true)) ∧
      ((∃ ev ∈ tr, ev.isConnected = true) ↔ err = none) ∧
      (err = none → tr.getLast? = some (.updateClusterStatus ns name .Connected "")) := by
  simp only [configureExternalLoop, hinfo]
  cases hw : env.extWriteConnectionConfig with
  | some e =>
    refine ⟨_, _, _, [.loadClusterInfo ns, .writeConnectionConfig ns], rfl, ?_, ?_, ?_, ?_⟩
    · simp [emit_eq, addTrace]
    · simp
    · simp [Event.isConnected]
    · simp
  | none =>
    cases hm : env.getCephMonVersion with
    | error e =>
      refine ⟨_, _, _, [.loadClusterInfo ns, .writeConnectionConfig ns, .getCephMonVersion ns],
        rfl, ?_, ?_, ?_, ?_⟩
      · simp [emit_eq, addTrace]
      · simp
      · simp [Event.isConnected]
      · simp
    | ok mv =>
      cases hd : env.extDetectCephVersion with
      | error e =>
        refine ⟨_, _, _, [.loadClusterInfo ns, .writeConnectionConfig ns, .getCephMonVersion ns,
          .detectCephVersion cl.Spec.CephVersion.Image], rfl, ?_, ?_, ?_, ?_⟩
        · simp [emit_eq, addTrace]
        · simp
        · simp [Event.isConnected]
        · simp
      | ok sv =>
        by_cases hid : IsIdentical sv mv = true
        · simp only [hid, Bool.not_true, Bool.false_eq_true, if_false]
          refine ⟨_, _, _, [.loadClusterInfo ns, .writeConnectionConfig ns,
            .getCephMonVersion ns, .detectCephVersion cl.Spec.CephVersion.Image,
            .updateClusterStatus ns name .Connected ""], rfl, ?_, ?_, ?_, ?_⟩
          · simp [emit_eq, addTrace, updateClusterStatus]
          · simp [hid]
          · simp [Event.isConnected]
          · simp
        · simp only [hid, Bool.not_false, if_true]
          refine ⟨_, _, _, [.loadClusterInfo ns, .writeConnectionConfig ns,
            .getCephMonVersion ns, .detectCephVersion cl.Spec.CephVersion.Image],
            rfl, ?_, ?_, ?_, ?_⟩
          · simp [emit_eq, addTrace]
          · simp [hid]
          · simp [Event.isConnected]
          · simp

/-- C11: configureExternalCephCluster, once the connection info of the
external cluster is found (in iteration `k` of its wait, within the fuel).  It
returns; it returns success exactly when the connection config is written,
the version of the external monitors and the version of the configured image
are both obtained, and the two are identical; and the status Connected is
written exactly when it returns success, as its last effect.  So when the two
versions are not identical it returns an error and Connected is never
written. -/
theorem configureExternalCephCluster_connected_iff_identical (env : Env) (fuel : Nat)
    (c : ClusterController) (ns name : String) (cluster : Cluster) (k : Nat)
    (hk : k < fuel)
    (hwait : ∀ j, j < k → ∃ e, env.extLoadClusterInfo j = .error e)
    (hload : ∃ info, env.extLoadClusterInfo k = .ok info) :
    ∃ c1 cl1 err tr,
      configureExternalCephCluster env fuel c ns name cluster = .ok (c1, cl1, err) ∧
      c1 = addTrace c tr ∧
      (err = none ↔ (env.extWriteConnectionConfig = none ∧
        ∃ mv sv, env.getCephMonVersion = .ok mv ∧ env.extDetectCephVersion = .ok sv ∧
          IsIdentical sv mv = true)) ∧
      ((∃ ev ∈ tr, ev.isConnected = true) ↔ err = none) ∧
      (err = none → tr.getLast? = some (.updateClusterStatus ns name .Connected "")) ∧
      (∀ mv sv, env.getCephMonVersion = .ok mv → env.extDetectCephVersion = .ok sv →
        IsIdentical sv mv = false → err ≠ none ∧ ∀ ev ∈ tr, ev.isConnected = false) := by
  obtain ⟨info, hinfo⟩ := hload
  obtain ⟨f, hf⟩ : ∃ f, fuel = (f + 1) + k := ⟨fuel - k - 1, by omega⟩
  obtain ⟨cl0, _, hloop⟩ := configureExternalLoop_waits env ns name k (f + 1) 0
    (updateClusterStatus c ns name .Connecting "") cluster
    (fun j hj => by simpa using hwait j hj)
  obtain ⟨c1, cl1, err, tr, hrun, hc1, herr, hconn, hlast⟩ :=
    configureExternalLoop_found_result env ns name f (0 + k)
      (addTrace (updateClusterStatus c ns name .Connecting "") (waitTrace ns k)) cl0 info
      (by simpa using hinfo)
  have hiff : (∃ ev ∈ [Event.updateClusterStatus ns name .Connecting ""] ++ waitTrace ns k ++ tr,
      ev.isConnected = true) ↔ err = none := by
    rw [← hconn]
    constructor
    · rintro ⟨ev, hev, hc⟩
      simp only [List.mem_append, List.mem_singleton] at hev
      rcases hev with (hev | hev) | hev
      · subst hev; cases hc
      · rw [waitTrace_not_connected ns k ev hev] at hc; cases hc
      · exact ⟨ev, hev, hc⟩
    · rintro ⟨ev, hev, hc⟩
      exact ⟨ev, by simp [hev], hc⟩
  refine ⟨c1, cl1, err,
    [.updateClusterStatus ns name .Connecting ""] ++ waitTrace ns k ++ tr, ?_, ?_, herr, hiff,
    ?_, ?_⟩
  · rw [configureExternalCephCluster, hf, hloop, hrun]
  · rw [hc1]; simp [updateClusterStatus, emit_eq, addTrace]
  · intro he
    have h1 := hlast he
    rw [List.getLast?_append, h1]
    rfl
  · intro mv sv hmv hsv hid
    have hne : err ≠ none := by
      intro he
      obtain ⟨_, mv1, sv1, hmv1, hsv1, hid1⟩ := herr.mp he
      rw [hmv] at hmv1
      rw [hsv] at hsv1
      cases hmv1
      cases hsv1
      rw [hid] at hid1
      cases hid1
    refine ⟨hne, fun ev hev => ?_⟩
    cases hc : ev.isConnected with
    | false => rfl
    | true => exact absurd (hiff.mp ⟨ev, hev, hc⟩) hne

/-- The theorem above when the connection info is found at once and every
call succeeds. -/
theorem configureExternalCephCluster_connected_iff_identical_witness :
    ∃ c1 cl1 err tr,
      configureExternalCephCluster quietEnv 1 oneClusterController "rook-ceph" "my-cluster"
        (sampleCluster "rook-ceph" "my-cluster" false 0) = .ok (c1, cl1, err) ∧
      c1 = addTrace oneClusterController tr ∧
      (err = none ↔ (quietEnv.extWriteConnectionConfig = none ∧
        ∃ mv sv, quietEnv.getCephMonVersion = .ok mv ∧ quietEnv.extDetectCephVersion = .ok sv ∧
          IsIdentical sv mv = true)) ∧
      ((∃ ev ∈ tr, ev.isConnected = true) ↔ err = none) ∧
      (err = none →
        tr.getLast? = some (.updateClusterStatus "rook-ceph" "my-cluster" .Connected "")) ∧
      (∀ mv sv, quietEnv.getCephMonVersion = .ok mv → quietEnv.extDetectCephVersion = .ok sv →
        IsIdentical sv mv = false → err ≠ none ∧ ∀ ev ∈ tr, ev.isConnected = false) :=
  configureExternalCephCluster_connected_iff_identical quietEnv 1 oneClusterController
    "rook-ceph" "my-cluster" (sampleCluster "rook-ceph" "my-cluster" false 0) 0 (by decide)
    (fun j hj => absurd hj (Nat.not_lt_zero j)) ⟨sampleInfo, rfl⟩

/-- C12, as the code has it: an external cluster whose monitors run 14.2.4 is
added with an image of version 15.2.0.  The two versions are not identical,
configureExternalCephCluster returns its error after one load of the
connection info, and initializeCluster returns without starting a
sub-controller or a health loop; but no status Error is written: the last
status written is Connecting with an empty message. -/
theorem external_version_mismatch_leaves_status_connecting :
    IsIdentical upgradeVersion sampleVersion = false ∧
      ∃ c1, onAdd mismatchEnv 1 (NewClusterController "rook/ceph:v1.1" false)
          (.cephCluster externalResource) = .ok c1 ∧
        lastStatus c1.trace = some (.Connecting, "") ∧
        c1.trace.all (fun ev => !ev.isErrorStatus) = true ∧
        c1.trace.all (fun ev => !ev.isStart) = true ∧
        c1.trace.getLast? = some (.detectCephVersion "ceph/ceph:v15.2.0") := by
  refine ⟨by decide, _, rfl, ?_, ?_, ?_, ?_⟩ <;> decide

/-! ### The all-devices conflict -/

/-- The creation poll ends in Created when one of the attempts it makes
succeeds: attempt `L` is made and passes the version check and the creation. -/
theorem createPoll_created (env : Env) (clusterObj : CephCluster) (s : CreatePoll) (L : Nat)
    (hL : L ≤ env.createTicks) (hbefore : ∀ j, j < L → attemptRetries env j)
    (hsucc : attemptSucceeds env L) :
    ∃ err s1, pollLoop (createClusterAttempt env clusterObj) env.createTicks 0 s = .ok (err, s1) ∧
      s1.state = .Created ∧ s1.failedMessage = "" ∧
      s1.c = addTrace s.c (pollTrace env clusterObj s.cluster.Spec.CephVersion.Image
        s.cluster.Namespace (L + 1) 0) ∧
      sameIdentity s1.cluster s.cluster := by
  obtain ⟨L1, err, s1, hrun, _, hub, hretr, htr, hid, hcase⟩ :=
    createPoll_run env clusterObj env.createTicks 0 s
  have hL1 : L1 = L := by
    rcases Nat.lt_trichotomy L1 L with h | h | h
    · exfalso
      have hr := hbefore L1 h
      rcases hcase with ⟨hs, _⟩ | ⟨⟨e1, hr1⟩, _⟩ | ⟨hLt, _⟩
      · exact attemptRetries_not_succeeds hr hs
      · exact attemptRejected_not_retries hr1 hr
      · omega
    · exact h
    · exact absurd (hretr L (Nat.zero_le L) h) (attemptSucceeds_not_retries hsucc)
  subst hL1
  have h0 : L1 + 1 - 0 = L1 + 1 := by omega
  rw [h0] at htr
  rcases hcase with ⟨_, hst, hmsg⟩ | ⟨⟨e, hr⟩, _⟩ | ⟨_, hr, _⟩
  · exact ⟨err, s1, hrun, hst, hmsg, htr, hid⟩
  · exact absurd hsucc (attemptRejected_not_succeeds hr)
  · exact absurd hsucc (attemptRetries_not_succeeds hr)

/-- C13: configureLocalCephCluster fails exactly when the all-devices flag is
held and the spec of the cluster uses all devices.  Then it writes the status
Error with the conflict message and leaves the flag as it was, and
initializeCluster (for a local cluster whose creation poll succeeded in
attempt `L`) returns with that write as its last effect and without starting
a sub-controller or a health loop.  In every other case
configureLocalCephCluster succeeds, writes nothing, and the flag afterwards is
the flag before or-ed with the use of all devices. -/
theorem configureLocalCephCluster_conflict (env : Env) (fuel : Nat) (c : ClusterController)
    (key : String) (cluster : Cluster) (clusterObj : CephCluster) (L : Nat)
    (hreach : pollReached env) (hL : L ≤ env.createTicks)
    (hbefore : ∀ j, j < L → attemptRetries env j) (hsucc : attemptSucceeds env L)
    (hlocal : clusterObj.Spec.External.Enable = false) :
    (∀ (c0 : ClusterController) (cl0 : Cluster),
      ((configureLocalCephCluster c0 cl0 clusterObj).2 ≠ none ↔
        (c0.devicesInUse = true ∧ cl0.Spec.Storage.AnyUseAllDevices = true)) ∧
      ((c0.devicesInUse = true ∧ cl0.Spec.Storage.AnyUseAllDevices = true) →
        configureLocalCephCluster c0 cl0 clusterObj =
          (updateClusterStatus c0 clusterObj.Namespace clusterObj.Name .Error conflictMessage,
            some conflictMessage) ∧
        (configureLocalCephCluster c0 cl0 clusterObj).1.devicesInUse = c0.devicesInUse) ∧
      (¬ (c0.devicesInUse = true ∧ cl0.Spec.Storage.AnyUseAllDevices = true) →
        configureLocalCephCluster c0 cl0 clusterObj =
          ({ c0 with devicesInUse := c0.devicesInUse || cl0.Spec.Storage.AnyUseAllDevices },
            none))) ∧
    (c.devicesInUse = true → clusterObj.Spec.Storage.AnyUseAllDevices = true →
      ∃ c1, initializeCluster env fuel c key cluster clusterObj = .ok c1 ∧
        c1.devicesInUse = true ∧
        (∀ ev ∈ c1.trace, ev.isStart = true → ev ∈ c.trace) ∧
        c1.trace.getLast? = some (.updateClusterStatus clusterObj.Namespace clusterObj.Name
          .Error conflictMessage)) := by
  have hlocalCases : ∀ (c0 : ClusterController) (cl0 : Cluster),
      ((configureLocalCephCluster c0 cl0 clusterObj).2 ≠ none ↔
        (c0.devicesInUse = true ∧ cl0.Spec.Storage.AnyUseAllDevices = true)) ∧
      ((c0.devicesInUse = true ∧ cl0.Spec.Storage.AnyUseAllDevices = true) →
        configureLocalCephCluster c0 cl0 clusterObj =
          (updateClusterStatus c0 clusterObj.Namespace clusterObj.Name .Error conflictMessage,
            some conflictMessage) ∧
        (configureLocalCephCluster c0 cl0 clusterObj).1.devicesInUse = c0.devicesInUse) ∧
      (¬ (c0.devicesInUse = true ∧ cl0.Spec.Storage.AnyUseAllDevices = true) →
        configureLocalCephCluster c0 cl0 clusterObj =
          ({ c0 with devicesInUse := c0.devicesInUse || cl0.Spec.Storage.AnyUseAllDevices },
            none)) := by
    intro c0 cl0
    cases hflag : c0.devicesInUse <;> cases huse : cl0.Spec.Storage.AnyUseAllDevices <;>
      simp [configureLocalCephCluster, hflag, huse, conflictMessage, updateClusterStatus, emit]
    all_goals (cases c0; simp_all)
  refine ⟨hlocalCases, fun hflag huse => ?_⟩
  obtain ⟨cl, hns, _, hspec, _, hinit⟩ :=
    initializeCluster_reaches_poll env fuel c key cluster clusterObj hreach
  obtain ⟨err, s1, hrun, hst, hmsg, htr, hid⟩ := createPoll_created env clusterObj
    { c := addTrace c (initTrace env cluster.Namespace), cluster := cl, failedMessage := "",
      state := .Error } L hL hbefore hsucc
  have hspec1 : s1.cluster.Spec = applyMonDefault env clusterObj.Spec := hid.2.2.1.trans hspec
  have hext : s1.cluster.Spec.External.Enable = false := by
    rw [hspec1]; simpa using hlocal
  have huse1 : s1.cluster.Spec.Storage.AnyUseAllDevices = true := by
    rw [hspec1]; simpa using huse
  have hflag1 : (updateClusterStatus s1.c clusterObj.Namespace clusterObj.Name .Created
      "").devicesInUse = true := by
    rw [htr]; simpa [updateClusterStatus] using hflag
  have hconf := ((hlocalCases (updateClusterStatus s1.c clusterObj.Namespace clusterObj.Name
    .Created "") s1.cluster).2.1 ⟨hflag1, huse1⟩).1
  have hres : initializeClusterPoll env fuel (addTrace c (initTrace env cluster.Namespace)) key
      cl clusterObj = .ok (storeCluster
        (updateClusterStatus (updateClusterStatus s1.c clusterObj.Namespace clusterObj.Name
          .Created "") clusterObj.Namespace clusterObj.Name .Error
          conflictMessage) key s1.cluster) := by
    simp only [initializeClusterPoll, hrun, Run.bind, hst, hmsg, hext, hconf]
    simp
  refine ⟨_, hinit.trans hres, ?_, ?_, ?_⟩
  · simpa [updateClusterStatus] using hflag1
  · intro ev hev hstart
    simp only [storeCluster_trace, updateClusterStatus, emit_trace, htr, addTrace_trace,
      List.mem_append, List.mem_singleton] at hev
    rcases hev with (((hev | hev) | hev) | hev) | hev
    · exact hev
    · rw [initTrace_no_start env _ ev hev] at hstart; cases hstart
    · rw [pollTrace_no_start env clusterObj _ _ _ _ ev hev] at hstart; cases hstart
    · subst hev; cases hstart
    · subst hev; cases hstart
  · simp [updateClusterStatus]

/-- The theorem above for a second all-devices cluster, added while a running
cluster holds the flag. -/
theorem configureLocalCephCluster_conflict_witness :
    (∀ (c0 : ClusterController) (cl0 : Cluster),
      ((configureLocalCephCluster c0 cl0 (sampleResource "other" "second" true)).2 ≠ none ↔
        (c0.devicesInUse = true ∧ cl0.Spec.Storage.AnyUseAllDevices = true)) ∧
      ((c0.devicesInUse = true ∧ cl0.Spec.Storage.AnyUseAllDevices = true) →
        configureLocalCephCluster c0 cl0 (sampleResource "other" "second" true) =
          (updateClusterStatus c0 (sampleResource "other" "second" true).Namespace
            (sampleResource "other" "second" true).Name .Error conflictMessage,
            some conflictMessage) ∧
        (configureLocalCephCluster c0 cl0 (sampleResource "other" "second" true)).1.devicesInUse =
          c0.devicesInUse) ∧
      (¬ (c0.devicesInUse = true ∧ cl0.Spec.Storage.AnyUseAllDevices = true) →
        configureLocalCephCluster c0 cl0 (sampleResource "other" "second" true) =
          ({ c0 with devicesInUse := c0.devicesInUse || cl0.Spec.Storage.AnyUseAllDevices },
            none))) ∧
    (busyController.devicesInUse = true →
      (sampleResource "other" "second" true).Spec.Storage.AnyUseAllDevices = true →
      ∃ c1, initializeCluster quietEnv 1 busyController "other"
          (newCluster (sampleResource "other" "second" true) 1)
          (sampleResource "other" "second" true) = .ok c1 ∧
        c1.devicesInUse = true ∧
        (∀ ev ∈ c1.trace, ev.isStart = true → ev ∈ busyController.trace) ∧
        c1.trace.getLast? = some (.updateClusterStatus
          (sampleResource "other" "second" true).Namespace
          (sampleResource "other" "second" true).Name .Error conflictMessage)) :=
  configureLocalCephCluster_conflict quietEnv 1 busyController "other"
    (newCluster (sampleResource "other" "second" true) 1)
    (sampleResource "other" "second" true) 0 (Or.inl ⟨"not found", rfl⟩) (Nat.zero_le _)
    (fun j hj => absurd hj (Nat.not_lt_zero j)) ⟨sampleVersion, rfl, rfl, rfl⟩ rfl

/-! ### Device inventory events -/

theorem DeviceListsEqual_of_same_devices (parse : String → Except String (List LocalDisk))
    (oldDevStr newDevStr : String) (oldDevs newDevs : List LocalDisk)
    (h1 : parse oldDevStr = .ok oldDevs) (h2 : parse newDevStr = .ok newDevs)
    (hsame : ∀ d, d ∈ oldDevs ↔ d ∈ newDevs) :
    DeviceListsEqual parse oldDevStr newDevStr = .ok true := by
  simp only [DeviceListsEqual, h1, h2]
  congr 1
  simp only [Bool.and_eq_true, List.all_eq_true, decide_eq_true_eq]
  exact ⟨fun d hd => (hsame d).1 hd, fun d hd => (hsame d).2 hd⟩

/-- An inventory that lost a disk is a change: onDeviceCMUpdate invokes the
creation routine for the running cluster. -/
theorem onDeviceCMUpdate_changed_inventory_creates :
    ∃ c1, onDeviceCMUpdate quietEnv oneClusterController
        (.configMap (deviceConfigMap "[sda,sdb]")) (.configMap (deviceConfigMap "[sda]")) =
          .ok c1 ∧
      c1.trace = [.createInstance "rook-ceph" sampleVersion] := by
  refine ⟨_, rfl, ?_⟩
  decide

/-- C21: onDeviceCMUpdate returns with the controller as it was, so the
creation routine is invoked for no cluster, for every pair of config maps of
which one lacks the device-list key, or whose device strings fail to compare,
or whose device strings decode to lists with the same devices, in whatever
order. -/
theorem onDeviceCMUpdate_ignores_unchanged_inventory (env : Env) (c : ClusterController)
    (oldCm newCm : ConfigMap)
    (h : oldCm.Data.lookup env.localDiskCMData = none ∨
         newCm.Data.lookup env.localDiskCMData = none ∨
         ∃ oldDevStr newDevStr,
           oldCm.Data.lookup env.localDiskCMData = some oldDevStr ∧
           newCm.Data.lookup env.localDiskCMData = some newDevStr ∧
           ((∃ e, DeviceListsEqual env.parseDevices oldDevStr newDevStr = .error e) ∨
            ∃ oldDevs newDevs, env.parseDevices oldDevStr = .ok oldDevs ∧
              env.parseDevices newDevStr = .ok newDevs ∧ ∀ d, d ∈ oldDevs ↔ d ∈ newDevs)) :
    onDeviceCMUpdate env c (.configMap oldCm) (.configMap newCm) = .ok c := by
  rcases h with h | h | ⟨o, n, ho, hn, h⟩
  · simp [onDeviceCMUpdate, h]
  · cases ho : oldCm.Data.lookup env.localDiskCMData with
    | none => simp [onDeviceCMUpdate, ho]
    | some o => simp [onDeviceCMUpdate, ho, h]
  · rcases h with ⟨e, he⟩ | ⟨ds1, ds2, h1, h2, hsame⟩
    · simp [onDeviceCMUpdate, ho, hn, he]
    · have heq := DeviceListsEqual_of_same_devices env.parseDevices o n ds1 ds2 h1 h2 hsame
      simp [onDeviceCMUpdate, ho, hn, heq]

/-- The theorem above for an inventory whose two disks changed places. -/
theorem onDeviceCMUpdate_ignores_unchanged_inventory_witness :
    onDeviceCMUpdate quietEnv oneClusterController
      (.configMap (deviceConfigMap "[sda,sdb]")) (.configMap (deviceConfigMap "[sdb,sda]")) =
        .ok oneClusterController :=
  onDeviceCMUpdate_ignores_unchanged_inventory quietEnv oneClusterController
    (deviceConfigMap "[sda,sdb]") (deviceConfigMap "[sdb,sda]")
    (Or.inr (Or.inr ⟨"[sda,sdb]", "[sdb,sda]", rfl, rfl,
      Or.inr ⟨[sampleDisk "sda", sampleDisk "sdb"], [sampleDisk "sdb", sampleDisk "sda"],
        rfl, rfl, fun d => by simp [or_comm]⟩⟩))

/-- C26, as the code has it: onK8sNodeAdd crashes on every payload that is
not a node (the failed type assertion is only logged, and the nil node is
dereferenced by the schedulability check); on a node it returns. -/
theorem onK8sNodeAdd_crashes_on_non_node_payload (env : Env) (c : ClusterController) :
    (∀ kind, onK8sNodeAdd env c (.foreign kind) = .crash) ∧
    (∀ cl, onK8sNodeAdd env c (.cephCluster cl) = .crash) ∧
    (∀ cm, onK8sNodeAdd env c (.configMap cm) = .crash) ∧
    (∀ n, ∃ c1, onK8sNodeAdd env c (.node n) = .ok c1) := by
  refine ⟨fun _ => rfl, fun _ => rfl, fun _ => rfl, fun n => ?_⟩
  by_cases hs : env.getNodeSchedulable n = false
  · exact ⟨c, by simp [onK8sNodeAdd, hs]⟩
  · exact ⟨nodeAddLoop env n c.clusterMap 0 c, by simp [onK8sNodeAdd, hs]⟩

theorem findFinalizer_first (fname : String) :
    ∀ (fins : List String) (i : Nat), findFinalizer fname fins 0 = some i →
      fins[i]? = some fname ∧ ∀ j, j < i → fins[j]? ≠ some fname := by
  intro fins
  induction fins with
  | nil => intro i h; simp [findFinalizer] at h
  | cons f rest ih =>
    intro i h
    by_cases hf : f = fname
    · subst hf
      simp [findFinalizer] at h
      subst h
      simp
    · simp only [findFinalizer, hf, if_false, Nat.zero_add] at h
      have h1 := findFinalizer_succ fname rest 0
      simp only [Nat.zero_add] at h1
      rw [h1] at h
      cases hr : findFinalizer fname rest 0 with
      | none => rw [hr] at h; simp at h
      | some j =>
        rw [hr] at h
        simp at h
        subst h
        obtain ⟨h2, h3⟩ := ih j hr
        refine ⟨by simpa using h2, ?_⟩
        intro k hk
        cases k with
        | zero => simpa using hf
        | succ k => simpa using h3 k (by omega)

/-- C29: when the cluster finalizer is in the list, removeFinalizer removes
exactly its first occurrence.  There is an index `i` that holds the finalizer
while no earlier index does; the list removeFinalizer persists (in every one
of its writes, of which there is at least one) is the input without the
element at `i`, the other elements in their order; it is the input with the
first occurrence erased, and it is one element shorter. -/
theorem removeFinalizer_removes_first_occurrence (env : Env) (c : ClusterController)
    (cl : CephCluster) (h : finalizerName ∈ cl.Finalizers) :
    ∃ i, cl.Finalizers[i]? = some finalizerName ∧
      (∀ j, j < i → cl.Finalizers[j]? ≠ some finalizerName) ∧
      cl.Finalizers.take i ++ cl.Finalizers.drop (i + 1) = cl.Finalizers.erase finalizerName ∧
      (cl.Finalizers.take i ++ cl.Finalizers.drop (i + 1)).length + 1 = cl.Finalizers.length ∧
      ∃ tr, removeFinalizer env c (.cephCluster cl) = addTrace c tr ∧ tr ≠ [] ∧
        ∀ ev ∈ tr, ev = .updateCephCluster cl.Namespace cl.Name
          (cl.Finalizers.take i ++ cl.Finalizers.drop (i + 1)) ∨ ev = .sleep 5 := by
  cases hf : findFinalizer finalizerName cl.Finalizers 0 with
  | none => exact absurd h ((findFinalizer_eq_none_iff finalizerName cl.Finalizers 0).mp hf)
  | some i =>
    obtain ⟨hi, hfirst⟩ := findFinalizer_first finalizerName cl.Finalizers i hf
    have herase := take_drop_findFinalizer finalizerName cl.Finalizers i hf
    obtain ⟨tr, htr, hev⟩ := removeFinalizerRetry_trace env cl.Namespace cl.Name
      (cl.Finalizers.take i ++ cl.Finalizers.drop (i + 1)) 5 0 c
    refine ⟨i, hi, hfirst, herase, ?_, tr, ?_, ?_, hev⟩
    · rw [herase, List.length_erase_of_mem h]
      have : 0 < cl.Finalizers.length := List.length_pos_of_mem h
      omega
    · simp only [removeFinalizer, hf]
      exact htr
    · intro hnil
      subst hnil
      have h1 : (removeFinalizerRetry env cl.Namespace cl.Name
          (cl.Finalizers.take i ++ cl.Finalizers.drop (i + 1)) (4 + 1) 0 c).trace = c.trace := by
        rw [htr]; simp
      exact removeFinalizerRetry_writes env cl.Namespace cl.Name _ 4 0 c h1

/-- The theorem above for a resource that holds the finalizer twice. -/
theorem removeFinalizer_removes_first_occurrence_witness :
    finalizerName ∈ doubleFinalizerResource.Finalizers ∧
    ∃ i, doubleFinalizerResource.Finalizers[i]? = some finalizerName ∧
      (∀ j, j < i → doubleFinalizerResource.Finalizers[j]? ≠ some finalizerName) ∧
      doubleFinalizerResource.Finalizers.take i ++ doubleFinalizerResource.Finalizers.drop (i + 1) =
        doubleFinalizerResource.Finalizers.erase finalizerName ∧
      (doubleFinalizerResource.Finalizers.take i ++
        doubleFinalizerResource.Finalizers.drop (i + 1)).length + 1 =
          doubleFinalizerResource.Finalizers.length ∧
      ∃ tr, removeFinalizer quietEnv oneClusterController
          (.cephCluster doubleFinalizerResource) = addTrace oneClusterController tr ∧ tr ≠ [] ∧
        ∀ ev ∈ tr, ev = .updateCephCluster doubleFinalizerResource.Namespace
          doubleFinalizerResource.Name
          (doubleFinalizerResource.Finalizers.take i ++
            doubleFinalizerResource.Finalizers.drop (i + 1)) ∨ ev = .sleep 5 :=
  ⟨by decide, removeFinalizer_removes_first_occurrence quietEnv oneClusterController
    doubleFinalizerResource (by decide)⟩

theorem loopCreations_mem (ready : Cluster → Bool) :
    ∀ (entries : List (String × Cluster)) (e : String × Cluster) (info : ClusterInfo),
      e ∈ entries → e.2.Info = some info → ready e.2 = true →
      Event.createInstance e.2.Namespace info.CephVersion ∈ loopCreations ready entries := by
  intro entries
  induction entries with
  | nil => intro e info h; simp at h
  | cons e0 rest ih =>
    intro e info he hinfo hready
    obtain ⟨k0, cl0⟩ := e0
    rcases List.mem_cons.mp he with h | h
    · subst h
      simp only at hinfo hready
      simp [loopCreations, hinfo, hready]
    · have := ih e info h hinfo hready
      unfold loopCreations
      split
      · split
        · exact List.mem_cons_of_mem _ this
        · exact this
      · exact this

theorem loopCreations_no_start (ready : Cluster → Bool) :
    ∀ (entries : List (String × Cluster)) (ev : Event),
      ev ∈ loopCreations ready entries → ev.isCreate = true := by
  intro entries
  induction entries with
  | nil => intro ev h; simp [loopCreations] at h
  | cons e0 rest ih =>
    intro ev h
    obtain ⟨k0, cl0⟩ := e0
    unfold loopCreations at h
    split at h
    · split at h
      · rcases List.mem_cons.mp h with h1 | h1
        · subst h1; rfl
        · exact ih ev h1
      · exact ih ev h
    · exact ih ev h

theorem loopCreations_cons (ready : Cluster → Bool) (key : String) (cluster : Cluster)
    (rest : List (String × Cluster)) :
    loopCreations ready ((key, cluster) :: rest) =
      loopCreations ready [(key, cluster)] ++ loopCreations ready rest := by
  cases hinfo : cluster.Info with
  | none => simp [loopCreations, hinfo]
  | some info =>
    by_cases h : ready cluster = true
    · simp [loopCreations, hinfo, h]
    · simp [loopCreations, hinfo, h]

theorem nodeAddCluster_trace (env : Env) (newNode : Node) (i : Nat) (key : String)
    (cluster : Cluster) (c : ClusterController) :
    (nodeAddCluster env newNode i key cluster c).trace =
      c.trace ++ loopCreations (nodeAddReady env newNode) [(key, cluster)] := by
  unfold nodeAddCluster nodeAddReady
  cases hinfo : cluster.Info with
  | none =>
    cases h1 : env.nodeIsTolerable newNode cluster <;>
      cases h2 : cluster.Spec.Storage.UseAllNodes <;> simp [loopCreations, hinfo]
  | some info =>
    cases h1 : env.nodeIsTolerable newNode cluster <;>
      cases h2 : cluster.Spec.Storage.UseAllNodes <;>
        cases h3 : env.validNodeAll newNode cluster <;> simp [loopCreations, hinfo, h1, h2, h3]

theorem nodeUpdateCluster_trace (env : Env) (newNode : Node) (i : Nat) (key : String)
    (cluster : Cluster) (c : ClusterController) :
    (nodeUpdateCluster env newNode i key cluster c).trace =
      c.trace ++ loopCreations (nodeUpdateReady env newNode) [(key, cluster)] := by
  unfold nodeUpdateCluster nodeUpdateReady
  cases hinfo : cluster.Info with
  | none => simp [loopCreations, hinfo]
  | some info =>
    cases h3 : env.validNodeOSD newNode cluster <;> simp [loopCreations, hinfo, h3]

theorem deviceUpdateCluster_trace (env : Env) (i : Nat) (key : String)
    (cluster : Cluster) (c : ClusterController) :
    (deviceUpdateCluster env i key cluster c).trace =
      c.trace ++ loopCreations deviceReady [(key, cluster)] := by
  unfold deviceUpdateCluster deviceReady
  cases hinfo : cluster.Info with
  | none => simp [loopCreations, hinfo]
  | some info => simp [loopCreations, hinfo]

/-- The effects of the loop of onK8sNodeAdd are the creations expected of it. -/
theorem nodeAddLoop_trace (env : Env) (newNode : Node) :
    ∀ (entries : List (String × Cluster)) (i : Nat) (c : ClusterController),
      (nodeAddLoop env newNode entries i c).trace =
        c.trace ++ loopCreations (nodeAddReady env newNode) entries := by
  intro entries
  induction entries with
  | nil => intro i c; simp [nodeAddLoop, loopCreations]
  | cons e rest ih =>
    intro i c
    obtain ⟨key, cluster⟩ := e
    simp only [nodeAddLoop]
    rw [ih, nodeAddCluster_trace, loopCreations_cons _ key cluster rest, List.append_assoc]

/-- The effects of the loop of onK8sNodeUpdate are the creations expected of it. -/
theorem nodeUpdateLoop_trace (env : Env) (newNode : Node) :
    ∀ (entries : List (String × Cluster)) (i : Nat) (c : ClusterController),
      (nodeUpdateLoop env newNode entries i c).trace =
        c.trace ++ loopCreations (nodeUpdateReady env newNode) entries := by
  intro entries
  induction entries with
  | nil => intro i c; simp [nodeUpdateLoop, loopCreations]
  | cons e rest ih =>
    intro i c
    obtain ⟨key, cluster⟩ := e
    simp only [nodeUpdateLoop]
    rw [ih, nodeUpdateCluster_trace, loopCreations_cons _ key cluster rest, List.append_assoc]

/-- The effects of the loop of onDeviceCMUpdate are the creations expected of it. -/
theorem deviceUpdateLoop_trace (env : Env) :
    ∀ (entries : List (String × Cluster)) (i : Nat) (c : ClusterController),
      (deviceUpdateLoop env entries i c).trace = c.trace ++ loopCreations deviceReady entries := by
  intro entries
  induction entries with
  | nil => intro i c; simp [deviceUpdateLoop, loopCreations]
  | cons e rest ih =>
    intro i c
    obtain ⟨key, cluster⟩ := e
    simp only [deviceUpdateLoop]
    rw [ih, deviceUpdateCluster_trace, loopCreations_cons _ key cluster rest, List.append_assoc]

/-- C30: in the handlers of node-add, node-update and device-inventory events
a registered cluster without info is skipped, and the remaining clusters are
still processed.  (1) The iteration of a cluster without info leaves the
controller as it was: the creation routine is not invoked and nothing is
written.  (2) The effects of each loop over that cluster followed by the
entries `rest` are exactly the creations of `rest`: one invocation of the
creation routine for every cluster of `rest` that has info and passes the
filter of the handler, in order.  (3) So for every such cluster of `rest`
its invocation is among the effects of the loop.  (4) The handlers return on
every payload of their type, whatever the registry holds, and when they reach
their loop (a schedulable node added, a flip of schedulability, a changed
inventory) their effects are the creations of the whole registry, to which
clusters without info contribute nothing. -/
theorem handlers_skip_cluster_without_info (env : Env) (newNode : Node) (key : String)
    (cluster : Cluster) (rest : List (String × Cluster)) (i : Nat) (c : ClusterController)
    (hnil : cluster.Info = none) :
    (nodeAddCluster env newNode i key cluster c = c ∧
      nodeUpdateCluster env newNode i key cluster c = c ∧
      deviceUpdateCluster env i key cluster c = c) ∧
    ((nodeAddLoop env newNode ((key, cluster) :: rest) i c).trace =
        c.trace ++ loopCreations (nodeAddReady env newNode) rest ∧
      (nodeUpdateLoop env newNode ((key, cluster) :: rest) i c).trace =
        c.trace ++ loopCreations (nodeUpdateReady env newNode) rest ∧
      (deviceUpdateLoop env ((key, cluster) :: rest) i c).trace =
        c.trace ++ loopCreations deviceReady rest) ∧
    (∀ e ∈ rest, ∀ info, e.2.Info = some info →
      (nodeAddReady env newNode e.2 = true →
        Event.createInstance e.2.Namespace info.CephVersion ∈
          (nodeAddLoop env newNode ((key, cluster) :: rest) i c).trace) ∧
      (nodeUpdateReady env newNode e.2 = true →
        Event.createInstance e.2.Namespace info.CephVersion ∈
          (nodeUpdateLoop env newNode ((key, cluster) :: rest) i c).trace) ∧
      Event.createInstance e.2.Namespace info.CephVersion ∈
        (deviceUpdateLoop env ((key, cluster) :: rest) i c).trace) ∧
    (∀ c0 : ClusterController,
      (∃ c1, onK8sNodeAdd env c0 (.node newNode) = .ok c1 ∧
        (env.getNodeSchedulable newNode = true →
          c1.trace = c0.trace ++ loopCreations (nodeAddReady env newNode) c0.clusterMap)) ∧
      (∀ oldNode, ∃ c1, onK8sNodeUpdate env c0 (.node oldNode) (.node newNode) = .ok c1 ∧
        (oldNode ≠ newNode →
          env.getNodeSchedulable oldNode ≠ env.getNodeSchedulable newNode →
          c1.trace = c0.trace ++ loopCreations (nodeUpdateReady env newNode) c0.clusterMap)) ∧
      (∀ oldCm newCm, ∃ c1,
        onDeviceCMUpdate env c0 (.configMap oldCm) (.configMap newCm) = .ok c1 ∧
        (∀ oldDevStr newDevStr,
          oldCm.Data.lookup env.localDiskCMData = some oldDevStr →
          newCm.Data.lookup env.localDiskCMData = some newDevStr →
          DeviceListsEqual env.parseDevices oldDevStr newDevStr = .ok false →
          c1.trace = c0.trace ++ loopCreations deviceReady c0.clusterMap))) := by
  have hadd : nodeAddCluster env newNode i key cluster c = c := by
    simp [nodeAddCluster, hnil]
  have hupd : nodeUpdateCluster env newNode i key cluster c = c := by
    simp [nodeUpdateCluster, hnil]
  have hdev : deviceUpdateCluster env i key cluster c = c := by
    simp [deviceUpdateCluster, hnil]
  have hskip : ∀ ready, loopCreations ready ((key, cluster) :: rest) = loopCreations ready rest := by
    intro ready
    simp [loopCreations, hnil]
  have htr1 := nodeAddLoop_trace env newNode ((key, cluster) :: rest) i c
  have htr2 := nodeUpdateLoop_trace env newNode ((key, cluster) :: rest) i c
  have htr3 := deviceUpdateLoop_trace env ((key, cluster) :: rest) i c
  rw [hskip] at htr1 htr2 htr3
  refine ⟨⟨hadd, hupd, hdev⟩, ⟨htr1, htr2, htr3⟩, ?_,
    fun c0 => ⟨?_, fun oldNode => ?_, fun oldCm newCm => ?_⟩⟩
  · intro e he info hinfo
    refine ⟨fun hready => ?_, fun hready => ?_, ?_⟩
    · rw [htr1]
      exact List.mem_append_right _ (loopCreations_mem _ rest e info he hinfo hready)
    · rw [htr2]
      exact List.mem_append_right _ (loopCreations_mem _ rest e info he hinfo hready)
    · rw [htr3]
      exact List.mem_append_right _ (loopCreations_mem _ rest e info he hinfo rfl)
  · by_cases hs : env.getNodeSchedulable newNode = false
    · refine ⟨c0, by simp [onK8sNodeAdd, hs], fun h => ?_⟩
      rw [hs] at h
      cases h
    · exact ⟨nodeAddLoop env newNode c0.clusterMap 0 c0, by simp [onK8sNodeAdd, hs],
        fun _ => nodeAddLoop_trace env newNode c0.clusterMap 0 c0⟩
  · by_cases heq : oldNode = newNode
    · exact ⟨c0, by simp [onK8sNodeUpdate, heq], fun h => absurd heq h⟩
    · have hobj : ¬ (Obj.node oldNode = Obj.node newNode) := fun h => heq (Obj.node.inj h)
      by_cases hflip : env.getNodeSchedulable oldNode = env.getNodeSchedulable newNode
      · refine ⟨c0, ?_, fun _ h => absurd hflip h⟩
        simp only [onK8sNodeUpdate, hobj, if_false, hflip]
        cases env.getNodeSchedulable newNode <;> simp
      · refine ⟨nodeUpdateLoop env newNode c0.clusterMap 0 c0, ?_,
          fun _ _ => nodeUpdateLoop_trace env newNode c0.clusterMap 0 c0⟩
        simp only [onK8sNodeUpdate, hobj, if_false]
        cases h1 : env.getNodeSchedulable oldNode <;>
          cases h2 : env.getNodeSchedulable newNode <;> simp_all
  · cases ho : oldCm.Data.lookup env.localDiskCMData with
    | none => exact ⟨c0, by simp [onDeviceCMUpdate, ho], fun o n h => by cases h⟩
    | some o =>
      cases hn : newCm.Data.lookup env.localDiskCMData with
      | none => exact ⟨c0, by simp [onDeviceCMUpdate, ho, hn], fun o n _ h => by cases h⟩
      | some n =>
        cases heq : DeviceListsEqual env.parseDevices o n with
        | error e =>
          refine ⟨c0, by simp [onDeviceCMUpdate, ho, hn, heq], fun o1 n1 h1 h2 h3 => ?_⟩
          cases h1; cases h2
          rw [heq] at h3
          cases h3
        | ok b =>
          cases b with
          | true =>
            refine ⟨c0, by simp [onDeviceCMUpdate, ho, hn, heq], fun o1 n1 h1 h2 h3 => ?_⟩
            cases h1; cases h2
            rw [heq] at h3
            cases h3
          | false =>
            exact ⟨deviceUpdateLoop env c0.clusterMap 0 c0,
              by simp [onDeviceCMUpdate, ho, hn, heq],
              fun _ _ _ _ _ => deviceUpdateLoop_trace env c0.clusterMap 0 c0⟩

/-- The three handlers on a registry that holds a cluster without info between
two running ones: each invokes the creation routine for the two running
clusters, the one after the skipped cluster included, and for them only. -/
theorem handlers_process_clusters_after_skipped_one :
    (∃ c1, onK8sNodeAdd quietEnv pendingMiddleController (.node schedulableNode) = .ok c1 ∧
      c1.trace = [.createInstance "rook-ceph" sampleVersion,
                  .createInstance "late" sampleVersion]) ∧
    (∃ c1, onK8sNodeUpdate quietEnv pendingMiddleController (.node cordonedNode)
        (.node schedulableNode) = .ok c1 ∧
      c1.trace = [.createInstance "rook-ceph" sampleVersion,
                  .createInstance "late" sampleVersion]) ∧
    (∃ c1, onDeviceCMUpdate quietEnv pendingMiddleController
        (.configMap (deviceConfigMap "[sda,sdb]")) (.configMap (deviceConfigMap "[sda]")) =
          .ok c1 ∧
      c1.trace = [.createInstance "rook-ceph" sampleVersion,
                  .createInstance "late" sampleVersion]) := by
  refine ⟨⟨_, rfl, ?_⟩, ⟨_, rfl, ?_⟩, ⟨_, rfl, ?_⟩⟩ <;> decide

/-- The theorem above for a cluster without info that is registered before a
running one: in each of the three loops the skipped cluster adds nothing and
the creation routine is invoked for the running cluster after it. -/
theorem handlers_skip_cluster_without_info_witness :
    pendingCluster.Info = none ∧
    ((nodeAddLoop quietEnv schedulableNode
        (("pending", pendingCluster) :: pendingFirstController.clusterMap.tail) 0
        pendingFirstController).trace =
      pendingFirstController.trace ++
        loopCreations (nodeAddReady quietEnv schedulableNode)
          pendingFirstController.clusterMap.tail ∧
    (nodeUpdateLoop quietEnv schedulableNode
        (("pending", pendingCluster) :: pendingFirstController.clusterMap.tail) 0
        pendingFirstController).trace =
      pendingFirstController.trace ++
        loopCreations (nodeUpdateReady quietEnv schedulableNode)
          pendingFirstController.clusterMap.tail ∧
    (deviceUpdateLoop quietEnv
        (("pending", pendingCluster) :: pendingFirstController.clusterMap.tail) 0
        pendingFirstController).trace =
      pendingFirstController.trace ++
        loopCreations deviceReady pendingFirstController.clusterMap.tail) ∧
    loopCreations (nodeAddReady quietEnv schedulableNode)
        pendingFirstController.clusterMap.tail =
      [.createInstance "rook-ceph" sampleVersion] ∧
    loopCreations (nodeUpdateReady quietEnv schedulableNode)
        pendingFirstController.clusterMap.tail =
      [.createInstance "rook-ceph" sampleVersion] ∧
    loopCreations deviceReady pendingFirstController.clusterMap.tail =
      [.createInstance "rook-ceph" sampleVersion] ∧
    (nodeAddLoop quietEnv schedulableNode pendingFirstController.clusterMap 0
        pendingFirstController).trace = [.createInstance "rook-ceph" sampleVersion] ∧
    (nodeUpdateLoop quietEnv schedulableNode pendingFirstController.clusterMap 0
        pendingFirstController).trace = [.createInstance "rook-ceph" sampleVersion] ∧
    (deviceUpdateLoop quietEnv pendingFirstController.clusterMap 0
        pendingFirstController).trace = [.createInstance "rook-ceph" sampleVersion] :=
  ⟨rfl, (handlers_skip_cluster_without_info quietEnv schedulableNode "pending" pendingCluster
    pendingFirstController.clusterMap.tail 0 pendingFirstController rfl).2.1,
    by decide, by decide, by decide, by decide, by decide, by decide⟩

/-! ### What initializeCluster starts -/

/-- A result of the loop of configureExternalCephCluster: the controller
gained effects, none of them a start, and the cluster kept its identity. -/
theorem configureExternalLoop_ok (env : Env) (ns name : String) :
    ∀ (fuel i : Nat) (c : ClusterController) (cl : Cluster)
      (r : ClusterController × Cluster × Option String),
      configureExternalLoop env ns name fuel i c cl = .ok r →
      ∃ tr, r.1 = addTrace c tr ∧ (∀ ev ∈ tr, ev.isStart = false) ∧ sameIdentity r.2.1 cl := by
  intro fuel
  induction fuel with
  | zero => intro i c cl r h; simp [configureExternalLoop] at h
  | succ f ih =>
    intro i c cl r h
    cases hi : env.extLoadClusterInfo i with
    | error e =>
      simp only [configureExternalLoop, hi] at h
      obtain ⟨tr, htr, hns, hid⟩ := ih _ _ _ _ h
      refine ⟨[.loadClusterInfo ns, .sleep 10] ++ tr, ?_, ?_, hid⟩
      · rw [htr]; simp [emit_eq, addTrace]
      · intro ev hev
        simp only [List.cons_append, List.nil_append, List.mem_cons] at hev
        rcases hev with h1 | h1 | h1
        · subst h1; rfl
        · subst h1; rfl
        · exact hns ev h1
    | ok info =>
      simp only [configureExternalLoop, hi] at h
      cases hw : env.extWriteConnectionConfig with
      | some e =>
        simp only [hw] at h
        cases h
        exact ⟨[.loadClusterInfo ns, .writeConnectionConfig ns], by simp [emit_eq, addTrace],
          by simp [Event.isStart], ⟨rfl, rfl, rfl, rfl, rfl⟩⟩
      | none =>
        simp only [hw] at h
        cases hm : env.getCephMonVersion with
        | error e =>
          simp only [hm] at h
          cases h
          exact ⟨[.loadClusterInfo ns, .writeConnectionConfig ns, .getCephMonVersion ns],
            by simp [emit_eq, addTrace], by simp [Event.isStart], ⟨rfl, rfl, rfl, rfl, rfl⟩⟩
        | ok mv =>
          simp only [hm] at h
          cases hd : env.extDetectCephVersion with
          | error e =>
            simp only [hd] at h
            cases h
            exact ⟨[.loadClusterInfo ns, .writeConnectionConfig ns, .getCephMonVersion ns,
              .detectCephVersion cl.Spec.CephVersion.Image],
              by simp [emit_eq, addTrace], by simp [Event.isStart], ⟨rfl, rfl, rfl, rfl, rfl⟩⟩
          | ok sv =>
            simp only [hd] at h
            by_cases hid : IsIdentical sv mv = true
            · simp only [hid, Bool.not_true, Bool.false_eq_true, if_false] at h
              cases h
              exact ⟨[.loadClusterInfo ns, .writeConnectionConfig ns, .getCephMonVersion ns,
                .detectCephVersion cl.Spec.CephVersion.Image,
                .updateClusterStatus ns name .Connected ""],
                by simp [emit_eq, addTrace, updateClusterStatus], by simp [Event.isStart],
                ⟨rfl, rfl, rfl, rfl, rfl⟩⟩
            · simp only [hid, Bool.not_false, if_true] at h
              cases h
              exact ⟨[.loadClusterInfo ns, .writeConnectionConfig ns, .getCephMonVersion ns,
                .detectCephVersion cl.Spec.CephVersion.Image],
                by simp [emit_eq, addTrace], by simp [Event.isStart], ⟨rfl, rfl, rfl, rfl, rfl⟩⟩

/-- A result of the configuration step of initializeCluster: the controller
gained effects, none of them a start, its registry and its channels are as
they were, and the cluster kept its identity. -/
theorem configureCluster_ok (env : Env) (fuel : Nat) (c : ClusterController) (cl : Cluster)
    (clusterObj : CephCluster) (q : ClusterController × Cluster × Option String)
    (h : configureCluster env fuel c cl clusterObj = .ok q) :
    (∃ tr, q.1.trace = c.trace ++ tr ∧ ∀ ev ∈ tr, ev.isStart = false) ∧
      q.1.clusterMap = c.clusterMap ∧ q.1.closedChs = c.closedChs ∧ q.1.nextCh = c.nextCh ∧
      sameIdentity q.2.1 cl := by
  unfold configureCluster at h
  by_cases hext : cl.Spec.External.Enable = true
  · simp only [hext, Bool.not_true, Bool.false_eq_true, if_false,
      configureExternalCephCluster] at h
    obtain ⟨tr, htr, hns, hid⟩ := configureExternalLoop_ok env _ _ _ _ _ _ _ h
    refine ⟨⟨[.updateClusterStatus clusterObj.Namespace clusterObj.Name .Connecting ""] ++ tr,
      ?_, ?_⟩, ?_, ?_, ?_, hid⟩
    · rw [htr]; simp [updateClusterStatus]
    · intro ev hev
      simp only [List.cons_append, List.nil_append, List.mem_cons] at hev
      rcases hev with h1 | h1
      · subst h1; rfl
      · exact hns ev h1
    · rw [htr]; rfl
    · rw [htr]; rfl
    · rw [htr]; rfl
  · simp only [hext, Bool.not_false, if_true] at h
    cases h
    refine ⟨?_, ?_, ?_, ?_, ⟨rfl, rfl, rfl, rfl, rfl⟩⟩
    · unfold configureLocalCephCluster
      split
      · exact ⟨[_], rfl, by simp [Event.isStart]⟩
      · split
        · exact ⟨[], by simp, by simp⟩
        · exact ⟨[], by simp, by simp⟩
    all_goals
      unfold configureLocalCephCluster
      split
      · rfl
      · split <;> rfl

/-- The ways in which initializeCluster returns: before the creation poll
(the connection config could not be written), after a poll that ended in
Error, after a configuration step that failed, or after the starts. -/
theorem initializeCluster_outcome (env : Env) (fuel : Nat) (c : ClusterController)
    (key : String) (cluster : Cluster) (clusterObj : CephCluster) (c1 : ClusterController)
    (hrun : initializeCluster env fuel c key cluster clusterObj = .ok c1) :
    ((∃ info e, env.loadClusterInfo = .ok info ∧ env.writeConnectionConfig = some e) ∧
      c1 = storeCluster (addTrace c (initTrace env cluster.Namespace)) key
        (clusterAtPoll env cluster clusterObj)) ∨
    (pollReached env ∧ ∃ err s n, creationPoll env c cluster clusterObj = .ok (err, s) ∧
      s.c = addTrace c (initTrace env cluster.Namespace ++
        pollTrace env clusterObj (applyMonDefault env clusterObj.Spec).CephVersion.Image
          cluster.Namespace n 0) ∧
      sameIdentity s.cluster (clusterAtPoll env cluster clusterObj) ∧
      ((s.state = .Error ∧
        c1 = storeCluster (updateClusterStatus s.c clusterObj.Namespace clusterObj.Name .Error
          s.failedMessage) key s.cluster) ∨
       (s.state = .Created ∧
        ∃ q, configureCluster env fuel (updateClusterStatus s.c clusterObj.Namespace
            clusterObj.Name .Created s.failedMessage) s.cluster clusterObj = .ok q ∧
          ((∃ e, q.2.2 = some e ∧ c1 = storeCluster q.1 key q.2.1) ∨
           (q.2.2 = none ∧ c1 = startCluster env q.1 key q.2.1 clusterObj))))) := by
  have hpollcase : pollReached env →
      initializeCluster env fuel c key cluster clusterObj =
        initializeClusterPoll env fuel (addTrace c (initTrace env cluster.Namespace)) key
          (clusterAtPoll env cluster clusterObj) clusterObj := by
    intro hreach
    cases hload : env.loadClusterInfo with
    | error e => simp [initializeCluster, hload, initTrace, clusterAtPoll, emit_eq, addTrace]
    | ok info =>
      have hw : env.writeConnectionConfig = none := by
        rcases hreach with ⟨e, he⟩ | h
        · rw [hload] at he; cases he
        · exact h
      simp [initializeCluster, hload, hw, initTrace, clusterAtPoll, emit_eq, addTrace]
  by_cases hreach : pollReached env
  · right
    refine ⟨hreach, ?_⟩
    rw [hpollcase hreach] at hrun
    obtain ⟨L, err, s, hpoll, _, _, _, hc, hid, hstate⟩ := createPoll_run env clusterObj
      env.createTicks 0
      { c := addTrace c (initTrace env cluster.Namespace),
        cluster := clusterAtPoll env cluster clusterObj, failedMessage := "", state := .Error }
    refine ⟨err, s, L + 1 - 0, hpoll, ?_, hid, ?_⟩
    · rw [hc, addTrace_addTrace]; rfl
    · by_cases hst : s.state = .Error
      · left
        refine ⟨hst, ?_⟩
        rw [initializeClusterPoll_of_error env fuel _ key _ clusterObj err s hpoll hst] at hrun
        cases hrun
        rfl
      · right
        have hcreated : s.state = .Created := by
          rcases hstate with ⟨_, h, _⟩ | ⟨_, h, _⟩ | ⟨_, _, h, _⟩
          · exact h
          · exact absurd h hst
          · exact absurd h hst
        refine ⟨hcreated, ?_⟩
        have hunf : initializeClusterPoll env fuel (addTrace c (initTrace env cluster.Namespace))
            key (clusterAtPoll env cluster clusterObj) clusterObj =
            (configureCluster env fuel (updateClusterStatus s.c clusterObj.Namespace
              clusterObj.Name .Created s.failedMessage) s.cluster clusterObj).bind fun q =>
              match q.2.2 with
              | some _ => .ok (storeCluster q.1 key q.2.1)
              | none => .ok (startCluster env q.1 key q.2.1 clusterObj) := by
          simp only [initializeClusterPoll, hpoll, Run.bind, hcreated, configureCluster]
          simp
        rw [hunf] at hrun
        cases hq : configureCluster env fuel (updateClusterStatus s.c clusterObj.Namespace
            clusterObj.Name .Created s.failedMessage) s.cluster clusterObj with
        | crash => rw [hq] at hrun; simp [Run.bind] at hrun
        | hang => rw [hq] at hrun; simp [Run.bind] at hrun
        | ok q =>
          rw [hq] at hrun
          refine ⟨q, rfl, ?_⟩
          cases hq2 : q.2.2 with
          | some e =>
            simp only [Run.bind, hq2] at hrun
            cases hrun
            exact Or.inl ⟨e, rfl, rfl⟩
          | none =>
            simp only [Run.bind, hq2] at hrun
            cases hrun
            exact Or.inr ⟨rfl, rfl⟩
  · left
    cases hload : env.loadClusterInfo with
    | error e => exact absurd (Or.inl ⟨e, hload⟩) hreach
    | ok info =>
      cases hw : env.writeConnectionConfig with
      | none => exact absurd (Or.inr hw) hreach
      | some e =>
        refine ⟨⟨info, e, rfl, rfl⟩, ?_⟩
        simp only [initializeCluster, hload, hw] at hrun
        cases hrun
        simp [initTrace, hload, clusterAtPoll, emit_eq, addTrace, storeCluster]

/-- C22: initializeCluster starts a sub-controller or a health loop only when
its creation poll ended in Created and the configuration step of its mode
(local or external) returned without error.  For every pass that returns, with
`tr` the effects it added: when the poll ended in Error no effect is a start;
when the configuration step returned an error no effect is a start; and when
some effect is a start, the poll was reached and ended in Created and the
configuration step returned no error. -/
theorem initializeCluster_starts_only_when_created_and_configured (env : Env) (fuel : Nat)
    (c : ClusterController) (key : String) (cluster : Cluster) (clusterObj : CephCluster)
    (c1 : ClusterController)
    (hrun : initializeCluster env fuel c key cluster clusterObj = .ok c1) :
    ∃ tr, c1.trace = c.trace ++ tr ∧
      (∀ err s, creationPoll env c cluster clusterObj = .ok (err, s) → s.state = .Error →
        ∀ ev ∈ tr, ev.isStart = false) ∧
      (∀ err s q e, creationPoll env c cluster clusterObj = .ok (err, s) →
        configureCluster env fuel (updateClusterStatus s.c clusterObj.Namespace clusterObj.Name
          s.state s.failedMessage) s.cluster clusterObj = .ok q →
        q.2.2 = some e → ∀ ev ∈ tr, ev.isStart = false) ∧
      ((∃ ev ∈ tr, ev.isStart = true) →
        pollReached env ∧
        ∃ err s q, creationPoll env c cluster clusterObj = .ok (err, s) ∧ s.state = .Created ∧
          configureCluster env fuel (updateClusterStatus s.c clusterObj.Namespace clusterObj.Name
            s.state s.failedMessage) s.cluster clusterObj = .ok q ∧
          q.2.2 = none) := by
  have hquiet : ∀ tr : List Event, (∀ ev ∈ tr, ev.isStart = false) →
      ¬ ∃ ev ∈ tr, ev.isStart = true := by
    rintro tr hno ⟨ev, hev, hs⟩
    rw [hno ev hev] at hs
    cases hs
  rcases initializeCluster_outcome env fuel c key cluster clusterObj c1 hrun with
    ⟨_, hc1⟩ | ⟨hreach, err, s, n, hpoll, hsc, _, hcase⟩
  · have hno : ∀ ev ∈ initTrace env cluster.Namespace, ev.isStart = false :=
      fun ev hev => initTrace_no_start env cluster.Namespace ev hev
    exact ⟨initTrace env cluster.Namespace, by rw [hc1]; simp, fun _ _ _ _ => hno,
      fun _ _ _ _ _ _ _ => hno, fun h => absurd h (hquiet _ hno)⟩
  · have hno0 : ∀ ev ∈ initTrace env cluster.Namespace ++
        pollTrace env clusterObj (applyMonDefault env clusterObj.Spec).CephVersion.Image
          cluster.Namespace n 0, ev.isStart = false := by
      intro ev hev
      rcases List.mem_append.mp hev with h | h
      · exact initTrace_no_start env cluster.Namespace ev h
      · exact pollTrace_no_start env clusterObj _ _ n 0 ev h
    rcases hcase with ⟨hst, hc1⟩ | ⟨hst, q, hq, hcase2⟩
    · have hno : ∀ ev ∈ (initTrace env cluster.Namespace ++
          pollTrace env clusterObj (applyMonDefault env clusterObj.Spec).CephVersion.Image
            cluster.Namespace n 0) ++
          [.updateClusterStatus clusterObj.Namespace clusterObj.Name .Error s.failedMessage],
          ev.isStart = false := by
        intro ev hev
        rcases List.mem_append.mp hev with h | h
        · exact hno0 ev h
        · simp only [List.mem_singleton] at h
          subst h; rfl
      refine ⟨_, ?_, fun _ _ _ _ => hno, fun _ _ _ _ _ _ _ => hno,
        fun h => absurd h (hquiet _ hno)⟩
      rw [hc1, hsc]
      simp [updateClusterStatus]
    · obtain ⟨⟨tr1, htr1, hno1⟩, _⟩ := configureCluster_ok env fuel _ _ clusterObj q hq
      have hno : ∀ ev ∈ (initTrace env cluster.Namespace ++
          pollTrace env clusterObj (applyMonDefault env clusterObj.Spec).CephVersion.Image
            cluster.Namespace n 0) ++
          [.updateClusterStatus clusterObj.Namespace clusterObj.Name .Created s.failedMessage]
          ++ tr1, ev.isStart = false := by
        intro ev hev
        rcases List.mem_append.mp hev with h | h
        · rcases List.mem_append.mp h with h | h
          · exact hno0 ev h
          · simp only [List.mem_singleton] at h
            subst h; rfl
        · exact hno1 ev h
      rcases hcase2 with ⟨e, hq2, hc1⟩ | ⟨hq2, hc1⟩
      · refine ⟨_, ?_, fun _ _ _ _ => hno, fun _ _ _ _ _ _ _ => hno,
          fun h => absurd h (hquiet _ hno)⟩
        rw [hc1, storeCluster_trace, htr1, hsc]
        simp [updateClusterStatus]
      · obtain ⟨tr2, htr2⟩ := startCluster_trace env q.1 key q.2.1 clusterObj
        refine ⟨(initTrace env cluster.Namespace ++
          pollTrace env clusterObj (applyMonDefault env clusterObj.Spec).CephVersion.Image
            cluster.Namespace n 0) ++
          [.updateClusterStatus clusterObj.Namespace clusterObj.Name .Created s.failedMessage]
          ++ tr1 ++ (startTrace q.2.1.Spec.External.Enable q.2.1.Namespace q.2.1.stopCh ++ tr2),
          ?_, ?_, ?_, fun _ => ⟨hreach, err, s, q, hpoll, hst, by rw [hst]; exact hq, hq2⟩⟩
        · rw [hc1, htr2, htr1, hsc]
          simp [updateClusterStatus]
        · intro err2 s2 hpoll2 hst2
          rw [hpoll] at hpoll2
          cases hpoll2
          rw [hst] at hst2
          cases hst2
        · intro err2 s2 q2 e hpoll2 hq3 hq4
          rw [hpoll] at hpoll2
          cases hpoll2
          rw [hst, hq] at hq3
          cases hq3
          rw [hq2] at hq4
          cases hq4

/-- The theorem above for a local cluster whose first creation attempt
succeeds: the pass returns and its effects hold the start of the pool
controller. -/
theorem initializeCluster_starts_only_when_created_and_configured_witness :
    ∃ c1, initializeCluster quietEnv 1 (NewClusterController "rook/ceph:v1.1" false) "rook-ceph"
        (newCluster (sampleResource "rook-ceph" "my-cluster" false) 0)
        (sampleResource "rook-ceph" "my-cluster" false) = .ok c1 ∧
      Event.startController .pool "rook-ceph" 0 ∈ c1.trace ∧
      ∃ tr, c1.trace = (NewClusterController "rook/ceph:v1.1" false).trace ++ tr ∧
        (∀ err s, creationPoll quietEnv (NewClusterController "rook/ceph:v1.1" false)
            (newCluster (sampleResource "rook-ceph" "my-cluster" false) 0)
            (sampleResource "rook-ceph" "my-cluster" false) = .ok (err, s) →
          s.state = .Error → ∀ ev ∈ tr, ev.isStart = false) ∧
        (∀ err s q e, creationPoll quietEnv (NewClusterController "rook/ceph:v1.1" false)
            (newCluster (sampleResource "rook-ceph" "my-cluster" false) 0)
            (sampleResource "rook-ceph" "my-cluster" false) = .ok (err, s) →
          configureCluster quietEnv 1 (updateClusterStatus s.c
            (sampleResource "rook-ceph" "my-cluster" false).Namespace
            (sampleResource "rook-ceph" "my-cluster" false).Name
            s.state s.failedMessage) s.cluster (sampleResource "rook-ceph" "my-cluster" false) =
              .ok q →
          q.2.2 = some e → ∀ ev ∈ tr, ev.isStart = false) ∧
        ((∃ ev ∈ tr, ev.isStart = true) →
          pollReached quietEnv ∧
          ∃ err s q, creationPoll quietEnv (NewClusterController "rook/ceph:v1.1" false)
              (newCluster (sampleResource "rook-ceph" "my-cluster" false) 0)
              (sampleResource "rook-ceph" "my-cluster" false) = .ok (err, s) ∧
            s.state = .Created ∧
            configureCluster quietEnv 1 (updateClusterStatus s.c
              (sampleResource "rook-ceph" "my-cluster" false).Namespace
              (sampleResource "rook-ceph" "my-cluster" false).Name
              s.state s.failedMessage) s.cluster (sampleResource "rook-ceph" "my-cluster" false) =
                .ok q ∧
            q.2.2 = none) :=
  ⟨_, rfl, by decide,
    initializeCluster_starts_only_when_created_and_configured quietEnv 1
      (NewClusterController "rook/ceph:v1.1" false) "rook-ceph"
      (newCluster (sampleResource "rook-ceph" "my-cluster" false) 0)
      (sampleResource "rook-ceph" "my-cluster" false) _ rfl⟩

/-! ### Stop channels -/

theorem sameRegistry_refl (c : ClusterController) : sameRegistry c c := ⟨rfl, rfl, rfl⟩

theorem sameRegistry_trans {a b c : ClusterController} (h1 : sameRegistry a b)
    (h2 : sameRegistry b c) : sameRegistry a c :=
  ⟨h2.1.trans h1.1, h2.2.1.trans h1.2.1, h2.2.2.trans h1.2.2⟩

theorem sameRegistry_addTrace (c : ClusterController) (tr : List Event) :
    sameRegistry c (addTrace c tr) := ⟨rfl, rfl, rfl⟩

theorem sameRegistry_emit (c : ClusterController) (e : Event) :
    sameRegistry c (emit c e) := ⟨rfl, rfl, rfl⟩

theorem storedOver_store {c c1 : ClusterController} (key : String) (v : Cluster) {ch : Nat}
    (h : sameRegistry c c1) (hv : v.stopCh = ch) :
    storedOver c (storeCluster c1 key v) key ch := by
  refine ⟨h.2.1, h.2.2, Or.inr ⟨v, hv, ?_⟩⟩
  show mapStore c1.clusterMap key v = mapStore c.clusterMap key v
  rw [h.1]

theorem storedOver_of_sameRegistry {c c1 : ClusterController} (key : String) (ch : Nat)
    (h : sameRegistry c c1) : storedOver c c1 key ch :=
  ⟨h.2.1, h.2.2, Or.inl h.1⟩

/-- A property of the state that every evaluation of the condition keeps holds
at the end of the poll. -/
theorem pollLoop_invariant {σ : Type} (cond : Nat → σ → Run ((Bool × Option String) × σ))
    (P : σ → Prop) (hstep : ∀ i s r, P s → cond i s = .ok r → P r.2) :
    ∀ (t i : Nat) (s : σ) (r : Option String × σ), P s → pollLoop cond t i s = .ok r → P r.2 := by
  intro t
  induction t with
  | zero =>
    intro i s r hP h
    cases hc : cond i s with
    | crash => simp [pollLoop, hc, Run.bind] at h
    | hang => simp [pollLoop, hc, Run.bind] at h
    | ok q =>
      have hq := hstep i s q hP hc
      simp only [pollLoop, hc, Run.bind] at h
      split at h
      · cases h; exact hq
      · split at h
        · cases h; exact hq
        · cases h; exact hq
  | succ t ih =>
    intro i s r hP h
    cases hc : cond i s with
    | crash => simp [pollLoop, hc, Run.bind] at h
    | hang => simp [pollLoop, hc, Run.bind] at h
    | ok q =>
      have hq := hstep i s q hP hc
      simp only [pollLoop, hc, Run.bind] at h
      split at h
      · cases h; exact hq
      · split at h
        · cases h; exact hq
        · exact ih (i + 1) q.2 r hq h

theorem handleUpdate_sameRegistry (env : Env) (name : String) (i : Nat) (s : UpdatePoll)
    (r : (Bool × Option String) × UpdatePoll) (h : handleUpdate env name i s = .ok r) :
    sameRegistry s.c r.2.c ∧ r.2.cluster.stopCh = s.cluster.stopCh := by
  unfold handleUpdate at h
  cases hinfo : s.cluster.Info with
  | none => simp [hinfo] at h
  | some info =>
    simp only [hinfo] at h
    split at h
    · cases h; exact ⟨⟨rfl, rfl, rfl⟩, rfl⟩
    · cases h; exact ⟨⟨rfl, rfl, rfl⟩, rfl⟩

theorem detectNewImage_sameRegistry (env : Env) (c : ClusterController) (cluster : Cluster)
    (oldClust newClust : CephCluster) (st : ClusterController × Cluster × Bool)
    (h : detectNewImage env c cluster oldClust newClust = .ok st) :
    sameRegistry c st.1 ∧ st.2.1.stopCh = cluster.stopCh := by
  unfold detectNewImage at h
  split at h
  · simp only at h
    split at h
    · cases h; exact ⟨⟨rfl, rfl, rfl⟩, rfl⟩
    · split at h
      · cases h
      · split at h
        · cases h
        · cases h; exact ⟨⟨rfl, rfl, rfl⟩, rfl⟩
  · cases h; exact ⟨⟨rfl, rfl, rfl⟩, rfl⟩

theorem updateCluster_storedOver (env : Env) (c : ClusterController) (key : String)
    (cluster : Cluster) (oldClust newClust : CephCluster) (c1 : ClusterController)
    (h : updateCluster env c key cluster oldClust newClust = .ok c1) :
    storedOver c c1 key cluster.stopCh := by
  unfold updateCluster at h
  cases hd : detectNewImage env c cluster oldClust newClust with
  | crash => simp [hd, Run.bind] at h
  | hang => simp [hd, Run.bind] at h
  | ok st =>
    obtain ⟨hreg, hch⟩ := detectNewImage_sameRegistry env c cluster oldClust newClust st hd
    simp only [hd, Run.bind] at h
    split at h
    · cases h; exact storedOver_store key _ hreg hch
    · have hreg2 : sameRegistry c
          (emit st.1 (.getAllCephDaemonVersions st.2.1.Namespace)) :=
        sameRegistry_trans hreg (sameRegistry_emit _ _)
      split at h
      · cases h; exact storedOver_store key _ hreg2 hch
      · simp only [upgradeGate, Bool.false_eq_true, if_false, Bool.not_true] at h
        cases hu : handleUpdate env newClust.Name 0
            { c := emit st.1 (.getAllCephDaemonVersions st.2.1.Namespace),
              cluster := { st.2.1 with Spec := newClust.Spec } } with
        | crash => simp [hu] at h
        | hang => simp [hu] at h
        | ok r =>
          obtain ⟨hreg3, hch3⟩ := handleUpdate_sameRegistry env _ _ _ r hu
          have hreg4 : sameRegistry c r.2.c := sameRegistry_trans hreg2 hreg3
          have hch4 : r.2.cluster.stopCh = cluster.stopCh := hch3.trans hch
          simp only [hu] at h
          split at h
          · cases h; exact storedOver_store key _ hreg4 hch4
          · cases hp : pollLoop (fun i => handleUpdate env newClust.Name (i + 1))
                env.updateTicks 0 r.2 with
            | crash => simp [hp] at h
            | hang => simp [hp] at h
            | ok p =>
              have hinv := pollLoop_invariant (fun i => handleUpdate env newClust.Name (i + 1))
                (fun s => sameRegistry c s.c ∧ s.cluster.stopCh = cluster.stopCh)
                (fun i s q hP hq =>
                  ⟨sameRegistry_trans hP.1 (handleUpdate_sameRegistry env _ _ s q hq).1,
                   (handleUpdate_sameRegistry env _ _ s q hq).2.trans hP.2⟩)
                env.updateTicks 0 r.2 p ⟨hreg4, hch4⟩ hp
              simp only [hp] at h
              split at h
              · cases h
                exact storedOver_store key _
                  (sameRegistry_trans hinv.1 (sameRegistry_emit _ _)) hinv.2
              · cases h; exact storedOver_store key _ hinv.1 hinv.2

theorem addFinalizer_sameRegistry (env : Env) (c : ClusterController) (ns name : String) :
    sameRegistry c (addFinalizer env c ns name).1 := by
  unfold addFinalizer
  simp only
  split
  · exact ⟨rfl, rfl, rfl⟩
  · split
    · exact ⟨rfl, rfl, rfl⟩
    · split <;> exact ⟨rfl, rfl, rfl⟩

theorem startCluster_storedOver (env : Env) (c : ClusterController) (key : String)
    (cl : Cluster) (clusterObj : CephCluster) :
    storedOver c (startCluster env c key cl clusterObj) key cl.stopCh := by
  by_cases hext : cl.Spec.External.Enable = true
  · have heq : startCluster env c key cl clusterObj =
        storeCluster (addFinalizer env (addTrace c (startTrace true cl.Namespace cl.stopCh))
          clusterObj.Namespace clusterObj.Name).1 key { cl with monsClusterInfo := cl.Info } := by
      simp [startCluster, hext, startTrace, emit_eq, addTrace]
    rw [heq]
    exact storedOver_store key _
      (sameRegistry_trans (sameRegistry_addTrace _ _) (addFinalizer_sameRegistry env _ _ _)) rfl
  · have heq : startCluster env c key cl clusterObj =
        storeCluster (addFinalizer env (addTrace c (startTrace false cl.Namespace cl.stopCh))
          clusterObj.Namespace clusterObj.Name).1 key cl := by
      simp [startCluster, hext, startTrace, emit_eq, addTrace]
    rw [heq]
    exact storedOver_store key _
      (sameRegistry_trans (sameRegistry_addTrace _ _) (addFinalizer_sameRegistry env _ _ _)) rfl

theorem initializeCluster_storedOver (env : Env) (fuel : Nat) (c : ClusterController)
    (key : String) (cluster : Cluster) (clusterObj : CephCluster) (c1 : ClusterController)
    (hrun : initializeCluster env fuel c key cluster clusterObj = .ok c1) :
    storedOver c c1 key cluster.stopCh := by
  rcases initializeCluster_outcome env fuel c key cluster clusterObj c1 hrun with
    ⟨_, hc1⟩ | ⟨_, err, s, n, _, hsc, hid, hcase⟩
  · rw [hc1]
    exact storedOver_store key _ (sameRegistry_addTrace _ _) rfl
  · have hch : s.cluster.stopCh = cluster.stopCh := hid.2.2.2.1
    have hreg : ∀ st msg, sameRegistry c
        (updateClusterStatus s.c clusterObj.Namespace clusterObj.Name st msg) := by
      intro st msg
      rw [hsc]
      exact ⟨rfl, rfl, rfl⟩
    rcases hcase with ⟨_, hc1⟩ | ⟨_, q, hq, hcase2⟩
    · rw [hc1]
      exact storedOver_store key _ (hreg _ _) hch
    · obtain ⟨_, hm, hcl, hnx, hid2⟩ := configureCluster_ok env fuel _ _ clusterObj q hq
      have hreg2 : sameRegistry c q.1 := sameRegistry_trans (hreg _ _) ⟨hm, hcl, hnx⟩
      have hch2 : q.2.1.stopCh = cluster.stopCh := hid2.2.2.2.1.trans hch
      rcases hcase2 with ⟨e, _, hc1⟩ | ⟨_, hc1⟩
      · rw [hc1]
        exact storedOver_store key _ hreg2 hch2
      · rw [hc1]
        obtain ⟨h1, h2, h3⟩ := startCluster_storedOver env q.1 key q.2.1 clusterObj
        refine ⟨h1.trans hreg2.2.1, h2.trans hreg2.2.2, ?_⟩
        rcases h3 with h3 | ⟨v, hv, h3⟩
        · exact Or.inl (h3.trans hreg2.1)
        · exact Or.inr ⟨v, hv.trans hch2, by rw [h3, hreg2.1]⟩

theorem keys_mapStore (m : List (String × Cluster)) (k : String) (v : Cluster) :
    (mapStore m k v).map Prod.fst = m.map Prod.fst := by
  induction m with
  | nil => rfl
  | cons e rest ih =>
    simp only [mapStore, List.map_cons, List.map_map] at ih ⊢
    rw [ih]
    by_cases he : e.1 = k
    · simp [he]
    · simp [he]

theorem registryChannels_mapStore (m : List (String × Cluster)) (k : String) (v : Cluster)
    (h : ∀ e ∈ m, e.1 = k → e.2.stopCh = v.stopCh) :
    registryChannels (mapStore m k v) = registryChannels m := by
  induction m with
  | nil => rfl
  | cons e rest ih =>
    have ih1 := ih (fun e1 h1 => h e1 (List.mem_cons_of_mem _ h1))
    simp only [registryChannels, mapStore, List.map_cons, List.map_map] at ih1 ⊢
    rw [ih1]
    by_cases he : e.1 = k
    · simp [he, h e (List.mem_cons_self _ _) he]
    · simp [he]

theorem mapGet_mem (m : List (String × Cluster)) (k : String) (v : Cluster)
    (h : mapGet m k = some v) : (k, v) ∈ m := by
  induction m with
  | nil => simp [mapGet] at h
  | cons e rest ih =>
    obtain ⟨k1, v1⟩ := e
    by_cases he : k1 = k
    · simp only [mapGet, he, if_true, Option.some.injEq] at h
      subst h; subst he
      exact List.mem_cons_self _ _
    · simp only [mapGet, he, if_false] at h
      exact List.mem_cons_of_mem _ (ih h)

theorem mapGet_eq_none_iff (m : List (String × Cluster)) (k : String) :
    mapGet m k = none ↔ k ∉ m.map Prod.fst := by
  induction m with
  | nil => simp [mapGet]
  | cons e rest ih =>
    obtain ⟨k1, v1⟩ := e
    by_cases he : k1 = k
    · simp [mapGet, he]
    · have he1 : ¬ k = k1 := fun h => he h.symm
      simp only [mapGet, he, if_false, ih, List.map_cons, List.mem_cons, he1, false_or]

theorem mapGet_unique (m : List (String × Cluster)) (k : String) (v : Cluster)
    (hk : (m.map Prod.fst).Nodup) (h : mapGet m k = some v) :
    ∀ e ∈ m, e.1 = k → e.2 = v := by
  induction m with
  | nil => simp [mapGet] at h
  | cons e rest ih =>
    obtain ⟨k1, v1⟩ := e
    rw [List.map_cons, List.nodup_cons] at hk
    intro e1 he1 hkey
    by_cases he : k1 = k
    · simp only [mapGet, he, if_true, Option.some.injEq] at h
      rcases List.mem_cons.mp he1 with h1 | h1
      · rw [h1]; exact h
      · exfalso
        apply hk.1
        rw [he, ← hkey]
        exact List.mem_map.mpr ⟨e1, h1, rfl⟩
    · simp only [mapGet, he, if_false] at h
      rcases List.mem_cons.mp he1 with h1 | h1
      · rw [h1] at hkey; exact absurd hkey he
      · exact ih hk.2 h e1 h1 hkey

theorem mapSet_of_absent (m : List (String × Cluster)) (k : String) (v : Cluster)
    (h : mapGet m k = none) : mapSet m k v = m ++ [(k, v)] := by
  induction m with
  | nil => rfl
  | cons e rest ih =>
    obtain ⟨k1, v1⟩ := e
    by_cases he : k1 = k
    · simp [mapGet, he] at h
    · simp only [mapGet, he, if_false] at h
      simp [mapSet, he, ih h]

/-- The parts of the consistency of the channels, one by one. -/
theorem channelsConsistent_iff (c : ClusterController) :
    channelsConsistent c ↔
      (c.clusterMap.map Prod.fst).Nodup ∧ (registryChannels c.clusterMap).Nodup ∧
      c.closedChs.Nodup ∧ (∀ e ∈ c.clusterMap, e.2.stopCh ∉ c.closedChs) ∧
      (∀ e ∈ c.clusterMap, e.2.stopCh < c.nextCh) ∧ (∀ ch ∈ c.closedChs, ch < c.nextCh) := by
  unfold channelsConsistent
  rw [List.nodup_append]
  constructor
  · rintro ⟨hk, ⟨hc, hn, hd⟩, hb⟩
    refine ⟨hk, hc, hn, ?_, ?_, ?_⟩
    · intro e he hmem
      exact hd (List.mem_map_of_mem (fun e => e.2.stopCh) he) hmem
    · intro e he
      exact hb _ (List.mem_append_left _ (List.mem_map_of_mem (fun e => e.2.stopCh) he))
    · intro ch hch
      exact hb _ (List.mem_append_right _ hch)
  · rintro ⟨hk, hc, hn, hd, hb1, hb2⟩
    refine ⟨hk, ⟨hc, hn, ?_⟩, ?_⟩
    · intro ch h1 h2
      obtain ⟨e, he, rfl⟩ := List.mem_map.mp h1
      exact hd e he h2
    · intro ch hch
      rcases List.mem_append.mp hch with h | h
      · obtain ⟨e, he, rfl⟩ := List.mem_map.mp h
        exact hb1 e he
      · exact hb2 ch h

theorem channelsConsistent_of_sameRegistry {c c1 : ClusterController}
    (hinv : channelsConsistent c) (h : sameRegistry c c1) : channelsConsistent c1 := by
  unfold channelsConsistent at hinv ⊢
  rw [h.1, h.2.1, h.2.2]
  exact hinv

/-- A write through the pointer of a registered cluster that keeps its stop
channel keeps the channels consistent. -/
theorem channelsConsistent_of_storedOver {c c1 : ClusterController} {key : String} {ch : Nat}
    (hinv : channelsConsistent c) (h : storedOver c c1 key ch)
    (hkey : ∀ e ∈ c.clusterMap, e.1 = key → e.2.stopCh = ch) : channelsConsistent c1 := by
  obtain ⟨hcl, hnx, hm⟩ := h
  rcases hm with hm | ⟨v, hv, hm⟩
  · exact channelsConsistent_of_sameRegistry hinv ⟨hm, hcl, hnx⟩
  · unfold channelsConsistent at hinv ⊢
    rw [hm, hcl, hnx, keys_mapStore,
      registryChannels_mapStore _ _ _ (fun e he hk => (hkey e he hk).trans hv.symm)]
    exact hinv

/-- The handler onAdd keeps the channels consistent and closes none. -/
theorem onAdd_consistent (env : Env) (fuel : Nat) (c : ClusterController) (obj : Obj)
    (c1 : ClusterController) (hinv : channelsConsistent c)
    (h : onAdd env fuel c obj = .ok c1) :
    channelsConsistent c1 ∧ c1.closedChs = c.closedChs := by
  unfold onAdd at h
  cases hobj : getClusterObject obj with
  | error e => simp only [hobj] at h; cases h; exact ⟨hinv, rfl⟩
  | ok clusterObj =>
    simp only [hobj] at h
    cases hget : mapGet c.clusterMap clusterObj.Namespace with
    | some ex => simp only [hget] at h; cases h; exact ⟨hinv, rfl⟩
    | none =>
      simp only [hget] at h
      have hso := initializeCluster_storedOver _ _ _ _ _ _ _ h
      have hmap : mapSet c.clusterMap clusterObj.Namespace (newCluster clusterObj c.nextCh) =
          c.clusterMap ++ [(clusterObj.Namespace, newCluster clusterObj c.nextCh)] :=
        mapSet_of_absent _ _ _ hget
      have habsent := (mapGet_eq_none_iff _ _).mp hget
      obtain ⟨hk, hc, hn, hd, hb1, hb2⟩ := (channelsConsistent_iff c).mp hinv
      have hinv1 : channelsConsistent
          { c with clusterMap := mapSet c.clusterMap (newCluster clusterObj c.nextCh).Namespace
                     (newCluster clusterObj c.nextCh),
                   nextCh := c.nextCh + 1 } := by
        rw [channelsConsistent_iff]
        show (List.map Prod.fst (mapSet c.clusterMap clusterObj.Namespace
            (newCluster clusterObj c.nextCh))).Nodup ∧
          (registryChannels (mapSet c.clusterMap clusterObj.Namespace
            (newCluster clusterObj c.nextCh))).Nodup ∧
          c.closedChs.Nodup ∧
          (∀ e ∈ mapSet c.clusterMap clusterObj.Namespace (newCluster clusterObj c.nextCh),
            e.2.stopCh ∉ c.closedChs) ∧
          (∀ e ∈ mapSet c.clusterMap clusterObj.Namespace (newCluster clusterObj c.nextCh),
            e.2.stopCh < c.nextCh + 1) ∧
          (∀ ch ∈ c.closedChs, ch < c.nextCh + 1)
        rw [hmap]
        refine ⟨?_, ?_, hn, ?_, ?_, fun ch hch => Nat.lt_succ_of_lt (hb2 ch hch)⟩
        · rw [List.map_append, List.nodup_append]
          refine ⟨hk, by simp, ?_⟩
          intro k h1 h2
          simp only [List.map_cons, List.map_nil, List.mem_singleton] at h2
          rw [h2] at h1
          exact habsent h1
        · unfold registryChannels
          rw [List.map_append, List.nodup_append]
          refine ⟨hc, by simp, ?_⟩
          intro ch h1 h2
          simp only [List.map_cons, List.map_nil, List.mem_singleton] at h2
          obtain ⟨e, he, hech⟩ := List.mem_map.mp h1
          have := hb1 e he
          rw [hech, h2] at this
          exact absurd this (Nat.lt_irrefl _)
        · intro e he hmem
          rcases List.mem_append.mp he with h1 | h1
          · exact hd e h1 hmem
          · simp only [List.mem_singleton] at h1
            rw [h1] at hmem
            exact absurd (hb2 _ hmem) (Nat.lt_irrefl _)
        · intro e he
          rcases List.mem_append.mp he with h1 | h1
          · exact Nat.lt_succ_of_lt (hb1 e h1)
          · simp only [List.mem_singleton] at h1
            rw [h1]
            exact Nat.lt_succ_self _
      have hreg : sameRegistry
          { c with clusterMap := mapSet c.clusterMap (newCluster clusterObj c.nextCh).Namespace
                     (newCluster clusterObj c.nextCh),
                   nextCh := c.nextCh + 1 }
          (if c.hasAddClusterCallback = true then
            emit { c with clusterMap := mapSet c.clusterMap
                            (newCluster clusterObj c.nextCh).Namespace
                            (newCluster clusterObj c.nextCh),
                          nextCh := c.nextCh + 1 }
              (.addClusterCallback (newCluster clusterObj c.nextCh).Spec.External.Enable)
          else
            { c with clusterMap := mapSet c.clusterMap (newCluster clusterObj c.nextCh).Namespace
                       (newCluster clusterObj c.nextCh),
                     nextCh := c.nextCh + 1 }) := by
        split <;> exact ⟨rfl, rfl, rfl⟩
      have hinv2 := channelsConsistent_of_sameRegistry hinv1 hreg
      refine ⟨channelsConsistent_of_storedOver hinv2 hso ?_, hso.1.trans hreg.2.1⟩
      intro e he hkey
      rw [hreg.1] at he
      have he1 : e ∈ mapSet c.clusterMap clusterObj.Namespace (newCluster clusterObj c.nextCh) :=
        he
      rw [hmap] at he1
      rcases List.mem_append.mp he1 with h1 | h1
      · exfalso
        apply habsent
        have hkey1 : e.1 = clusterObj.Namespace := hkey
        rw [← hkey1]
        exact List.mem_map.mpr ⟨e, h1, rfl⟩
      · simp only [List.mem_singleton] at h1
        rw [h1]

/-- The handler onUpdate keeps the channels consistent and closes none. -/
theorem onUpdate_consistent (env : Env) (fuel : Nat) (c : ClusterController)
    (oldObj newObj : Obj) (c1 : ClusterController) (hinv : channelsConsistent c)
    (h : onUpdate env fuel c oldObj newObj = .ok c1) :
    channelsConsistent c1 ∧ c1.closedChs = c.closedChs := by
  unfold onUpdate at h
  cases hold : getClusterObject oldObj with
  | error e => simp only [hold] at h; cases h; exact ⟨hinv, rfl⟩
  | ok oldClust =>
    simp only [hold] at h
    cases hnew : getClusterObject newObj with
    | error e => simp only [hnew] at h; cases h; exact ⟨hinv, rfl⟩
    | ok newClust =>
      simp only [hnew] at h
      split at h
      · cases h; exact ⟨hinv, rfl⟩
      · split at h
        · obtain ⟨m, err, hdel⟩ := handleDelete_returns env c newClust clusterDeleteRetryInterval
          simp only [hdel, Run.bind] at h
          split at h
          · cases h
            exact ⟨channelsConsistent_of_sameRegistry hinv (sameRegistry_addTrace _ _), rfl⟩
          · cases h
            obtain ⟨tr, htr, _⟩ := removeFinalizer_trace env
              (addTrace c (drainTrace env.operatorNamespace clusterDeleteRetryInterval (m + 1)))
              newClust
            rw [htr]
            exact ⟨channelsConsistent_of_sameRegistry hinv
              (sameRegistry_trans (sameRegistry_addTrace _ _) (sameRegistry_addTrace _ _)), rfl⟩
        · cases hget : mapGet c.clusterMap newClust.Namespace with
          | none => simp only [hget] at h; cases h; exact ⟨hinv, rfl⟩
          | some cluster =>
            simp only [hget] at h
            have hk := ((channelsConsistent_iff c).mp hinv).1
            have hkey : ∀ e ∈ c.clusterMap, e.1 = newClust.Namespace →
                e.2.stopCh = cluster.stopCh := by
              intro e he hkey
              rw [mapGet_unique _ _ _ hk hget e he hkey]
            split at h
            · have hso := initializeCluster_storedOver _ _ _ _ _ _ _ h
              exact ⟨channelsConsistent_of_storedOver hinv hso hkey, hso.1⟩
            · split at h
              · cases h; exact ⟨hinv, rfl⟩
              · have hso := updateCluster_storedOver _ _ _ _ _ _ _ h
                exact ⟨channelsConsistent_of_storedOver hinv hso hkey, hso.1⟩

/-- The loop of StopWatch closes the channels of the entries it ranges over,
and returns when none of them is closed already or listed twice. -/
theorem stopWatchLoop_closes :
    ∀ (rest : List (String × Cluster)) (c : ClusterController),
      (registryChannels rest ++ c.closedChs).Nodup →
      ∃ c1, stopWatchLoop rest c = .ok c1 ∧
        c1.closedChs = (registryChannels rest).reverse ++ c.closedChs ∧
        c1.clusterMap = c.clusterMap ∧ c1.nextCh = c.nextCh := by
  intro rest
  induction rest with
  | nil => intro c _; exact ⟨c, rfl, by simp [registryChannels], rfl, rfl⟩
  | cons e rest ih =>
    intro c hnd
    have hnd1 : (e.2.stopCh :: (registryChannels rest ++ c.closedChs)).Nodup := hnd
    have hopen : e.2.stopCh ∉ c.closedChs := by
      intro hmem
      exact (List.nodup_cons.mp hnd1).1 (List.mem_append_right _ hmem)
    have hnd2 : (registryChannels rest ++ e.2.stopCh :: c.closedChs).Nodup :=
      List.nodup_middle.mpr hnd1
    obtain ⟨c1, hrun, hcl, hm, hnx⟩ := ih
      { emit c (.closeStopCh e.2.stopCh) with closedChs := e.2.stopCh :: c.closedChs } hnd2
    refine ⟨c1, ?_, ?_, hm, hnx⟩
    · simp only [stopWatchLoop, closeStopCh, hopen, if_false, Run.bind]
      exact hrun
    · rw [hcl]
      simp [registryChannels]

/-- On consistent channels StopWatch returns: it closes the stop channel of
every registered cluster, once, and leaves the registry empty. -/
theorem StopWatch_consistent (c : ClusterController) (hinv : channelsConsistent c) :
    ∃ c1, StopWatch c = .ok c1 ∧ channelsConsistent c1 ∧ c1.clusterMap = [] ∧
      c1.closedChs = (registryChannels c.clusterMap).reverse ++ c.closedChs := by
  obtain ⟨c1, hrun, hcl, hm, hnx⟩ := stopWatchLoop_closes c.clusterMap c hinv.2.1
  refine ⟨{ c1 with clusterMap := [] }, ?_, ?_, rfl, hcl⟩
  · simp only [StopWatch, hrun, Run.bind]
  · unfold channelsConsistent
    show (List.map Prod.fst ([] : List (String × Cluster))).Nodup ∧
      (registryChannels [] ++ c1.closedChs).Nodup ∧
      ∀ ch ∈ registryChannels [] ++ c1.closedChs, ch < c1.nextCh
    rw [hcl, hnx]
    refine ⟨List.nodup_nil, ?_, ?_⟩
    · have hperm : ((registryChannels c.clusterMap).reverse ++ c.closedChs).Perm
          (registryChannels c.clusterMap ++ c.closedChs) :=
        (List.reverse_perm _).append_right _
      simpa [registryChannels] using hperm.nodup_iff.mpr hinv.2.1
    · intro ch hch
      apply hinv.2.2
      simpa [registryChannels] using hch

/-- On consistent channels onDelete returns: either it closes no channel and
leaves the registry as it is, or it closes the stop channel of the cluster
registered in a namespace, which was open, and removes that cluster. -/
theorem onDelete_consistent (env : Env) (c : ClusterController) (obj : Obj)
    (hinv : channelsConsistent c) :
    ∃ c1, onDelete env c obj = .ok c1 ∧ channelsConsistent c1 ∧
      ((c1.closedChs = c.closedChs ∧ c1.clusterMap = c.clusterMap) ∨
       ∃ ns cluster, mapGet c.clusterMap ns = some cluster ∧
         cluster.stopCh ∉ c.closedChs ∧
         c1.closedChs = cluster.stopCh :: c.closedChs ∧
         c1.clusterMap = mapDelete c.clusterMap ns ∧ mapGet c1.clusterMap ns = none) := by
  unfold onDelete
  cases hobj : getClusterObject obj with
  | error e => exact ⟨c, rfl, hinv, Or.inl ⟨rfl, rfl⟩⟩
  | ok clust =>
    simp only
    by_cases hother : otherClusterRegistered c clust = true
    · exact ⟨c, by simp [hother], hinv, Or.inl ⟨rfl, rfl⟩⟩
    · obtain ⟨m, err, hdel⟩ := handleDelete_returns env c clust clusterDeleteRetryInterval
      simp only [hother, hdel, Run.bind, addTrace_clusterMap]
      cases hget : mapGet c.clusterMap clust.Namespace with
      | none =>
        by_cases hall : clust.Spec.Storage.AnyUseAllDevices = true
        · simp only [hall, if_true, Bool.false_eq_true, if_false]
          exact ⟨_, rfl, channelsConsistent_of_sameRegistry hinv ⟨rfl, rfl, rfl⟩,
            Or.inl ⟨rfl, rfl⟩⟩
        · simp only [hall, Bool.false_eq_true, if_false]
          exact ⟨_, rfl, channelsConsistent_of_sameRegistry hinv ⟨rfl, rfl, rfl⟩,
            Or.inl ⟨rfl, rfl⟩⟩
      | some cluster =>
        obtain ⟨hk, hc, hn, hd, hb1, hb2⟩ := (channelsConsistent_iff c).mp hinv
        have hmem := mapGet_mem _ _ _ hget
        have hopen : cluster.stopCh ∉ c.closedChs := hd _ hmem
        have hopen1 : cluster.stopCh ∉ (addTrace c
            (drainTrace env.operatorNamespace clusterDeleteRetryInterval (m + 1))).closedChs :=
          hopen
        have hinv2 : ∀ c3 : ClusterController,
            c3.clusterMap = mapDelete c.clusterMap clust.Namespace →
            c3.closedChs = cluster.stopCh :: c.closedChs → c3.nextCh = c.nextCh →
            channelsConsistent c3 := by
          intro c3 h1 h2 h3
          rw [channelsConsistent_iff, h1, h2, h3]
          have hsub : (mapDelete c.clusterMap clust.Namespace).Sublist c.clusterMap :=
            List.filter_sublist _
          refine ⟨hk.sublist (hsub.map _), hc.sublist (hsub.map _),
            List.nodup_cons.mpr ⟨hopen, hn⟩, ?_, fun e he => hb1 e (hsub.subset he), ?_⟩
          · intro e he hmem2
            have he0 : e ∈ c.clusterMap := hsub.subset he
            rcases List.mem_cons.mp hmem2 with h4 | h4
            · have hne : e.1 ≠ clust.Namespace := by
                have := (List.mem_filter.mp he).2
                simpa using this
              have heq : e = (clust.Namespace, cluster) :=
                List.inj_on_of_nodup_map hc he0 hmem h4
              rw [heq] at hne
              exact hne rfl
            · exact hd e he0 h4
          · intro ch hch
            rcases List.mem_cons.mp hch with h4 | h4
            · rw [h4]; exact hb1 _ hmem
            · exact hb2 ch h4
        by_cases hall : clust.Spec.Storage.AnyUseAllDevices = true
        · simp only [closeStopCh, hopen1, if_false, hall, if_true, Bool.false_eq_true, Run.bind]
          exact ⟨_, rfl, hinv2 _ rfl rfl rfl,
            Or.inr ⟨clust.Namespace, cluster, hget, hopen, rfl, rfl, mapGet_mapDelete_self _ _⟩⟩
        · simp only [closeStopCh, hopen1, if_false, hall, Bool.false_eq_true, Run.bind]
          exact ⟨_, rfl, hinv2 _ rfl rfl rfl,
            Or.inr ⟨clust.Namespace, cluster, hget, hopen, rfl, rfl, mapGet_mapDelete_self _ _⟩⟩

theorem NewClusterController_consistent (rookImage : String) (hasCallback : Bool) :
    channelsConsistent (NewClusterController rookImage hasCallback) := by
  simp [channelsConsistent, NewClusterController, registryChannels]

/-- Every sequence of events that returns keeps the channels consistent. -/
theorem runEvents_consistent :
    ∀ (evs : List ControllerEvent) (c c1 : ClusterController), channelsConsistent c →
      runEvents evs c = .ok c1 → channelsConsistent c1 := by
  intro evs
  induction evs with
  | nil =>
    intro c c1 hinv h
    simp only [runEvents] at h
    cases h
    exact hinv
  | cons ev rest ih =>
    intro c c1 hinv h
    cases ev with
    | add env fuel obj =>
      simp only [runEvents] at h
      cases hs : onAdd env fuel c obj with
      | crash => simp [hs, Run.bind] at h
      | hang => simp [hs, Run.bind] at h
      | ok c2 =>
        rw [hs] at h
        exact ih c2 c1 (onAdd_consistent env fuel c obj c2 hinv hs).1 h
    | delete env obj =>
      simp only [runEvents] at h
      obtain ⟨c2, hs, hinv2, _⟩ := onDelete_consistent env c obj hinv
      rw [hs] at h
      exact ih c2 c1 hinv2 h
    | update env fuel oldObj newObj =>
      simp only [runEvents] at h
      cases hs : onUpdate env fuel c oldObj newObj with
      | crash => simp [hs, Run.bind] at h
      | hang => simp [hs, Run.bind] at h
      | ok c2 =>
        rw [hs] at h
        exact ih c2 c1 (onUpdate_consistent env fuel c oldObj newObj c2 hinv hs).1 h
    | stopWatch =>
      simp only [runEvents] at h
      obtain ⟨c2, hs, hinv2, _⟩ := StopWatch_consistent c hinv
      rw [hs] at h
      exact ih c2 c1 hinv2 h

/-- C28: over every sequence of onAdd, onUpdate, onDelete and StopWatch calls
on a new controller, each stop channel is closed at most once.  In every state
`c` such a sequence reaches, no channel was closed twice and the stop channel
of every registered cluster is open; from there onAdd and onUpdate close no
channel; onDelete returns (closing a closed channel would crash) and either
closes nothing and leaves the registry as it is, or closes the open stop
channel of the cluster registered in a namespace and removes that cluster;
and StopWatch returns, closes the stop channels of the registered clusters and
leaves the registry empty. -/
theorem stop_channels_closed_at_most_once (rookImage : String) (hasCallback : Bool)
    (evs : List ControllerEvent) (c : ClusterController)
    (hrun : runEvents evs (NewClusterController rookImage hasCallback) = .ok c) :
    (c.closedChs.Nodup ∧ (registryChannels c.clusterMap).Nodup ∧
      ∀ e ∈ c.clusterMap, e.2.stopCh ∉ c.closedChs) ∧
    (∀ env fuel obj c1, onAdd env fuel c obj = .ok c1 → c1.closedChs = c.closedChs) ∧
    (∀ env fuel oldObj newObj c1, onUpdate env fuel c oldObj newObj = .ok c1 →
      c1.closedChs = c.closedChs) ∧
    (∀ env obj, ∃ c1, onDelete env c obj = .ok c1 ∧
      ((c1.closedChs = c.closedChs ∧ c1.clusterMap = c.clusterMap) ∨
       ∃ ns cluster, mapGet c.clusterMap ns = some cluster ∧
         cluster.stopCh ∉ c.closedChs ∧
         c1.closedChs = cluster.stopCh :: c.closedChs ∧
         c1.clusterMap = mapDelete c.clusterMap ns ∧ mapGet c1.clusterMap ns = none)) ∧
    (∃ c1, StopWatch c = .ok c1 ∧ c1.clusterMap = [] ∧
      c1.closedChs = (registryChannels c.clusterMap).reverse ++ c.closedChs) := by
  have hinv : channelsConsistent c :=
    runEvents_consistent evs _ c (NewClusterController_consistent rookImage hasCallback) hrun
  obtain ⟨_, hc, hn, hd, _, _⟩ := (channelsConsistent_iff c).mp hinv
  refine ⟨⟨hn, hc, hd⟩, ?_, ?_, ?_, ?_⟩
  · intro env fuel obj c1 h
    exact (onAdd_consistent env fuel c obj c1 hinv h).2
  · intro env fuel oldObj newObj c1 h
    exact (onUpdate_consistent env fuel c oldObj newObj c1 hinv h).2
  · intro env obj
    obtain ⟨c1, h1, _, h2⟩ := onDelete_consistent env c obj hinv
    exact ⟨c1, h1, h2⟩
  · obtain ⟨c1, h1, _, h2, h3⟩ := StopWatch_consistent c hinv
    exact ⟨c1, h1, h2, h3⟩

/-- The theorem above for a sequence that deletes one cluster and stops the
watch over another: the two stop channels are closed, each once. -/
theorem stop_channels_closed_at_most_once_witness :
    ∃ c, runEvents stopEvents (NewClusterController "rook/ceph:v1.1" false) = .ok c ∧
      c.closedChs = [1, 0] ∧
      (c.closedChs.Nodup ∧ (registryChannels c.clusterMap).Nodup ∧
        ∀ e ∈ c.clusterMap, e.2.stopCh ∉ c.closedChs) ∧
      (∀ env fuel obj c1, onAdd env fuel c obj = .ok c1 → c1.closedChs = c.closedChs) ∧
      (∀ env fuel oldObj newObj c1, onUpdate env fuel c oldObj newObj = .ok c1 →
        c1.closedChs = c.closedChs) ∧
      (∀ env obj, ∃ c1, onDelete env c obj = .ok c1 ∧
        ((c1.closedChs = c.closedChs ∧ c1.clusterMap = c.clusterMap) ∨
         ∃ ns cluster, mapGet c.clusterMap ns = some cluster ∧
           cluster.stopCh ∉ c.closedChs ∧
           c1.closedChs = cluster.stopCh :: c.closedChs ∧
           c1.clusterMap = mapDelete c.clusterMap ns ∧ mapGet c1.clusterMap ns = none)) ∧
      (∃ c1, StopWatch c = .ok c1 ∧ c1.clusterMap = [] ∧
        c1.closedChs = (registryChannels c.clusterMap).reverse ++ c.closedChs) :=
  ⟨_, rfl, by decide,
    stop_channels_closed_at_most_once "rook/ceph:v1.1" false stopEvents _ rfl⟩

/-! ### Mon endpoints -/

theorem splitChars_ne_nil (sep : Char) (cs : List Char) : splitChars sep cs ≠ [] := by
  induction cs with
  | nil => simp [splitChars]
  | cons c rest ih =>
    unfold splitChars
    split
    · simp
    · split <;> simp

/-- A piece without the separator is one piece. -/
theorem splitChars_of_clean (sep : Char) (p : List Char) (h : sep ∉ p) :
    splitChars sep p = [p] := by
  induction p with
  | nil => rfl
  | cons c rest ih =>
    have hc : ¬ c = sep := fun hc => h (by rw [hc]; exact List.mem_cons_self _ _)
    have hrest : sep ∉ rest := fun hr => h (List.mem_cons_of_mem _ hr)
    simp [splitChars, hc, ih hrest]

/-- Splitting a piece without the separator followed by the separator. -/
theorem splitChars_append (sep : Char) (p rest : List Char) (h : sep ∉ p) :
    splitChars sep (p ++ sep :: rest) = p :: splitChars sep rest := by
  induction p with
  | nil => simp [splitChars]
  | cons c p ih =>
    have hc : ¬ c = sep := fun hc => h (by rw [hc]; exact List.mem_cons_self _ _)
    have hp : sep ∉ p := fun hr => h (List.mem_cons_of_mem _ hr)
    simp [splitChars, hc, ih hp]

/-- Splitting undoes joining, for one piece or more without the separator. -/
theorem splitChars_joinChars (sep : Char) :
    ∀ (parts : List (List Char)), parts ≠ [] → (∀ p ∈ parts, sep ∉ p) →
      splitChars sep (joinChars sep parts) = parts := by
  intro parts
  induction parts with
  | nil => intro h; exact absurd rfl h
  | cons p rest ih =>
    intro _ hclean
    cases rest with
    | nil => exact splitChars_of_clean sep p (hclean p (List.mem_cons_self _ _))
    | cons q ps =>
      simp only [joinChars]
      rw [splitChars_append sep p _ (hclean p (List.mem_cons_self _ _)),
        ih (by simp) (fun r hr => hclean r (List.mem_cons_of_mem _ hr))]

theorem monMapSet_of_absent (m : List (String × MonInfo)) (k : String) (v : MonInfo)
    (h : k ∉ m.map Prod.fst) : monMapSet m k v = m ++ [(k, v)] := by
  induction m with
  | nil => rfl
  | cons e rest ih =>
    obtain ⟨k1, v1⟩ := e
    simp only [List.map_cons, List.mem_cons, not_or] at h
    have hk : ¬ k1 = k := fun hk => h.1 hk.symm
    simp [monMapSet, hk, ih h.2]

/-- The loop of ParseMonEndpoints on the pieces FlattenMonEndpoints makes of
mons with new names adds these mons at the end, in their order. -/
theorem parseMonParts_flattened :
    ∀ (mons acc : List (String × MonInfo)),
      ((acc ++ mons).map Prod.fst).Nodup →
      (∀ e ∈ mons, e.1 = e.2.Name ∧ '=' ∉ e.2.Name.data ∧ '=' ∉ e.2.Endpoint.data) →
      parseMonParts acc (mons.map fun e => e.2.Name.data ++ '=' :: e.2.Endpoint.data) =
        acc ++ mons := by
  intro mons
  induction mons with
  | nil => intro acc _ _; simp [parseMonParts]
  | cons e rest ih =>
    intro acc hnd hclean
    obtain ⟨hkey, hn, he⟩ := hclean e (List.mem_cons_self _ _)
    have hsplit : splitChars '=' (e.2.Name.data ++ '=' :: e.2.Endpoint.data) =
        [e.2.Name.data, e.2.Endpoint.data] := by
      rw [splitChars_append '=' _ _ hn, splitChars_of_clean '=' _ he]
    have habsent : e.2.Name ∉ acc.map Prod.fst := by
      intro hmem
      rw [List.map_append, List.map_cons, List.nodup_append] at hnd
      exact hnd.2.2 hmem (by rw [← hkey]; exact List.mem_cons_self _ _)
    have hentry : (e.2.Name, ({ Name := e.2.Name, Endpoint := e.2.Endpoint } : MonInfo)) = e := by
      obtain ⟨k, v⟩ := e
      simp only at hkey
      rw [hkey]
    have hstep : parseMonParts acc
        ((e :: rest).map fun e => e.2.Name.data ++ '=' :: e.2.Endpoint.data) =
        parseMonParts (acc ++ [e])
          (rest.map fun e => e.2.Name.data ++ '=' :: e.2.Endpoint.data) := by
      simp only [parseMonParts, List.map_cons, List.foldl_cons, hsplit]
      rw [monMapSet_of_absent acc _ _ habsent, hentry]
    rw [hstep, ih (acc ++ [e]) (by simpa using hnd)
      (fun e1 h1 => hclean e1 (List.mem_cons_of_mem _ h1))]
    simp

/-- C25: parsing undoes the flattening of mon endpoints.  For every map of
mons keyed by the name of the mon (every name once) in which no name and no
endpoint holds a comma or an equals sign, ParseMonEndpoints of
FlattenMonEndpoints is the map again: the same names, each with the same
endpoint.  The one mon foo at 1.2.3.4:5000 flattens to "foo=1.2.3.4:5000". -/
theorem ParseMonEndpoints_undoes_FlattenMonEndpoints (mons : List (String × MonInfo))
    (hkeys : (mons.map Prod.fst).Nodup)
    (hclean : ∀ e ∈ mons, e.1 = e.2.Name ∧
      ',' ∉ e.2.Name.data ∧ '=' ∉ e.2.Name.data ∧
      ',' ∉ e.2.Endpoint.data ∧ '=' ∉ e.2.Endpoint.data) :
    ParseMonEndpoints (FlattenMonEndpoints mons) = mons ∧
    FlattenMonEndpoints fooMons = "foo=1.2.3.4:5000" := by
  refine ⟨?_, by decide⟩
  cases hm : mons with
  | nil => simp [ParseMonEndpoints, FlattenMonEndpoints, joinChars, splitChars, parseMonParts]
  | cons e rest =>
    rw [← hm]
    have hne : (mons.map fun e => e.2.Name.data ++ '=' :: e.2.Endpoint.data) ≠ [] := by
      rw [hm]; simp
    have hparts : ∀ p ∈ (mons.map fun e => e.2.Name.data ++ '=' :: e.2.Endpoint.data),
        ',' ∉ p := by
      intro p hp
      obtain ⟨e1, he1, rfl⟩ := List.mem_map.mp hp
      obtain ⟨_, h1, _, h2, _⟩ := hclean e1 he1
      intro hmem
      rcases List.mem_append.mp hmem with h | h
      · exact h1 h
      · rcases List.mem_cons.mp h with h | h
        · exact absurd h (by decide)
        · exact h2 h
    unfold ParseMonEndpoints FlattenMonEndpoints
    simp only
    rw [splitChars_joinChars ',' _ hne hparts]
    have := parseMonParts_flattened mons [] (by simpa using hkeys)
      (fun e1 h1 => ⟨(hclean e1 h1).1, (hclean e1 h1).2.2.1, (hclean e1 h1).2.2.2.2⟩)
    simpa using this

/-- The theorem above for the two mons of the test. -/
theorem ParseMonEndpoints_undoes_FlattenMonEndpoints_witness :
    ParseMonEndpoints (FlattenMonEndpoints fooBarMons) = fooBarMons ∧
    FlattenMonEndpoints fooMons = "foo=1.2.3.4:5000" :=
  ParseMonEndpoints_undoes_FlattenMonEndpoints fooBarMons (by decide) (by decide)

/-! ### The CSI cluster configuration -/

/-- The steps of the test of UpdateCsiClusterConfig, evaluated: the first
cluster, its second monitor, and the second cluster. -/
theorem UpdateCsiClusterConfig_test_steps :
    UpdateCsiClusterConfig "[]" "alpha" fooMons =
      .ok "[\x7b\"clusterID\":\"alpha\",\"monitors\":[\"1.2.3.4:5000\"]\x7d]" ∧
    UpdateCsiClusterConfig "[\x7b\"clusterID\":\"alpha\",\"monitors\":[\"1.2.3.4:5000\"]\x7d]"
        "alpha" fooBarMons =
      .ok "[\x7b\"clusterID\":\"alpha\",\"monitors\":[\"1.2.3.4:5000\",\"2.3.4.5:6000\"]\x7d]" ∧
    UpdateCsiClusterConfig
        "[\x7b\"clusterID\":\"alpha\",\"monitors\":[\"1.2.3.4:5000\",\"2.3.4.5:6000\"]\x7d]"
        "beta" betaMons = .ok (formatCsiClusterConfig alphaBetaConfig) ∧
    parseCsiClusterConfig (formatCsiClusterConfig alphaBetaConfig) = .ok alphaBetaConfig :=
  ⟨rfl, rfl, rfl, by set_option maxRecDepth 4096 in rfl⟩

theorem skipWs_sound : ∀ (cs : List Char), ∃ w, cs = w ++ skipWs cs ∧ WsText w := by
  intro cs
  induction cs with
  | nil => exact ⟨[], rfl, by intro c h; cases h⟩
  | cons c rest ih =>
    by_cases hc : c = ' ' ∨ c = '\n' ∨ c = '\t' ∨ c = '\r'
    · obtain ⟨w, hw, hws⟩ := ih
      refine ⟨c :: w, ?_, ?_⟩
      · simp only [skipWs, hc, if_true, List.cons_append]
        rw [← hw]
      · intro x hx
        rcases List.mem_cons.mp hx with h | h
        · rw [h]; exact hc
        · exact hws x h
    · exact ⟨[], by simp [skipWs, hc], by intro c h; cases h⟩

theorem expectChar_sound (ch : Char) (cs rest : List Char) (h : expectChar ch cs = some rest) :
    ∃ w, cs = w ++ ch :: rest ∧ WsText w := by
  obtain ⟨w, hw, hws⟩ := skipWs_sound cs
  unfold expectChar at h
  cases hs : skipWs cs with
  | nil => simp [hs] at h
  | cons c r =>
    simp only [hs] at h
    by_cases hc : c = ch
    · simp only [hc, if_true, Option.some.injEq] at h
      refine ⟨w, ?_, hws⟩
      rw [hs, hc, h] at hw
      exact hw
    · simp [hc] at h

theorem simpleEscape_sound (e ch : Char) (h : simpleEscape e = some ch) :
    EscapeText ch [e] := by
  unfold simpleEscape at h
  by_cases h1 : e = '"'
  · rw [if_pos h1] at h; cases h; rw [h1]; exact .quote
  rw [if_neg h1] at h
  by_cases h2 : e = '\\'
  · rw [if_pos h2] at h; cases h; rw [h2]; exact .backslash
  rw [if_neg h2] at h
  by_cases h3 : e = '/'
  · rw [if_pos h3] at h; cases h; rw [h3]; exact .slash
  rw [if_neg h3] at h
  by_cases h4 : e = 'b'
  · rw [if_pos h4] at h; cases h; rw [h4]; exact .backspace
  rw [if_neg h4] at h
  by_cases h5 : e = 'f'
  · rw [if_pos h5] at h; cases h; rw [h5]; exact .formFeed
  rw [if_neg h5] at h
  by_cases h6 : e = 'n'
  · rw [if_pos h6] at h; cases h; rw [h6]; exact .lineFeed
  rw [if_neg h6] at h
  by_cases h7 : e = 'r'
  · rw [if_pos h7] at h; cases h; rw [h7]; exact .carriageReturn
  rw [if_neg h7] at h
  by_cases h8 : e = 't'
  · rw [if_pos h8] at h; cases h; rw [h8]; exact .tab
  rw [if_neg h8] at h
  cases h

theorem lowSurrogateAt_sound (cs : List Char) (m : Nat) (rest : List Char)
    (h : lowSurrogateAt cs = some (m, rest)) :
    ∃ e f g k, cs = '\\' :: 'u' :: e :: f :: g :: k :: rest ∧ hex4 e f g k = some m ∧
      isLowSurrogate m = true := by
  match cs, h with
  | bs :: u :: e :: f :: g :: k :: rest3, h =>
    simp only [lowSurrogateAt] at h
    by_cases hbs : bs = '\\' ∧ u = 'u'
    · rw [if_pos hbs] at h
      cases hy : hex4 e f g k with
      | none => rw [hy] at h; cases h
      | some m1 =>
        rw [hy] at h
        simp only at h
        by_cases hlow : isLowSurrogate m1 = true
        · rw [if_pos hlow] at h
          cases h
          exact ⟨e, f, g, k, by rw [hbs.1, hbs.2], hy, hlow⟩
        · rw [if_neg hlow] at h; cases h
    · rw [if_neg hbs] at h; cases h

theorem some_pair_inj {α β : Type} {a a1 : α} {b b1 : β} (h : some (a, b) = some (a1, b1)) :
    a = a1 ∧ b = b1 := by
  cases h
  exact ⟨rfl, rfl⟩

theorem not_LowEscapeStart_of_none (body rest : List Char)
    (h : lowSurrogateAt (body ++ rest) = none) : ¬ LowEscapeStart body := by
  rintro ⟨e, f, g, k, m, tail, hcs, hx, hlow⟩
  subst hcs
  simp [lowSurrogateAt, hx, hlow] at h

theorem parseUnicode_sound (cs : List Char) (ch : Char) (rest : List Char)
    (h : parseUnicode cs = some (ch, rest)) :
    (∃ e, 'u' :: cs = e ++ rest ∧ EscapeText ch e) ∨
    (∃ a b c d n, cs = a :: b :: c :: d :: rest ∧ hex4 a b c d = some n ∧
      isHighSurrogate n = true ∧ lowSurrogateAt rest = none ∧ ch = Char.ofNat 0xFFFD) := by
  match cs, h with
  | a :: b :: c :: d :: rest1, h =>
    simp only [parseUnicode] at h
    cases hx : hex4 a b c d with
    | none => rw [hx] at h; cases h
    | some n =>
      rw [hx] at h
      simp only at h
      by_cases hh : isHighSurrogate n = true
      · rw [if_pos hh] at h
        cases hl : lowSurrogateAt rest1 with
        | none =>
          rw [hl] at h
          obtain ⟨h1, h2⟩ := some_pair_inj h
          subst h1; subst h2
          exact Or.inr ⟨a, b, c, d, n, rfl, hx, hh, hl, rfl⟩
        | some p =>
          obtain ⟨m, rest2⟩ := p
          rw [hl] at h
          obtain ⟨h1, h2⟩ := some_pair_inj h
          subst h1; subst h2
          obtain ⟨e, f, g, k, hcs, hy, hlow⟩ := lowSurrogateAt_sound rest1 m rest2 hl
          exact Or.inl ⟨['u', a, b, c, d, '\\', 'u', e, f, g, k], by rw [hcs]; rfl,
            .pair a b c d e f g k n m hx hh hy hlow⟩
      · rw [if_neg hh] at h
        by_cases hlo : isLowSurrogate n = true
        · rw [if_pos hlo] at h
          obtain ⟨h1, h2⟩ := some_pair_inj h
          subst h1; subst h2
          exact Or.inl ⟨['u', a, b, c, d], rfl, .lone a b c d n hx hlo⟩
        · rw [if_neg hlo] at h
          obtain ⟨h1, h2⟩ := some_pair_inj h
          subst h1; subst h2
          exact Or.inl ⟨['u', a, b, c, d], rfl,
            .unicode a b c d n hx (by simpa using hh) (by simpa using hlo)⟩

theorem parseEscape_sound (cs : List Char) (ch : Char) (rest : List Char)
    (h : parseEscape cs = some (ch, rest)) :
    (∃ e, cs = e ++ rest ∧ EscapeText ch e) ∨
    (∃ a b c d n, cs = 'u' :: a :: b :: c :: d :: rest ∧ hex4 a b c d = some n ∧
      isHighSurrogate n = true ∧ lowSurrogateAt rest = none ∧ ch = Char.ofNat 0xFFFD) := by
  cases cs with
  | nil => cases h
  | cons e r =>
    simp only [parseEscape] at h
    by_cases hu : e = 'u'
    · rw [if_pos hu] at h
      rw [hu]
      rcases parseUnicode_sound r ch rest h with h1 | ⟨a, b, c, d, n, hr, h2⟩
      · exact Or.inl h1
      · exact Or.inr ⟨a, b, c, d, n, by rw [hr], h2⟩
    · rw [if_neg hu] at h
      cases hs : simpleEscape e with
      | none => rw [hs] at h; cases h
      | some c1 =>
        rw [hs] at h
        cases h
        exact Or.inl ⟨[e], rfl, simpleEscape_sound e ch hs⟩

theorem parseStringBody_sound :
    ∀ (fuel : Nat) (cs acc : List Char) (s : String) (rest : List Char),
      parseStringBody fuel cs acc = some (s, rest) →
      ∃ body dec, cs = body ++ '"' :: rest ∧ StringBodyText dec body ∧
        s.data = acc.reverse ++ dec := by
  intro fuel
  induction fuel with
  | zero => intro cs acc s rest h; simp [parseStringBody] at h
  | succ f ih =>
    intro cs acc s rest h
    cases cs with
    | nil => simp [parseStringBody] at h
    | cons c r =>
      simp only [parseStringBody] at h
      split_ifs at h with h1 h2 h3
      · simp only [Option.some.injEq, Prod.mk.injEq] at h
        obtain ⟨hs, hr⟩ := h
        subst hr; subst hs
        exact ⟨[], [], by simp [h1], .nil, by simp⟩
      · cases he : parseEscape r with
        | none => simp [he] at h
        | some p =>
          obtain ⟨ch, rest1⟩ := p
          simp only [he] at h
          obtain ⟨body, dec, hb, hbody, hdata⟩ := ih rest1 (ch :: acc) s rest h
          rcases parseEscape_sound r ch rest1 he with ⟨e, hr, hesc⟩ |
            ⟨a, b, c1, d, n, hr, hx, hh, hl, hch⟩
          · refine ⟨'\\' :: (e ++ body), ch :: dec, ?_, .escape ch e dec body hesc hbody, ?_⟩
            · rw [h2, hr, hb]; simp
            · rw [hdata]; simp
          · rw [hb] at hl
            refine ⟨'\\' :: 'u' :: a :: b :: c1 :: d :: body, ch :: dec, ?_, ?_, ?_⟩
            · rw [h2, hr, hb]; simp
            · rw [hch]
              exact .loneHigh a b c1 d n dec body hx hh (not_LowEscapeStart_of_none _ _ hl) hbody
            · rw [hdata]; simp
      · obtain ⟨body, dec, hb, hbody, hdata⟩ := ih r (c :: acc) s rest h
        refine ⟨c :: body, c :: dec, ?_, .raw c dec body h1 h2 (by omega) hbody, ?_⟩
        · rw [hb]; simp
        · rw [hdata]; simp

theorem parseString_sound (cs : List Char) (s : String) (rest : List Char)
    (h : parseString cs = some (s, rest)) :
    ∃ w text, cs = w ++ (text ++ rest) ∧ WsText w ∧ StringText s text := by
  unfold parseString at h
  cases he : expectChar '"' cs with
  | none => simp [he] at h
  | some r =>
    simp only [he] at h
    obtain ⟨w, hw, hws⟩ := expectChar_sound '"' cs r he
    obtain ⟨body, dec, hb, hbody, hdata⟩ := parseStringBody_sound _ r [] s rest h
    refine ⟨w, '"' :: (body ++ ['"']), ?_, hws, body, rfl, ?_⟩
    · rw [hw, hb]; simp
    · simp only [List.reverse_nil, List.nil_append] at hdata
      rw [hdata]; exact hbody

theorem skipDigits_sound : ∀ (cs : List Char),
    ∃ ds, cs = ds ++ skipDigits cs ∧ ∀ c ∈ ds, c.isDigit = true := by
  intro cs
  induction cs with
  | nil => exact ⟨[], rfl, by intro c h; cases h⟩
  | cons c rest ih =>
    by_cases hc : c.isDigit = true
    · obtain ⟨ds, hds, hall⟩ := ih
      refine ⟨c :: ds, ?_, ?_⟩
      · simp only [skipDigits, hc, if_true, List.cons_append]
        rw [← hds]
      · intro x hx
        rcases List.mem_cons.mp hx with h | h
        · rw [h]; exact hc
        · exact hall x h
    · exact ⟨[], by simp [skipDigits, hc], by intro c h; cases h⟩

theorem expectDigits_sound (cs rest : List Char) (h : expectDigits cs = some rest) :
    ∃ ds, cs = ds ++ rest ∧ DigitsText ds := by
  cases cs with
  | nil => cases h
  | cons c r =>
    simp only [expectDigits] at h
    by_cases hc : c.isDigit = true
    · rw [if_pos hc] at h
      cases h
      obtain ⟨ds, hds, hall⟩ := skipDigits_sound r
      refine ⟨c :: ds, ?_, by simp, ?_⟩
      · rw [List.cons_append, ← hds]
      · intro x hx
        rcases List.mem_cons.mp hx with h | h
        · rw [h]; exact hc
        · exact hall x h
    · rw [if_neg hc] at h; cases h

theorem skipSign_sound (cs : List Char) :
    ∃ sign, cs = sign ++ skipSign cs ∧ (sign = [] ∨ sign = ['-']) := by
  cases cs with
  | nil => exact ⟨[], rfl, Or.inl rfl⟩
  | cons c r =>
    by_cases hc : c = '-'
    · exact ⟨['-'], by simp [skipSign, hc], Or.inr rfl⟩
    · exact ⟨[], by simp [skipSign, hc], Or.inl rfl⟩

theorem skipInt_sound (cs rest : List Char) (h : skipInt cs = some rest) :
    ∃ i, cs = i ++ rest ∧ IntText i := by
  cases cs with
  | nil => cases h
  | cons c r =>
    simp only [skipInt] at h
    by_cases h0 : c = '0'
    · rw [if_pos h0] at h
      cases h
      exact ⟨['0'], by rw [h0]; rfl, Or.inl rfl⟩
    · rw [if_neg h0] at h
      by_cases hc : c.isDigit = true
      · rw [if_pos hc] at h
        cases h
        obtain ⟨ds, hds, hall⟩ := skipDigits_sound r
        refine ⟨c :: ds, ?_, Or.inr ⟨⟨by simp, ?_⟩, ?_⟩⟩
        · rw [List.cons_append, ← hds]
        · intro x hx
          rcases List.mem_cons.mp hx with h | h
          · rw [h]; exact hc
          · exact hall x h
        · simp only [List.head?_cons, ne_eq, Option.some.injEq]
          exact h0
      · rw [if_neg hc] at h; cases h

theorem skipFrac_sound (cs rest : List Char) (h : skipFrac cs = some rest) :
    ∃ f, cs = f ++ rest ∧ FracText f := by
  cases cs with
  | nil => cases h; exact ⟨[], rfl, Or.inl rfl⟩
  | cons c r =>
    simp only [skipFrac] at h
    by_cases hc : c = '.'
    · rw [if_pos hc] at h
      obtain ⟨ds, hds, hd⟩ := expectDigits_sound r rest h
      exact ⟨'.' :: ds, by rw [hc, hds]; rfl, Or.inr ⟨ds, rfl, hd⟩⟩
    · rw [if_neg hc] at h
      cases h
      exact ⟨[], rfl, Or.inl rfl⟩

theorem skipExp_sound (cs rest : List Char) (h : skipExp cs = some rest) :
    ∃ e, cs = e ++ rest ∧ ExpText e := by
  cases cs with
  | nil => cases h; exact ⟨[], rfl, Or.inl rfl⟩
  | cons c r =>
    simp only [skipExp] at h
    by_cases hc : c = 'e' ∨ c = 'E'
    · rw [if_pos hc] at h
      cases r with
      | nil => cases h
      | cons s r1 =>
        simp only at h
        by_cases hs : s = '+' ∨ s = '-'
        · rw [if_pos hs] at h
          obtain ⟨ds, hds, hd⟩ := expectDigits_sound r1 rest h
          refine ⟨c :: ([s] ++ ds), by rw [hds]; rfl, Or.inr ⟨c, [s], ds, rfl, hc, ?_, hd⟩⟩
          rcases hs with h1 | h1
          · exact Or.inr (Or.inl (by rw [h1]))
          · exact Or.inr (Or.inr (by rw [h1]))
        · rw [if_neg hs] at h
          obtain ⟨ds, hds, hd⟩ := expectDigits_sound (s :: r1) rest h
          exact ⟨c :: ([] ++ ds), by rw [hds]; rfl, Or.inr ⟨c, [], ds, rfl, hc, Or.inl rfl, hd⟩⟩
    · rw [if_neg hc] at h
      cases h
      exact ⟨[], rfl, Or.inl rfl⟩

theorem skipNumber_sound (cs rest : List Char) (h : skipNumber cs = some rest) :
    ∃ n, cs = n ++ rest ∧ NumberText n := by
  unfold skipNumber at h
  obtain ⟨sign, hsign, hs⟩ := skipSign_sound cs
  cases hi : skipInt (skipSign cs) with
  | none => rw [hi] at h; cases h
  | some cs1 =>
    rw [hi] at h
    simp only at h
    obtain ⟨i, hi1, hint⟩ := skipInt_sound _ _ hi
    cases hf : skipFrac cs1 with
    | none => rw [hf] at h; cases h
    | some cs2 =>
      rw [hf] at h
      simp only at h
      obtain ⟨f, hf1, hfrac⟩ := skipFrac_sound _ _ hf
      obtain ⟨e, he1, hexp⟩ := skipExp_sound _ _ h
      refine ⟨sign ++ (i ++ (f ++ e)), ?_, sign, i, f, e, rfl, hs, hint, hfrac, hexp⟩
      rw [hsign, hi1, hf1, he1]
      simp

theorem expectLit_sound : ∀ (lit cs rest : List Char), expectLit lit cs = some rest →
    cs = lit ++ rest := by
  intro lit
  induction lit with
  | nil => intro cs rest h; cases cs <;> (simp only [expectLit] at h; cases h; rfl)
  | cons l ls ih =>
    intro cs rest h
    cases cs with
    | nil => cases h
    | cons c r =>
      simp only [expectLit] at h
      by_cases hc : l = c
      · rw [if_pos hc] at h
        rw [hc, ih r rest h]
        rfl
      · rw [if_neg hc] at h; cases h

theorem skipWs_cons_sound (cs : List Char) (c : Char) (rest : List Char)
    (h : skipWs cs = c :: rest) : ∃ w, cs = w ++ c :: rest ∧ WsText w := by
  obtain ⟨w, hw, hws⟩ := skipWs_sound cs
  rw [h] at hw
  exact ⟨w, hw, hws⟩

/-- The member of an object as the reader of any value takes it: a key, a
colon and a value. -/
theorem skipMember_sound (fuel : Nat)
    (ihv : ∀ cs rest, skipJson fuel .value cs = some rest →
      ∃ w v, cs = w ++ (v ++ rest) ∧ WsText w ∧ ValueText v)
    (ihm : ∀ cs rest, skipJson fuel .members cs = some rest →
      ∃ tail, cs = tail ++ rest ∧ MembersTailText tail)
    (cs rest : List Char)
    (h : (match parseString cs with
          | some (_, rest1) =>
            match expectChar ':' rest1 with
            | some rest2 =>
              match skipJson fuel .value rest2 with
              | some rest3 => skipJson fuel .members rest3
              | none => none
            | none => none
          | none => none) = some rest) :
    ∃ w k ktext w1 w2 v tail, cs = w ++ (ktext ++ (w1 ++ (':' :: (w2 ++ (v ++ (tail ++ rest)))))) ∧
      WsText w ∧ StringText k ktext ∧ WsText w1 ∧ WsText w2 ∧ ValueText v ∧
      MembersTailText tail := by
  cases hk : parseString cs with
  | none => rw [hk] at h; cases h
  | some p =>
    obtain ⟨k, rest1⟩ := p
    rw [hk] at h
    simp only at h
    obtain ⟨w, ktext, hcs, hw, hkt⟩ := parseString_sound cs k rest1 hk
    cases hc : expectChar ':' rest1 with
    | none => rw [hc] at h; cases h
    | some rest2 =>
      rw [hc] at h
      simp only at h
      obtain ⟨w1, hr1, hw1⟩ := expectChar_sound ':' rest1 rest2 hc
      cases hv : skipJson fuel .value rest2 with
      | none => rw [hv] at h; cases h
      | some rest3 =>
        rw [hv] at h
        simp only at h
        obtain ⟨w2, v, hr2, hw2, hval⟩ := ihv rest2 rest3 hv
        obtain ⟨tail, hr3, htail⟩ := ihm rest3 rest h
        refine ⟨w, k, ktext, w1, w2, v, tail, ?_, hw, hkt, hw1, hw2, hval, htail⟩
        rw [hcs, hr1, hr2, hr3]

theorem skipJson_sound : ∀ (fuel : Nat),
    (∀ cs rest, skipJson fuel .value cs = some rest →
      ∃ w v, cs = w ++ (v ++ rest) ∧ WsText w ∧ ValueText v) ∧
    (∀ cs rest, skipJson fuel .elements cs = some rest →
      ∃ tail, cs = tail ++ rest ∧ ElementsTailText tail) ∧
    (∀ cs rest, skipJson fuel .members cs = some rest →
      ∃ tail, cs = tail ++ rest ∧ MembersTailText tail) := by
  intro fuel
  induction fuel with
  | zero =>
    refine ⟨?_, ?_, ?_⟩ <;> (intro cs rest h; simp [skipJson] at h)
  | succ f ih =>
    obtain ⟨ihv, ihe, ihm⟩ := ih
    refine ⟨?_, ?_, ?_⟩
    · intro cs rest h
      simp only [skipJson] at h
      cases hs : skipWs cs with
      | nil => rw [hs] at h; cases h
      | cons c r =>
        rw [hs] at h
        simp only at h
        obtain ⟨w, hcs, hw⟩ := skipWs_cons_sound cs c r hs
        by_cases h1 : c = '"'
        · rw [if_pos h1] at h
          cases hb : parseStringBody r.length r [] with
          | none => rw [hb] at h; cases h
          | some p =>
            obtain ⟨s, rest1⟩ := p
            rw [hb] at h
            simp only [Option.map_some', Option.some.injEq] at h
            subst h
            obtain ⟨body, dec, hr, hbody, hdata⟩ := parseStringBody_sound _ r [] s rest1 hb
            refine ⟨w, '"' :: (body ++ ['"']), ?_, hw, .string s _ ⟨body, rfl, ?_⟩⟩
            · rw [hcs, h1, hr]; simp
            · simp only [List.reverse_nil, List.nil_append] at hdata
              rw [hdata]; exact hbody
        rw [if_neg h1] at h
        by_cases h2 : c = '['
        · rw [if_pos h2] at h
          cases he : expectChar ']' r with
          | some rest1 =>
            rw [he] at h
            simp only [Option.some.injEq] at h
            subst h
            obtain ⟨w1, hr, hw1⟩ := expectChar_sound ']' r rest1 he
            refine ⟨w, '[' :: (w1 ++ [']']), ?_, hw, .emptyArray w1 hw1⟩
            rw [hcs, h2, hr]; simp
          | none =>
            rw [he] at h
            simp only at h
            cases hv : skipJson f .value r with
            | none => rw [hv] at h; cases h
            | some rest1 =>
              rw [hv] at h
              simp only at h
              obtain ⟨w1, v, hr, hw1, hval⟩ := ihv r rest1 hv
              obtain ⟨tail, hr1, htail⟩ := ihe rest1 rest h
              refine ⟨w, '[' :: (w1 ++ (v ++ tail)), ?_, hw, .array w1 v tail hw1 hval htail⟩
              rw [hcs, h2, hr, hr1]; simp
        rw [if_neg h2] at h
        by_cases h3 : c = '\x7b'
        · rw [if_pos h3] at h
          cases he : expectChar '\x7d' r with
          | some rest1 =>
            rw [he] at h
            simp only [Option.some.injEq] at h
            subst h
            obtain ⟨w1, hr, hw1⟩ := expectChar_sound '\x7d' r rest1 he
            refine ⟨w, '\x7b' :: (w1 ++ ['\x7d']), ?_, hw, .emptyObject w1 hw1⟩
            rw [hcs, h3, hr]; simp
          | none =>
            rw [he] at h
            simp only at h
            obtain ⟨w0, k, ktext, w1, w2, v, tail, hr, hw0, hkt, hw1, hw2, hval, htail⟩ :=
              skipMember_sound f ihv ihm r rest h
            refine ⟨w, '\x7b' :: (w0 ++ (ktext ++ (w1 ++ (':' :: (w2 ++ (v ++ tail)))))), ?_, hw,
              .object w0 k ktext w1 w2 v tail hw0 hkt hw1 hw2 hval htail⟩
            rw [hcs, h3, hr]; simp
        rw [if_neg h3] at h
        by_cases h4 : c = 't'
        · rw [if_pos h4] at h
          have := expectLit_sound _ _ _ h
          exact ⟨w, ['t', 'r', 'u', 'e'], by rw [hcs, h4, this]; simp, hw, .litTrue⟩
        rw [if_neg h4] at h
        by_cases h5 : c = 'f'
        · rw [if_pos h5] at h
          have := expectLit_sound _ _ _ h
          exact ⟨w, ['f', 'a', 'l', 's', 'e'], by rw [hcs, h5, this]; simp, hw, .litFalse⟩
        rw [if_neg h5] at h
        by_cases h6 : c = 'n'
        · rw [if_pos h6] at h
          have := expectLit_sound _ _ _ h
          exact ⟨w, ['n', 'u', 'l', 'l'], by rw [hcs, h6, this]; simp, hw, .litNull⟩
        rw [if_neg h6] at h
        obtain ⟨n, hn, hnum⟩ := skipNumber_sound _ _ h
        exact ⟨w, n, by rw [hcs, hn], hw, .number n hnum⟩
    · intro cs rest h
      simp only [skipJson] at h
      cases hs : skipWs cs with
      | nil => rw [hs] at h; cases h
      | cons c r =>
        rw [hs] at h
        simp only at h
        obtain ⟨w, hcs, hw⟩ := skipWs_cons_sound cs c r hs
        by_cases h1 : c = ']'
        · rw [if_pos h1] at h
          cases h
          exact ⟨w ++ [']'], by rw [hcs, h1]; simp, .close w hw⟩
        rw [if_neg h1] at h
        by_cases h2 : c = ','
        · rw [if_pos h2] at h
          cases hv : skipJson f .value r with
          | none => rw [hv] at h; cases h
          | some rest1 =>
            rw [hv] at h
            simp only at h
            obtain ⟨w1, v, hr, hw1, hval⟩ := ihv r rest1 hv
            obtain ⟨tail, hr1, htail⟩ := ihe rest1 rest h
            refine ⟨w ++ (',' :: (w1 ++ (v ++ tail))), ?_, .more w w1 v tail hw hw1 hval htail⟩
            rw [hcs, h2, hr, hr1]; simp
        rw [if_neg h2] at h
        cases h
    · intro cs rest h
      simp only [skipJson] at h
      cases hs : skipWs cs with
      | nil => rw [hs] at h; cases h
      | cons c r =>
        rw [hs] at h
        simp only at h
        obtain ⟨w, hcs, hw⟩ := skipWs_cons_sound cs c r hs
        by_cases h1 : c = '\x7d'
        · rw [if_pos h1] at h
          cases h
          exact ⟨w ++ ['\x7d'], by rw [hcs, h1]; simp, .close w hw⟩
        rw [if_neg h1] at h
        by_cases h2 : c = ','
        · rw [if_pos h2] at h
          obtain ⟨w0, k, ktext, w1, w2, v, tail, hr, hw0, hkt, hw1, hw2, hval, htail⟩ :=
            skipMember_sound f ihv ihm r rest h
          refine ⟨w ++ (',' :: (w0 ++ (ktext ++ (w1 ++ (':' :: (w2 ++ (v ++ tail))))))), ?_,
            .more w w0 k ktext w1 w2 v tail hw hw0 hkt hw1 hw2 hval htail⟩
          rw [hcs, h2, hr]; simp
        rw [if_neg h2] at h
        cases h

theorem parseStringsTail_sound :
    ∀ (fuel : Nat) (cs : List Char) (acc res : List String) (rest : List Char),
      parseStringsTail fuel cs acc = some (res, rest) →
      ∃ ms tail, cs = tail ++ rest ∧ StringsTailText ms tail ∧ res = acc.reverse ++ ms := by
  intro fuel
  induction fuel with
  | zero => intro cs acc res rest h; simp [parseStringsTail] at h
  | succ f ih =>
    intro cs acc res rest h
    simp only [parseStringsTail] at h
    cases hs : skipWs cs with
    | nil => rw [hs] at h; cases h
    | cons c r =>
      rw [hs] at h
      simp only at h
      obtain ⟨w, hcs, hw⟩ := skipWs_cons_sound cs c r hs
      by_cases h1 : c = ']'
      · rw [if_pos h1] at h
        obtain ⟨hres, hrest⟩ := some_pair_inj h
        subst hres; subst hrest
        exact ⟨[], w ++ [']'], by rw [hcs, h1]; simp, .close w hw, by simp⟩
      rw [if_neg h1] at h
      by_cases h2 : c = ','
      · rw [if_pos h2] at h
        cases hp : parseString r with
        | none => rw [hp] at h; cases h
        | some p =>
          obtain ⟨s, rest1⟩ := p
          rw [hp] at h
          simp only at h
          obtain ⟨w1, stext, hr, hw1, hst⟩ := parseString_sound r s rest1 hp
          obtain ⟨ms, tail, hr1, htail, hres⟩ := ih rest1 (s :: acc) res rest h
          refine ⟨s :: ms, w ++ (',' :: (w1 ++ (stext ++ tail))), ?_,
            .more w w1 s stext ms tail hw hw1 hst htail, ?_⟩
          · rw [hcs, h2, hr, hr1]; simp
          · rw [hres]; simp
      rw [if_neg h2] at h
      cases h

theorem parseStrings_sound (cs : List Char) (ms : List String) (rest : List Char)
    (h : parseStrings cs = some (ms, rest)) :
    ∃ w text, cs = w ++ (text ++ rest) ∧ WsText w ∧ StringsText ms text := by
  unfold parseStrings at h
  cases ho : expectChar '[' cs with
  | none => rw [ho] at h; cases h
  | some r =>
    rw [ho] at h
    simp only at h
    obtain ⟨w, hcs, hw⟩ := expectChar_sound '[' cs r ho
    cases he : expectChar ']' r with
    | some rest1 =>
      rw [he] at h
      obtain ⟨hms, hrest⟩ := some_pair_inj h
      subst hms; subst hrest
      obtain ⟨w1, hr, hw1⟩ := expectChar_sound ']' r rest1 he
      exact ⟨w, '[' :: (w1 ++ [']']), by rw [hcs, hr]; simp, hw, .empty w1 hw1⟩
    | none =>
      rw [he] at h
      simp only at h
      cases hp : parseString r with
      | none => rw [hp] at h; cases h
      | some p =>
        obtain ⟨s, rest1⟩ := p
        rw [hp] at h
        simp only at h
        obtain ⟨w1, stext, hr, hw1, hst⟩ := parseString_sound r s rest1 hp
        obtain ⟨ms1, tail, hr1, htail, hres⟩ := parseStringsTail_sound _ rest1 [s] ms rest h
        refine ⟨w, '[' :: (w1 ++ (stext ++ tail)), ?_, hw, ?_⟩
        · rw [hcs, hr, hr1]; simp
        · rw [hres]
          exact .cons w1 s stext ms1 tail hw1 hst htail

theorem parseMember_sound (e e1 : CsiClusterConfigEntry) (cs rest : List Char)
    (h : parseMember e cs = some (e1, rest)) :
    ∃ m, cs = m ++ rest ∧ EntryMemberText e e1 m := by
  unfold parseMember at h
  cases hk : parseString cs with
  | none => rw [hk] at h; cases h
  | some p =>
    obtain ⟨k, rest1⟩ := p
    rw [hk] at h
    simp only at h
    obtain ⟨w, ktext, hcs, hw, hkt⟩ := parseString_sound cs k rest1 hk
    cases hc : expectChar ':' rest1 with
    | none => rw [hc] at h; cases h
    | some rest2 =>
      rw [hc] at h
      simp only at h
      obtain ⟨w1, hr1, hw1⟩ := expectChar_sound ':' rest1 rest2 hc
      unfold parseMemberValue at h
      by_cases hk1 : k = "clusterID"
      · rw [if_pos hk1] at h
        cases hv : parseString rest2 with
        | none => rw [hv] at h; cases h
        | some q =>
          obtain ⟨id, rest3⟩ := q
          rw [hv] at h
          obtain ⟨he, hrest⟩ := some_pair_inj h
          subst he; subst hrest
          obtain ⟨w2, idtext, hr2, hw2, hid⟩ := parseString_sound rest2 id rest3 hv
          rw [hk1] at hkt
          refine ⟨w ++ (ktext ++ (w1 ++ (':' :: (w2 ++ idtext)))), ?_,
            .clusterID e w ktext w1 w2 id idtext hw hkt hw1 hw2 hid⟩
          rw [hcs, hr1, hr2]; simp
      rw [if_neg hk1] at h
      by_cases hk2 : k = "monitors"
      · rw [if_pos hk2] at h
        cases hv : parseStrings rest2 with
        | none => rw [hv] at h; cases h
        | some q =>
          obtain ⟨ms, rest3⟩ := q
          rw [hv] at h
          obtain ⟨he, hrest⟩ := some_pair_inj h
          subst he; subst hrest
          obtain ⟨w2, mtext, hr2, hw2, hms⟩ := parseStrings_sound rest2 ms rest3 hv
          rw [hk2] at hkt
          refine ⟨w ++ (ktext ++ (w1 ++ (':' :: (w2 ++ mtext)))), ?_,
            .monitors e w ktext w1 w2 ms mtext hw hkt hw1 hw2 hms⟩
          rw [hcs, hr1, hr2]; simp
      rw [if_neg hk2] at h
      cases hv : skipJson (rest2.length + 1) .value rest2 with
      | none => rw [hv] at h; cases h
      | some rest3 =>
        rw [hv] at h
        obtain ⟨he, hrest⟩ := some_pair_inj h
        subst he; subst hrest
        obtain ⟨w2, v, hr2, hw2, hval⟩ := (skipJson_sound _).1 rest2 rest3 hv
        refine ⟨w ++ (ktext ++ (w1 ++ (':' :: (w2 ++ v)))), ?_,
          .other e w k ktext w1 w2 v hk1 hk2 hw hkt hw1 hw2 hval⟩
        rw [hcs, hr1, hr2]; simp

theorem parseMembersTail_sound :
    ∀ (fuel : Nat) (cs : List Char) (e e2 : CsiClusterConfigEntry) (rest : List Char),
      parseMembersTail fuel cs e = some (e2, rest) →
      ∃ tail, cs = tail ++ rest ∧ EntryTailText e e2 tail := by
  intro fuel
  induction fuel with
  | zero => intro cs e e2 rest h; simp [parseMembersTail] at h
  | succ f ih =>
    intro cs e e2 rest h
    simp only [parseMembersTail] at h
    cases hs : skipWs cs with
    | nil => rw [hs] at h; cases h
    | cons c r =>
      rw [hs] at h
      simp only at h
      obtain ⟨w, hcs, hw⟩ := skipWs_cons_sound cs c r hs
      by_cases h1 : c = '\x7d'
      · rw [if_pos h1] at h
        obtain ⟨he, hrest⟩ := some_pair_inj h
        subst he; subst hrest
        exact ⟨w ++ ['\x7d'], by rw [hcs, h1]; simp, .close e w hw⟩
      rw [if_neg h1] at h
      by_cases h2 : c = ','
      · rw [if_pos h2] at h
        cases hp : parseMember e r with
        | none => rw [hp] at h; cases h
        | some p =>
          obtain ⟨e1, rest1⟩ := p
          rw [hp] at h
          simp only at h
          obtain ⟨m, hr, hm⟩ := parseMember_sound e e1 r rest1 hp
          obtain ⟨tail, hr1, htail⟩ := ih rest1 e1 e2 rest h
          refine ⟨w ++ (',' :: (m ++ tail)), ?_, .more e e1 e2 w m tail hw hm htail⟩
          rw [hcs, h2, hr, hr1]; simp
      rw [if_neg h2] at h
      cases h

theorem parseEntry_sound (cs : List Char) (e : CsiClusterConfigEntry) (rest : List Char)
    (h : parseEntry cs = some (e, rest)) :
    ∃ w text, cs = w ++ (text ++ rest) ∧ WsText w ∧ EntryText e text := by
  unfold parseEntry at h
  cases ho : expectChar '\x7b' cs with
  | none => rw [ho] at h; cases h
  | some r =>
    rw [ho] at h
    simp only at h
    obtain ⟨w, hcs, hw⟩ := expectChar_sound '\x7b' cs r ho
    cases he : expectChar '\x7d' r with
    | some rest1 =>
      rw [he] at h
      obtain ⟨hms, hrest⟩ := some_pair_inj h
      subst hms; subst hrest
      obtain ⟨w1, hr, hw1⟩ := expectChar_sound '\x7d' r rest1 he
      exact ⟨w, '\x7b' :: (w1 ++ ['\x7d']), by rw [hcs, hr]; simp, hw, .empty w1 hw1⟩
    | none =>
      rw [he] at h
      simp only at h
      cases hp : parseMember { ClusterID := "", Monitors := [] } r with
      | none => rw [hp] at h; cases h
      | some p =>
        obtain ⟨e1, rest1⟩ := p
        rw [hp] at h
        simp only at h
        obtain ⟨m, hr, hm⟩ := parseMember_sound _ e1 r rest1 hp
        obtain ⟨tail, hr1, htail⟩ := parseMembersTail_sound _ rest1 e1 e rest h
        refine ⟨w, '\x7b' :: (m ++ tail), ?_, hw, .members e1 e m tail hm htail⟩
        rw [hcs, hr, hr1]; simp

theorem parseEntriesTail_sound :
    ∀ (fuel : Nat) (cs : List Char) (acc res : List CsiClusterConfigEntry) (rest : List Char),
      parseEntriesTail fuel cs acc = some (res, rest) →
      ∃ es tail, cs = tail ++ rest ∧ EntriesTailText es tail ∧ res = acc.reverse ++ es := by
  intro fuel
  induction fuel with
  | zero => intro cs acc res rest h; simp [parseEntriesTail] at h
  | succ f ih =>
    intro cs acc res rest h
    simp only [parseEntriesTail] at h
    cases hs : skipWs cs with
    | nil => rw [hs] at h; cases h
    | cons c r =>
      rw [hs] at h
      simp only at h
      obtain ⟨w, hcs, hw⟩ := skipWs_cons_sound cs c r hs
      by_cases h1 : c = ']'
      · rw [if_pos h1] at h
        obtain ⟨hres, hrest⟩ := some_pair_inj h
        subst hres; subst hrest
        exact ⟨[], w ++ [']'], by rw [hcs, h1]; simp, .close w hw, by simp⟩
      rw [if_neg h1] at h
      by_cases h2 : c = ','
      · rw [if_pos h2] at h
        cases hp : parseEntry r with
        | none => rw [hp] at h; cases h
        | some p =>
          obtain ⟨e, rest1⟩ := p
          rw [hp] at h
          simp only at h
          obtain ⟨w1, etext, hr, hw1, het⟩ := parseEntry_sound r e rest1 hp
          obtain ⟨es, tail, hr1, htail, hres⟩ := ih rest1 (e :: acc) res rest h
          refine ⟨e :: es, w ++ (',' :: (w1 ++ (etext ++ tail))), ?_,
            .more w w1 e etext es tail hw hw1 het htail, ?_⟩
          · rw [hcs, h2, hr, hr1]; simp
          · rw [hres]; simp
      rw [if_neg h2] at h
      cases h

theorem parseEntries_sound (cs : List Char) (cc : List CsiClusterConfigEntry)
    (rest : List Char) (h : parseEntries cs = some (cc, rest)) :
    ∃ w text, cs = w ++ (text ++ rest) ∧ WsText w ∧ EntriesText cc text := by
  unfold parseEntries at h
  cases ho : expectChar '[' cs with
  | none => rw [ho] at h; cases h
  | some r =>
    rw [ho] at h
    simp only at h
    obtain ⟨w, hcs, hw⟩ := expectChar_sound '[' cs r ho
    cases he : expectChar ']' r with
    | some rest1 =>
      rw [he] at h
      obtain ⟨hms, hrest⟩ := some_pair_inj h
      subst hms; subst hrest
      obtain ⟨w1, hr, hw1⟩ := expectChar_sound ']' r rest1 he
      exact ⟨w, '[' :: (w1 ++ [']']), by rw [hcs, hr]; simp, hw, .empty w1 hw1⟩
    | none =>
      rw [he] at h
      simp only at h
      cases hp : parseEntry r with
      | none => rw [hp] at h; cases h
      | some p =>
        obtain ⟨e, rest1⟩ := p
        rw [hp] at h
        simp only at h
        obtain ⟨w1, etext, hr, hw1, het⟩ := parseEntry_sound r e rest1 hp
        obtain ⟨es, tail, hr1, htail, hres⟩ := parseEntriesTail_sound _ rest1 [e] cc rest h
        refine ⟨w, '[' :: (w1 ++ (etext ++ tail)), ?_, hw, ?_⟩
        · rw [hcs, hr, hr1]; simp
        · rw [hres]
          exact .cons w1 e etext es tail hw1 het htail

/-- Every payload that parseCsiClusterConfig reads is the text of a JSON array
of entry objects, and the result is the configuration the text denotes. -/
theorem parseCsiClusterConfig_sound (curr : String) (cc : List CsiClusterConfigEntry)
    (h : parseCsiClusterConfig curr = .ok cc) : ConfigText cc curr.data := by
  unfold parseCsiClusterConfig at h
  cases hp : parseEntries curr.data with
  | none => rw [hp] at h; cases h
  | some p =>
    obtain ⟨cc1, rest⟩ := p
    rw [hp] at h
    simp only at h
    by_cases hr : skipWs rest = []
    · rw [if_pos hr] at h
      cases h
      obtain ⟨w, text, hcs, hw, htext⟩ := parseEntries_sound _ _ _ hp
      obtain ⟨w2, hw2, hws2⟩ := skipWs_sound rest
      rw [hr, List.append_nil] at hw2
      exact ⟨w, text, rest, hcs, hw, by rw [hw2]; exact hws2, htext⟩
    · rw [if_neg hr] at h
      cases h

/-- The text of a configuration starts with an opening bracket, after
whitespace. -/
theorem ConfigText_starts_with_bracket (cc : List CsiClusterConfigEntry) (cs : List Char)
    (h : ConfigText cc cs) : ∃ w rest, cs = w ++ '[' :: rest ∧ WsText w := by
  obtain ⟨w1, text, w2, hcs, hw1, _, htext⟩ := h
  cases htext with
  | empty w hw => exact ⟨w1, w ++ [']'] ++ w2, by rw [hcs]; simp, hw1⟩
  | cons w e etext es tail hw he ht =>
    exact ⟨w1, w ++ (etext ++ tail) ++ w2, by rw [hcs]; simp, hw1⟩

theorem not_ConfigText_qqq : ¬ ∃ cc, ConfigText cc "qqq".data := by
  rintro ⟨cc, h⟩
  obtain ⟨w, rest, hcs, hw⟩ := ConfigText_starts_with_bracket cc _ h
  cases w with
  | nil =>
    have h1 : ("qqq".data).head? = some '[' := by rw [hcs]; rfl
    exact absurd h1 (by decide)
  | cons c w1 =>
    have h1 : ("qqq".data).head? = some c := by rw [hcs]; rfl
    have h2 : c = 'q' := by
      have h3 : ("qqq".data).head? = some 'q' := rfl
      rw [h3] at h1
      exact (Option.some.inj h1).symm
    have h4 := hw c (List.mem_cons_self _ _)
    rw [h2] at h4
    revert h4
    decide

theorem joinChars_cons (sep : Char) (p : List Char) (ps : List (List Char)) (hsep : sep = ',') :
    joinChars sep (p :: ps) = p ++ commaTail ps := by
  subst hsep
  induction ps generalizing p with
  | nil => simp [joinChars, commaTail]
  | cons q qs ih => simp [joinChars, commaTail, ih q]

theorem length_le_commaTail (ps : List (List Char)) : ps.length ≤ (commaTail ps).length := by
  induction ps with
  | nil => simp
  | cons p ps ih =>
    simp only [commaTail, List.length_cons, List.length_append]
    omega

theorem skipWs_cons (c : Char) (cs : List Char)
    (hws : ¬ (c = ' ' ∨ c = '\n' ∨ c = '\t' ∨ c = '\r')) : skipWs (c :: cs) = c :: cs := by
  simp only [skipWs, hws, if_false]

theorem expectChar_hit (ch : Char) (cs : List Char)
    (hws : ¬ (ch = ' ' ∨ ch = '\n' ∨ ch = '\t' ∨ ch = '\r')) :
    expectChar ch (ch :: cs) = some cs := by
  simp only [expectChar, skipWs_cons ch cs hws, if_true]

theorem expectChar_miss (ch c : Char) (cs : List Char)
    (hws : ¬ (c = ' ' ∨ c = '\n' ∨ c = '\t' ∨ c = '\r')) (hne : ¬ c = ch) :
    expectChar ch (c :: cs) = none := by
  simp only [expectChar, skipWs_cons c cs hws, hne, if_false]

/-- The escape of a control character is read back as that character. -/
theorem hex4_control : ∀ n, n < 32 →
    hex4 '0' '0' (hexDigit (n / 16)) (hexDigit (n % 16)) = some n := by
  decide

theorem parseEscape_control (c : Char) (cs : List Char) (h : c.toNat < 0x20) :
    parseEscape ('u' :: '0' :: '0' :: hexDigit (c.toNat / 16) :: hexDigit (c.toNat % 16) :: cs) =
      some (c, cs) := by
  have hhex := hex4_control c.toNat h
  have hhigh : isHighSurrogate c.toNat = false := by
    simp only [isHighSurrogate, Bool.and_eq_false_imp, decide_eq_true_eq, decide_eq_false_iff_not]
    intro h1; omega
  have hlow : isLowSurrogate c.toNat = false := by
    simp only [isLowSurrogate, Bool.and_eq_false_imp, decide_eq_true_eq, decide_eq_false_iff_not]
    intro h1; omega
  simp only [parseEscape, if_true, parseUnicode, hhex, hhigh, hlow, Bool.false_eq_true, if_false,
    Char.ofNat_toNat]

/-- One character of a string in its JSON form is read back in one step. -/
theorem parseStringBody_escapeChar (f : Nat) (c : Char) (cs acc : List Char) :
    parseStringBody (f + 1) (escapeChar c ++ cs) acc = parseStringBody f cs (c :: acc) := by
  unfold escapeChar
  by_cases h1 : c = '"'
  · subst h1
    simp only [if_true, List.cons_append, List.nil_append, parseStringBody]
    rfl
  rw [if_neg h1]
  by_cases h2 : c = '\\'
  · subst h2
    simp only [if_true, List.cons_append, List.nil_append, parseStringBody]
    rfl
  rw [if_neg h2]
  by_cases h3 : c = '\n'
  · subst h3
    simp only [if_true, List.cons_append, List.nil_append, parseStringBody]
    rfl
  rw [if_neg h3]
  by_cases h4 : c = '\r'
  · subst h4
    simp only [if_true, List.cons_append, List.nil_append, parseStringBody]
    rfl
  rw [if_neg h4]
  by_cases h5 : c = '\t'
  · subst h5
    simp only [if_true, List.cons_append, List.nil_append, parseStringBody]
    rfl
  rw [if_neg h5]
  by_cases h6 : c.toNat < 0x20
  · rw [if_pos h6]
    have hq : ¬ ('\\' = '"') := by decide
    have hstep : parseStringBody (f + 1)
        ('\\' :: 'u' :: '0' :: '0' :: hexDigit (c.toNat / 16) :: hexDigit (c.toNat % 16) :: cs)
        acc =
        match parseEscape
          ('u' :: '0' :: '0' :: hexDigit (c.toNat / 16) :: hexDigit (c.toNat % 16) :: cs) with
        | some (ch, rest1) => parseStringBody f rest1 (ch :: acc)
        | none => none := by
      simp only [parseStringBody, hq, if_false, if_true]
    show parseStringBody (f + 1)
      ('\\' :: 'u' :: '0' :: '0' :: hexDigit (c.toNat / 16) :: hexDigit (c.toNat % 16) :: cs)
      acc = _
    rw [hstep, parseEscape_control c cs h6]
  · rw [if_neg h6]
    show parseStringBody (f + 1) (c :: cs) acc = _
    simp only [parseStringBody, h1, h2, h6, if_false]

theorem parseStringBody_escapeChars :
    ∀ (s : List Char) (fuel : Nat) (acc rest : List Char), s.length < fuel →
      parseStringBody fuel (escapeChars s ++ '"' :: rest) acc =
        some (String.mk (acc.reverse ++ s), rest) := by
  intro s
  induction s with
  | nil =>
    intro fuel acc rest hf
    obtain ⟨f, rfl⟩ : ∃ f, fuel = f + 1 := ⟨fuel - 1, by omega⟩
    simp [escapeChars, parseStringBody]
  | cons c s ih =>
    intro fuel acc rest hf
    obtain ⟨f, rfl⟩ : ∃ f, fuel = f + 1 := ⟨fuel - 1, by omega⟩
    have hshape : escapeChars (c :: s) ++ '"' :: rest =
        escapeChar c ++ (escapeChars s ++ '"' :: rest) := by
      simp [escapeChars]
    rw [hshape, parseStringBody_escapeChar, ih f (c :: acc) rest (by simpa using hf)]
    simp

theorem length_le_escapeChars (s : List Char) : s.length ≤ (escapeChars s).length := by
  induction s with
  | nil => simp [escapeChars]
  | cons c s ih =>
    have hc : 1 ≤ (escapeChar c).length := by
      unfold escapeChar
      split_ifs <;> simp
    simp only [escapeChars, List.length_cons, List.length_append]
    omega

theorem quoteChars_append (s : String) (rest : List Char) :
    quoteChars s ++ rest = '"' :: (escapeChars s.data ++ '"' :: rest) := by
  simp [quoteChars]

/-- A string is read back from its JSON form. -/
theorem parseString_quoteChars (s : String) (rest : List Char) :
    parseString (quoteChars s ++ rest) = some (s, rest) := by
  rw [quoteChars_append]
  unfold parseString
  rw [expectChar_hit '"' _ (by decide)]
  simp only
  rw [parseStringBody_escapeChars s.data _ [] rest ?_]
  · simp
  · have := length_le_escapeChars s.data
    simp only [List.length_append, List.length_cons]
    omega

theorem parseStringsTail_format :
    ∀ (ms : List String) (acc : List String) (rest : List Char) (fuel : Nat),
      ms.length < fuel →
      parseStringsTail fuel (commaTail (ms.map quoteChars) ++ ']' :: rest) acc =
        some (acc.reverse ++ ms, rest) := by
  intro ms
  induction ms with
  | nil =>
    intro acc rest fuel hf
    obtain ⟨f, rfl⟩ : ∃ f, fuel = f + 1 := ⟨fuel - 1, by omega⟩
    have hshape : commaTail (List.map quoteChars []) ++ ']' :: rest = ']' :: rest := rfl
    rw [hshape]
    unfold parseStringsTail
    rw [skipWs_cons ']' _ (by decide)]
    simp
  | cons m ms ih =>
    intro acc rest fuel hf
    obtain ⟨f, rfl⟩ : ∃ f, fuel = f + 1 := ⟨fuel - 1, by omega⟩
    have hshape : commaTail (List.map quoteChars (m :: ms)) ++ ']' :: rest =
        ',' :: (quoteChars m ++ (commaTail (List.map quoteChars ms) ++ ']' :: rest)) := by
      simp [commaTail]
    rw [hshape]
    unfold parseStringsTail
    rw [skipWs_cons ',' _ (by decide)]
    simp only [show ¬ (',' = ']') by decide, if_false, if_true]
    rw [parseString_quoteChars m _]
    simp only
    rw [ih (m :: acc) rest f (by simpa using hf)]
    simp

/-- An array of strings is read back from its JSON form. -/
theorem parseStrings_format (ms : List String) (rest : List Char) :
    parseStrings ('[' :: (joinChars ',' (ms.map quoteChars) ++ ']' :: rest)) =
      some (ms, rest) := by
  unfold parseStrings
  rw [expectChar_hit '[' _ (by decide)]
  simp only
  cases ms with
  | nil =>
    have hshape : joinChars ',' (List.map quoteChars []) ++ ']' :: rest = ']' :: rest := rfl
    rw [hshape, expectChar_hit ']' _ (by decide)]
  | cons m ms =>
    have hshape : joinChars ',' (List.map quoteChars (m :: ms)) ++ ']' :: rest =
        '"' :: (escapeChars m.data ++ '"' :: (commaTail (ms.map quoteChars) ++ ']' :: rest)) := by
      rw [List.map_cons, joinChars_cons ',' _ _ rfl, List.append_assoc, quoteChars_append]
    rw [hshape, expectChar_miss ']' '"' _ (by decide) (by decide)]
    simp only
    rw [← quoteChars_append, parseString_quoteChars m _]
    simp only
    rw [parseStringsTail_format ms [m] rest _ ?_]
    · simp
    · have := length_le_commaTail (ms.map quoteChars)
      simp only [List.length_map] at this
      simp only [List.length_append, List.length_cons]
      omega

/-- An entry is read back from its JSON form. -/
theorem parseEntry_format (e : CsiClusterConfigEntry) (rest : List Char) :
    parseEntry (formatEntry e ++ rest) = some (e, rest) := by
  have hshape : formatEntry e ++ rest =
      '\x7b' :: (quoteChars "clusterID" ++ (':' :: (quoteChars e.ClusterID ++ (',' ::
        (quoteChars "monitors" ++ (':' :: ('[' ::
          (joinChars ',' (e.Monitors.map quoteChars) ++ (']' :: ('\x7d' :: rest)))))))))) := by
    simp [formatEntry]
  have hmiss : ∀ cs, expectChar '\x7d' (quoteChars "clusterID" ++ cs) = none := by
    intro cs
    rw [quoteChars_append]
    exact expectChar_miss '\x7d' '"' _ (by decide) (by decide)
  have hk1 : ¬ ("monitors" = "clusterID") := by decide
  rw [hshape]
  unfold parseEntry
  rw [expectChar_hit '\x7b' _ (by decide)]
  simp only
  rw [hmiss]
  simp only
  unfold parseMember
  rw [parseString_quoteChars "clusterID" _]
  simp only
  rw [expectChar_hit ':' _ (by decide)]
  simp only [parseMemberValue, if_true]
  rw [parseString_quoteChars e.ClusterID _]
  simp only
  unfold parseMembersTail
  rw [skipWs_cons ',' _ (by decide)]
  simp only [show ¬ (',' = '\x7d') by decide, if_false, if_true]
  unfold parseMember
  rw [parseString_quoteChars "monitors" _]
  simp only
  rw [expectChar_hit ':' _ (by decide)]
  simp only [parseMemberValue, hk1, if_false, if_true]
  rw [parseStrings_format e.Monitors _]
  simp only
  rw [List.length_cons]
  unfold parseMembersTail
  rw [skipWs_cons '\x7d' _ (by decide)]
  simp only [if_true]

theorem formatEntry_shape (e : CsiClusterConfigEntry) (rest : List Char) :
    ∃ cs, formatEntry e ++ rest = '\x7b' :: cs := ⟨_, rfl⟩

theorem parseEntriesTail_format :
    ∀ (cc acc : List CsiClusterConfigEntry) (rest : List Char) (fuel : Nat),
      cc.length < fuel →
      parseEntriesTail fuel (commaTail (cc.map formatEntry) ++ ']' :: rest) acc =
        some (acc.reverse ++ cc, rest) := by
  intro cc
  induction cc with
  | nil =>
    intro acc rest fuel hf
    obtain ⟨f, rfl⟩ : ∃ f, fuel = f + 1 := ⟨fuel - 1, by omega⟩
    have hshape : commaTail (List.map formatEntry []) ++ ']' :: rest = ']' :: rest := rfl
    rw [hshape]
    unfold parseEntriesTail
    rw [skipWs_cons ']' _ (by decide)]
    simp
  | cons e cc ih =>
    intro acc rest fuel hf
    obtain ⟨f, rfl⟩ : ∃ f, fuel = f + 1 := ⟨fuel - 1, by omega⟩
    have hshape : commaTail (List.map formatEntry (e :: cc)) ++ ']' :: rest =
        ',' :: (formatEntry e ++ (commaTail (List.map formatEntry cc) ++ ']' :: rest)) := by
      simp [commaTail]
    rw [hshape]
    unfold parseEntriesTail
    rw [skipWs_cons ',' _ (by decide)]
    simp only [show ¬ (',' = ']') by decide, if_false, if_true]
    rw [parseEntry_format e _]
    simp only
    rw [ih (e :: acc) rest f (by simpa using hf)]
    simp

/-- A configuration is read back from its JSON form. -/
theorem parseCsiClusterConfig_format (cc : List CsiClusterConfigEntry) :
    parseCsiClusterConfig (formatCsiClusterConfig cc) = .ok cc := by
  have hentries : parseEntries ('[' :: (joinChars ',' (cc.map formatEntry) ++ [']'])) =
      some (cc, []) := by
    unfold parseEntries
    rw [expectChar_hit '[' _ (by decide)]
    simp only
    cases cc with
    | nil =>
      have hshape : joinChars ',' (List.map formatEntry []) ++ [']'] = [']'] := rfl
      rw [hshape, expectChar_hit ']' _ (by decide)]
    | cons e cc =>
      obtain ⟨cs, hcs⟩ := formatEntry_shape e (commaTail (cc.map formatEntry) ++ [']'])
      have hshape : joinChars ',' (List.map formatEntry (e :: cc)) ++ [']'] =
          formatEntry e ++ (commaTail (cc.map formatEntry) ++ [']']) := by
        rw [List.map_cons, joinChars_cons ',' _ _ rfl, List.append_assoc]
      have hmiss : expectChar ']' (formatEntry e ++ (commaTail (cc.map formatEntry) ++ [']'])) =
          none := by
        rw [hcs]
        exact expectChar_miss ']' '\x7b' _ (by decide) (by decide)
      rw [hshape, hmiss]
      simp only
      rw [parseEntry_format e _]
      simp only
      rw [parseEntriesTail_format cc [e] [] _ ?_]
      · simp
      · have := length_le_commaTail (cc.map formatEntry)
        simp only [List.length_map] at this
        simp only [List.length_append, List.length_cons]
        omega
  unfold parseCsiClusterConfig formatCsiClusterConfig
  simp only [List.cons_append, hentries, skipWs, if_true]

theorem skipWs_append (w : List Char) (c : Char) (cs : List Char) (hw : WsText w)
    (hc : ¬ (c = ' ' ∨ c = '\n' ∨ c = '\t' ∨ c = '\r')) : skipWs (w ++ c :: cs) = c :: cs := by
  induction w with
  | nil => exact skipWs_cons c cs hc
  | cons x w ih =>
    have hx := hw x (List.mem_cons_self _ _)
    simp only [List.cons_append, skipWs, hx, if_true]
    exact ih (fun y hy => hw y (List.mem_cons_of_mem _ hy))

theorem skipWs_of_ws (w : List Char) (hw : WsText w) : skipWs w = [] := by
  induction w with
  | nil => rfl
  | cons x w ih =>
    have hx := hw x (List.mem_cons_self _ _)
    simp only [skipWs, hx, if_true]
    exact ih (fun y hy => hw y (List.mem_cons_of_mem _ hy))

theorem expectChar_ws_hit (w : List Char) (ch : Char) (cs : List Char) (hw : WsText w)
    (hc : ¬ (ch = ' ' ∨ ch = '\n' ∨ ch = '\t' ∨ ch = '\r')) :
    expectChar ch (w ++ ch :: cs) = some cs := by
  simp only [expectChar, skipWs_append w ch cs hw hc, if_true]

theorem expectChar_ws_miss (w : List Char) (ch c : Char) (cs : List Char) (hw : WsText w)
    (hc : ¬ (c = ' ' ∨ c = '\n' ∨ c = '\t' ∨ c = '\r')) (hne : ¬ c = ch) :
    expectChar ch (w ++ c :: cs) = none := by
  simp only [expectChar, skipWs_append w c cs hw hc, hne, if_false]

theorem isHighSurrogate_of_low (n : Nat) (h : isLowSurrogate n = true) :
    isHighSurrogate n = false := by
  simp only [isLowSurrogate, Bool.and_eq_true, decide_eq_true_eq] at h
  simp only [isHighSurrogate, Bool.and_eq_false_imp, decide_eq_true_eq, decide_eq_false_iff_not]
  omega

theorem parseEscape_complete (ch : Char) (e : List Char) (h : EscapeText ch e)
    (cs : List Char) : parseEscape (e ++ cs) = some (ch, cs) := by
  cases h with
  | quote => rfl
  | backslash => rfl
  | slash => rfl
  | backspace => rfl
  | formFeed => rfl
  | lineFeed => rfl
  | carriageReturn => rfl
  | tab => rfl
  | unicode a b c d n hx hh hlo =>
    simp [parseEscape, parseUnicode, hx, hh, hlo]
  | pair a b c d e f g k n m hx hh hy hlow =>
    simp [parseEscape, parseUnicode, hx, hh, lowSurrogateAt, hy, hlow]
  | lone a b c d n hx hlo =>
    simp [parseEscape, parseUnicode, hx, isHighSurrogate_of_low n hlo, hlo]

theorem lowSurrogateAt_after_body (s cs : List Char) (hbody : StringBodyText s cs)
    (hnot : ¬ LowEscapeStart cs) (rest : List Char) :
    lowSurrogateAt (cs ++ '"' :: rest) = none := by
  cases hl : lowSurrogateAt (cs ++ '"' :: rest) with
  | none => rfl
  | some p =>
    exfalso
    obtain ⟨m, r⟩ := p
    obtain ⟨e, f, g, k, hcs, hy, hlow⟩ := lowSurrogateAt_sound _ m r hl
    cases hbody with
    | nil => simp at hcs
    | raw c s1 cs1 h1 h2 h3 hb =>
      simp only [List.cons_append, List.cons.injEq] at hcs
      exact h2 hcs.1
    | escape c e1 s1 cs1 hesc hb =>
      cases hesc with
      | quote => simp at hcs
      | backslash => simp at hcs
      | slash => simp at hcs
      | backspace => simp at hcs
      | formFeed => simp at hcs
      | lineFeed => simp at hcs
      | carriageReturn => simp at hcs
      | tab => simp at hcs
      | unicode a b c1 d n hx hh hlo =>
        simp only [List.cons_append, List.nil_append, List.cons.injEq, true_and] at hcs
        obtain ⟨h1, h2, h3, h4, _⟩ := hcs
        subst h1; subst h2; subst h3; subst h4
        exact hnot ⟨a, b, c1, d, m, cs1, rfl, hy, hlow⟩
      | pair a b c1 d e2 f2 g2 k2 n m2 hx hh hy2 hlow2 =>
        simp only [List.cons_append, List.nil_append, List.cons.injEq, true_and] at hcs
        obtain ⟨h1, h2, h3, h4, _⟩ := hcs
        subst h1; subst h2; subst h3; subst h4
        exact hnot ⟨a, b, c1, d, m, _, rfl, hy, hlow⟩
      | lone a b c1 d n hx hlo =>
        simp only [List.cons_append, List.nil_append, List.cons.injEq, true_and] at hcs
        obtain ⟨h1, h2, h3, h4, _⟩ := hcs
        subst h1; subst h2; subst h3; subst h4
        exact hnot ⟨a, b, c1, d, m, cs1, rfl, hy, hlow⟩
    | loneHigh a b c1 d n s1 cs1 hx hh hn hb =>
      simp only [List.cons_append, List.cons.injEq, true_and] at hcs
      obtain ⟨h1, h2, h3, h4, _⟩ := hcs
      subst h1; subst h2; subst h3; subst h4
      exact hnot ⟨a, b, c1, d, m, cs1, rfl, hy, hlow⟩

theorem parseStringBody_complete (s body : List Char) (h : StringBodyText s body) :
    ∀ (fuel : Nat) (acc rest : List Char), body.length < fuel →
      parseStringBody fuel (body ++ '"' :: rest) acc =
        some (String.mk (acc.reverse ++ s), rest) := by
  induction h with
  | nil =>
    intro fuel acc rest hf
    obtain ⟨f, rfl⟩ : ∃ f, fuel = f + 1 := ⟨fuel - 1, by omega⟩
    simp [parseStringBody]
  | raw c s cs h1 h2 h3 hb ih =>
    intro fuel acc rest hf
    obtain ⟨f, rfl⟩ : ∃ f, fuel = f + 1 := ⟨fuel - 1, by omega⟩
    have h4 : ¬ c.toNat < 0x20 := by omega
    have hshape : (c :: cs) ++ '"' :: rest = c :: (cs ++ '"' :: rest) := rfl
    rw [hshape]
    simp only [parseStringBody, h1, h2, h4, if_false]
    rw [ih f (c :: acc) rest (by simpa using hf)]
    simp
  | escape c e s cs hesc hb ih =>
    intro fuel acc rest hf
    obtain ⟨f, rfl⟩ : ∃ f, fuel = f + 1 := ⟨fuel - 1, by omega⟩
    have hq : ¬ '\\' = '"' := by decide
    have hshape : ('\\' :: (e ++ cs)) ++ '"' :: rest = '\\' :: (e ++ (cs ++ '"' :: rest)) := by
      simp
    rw [hshape]
    simp only [parseStringBody, hq, if_false, if_true, parseEscape_complete c e hesc]
    rw [ih f (c :: acc) rest (by simp at hf; omega)]
    simp
  | loneHigh a b c d n s cs hx hh hn hb ih =>
    intro fuel acc rest hf
    obtain ⟨f, rfl⟩ : ∃ f, fuel = f + 1 := ⟨fuel - 1, by omega⟩
    have hq : ¬ '\\' = '"' := by decide
    have hesc : parseEscape ('u' :: a :: b :: c :: d :: (cs ++ '"' :: rest)) =
        some (Char.ofNat 0xFFFD, cs ++ '"' :: rest) := by
      simp [parseEscape, parseUnicode, hx, hh, lowSurrogateAt_after_body s cs hb hn rest]
    have hshape : ('\\' :: 'u' :: a :: b :: c :: d :: cs) ++ '"' :: rest =
        '\\' :: ('u' :: a :: b :: c :: d :: (cs ++ '"' :: rest)) := by
      simp
    rw [hshape]
    simp only [parseStringBody, hq, if_false, if_true, hesc]
    rw [ih f (_ :: acc) rest (by simp at hf; omega)]
    simp

theorem parseString_complete (s : String) (text : List Char) (h : StringText s text)
    (w : List Char) (hw : WsText w) (rest : List Char) :
    parseString (w ++ (text ++ rest)) = some (s, rest) := by
  obtain ⟨body, htext, hbody⟩ := h
  subst htext
  have hshape : w ++ (('"' :: (body ++ ['"'])) ++ rest) = w ++ '"' :: (body ++ '"' :: rest) := by
    simp
  rw [hshape]
  unfold parseString
  rw [expectChar_ws_hit w '"' _ hw (by decide)]
  simp only
  rw [parseStringBody_complete s.data body hbody _ [] rest (by simp)]
  simp

theorem Delimited_head (c : Char) (r : List Char) (h : Delimited (c :: r)) :
    c.isDigit = false ∧ c ≠ '.' ∧ c ≠ 'e' ∧ c ≠ 'E' := by
  rcases h c r rfl with h | h | h | h | h | h | h <;> subst h <;> decide

theorem Delimited_ws_append (w : List Char) (c : Char) (cs : List Char) (hw : WsText w)
    (hc : c = ',' ∨ c = ']' ∨ c = '\x7d') : Delimited (w ++ c :: cs) := by
  intro x r hx
  cases w with
  | nil =>
    simp only [List.nil_append, List.cons.injEq] at hx
    rw [← hx.1]
    rcases hc with h | h | h <;> simp [h]
  | cons y w =>
    simp only [List.cons_append, List.cons.injEq] at hx
    rw [← hx.1]
    rcases hw y (List.mem_cons_self _ _) with h | h | h | h <;> simp [h]

theorem isDigit_ne (c x : Char) (hc : c.isDigit = true) (hx : x.isDigit = false) : c ≠ x := by
  rintro rfl
  rw [hc] at hx
  cases hx

theorem skipDigits_complete (ds rest : List Char) (hds : ∀ c ∈ ds, c.isDigit = true)
    (hrest : ∀ c r, rest = c :: r → c.isDigit = false) : skipDigits (ds ++ rest) = rest := by
  induction ds with
  | nil =>
    cases rest with
    | nil => rfl
    | cons c r => simp [skipDigits, hrest c r rfl]
  | cons d ds ih =>
    have hd := hds d (List.mem_cons_self _ _)
    simp only [List.cons_append, skipDigits, hd, if_true]
    exact ih (fun c hc => hds c (List.mem_cons_of_mem _ hc))

theorem expectDigits_complete (ds rest : List Char) (hds : DigitsText ds)
    (hrest : ∀ c r, rest = c :: r → c.isDigit = false) :
    expectDigits (ds ++ rest) = some rest := by
  obtain ⟨hne, hall⟩ := hds
  cases ds with
  | nil => exact absurd rfl hne
  | cons d ds =>
    have hd := hall d (List.mem_cons_self _ _)
    simp only [List.cons_append, expectDigits, hd, if_true]
    rw [skipDigits_complete ds rest (fun c hc => hall c (List.mem_cons_of_mem _ hc)) hrest]

theorem skipInt_complete (int rest : List Char) (h : IntText int)
    (hrest : ∀ c r, rest = c :: r → c.isDigit = false) : skipInt (int ++ rest) = some rest := by
  rcases h with h | ⟨⟨hne, hall⟩, hhead⟩
  · subst h
    simp [skipInt]
  · cases int with
    | nil => exact absurd rfl hne
    | cons d ds =>
      have hd := hall d (List.mem_cons_self _ _)
      have h0 : ¬ d = '0' := by
        intro h0
        apply hhead
        rw [h0]
        rfl
      simp only [List.cons_append, skipInt, h0, if_false, hd, if_true]
      rw [skipDigits_complete ds rest (fun c hc => hall c (List.mem_cons_of_mem _ hc)) hrest]

theorem skipFrac_complete (frac rest : List Char) (h : FracText frac)
    (hrest : ∀ c r, rest = c :: r → c.isDigit = false ∧ c ≠ '.') :
    skipFrac (frac ++ rest) = some rest := by
  rcases h with h | ⟨ds, h, hds⟩
  · subst h
    cases rest with
    | nil => rfl
    | cons c r =>
      have hc : ¬ c = '.' := (hrest c r rfl).2
      simp [skipFrac, hc]
  · subst h
    simp only [List.cons_append, skipFrac, if_true]
    exact expectDigits_complete ds rest hds (fun c r hc => (hrest c r hc).1)

theorem skipExp_complete (exp rest : List Char) (h : ExpText exp)
    (hrest : ∀ c r, rest = c :: r → c.isDigit = false ∧ c ≠ 'e' ∧ c ≠ 'E') :
    skipExp (exp ++ rest) = some rest := by
  rcases h with h | ⟨e, sign, ds, h, he, hsign, hds⟩
  · subst h
    cases rest with
    | nil => rfl
    | cons c r =>
      have hc : ¬ (c = 'e' ∨ c = 'E') := by
        have := hrest c r rfl
        rintro (h | h)
        · exact this.2.1 h
        · exact this.2.2 h
      simp [skipExp, hc]
  · subst h
    have hdig := expectDigits_complete ds rest hds (fun c r hc => (hrest c r hc).1)
    rcases hsign with hs | hs | hs
    · subst hs
      obtain ⟨hne, hall⟩ := hds
      cases ds with
      | nil => exact absurd rfl hne
      | cons d ds =>
        have hd := hall d (List.mem_cons_self _ _)
        have hpm : ¬ (d = '+' ∨ d = '-') := by
          rintro (h | h)
          · exact isDigit_ne d '+' hd (by decide) h
          · exact isDigit_ne d '-' hd (by decide) h
        simp only [List.nil_append, List.cons_append, skipExp, he, if_true, hpm, if_false]
        exact hdig
    · subst hs
      simp only [List.cons_append, List.nil_append, skipExp, he, if_true, true_or]
      exact hdig
    · subst hs
      simp only [List.cons_append, List.nil_append, skipExp, he, if_true, or_true]
      exact hdig

theorem ExpText_append_head (exp rest : List Char) (h : ExpText exp) (hd : Delimited rest) :
    ∀ c r, exp ++ rest = c :: r → c.isDigit = false ∧ c ≠ '.' := by
  intro c r hc
  rcases h with h | ⟨e, sign, ds, h, he, _, _⟩
  · subst h
    simp only [List.nil_append] at hc
    subst hc
    exact ⟨(Delimited_head c r hd).1, (Delimited_head c r hd).2.1⟩
  · subst h
    simp only [List.cons_append, List.cons.injEq] at hc
    rw [← hc.1]
    rcases he with h | h <;> subst h <;> decide

theorem FracText_append_head (frac rest : List Char) (h : FracText frac)
    (hrest : ∀ c r, rest = c :: r → c.isDigit = false) :
    ∀ c r, frac ++ rest = c :: r → c.isDigit = false := by
  intro c r hc
  rcases h with h | ⟨ds, h, _⟩
  · subst h
    exact hrest c r hc
  · subst h
    simp only [List.cons_append, List.cons.injEq] at hc
    rw [← hc.1]
    decide

theorem skipNumber_complete (cs rest : List Char) (h : NumberText cs) (hd : Delimited rest) :
    skipNumber (cs ++ rest) = some rest := by
  obtain ⟨sign, int, frac, exp, hcs, hsign, hint, hfrac, hexp⟩ := h
  subst hcs
  have hrest3 : ∀ c r, rest = c :: r → c.isDigit = false ∧ c ≠ 'e' ∧ c ≠ 'E' := by
    intro c r hc
    subst hc
    have := Delimited_head c r hd
    exact ⟨this.1, this.2.2.1, this.2.2.2⟩
  have hrest2 := ExpText_append_head exp rest hexp hd
  have hrest1 := FracText_append_head frac (exp ++ rest) hfrac (fun c r hc => (hrest2 c r hc).1)
  have hsign1 : skipSign (sign ++ (int ++ (frac ++ (exp ++ rest)))) =
      int ++ (frac ++ (exp ++ rest)) := by
    rcases hsign with hs | hs
    · subst hs
      rcases hint with h | ⟨⟨hne, hall⟩, _⟩
      · subst h
        rfl
      · cases int with
        | nil => exact absurd rfl hne
        | cons d ds =>
          have hd1 := hall d (List.mem_cons_self _ _)
          have hm : ¬ d = '-' := isDigit_ne d '-' hd1 (by decide)
          simp [skipSign, hm]
    · subst hs
      simp [skipSign]
  unfold skipNumber
  simp only [List.append_assoc]
  rw [hsign1, skipInt_complete int _ hint hrest1]
  simp only
  rw [skipFrac_complete frac _ hfrac hrest2]
  simp only
  exact skipExp_complete exp rest hexp hrest3

theorem skipJson_value_string (f : Nat) (w R : List Char) (hw : WsText w) :
    skipJson (f + 1) .value (w ++ '"' :: R) = (parseStringBody R.length R []).map Prod.snd := by
  rw [skipJson, skipWs_append w _ _ hw (by decide)]
  simp

theorem skipJson_value_array_empty (f : Nat) (w R rest1 : List Char) (hw : WsText w)
    (h1 : expectChar ']' R = some rest1) :
    skipJson (f + 1) .value (w ++ '[' :: R) = some rest1 := by
  rw [skipJson, skipWs_append w _ _ hw (by decide)]
  simp [h1]

theorem skipJson_value_array_elements (f : Nat) (w R rest1 : List Char) (hw : WsText w)
    (h1 : expectChar ']' R = none) (h2 : skipJson f .value R = some rest1) :
    skipJson (f + 1) .value (w ++ '[' :: R) = skipJson f .elements rest1 := by
  rw [skipJson, skipWs_append w _ _ hw (by decide)]
  simp [h1, h2]

theorem skipJson_value_object_empty (f : Nat) (w R rest1 : List Char) (hw : WsText w)
    (h1 : expectChar '\x7d' R = some rest1) :
    skipJson (f + 1) .value (w ++ '\x7b' :: R) = some rest1 := by
  rw [skipJson, skipWs_append w _ _ hw (by decide)]
  simp [h1]

theorem skipJson_value_object_members (f : Nat) (w R : List Char) (k : String)
    (rest1 rest2 rest3 : List Char) (hw : WsText w)
    (h1 : expectChar '\x7d' R = none) (h2 : parseString R = some (k, rest1))
    (h3 : expectChar ':' rest1 = some rest2) (h4 : skipJson f .value rest2 = some rest3) :
    skipJson (f + 1) .value (w ++ '\x7b' :: R) = skipJson f .members rest3 := by
  rw [skipJson, skipWs_append w _ _ hw (by decide)]
  simp [h1, h2, h3, h4]

theorem skipJson_value_true (f : Nat) (w R : List Char) (hw : WsText w) :
    skipJson (f + 1) .value (w ++ 't' :: 'r' :: 'u' :: 'e' :: R) = some R := by
  rw [skipJson, skipWs_append w _ _ hw (by decide)]
  simp [expectLit]

theorem skipJson_value_false (f : Nat) (w R : List Char) (hw : WsText w) :
    skipJson (f + 1) .value (w ++ 'f' :: 'a' :: 'l' :: 's' :: 'e' :: R) = some R := by
  rw [skipJson, skipWs_append w _ _ hw (by decide)]
  simp [expectLit]

theorem skipJson_value_null (f : Nat) (w R : List Char) (hw : WsText w) :
    skipJson (f + 1) .value (w ++ 'n' :: 'u' :: 'l' :: 'l' :: R) = some R := by
  rw [skipJson, skipWs_append w _ _ hw (by decide)]
  simp [expectLit]

theorem numberHead_facts (c : Char) (hc : c = '-' ∨ c.isDigit = true) :
    ¬ (c = ' ' ∨ c = '\n' ∨ c = '\t' ∨ c = '\r') ∧ ¬ c = '"' ∧ ¬ c = '[' ∧ ¬ c = '\x7b' ∧
      ¬ c = 't' ∧ ¬ c = 'f' ∧ ¬ c = 'n' ∧ ¬ c = ']' ∧ ¬ c = '\x7d' := by
  rcases hc with h | h
  · subst h
    decide
  · refine ⟨?_, isDigit_ne c _ h (by decide), isDigit_ne c _ h (by decide),
      isDigit_ne c _ h (by decide), isDigit_ne c _ h (by decide), isDigit_ne c _ h (by decide),
      isDigit_ne c _ h (by decide), isDigit_ne c _ h (by decide), isDigit_ne c _ h (by decide)⟩
    rintro (h1 | h1 | h1 | h1)
    · exact isDigit_ne c _ h (by decide) h1
    · exact isDigit_ne c _ h (by decide) h1
    · exact isDigit_ne c _ h (by decide) h1
    · exact isDigit_ne c _ h (by decide) h1

theorem skipJson_value_number (f : Nat) (w : List Char) (c : Char) (R : List Char)
    (hw : WsText w) (hc : c = '-' ∨ c.isDigit = true) :
    skipJson (f + 1) .value (w ++ c :: R) = skipNumber (c :: R) := by
  obtain ⟨h0, h1, h2, h3, h4, h5, h6, _, _⟩ := numberHead_facts c hc
  rw [skipJson, skipWs_append w _ _ hw h0]
  simp only [h1, h2, h3, h4, h5, h6, if_false]

theorem skipJson_elements_close (f : Nat) (w R : List Char) (hw : WsText w) :
    skipJson (f + 1) .elements (w ++ ']' :: R) = some R := by
  rw [skipJson, skipWs_append w _ _ hw (by decide)]
  simp

theorem skipJson_elements_more (f : Nat) (w R rest1 : List Char) (hw : WsText w)
    (h1 : skipJson f .value R = some rest1) :
    skipJson (f + 1) .elements (w ++ ',' :: R) = skipJson f .elements rest1 := by
  rw [skipJson, skipWs_append w _ _ hw (by decide)]
  simp [h1]

theorem skipJson_members_close (f : Nat) (w R : List Char) (hw : WsText w) :
    skipJson (f + 1) .members (w ++ '\x7d' :: R) = some R := by
  rw [skipJson, skipWs_append w _ _ hw (by decide)]
  simp

theorem skipJson_members_more (f : Nat) (w R : List Char) (k : String)
    (rest1 rest2 rest3 : List Char) (hw : WsText w)
    (h2 : parseString R = some (k, rest1))
    (h3 : expectChar ':' rest1 = some rest2) (h4 : skipJson f .value rest2 = some rest3) :
    skipJson (f + 1) .members (w ++ ',' :: R) = skipJson f .members rest3 := by
  rw [skipJson, skipWs_append w _ _ hw (by decide)]
  simp [h2, h3, h4]

theorem NumberText_head (cs : List Char) (h : NumberText cs) :
    ∃ c t, cs = c :: t ∧ (c = '-' ∨ c.isDigit = true) := by
  obtain ⟨sign, int, frac, exp, hcs, hsign, hint, _, _⟩ := h
  subst hcs
  rcases hsign with hs | hs
  · subst hs
    rcases hint with h | ⟨⟨hne, hall⟩, _⟩
    · subst h
      exact ⟨'0', _, rfl, Or.inr (by decide)⟩
    · cases int with
      | nil => exact absurd rfl hne
      | cons d ds => exact ⟨d, _, rfl, Or.inr (hall d (List.mem_cons_self _ _))⟩
  · subst hs
    exact ⟨'-', _, rfl, Or.inl rfl⟩

theorem ValueText_head (v : List Char) (h : ValueText v) :
    ∃ c t, v = c :: t ∧ ¬ (c = ' ' ∨ c = '\n' ∨ c = '\t' ∨ c = '\r') ∧ ¬ c = ']' := by
  cases h with
  | string s cs hs =>
    obtain ⟨body, hcs, _⟩ := hs
    exact ⟨'"', _, hcs, by decide, by decide⟩
  | number cs hn =>
    obtain ⟨c, t, hcs, hc⟩ := NumberText_head _ hn
    have := numberHead_facts c hc
    exact ⟨c, t, hcs, this.1, this.2.2.2.2.2.2.2.1⟩
  | litTrue => exact ⟨_, _, rfl, by decide, by decide⟩
  | litFalse => exact ⟨_, _, rfl, by decide, by decide⟩
  | litNull => exact ⟨_, _, rfl, by decide, by decide⟩
  | emptyArray w hw => exact ⟨_, _, rfl, by decide, by decide⟩
  | array w v tail hw hv ht => exact ⟨_, _, rfl, by decide, by decide⟩
  | emptyObject w hw => exact ⟨_, _, rfl, by decide, by decide⟩
  | object w k ktext w1 w2 v tail hw hk hw1 hw2 hv ht => exact ⟨_, _, rfl, by decide, by decide⟩

theorem ElementsTailText_delimited (tail : List Char) (h : ElementsTailText tail)
    (rest : List Char) : Delimited (tail ++ rest) := by
  cases h with
  | close w hw =>
    have : (w ++ [']']) ++ rest = w ++ ']' :: rest := by simp
    rw [this]
    exact Delimited_ws_append w ']' rest hw (Or.inr (Or.inl rfl))
  | more w w1 v tail1 hw hw1 hv ht =>
    have : (w ++ (',' :: (w1 ++ (v ++ tail1)))) ++ rest = w ++ ',' :: (w1 ++ (v ++ tail1) ++ rest) := by
      simp
    rw [this]
    exact Delimited_ws_append w ',' _ hw (Or.inl rfl)

theorem MembersTailText_delimited (tail : List Char) (h : MembersTailText tail)
    (rest : List Char) : Delimited (tail ++ rest) := by
  cases h with
  | close w hw =>
    have : (w ++ ['\x7d']) ++ rest = w ++ '\x7d' :: rest := by simp
    rw [this]
    exact Delimited_ws_append w '\x7d' rest hw (Or.inr (Or.inr rfl))
  | more w w0 k ktext w1 w2 v tail1 hw hw0 hk hw1 hw2 hv ht =>
    have : (w ++ (',' :: (w0 ++ (ktext ++ (w1 ++ (':' :: (w2 ++ (v ++ tail1)))))))) ++ rest =
        w ++ ',' :: ((w0 ++ (ktext ++ (w1 ++ (':' :: (w2 ++ (v ++ tail1)))))) ++ rest) := by
      simp
    rw [this]
    exact Delimited_ws_append w ',' _ hw (Or.inl rfl)

theorem StringText_head (s : String) (text : List Char) (h : StringText s text) :
    ∃ t, text = '"' :: t := by
  obtain ⟨body, htext, _⟩ := h
  exact ⟨_, htext⟩

/-- The reader of any JSON value accepts every text of the grammar, given
more fuel than the text has characters. -/
theorem skipJson_complete : ∀ (n : Nat),
    (∀ v, v.length ≤ n → ValueText v → ∀ (w rest : List Char) (fuel : Nat), WsText w →
      Delimited rest → v.length < fuel → skipJson fuel .value (w ++ (v ++ rest)) = some rest) ∧
    (∀ tail, tail.length ≤ n → ElementsTailText tail → ∀ (rest : List Char) (fuel : Nat),
      tail.length < fuel → skipJson fuel .elements (tail ++ rest) = some rest) ∧
    (∀ tail, tail.length ≤ n → MembersTailText tail → ∀ (rest : List Char) (fuel : Nat),
      tail.length < fuel → skipJson fuel .members (tail ++ rest) = some rest) := by
  intro n
  induction n with
  | zero =>
    refine ⟨?_, ?_, ?_⟩
    · intro v hlen hv
      obtain ⟨c, t, hc, _⟩ := ValueText_head v hv
      subst hc
      simp at hlen
    · intro tail hlen ht
      cases ht <;> simp at hlen
    · intro tail hlen ht
      cases ht <;> simp at hlen
  | succ n ih =>
    obtain ⟨ihv, ihe, ihm⟩ := ih
    refine ⟨?_, ?_, ?_⟩
    · intro v hlen hv w rest fuel hw hd hf
      obtain ⟨f, rfl⟩ : ∃ f, fuel = f + 1 := ⟨fuel - 1, by omega⟩
      cases hv with
      | string s cs hs =>
        obtain ⟨body, hcs, hbody⟩ := hs
        subst hcs
        have hshape : w ++ (('"' :: (body ++ ['"'])) ++ rest) =
            w ++ '"' :: (body ++ '"' :: rest) := by simp
        rw [hshape, skipJson_value_string f w _ hw,
          parseStringBody_complete s.data body hbody _ [] rest (by simp)]
        rfl
      | number cs hn =>
        obtain ⟨c, t, hcs, hc⟩ := NumberText_head _ hn
        have h := skipNumber_complete v rest hn hd
        subst hcs
        have hshape : w ++ ((c :: t) ++ rest) = w ++ c :: (t ++ rest) := rfl
        rw [hshape, skipJson_value_number f w c _ hw hc]
        exact h
      | litTrue => exact skipJson_value_true f w rest hw
      | litFalse => exact skipJson_value_false f w rest hw
      | litNull => exact skipJson_value_null f w rest hw
      | emptyArray w1 hw1 =>
        have hshape : w ++ (('[' :: (w1 ++ [']'])) ++ rest) = w ++ '[' :: (w1 ++ ']' :: rest) := by
          simp
        rw [hshape]
        exact skipJson_value_array_empty f w _ rest hw
          (expectChar_ws_hit w1 ']' rest hw1 (by decide))
      | array w1 v1 tail hw1 hv1 ht =>
        have hshape : w ++ (('[' :: (w1 ++ (v1 ++ tail))) ++ rest) =
            w ++ '[' :: (w1 ++ (v1 ++ (tail ++ rest))) := by simp
        simp only [List.length_cons, List.length_append] at hlen hf
        obtain ⟨c, t, hc, hnws, hnb⟩ := ValueText_head v1 hv1
        have hmiss : expectChar ']' (w1 ++ (v1 ++ (tail ++ rest))) = none := by
          rw [hc]
          exact expectChar_ws_miss w1 ']' c _ hw1 hnws hnb
        have hval := ihv v1 (by omega) hv1 w1 (tail ++ rest) f hw1
          (ElementsTailText_delimited tail ht rest) (by omega)
        rw [hshape, skipJson_value_array_elements f w _ _ hw hmiss hval]
        exact ihe tail (by omega) ht rest f (by omega)
      | emptyObject w1 hw1 =>
        have hshape : w ++ (('\x7b' :: (w1 ++ ['\x7d'])) ++ rest) =
            w ++ '\x7b' :: (w1 ++ '\x7d' :: rest) := by simp
        rw [hshape]
        exact skipJson_value_object_empty f w _ rest hw
          (expectChar_ws_hit w1 '\x7d' rest hw1 (by decide))
      | object w1 k ktext w3 w2 v1 tail hw1 hk hw3 hw2 hv1 ht =>
        have hshape : w ++ (('\x7b' :: (w1 ++ (ktext ++ (w3 ++ (':' :: (w2 ++ (v1 ++ tail))))))) ++
            rest) = w ++ '\x7b' :: (w1 ++ (ktext ++ (w3 ++ ':' :: (w2 ++ (v1 ++ (tail ++ rest)))))) := by
          simp
        simp only [List.length_cons, List.length_append] at hlen hf
        obtain ⟨t, hkt⟩ := StringText_head k ktext hk
        have hmiss : expectChar '\x7d'
            (w1 ++ (ktext ++ (w3 ++ ':' :: (w2 ++ (v1 ++ (tail ++ rest)))))) = none := by
          rw [hkt]
          exact expectChar_ws_miss w1 '\x7d' '"' _ hw1 (by decide) (by decide)
        have hkey := parseString_complete k ktext hk w1 hw1
          (w3 ++ ':' :: (w2 ++ (v1 ++ (tail ++ rest))))
        have hcolon := expectChar_ws_hit w3 ':' (w2 ++ (v1 ++ (tail ++ rest))) hw3 (by decide)
        have hval := ihv v1 (by omega) hv1 w2 (tail ++ rest) f hw2
          (MembersTailText_delimited tail ht rest) (by omega)
        rw [hshape, skipJson_value_object_members f w _ k _ _ _ hw hmiss hkey hcolon hval]
        exact ihm tail (by omega) ht rest f (by omega)
    · intro tail hlen ht rest fuel hf
      obtain ⟨f, rfl⟩ : ∃ f, fuel = f + 1 := ⟨fuel - 1, by omega⟩
      cases ht with
      | close w hw =>
        have hshape : (w ++ [']']) ++ rest = w ++ ']' :: rest := by simp
        rw [hshape]
        exact skipJson_elements_close f w rest hw
      | more w w1 v1 tail1 hw hw1 hv1 ht1 =>
        have hshape : (w ++ (',' :: (w1 ++ (v1 ++ tail1)))) ++ rest =
            w ++ ',' :: (w1 ++ (v1 ++ (tail1 ++ rest))) := by simp
        simp only [List.length_cons, List.length_append] at hlen hf
        have hval := ihv v1 (by omega) hv1 w1 (tail1 ++ rest) f hw1
          (ElementsTailText_delimited tail1 ht1 rest) (by omega)
        rw [hshape, skipJson_elements_more f w _ _ hw hval]
        exact ihe tail1 (by omega) ht1 rest f (by omega)
    · intro tail hlen ht rest fuel hf
      obtain ⟨f, rfl⟩ : ∃ f, fuel = f + 1 := ⟨fuel - 1, by omega⟩
      cases ht with
      | close w hw =>
        have hshape : (w ++ ['\x7d']) ++ rest = w ++ '\x7d' :: rest := by simp
        rw [hshape]
        exact skipJson_members_close f w rest hw
      | more w w0 k ktext w1 w2 v1 tail1 hw hw0 hk hw1 hw2 hv1 ht1 =>
        have hshape : (w ++ (',' :: (w0 ++ (ktext ++ (w1 ++ (':' :: (w2 ++ (v1 ++ tail1)))))))) ++
            rest = w ++ ',' :: (w0 ++ (ktext ++ (w1 ++ ':' :: (w2 ++ (v1 ++ (tail1 ++ rest)))))) := by
          simp
        simp only [List.length_cons, List.length_append] at hlen hf
        have hkey := parseString_complete k ktext hk w0 hw0
          (w1 ++ ':' :: (w2 ++ (v1 ++ (tail1 ++ rest))))
        have hcolon := expectChar_ws_hit w1 ':' (w2 ++ (v1 ++ (tail1 ++ rest))) hw1 (by decide)
        have hval := ihv v1 (by omega) hv1 w2 (tail1 ++ rest) f hw2
          (MembersTailText_delimited tail1 ht1 rest) (by omega)
        rw [hshape, skipJson_members_more f w _ k _ _ _ hw hkey hcolon hval]
        exact ihm tail1 (by omega) ht1 rest f (by omega)

/-- The reader of any JSON value accepts every JSON value that a delimiter
follows. -/
theorem skipJson_value_complete (v : List Char) (hv : ValueText v) (w rest : List Char)
    (fuel : Nat) (hw : WsText w) (hd : Delimited rest) (hf : v.length < fuel) :
    skipJson fuel .value (w ++ (v ++ rest)) = some rest :=
  (skipJson_complete v.length).1 v (Nat.le_refl _) hv w rest fuel hw hd hf

theorem parseStringsTail_complete (ms : List String) (tail : List Char)
    (h : StringsTailText ms tail) :
    ∀ (acc : List String) (rest : List Char) (fuel : Nat), tail.length < fuel →
      parseStringsTail fuel (tail ++ rest) acc = some (acc.reverse ++ ms, rest) := by
  induction h with
  | close w hw =>
    intro acc rest fuel hf
    obtain ⟨f, rfl⟩ : ∃ f, fuel = f + 1 := ⟨fuel - 1, by omega⟩
    have hshape : (w ++ [']']) ++ rest = w ++ ']' :: rest := by simp
    rw [hshape]
    unfold parseStringsTail
    rw [skipWs_append w ']' _ hw (by decide)]
    simp
  | more w w1 s stext ms tail hw hw1 hs ht ih =>
    intro acc rest fuel hf
    obtain ⟨f, rfl⟩ : ∃ f, fuel = f + 1 := ⟨fuel - 1, by omega⟩
    have hshape : (w ++ (',' :: (w1 ++ (stext ++ tail)))) ++ rest =
        w ++ ',' :: (w1 ++ (stext ++ (tail ++ rest))) := by simp
    simp only [List.length_cons, List.length_append] at hf
    rw [hshape]
    unfold parseStringsTail
    rw [skipWs_append w ',' _ hw (by decide)]
    simp only [show ¬ (',' = ']') by decide, if_false, if_true]
    rw [parseString_complete s stext hs w1 hw1 _]
    simp only
    rw [ih (s :: acc) rest f (by omega)]
    simp

theorem parseStrings_complete (ms : List String) (text : List Char) (h : StringsText ms text)
    (w : List Char) (hw : WsText w) (rest : List Char) :
    parseStrings (w ++ (text ++ rest)) = some (ms, rest) := by
  cases h with
  | empty w1 hw1 =>
    have hshape : w ++ (('[' :: (w1 ++ [']'])) ++ rest) = w ++ '[' :: (w1 ++ ']' :: rest) := by
      simp
    rw [hshape]
    unfold parseStrings
    rw [expectChar_ws_hit w '[' _ hw (by decide)]
    simp only
    rw [expectChar_ws_hit w1 ']' _ hw1 (by decide)]
  | cons w1 s stext ms1 tail hw1 hs ht =>
    have hshape : w ++ (('[' :: (w1 ++ (stext ++ tail))) ++ rest) =
        w ++ '[' :: (w1 ++ (stext ++ (tail ++ rest))) := by simp
    obtain ⟨t, hst⟩ := StringText_head s stext hs
    have hmiss : expectChar ']' (w1 ++ (stext ++ (tail ++ rest))) = none := by
      rw [hst]
      exact expectChar_ws_miss w1 ']' '"' _ hw1 (by decide) (by decide)
    rw [hshape]
    unfold parseStrings
    rw [expectChar_ws_hit w '[' _ hw (by decide)]
    simp only
    rw [hmiss]
    simp only
    rw [parseString_complete s stext hs w1 hw1 _]
    simp only
    rw [parseStringsTail_complete ms1 tail ht [s] rest _ (by simp only [List.length_append]; omega)]
    simp

theorem parseMember_complete (e e1 : CsiClusterConfigEntry) (m : List Char)
    (h : EntryMemberText e e1 m) (rest : List Char) (hd : Delimited rest) :
    parseMember e (m ++ rest) = some (e1, rest) := by
  cases h with
  | clusterID w ktext w1 w2 id idtext hw hk hw1 hw2 hid =>
    have hshape : (w ++ (ktext ++ (w1 ++ (':' :: (w2 ++ idtext))))) ++ rest =
        w ++ (ktext ++ (w1 ++ ':' :: (w2 ++ (idtext ++ rest)))) := by simp
    rw [hshape]
    unfold parseMember
    rw [parseString_complete "clusterID" ktext hk w hw _]
    simp only
    rw [expectChar_ws_hit w1 ':' _ hw1 (by decide)]
    simp only [parseMemberValue, if_true]
    rw [parseString_complete id idtext hid w2 hw2 _]
  | monitors w ktext w1 w2 ms mtext hw hk hw1 hw2 hms =>
    have hshape : (w ++ (ktext ++ (w1 ++ (':' :: (w2 ++ mtext))))) ++ rest =
        w ++ (ktext ++ (w1 ++ ':' :: (w2 ++ (mtext ++ rest)))) := by simp
    have hk1 : ¬ ("monitors" = "clusterID") := by decide
    rw [hshape]
    unfold parseMember
    rw [parseString_complete "monitors" ktext hk w hw _]
    simp only
    rw [expectChar_ws_hit w1 ':' _ hw1 (by decide)]
    simp only [parseMemberValue, hk1, if_false, if_true]
    rw [parseStrings_complete ms mtext hms w2 hw2 _]
  | other w k ktext w1 w2 v hk1 hk2 hw hk hw1 hw2 hv =>
    have hshape : (w ++ (ktext ++ (w1 ++ (':' :: (w2 ++ v))))) ++ rest =
        w ++ (ktext ++ (w1 ++ ':' :: (w2 ++ (v ++ rest)))) := by simp
    rw [hshape]
    unfold parseMember
    rw [parseString_complete k ktext hk w hw _]
    simp only
    rw [expectChar_ws_hit w1 ':' _ hw1 (by decide)]
    simp only [parseMemberValue, hk1, hk2, if_false]
    rw [skipJson_value_complete v hv w2 rest _ hw2 hd (by simp; omega)]

theorem EntryMemberText_head (e e1 : CsiClusterConfigEntry) (m : List Char)
    (h : EntryMemberText e e1 m) : ∃ w t, m = w ++ '"' :: t ∧ WsText w := by
  cases h with
  | clusterID w ktext w1 w2 id idtext hw hk hw1 hw2 hid =>
    obtain ⟨t, ht⟩ := StringText_head _ ktext hk
    subst ht
    exact ⟨w, t ++ (w1 ++ (':' :: (w2 ++ idtext))), rfl, hw⟩
  | monitors w ktext w1 w2 ms mtext hw hk hw1 hw2 hms =>
    obtain ⟨t, ht⟩ := StringText_head _ ktext hk
    subst ht
    exact ⟨w, t ++ (w1 ++ (':' :: (w2 ++ mtext))), rfl, hw⟩
  | other w k ktext w1 w2 v hk1 hk2 hw hk hw1 hw2 hv =>
    obtain ⟨t, ht⟩ := StringText_head _ ktext hk
    subst ht
    exact ⟨w, t ++ (w1 ++ (':' :: (w2 ++ v))), rfl, hw⟩

theorem EntryTailText_delimited (e e1 : CsiClusterConfigEntry) (tail : List Char)
    (h : EntryTailText e e1 tail) (rest : List Char) : Delimited (tail ++ rest) := by
  cases h with
  | close e0 w hw =>
    have : (w ++ ['\x7d']) ++ rest = w ++ '\x7d' :: rest := by simp
    rw [this]
    exact Delimited_ws_append w '\x7d' rest hw (Or.inr (Or.inr rfl))
  | more e0 e2 e3 w m tail1 hw hm ht =>
    have : (w ++ (',' :: (m ++ tail1))) ++ rest = w ++ ',' :: ((m ++ tail1) ++ rest) := by simp
    rw [this]
    exact Delimited_ws_append w ',' _ hw (Or.inl rfl)

theorem parseMembersTail_complete (e e1 : CsiClusterConfigEntry) (tail : List Char)
    (h : EntryTailText e e1 tail) :
    ∀ (rest : List Char) (fuel : Nat), tail.length < fuel →
      parseMembersTail fuel (tail ++ rest) e = some (e1, rest) := by
  induction h with
  | close e w hw =>
    intro rest fuel hf
    obtain ⟨f, rfl⟩ : ∃ f, fuel = f + 1 := ⟨fuel - 1, by omega⟩
    have hshape : (w ++ ['\x7d']) ++ rest = w ++ '\x7d' :: rest := by simp
    rw [hshape]
    unfold parseMembersTail
    rw [skipWs_append w '\x7d' _ hw (by decide)]
    simp
  | more e e1 e2 w m tail hw hm ht ih =>
    intro rest fuel hf
    obtain ⟨f, rfl⟩ : ∃ f, fuel = f + 1 := ⟨fuel - 1, by omega⟩
    have hshape : (w ++ (',' :: (m ++ tail))) ++ rest = w ++ ',' :: (m ++ (tail ++ rest)) := by
      simp
    simp only [List.length_cons, List.length_append] at hf
    rw [hshape]
    unfold parseMembersTail
    rw [skipWs_append w ',' _ hw (by decide)]
    simp only [show ¬ (',' = '\x7d') by decide, if_false, if_true]
    rw [parseMember_complete e e1 m hm _ (EntryTailText_delimited e1 e2 tail ht rest)]
    simp only
    exact ih rest f (by omega)

theorem parseEntry_complete (e : CsiClusterConfigEntry) (text : List Char)
    (h : EntryText e text) (w : List Char) (hw : WsText w) (rest : List Char) :
    parseEntry (w ++ (text ++ rest)) = some (e, rest) := by
  cases h with
  | empty w1 hw1 =>
    have hshape : w ++ (('\x7b' :: (w1 ++ ['\x7d'])) ++ rest) =
        w ++ '\x7b' :: (w1 ++ '\x7d' :: rest) := by simp
    rw [hshape]
    unfold parseEntry
    rw [expectChar_ws_hit w '\x7b' _ hw (by decide)]
    simp only
    rw [expectChar_ws_hit w1 '\x7d' _ hw1 (by decide)]
  | members e1 e0 m tail hm ht =>
    have hshape : w ++ (('\x7b' :: (m ++ tail)) ++ rest) =
        w ++ '\x7b' :: (m ++ (tail ++ rest)) := by simp
    obtain ⟨w1, t, hhead, hw1⟩ := EntryMemberText_head _ e1 m hm
    have hmiss : expectChar '\x7d' (m ++ (tail ++ rest)) = none := by
      rw [hhead, List.append_assoc, List.cons_append]
      exact expectChar_ws_miss w1 '\x7d' '"' _ hw1 (by decide) (by decide)
    rw [hshape]
    unfold parseEntry
    rw [expectChar_ws_hit w '\x7b' _ hw (by decide)]
    simp only
    rw [hmiss]
    simp only
    rw [parseMember_complete _ e1 m hm _ (EntryTailText_delimited e1 e tail ht rest)]
    simp only
    exact parseMembersTail_complete e1 e tail ht rest _ (by simp only [List.length_append]; omega)

theorem EntryText_head (e : CsiClusterConfigEntry) (text : List Char) (h : EntryText e text) :
    ∃ t, text = '\x7b' :: t := by
  cases h with
  | empty w hw => exact ⟨_, rfl⟩
  | members e1 e0 m tail hm ht => exact ⟨_, rfl⟩

theorem parseEntriesTail_complete (es : List CsiClusterConfigEntry) (tail : List Char)
    (h : EntriesTailText es tail) :
    ∀ (acc : List CsiClusterConfigEntry) (rest : List Char) (fuel : Nat), tail.length < fuel →
      parseEntriesTail fuel (tail ++ rest) acc = some (acc.reverse ++ es, rest) := by
  induction h with
  | close w hw =>
    intro acc rest fuel hf
    obtain ⟨f, rfl⟩ : ∃ f, fuel = f + 1 := ⟨fuel - 1, by omega⟩
    have hshape : (w ++ [']']) ++ rest = w ++ ']' :: rest := by simp
    rw [hshape]
    unfold parseEntriesTail
    rw [skipWs_append w ']' _ hw (by decide)]
    simp
  | more w w1 e etext es tail hw hw1 he ht ih =>
    intro acc rest fuel hf
    obtain ⟨f, rfl⟩ : ∃ f, fuel = f + 1 := ⟨fuel - 1, by omega⟩
    have hshape : (w ++ (',' :: (w1 ++ (etext ++ tail)))) ++ rest =
        w ++ ',' :: (w1 ++ (etext ++ (tail ++ rest))) := by simp
    simp only [List.length_cons, List.length_append] at hf
    rw [hshape]
    unfold parseEntriesTail
    rw [skipWs_append w ',' _ hw (by decide)]
    simp only [show ¬ (',' = ']') by decide, if_false, if_true]
    rw [parseEntry_complete e etext he w1 hw1 _]
    simp only
    rw [ih (e :: acc) rest f (by omega)]
    simp

theorem parseEntries_complete (cc : List CsiClusterConfigEntry) (text : List Char)
    (h : EntriesText cc text) (w : List Char) (hw : WsText w) (rest : List Char) :
    parseEntries (w ++ (text ++ rest)) = some (cc, rest) := by
  cases h with
  | empty w1 hw1 =>
    have hshape : w ++ (('[' :: (w1 ++ [']'])) ++ rest) = w ++ '[' :: (w1 ++ ']' :: rest) := by
      simp
    rw [hshape]
    unfold parseEntries
    rw [expectChar_ws_hit w '[' _ hw (by decide)]
    simp only
    rw [expectChar_ws_hit w1 ']' _ hw1 (by decide)]
  | cons w1 e etext es tail hw1 he ht =>
    have hshape : w ++ (('[' :: (w1 ++ (etext ++ tail))) ++ rest) =
        w ++ '[' :: (w1 ++ (etext ++ (tail ++ rest))) := by simp
    obtain ⟨t, het⟩ := EntryText_head e etext he
    have hmiss : expectChar ']' (w1 ++ (etext ++ (tail ++ rest))) = none := by
      rw [het]
      exact expectChar_ws_miss w1 ']' '\x7b' _ hw1 (by decide) (by decide)
    rw [hshape]
    unfold parseEntries
    rw [expectChar_ws_hit w '[' _ hw (by decide)]
    simp only
    rw [hmiss]
    simp only
    rw [parseEntry_complete e etext he w1 hw1 _]
    simp only
    rw [parseEntriesTail_complete es tail ht [e] rest _ (by simp only [List.length_append]; omega)]
    simp

/-- The reader accepts every text of the grammar, with the configuration the
text denotes. -/
theorem parseCsiClusterConfig_complete (cc : List CsiClusterConfigEntry) (curr : String)
    (h : ConfigText cc curr.data) : parseCsiClusterConfig curr = .ok cc := by
  obtain ⟨w1, text, w2, hcs, hw1, hw2, htext⟩ := h
  have hentries : parseEntries curr.data = some (cc, w2) := by
    rw [hcs]
    exact parseEntries_complete cc text htext w1 hw1 w2
  unfold parseCsiClusterConfig
  rw [hentries]
  simp only [skipWs_of_ws w2 hw2, if_true]

/-- The reader is the grammar: a payload parses to a configuration exactly
when it is a text of the grammar that denotes this configuration. -/
theorem parseCsiClusterConfig_iff (curr : String) (cc : List CsiClusterConfigEntry) :
    parseCsiClusterConfig curr = .ok cc ↔ ConfigText cc curr.data :=
  ⟨parseCsiClusterConfig_sound curr cc, parseCsiClusterConfig_complete cc curr⟩

theorem upsertEntry_of_absent (cc : List CsiClusterConfigEntry) (clusterKey : String)
    (ms : List String) (h : ∀ e ∈ cc, e.ClusterID ≠ clusterKey) :
    upsertEntry cc clusterKey ms = cc ++ [{ ClusterID := clusterKey, Monitors := ms }] := by
  induction cc with
  | nil => rfl
  | cons e rest ih =>
    have he : ¬ e.ClusterID = clusterKey := h e (List.mem_cons_self _ _)
    simp [upsertEntry, he, ih (fun e1 h1 => h e1 (List.mem_cons_of_mem _ h1))]

theorem upsertEntry_of_first (clusterKey : String) (ms : List String) :
    ∀ (cc : List CsiClusterConfigEntry) (i : Nat) (e : CsiClusterConfigEntry),
      cc[i]? = some e → e.ClusterID = clusterKey →
      (∀ j e1, j < i → cc[j]? = some e1 → e1.ClusterID ≠ clusterKey) →
      upsertEntry cc clusterKey ms =
        cc.take i ++ { ClusterID := clusterKey, Monitors := ms } :: cc.drop (i + 1) := by
  intro cc
  induction cc with
  | nil => intro i e h; simp at h
  | cons e0 rest ih =>
    intro i e hi hkey hfirst
    cases i with
    | zero =>
      simp only [List.getElem?_cons_zero, Option.some.injEq] at hi
      subst hi
      simp [upsertEntry, hkey]
    | succ i =>
      have he0 : ¬ e0.ClusterID = clusterKey := hfirst 0 e0 (Nat.succ_pos _) (by simp)
      simp only [List.getElem?_cons_succ] at hi
      have := ih i e hi hkey (fun j e1 hj h1 => hfirst (j + 1) e1 (by omega) (by simpa using h1))
      simp [upsertEntry, he0, this]

/-- C23: UpdateCsiClusterConfig on a payload that parses returns the formatted
configuration in which only the entry of the target cluster differs.  When no
entry has the id of the target, the configuration is the parsed one with a new
entry (the target and the endpoints of the given mons) added at the end.  When
the entry at index `i` is the first with the id of the target, the
configuration is the parsed one with that entry replaced by the target with
the endpoints of the given mons; the entries before and after it are kept, in
their order.  The result parses back to that configuration when its strings
need no escape.  From "[]", the cluster alpha with the monitor 1.2.3.4:5000
yields exactly `[{"clusterID":"alpha","monitors":["1.2.3.4:5000"]}]`. -/
theorem UpdateCsiClusterConfig_replaces_or_appends (curr clusterKey : String)
    (mons : List (String × MonInfo)) (cc : List CsiClusterConfigEntry)
    (hparse : parseCsiClusterConfig curr = .ok cc) :
    (∃ cc1, UpdateCsiClusterConfig curr clusterKey mons = .ok (formatCsiClusterConfig cc1) ∧
      ((∀ e ∈ cc1, cleanEntry e) →
        parseCsiClusterConfig (formatCsiClusterConfig cc1) = .ok cc1) ∧
      ((∀ e ∈ cc, e.ClusterID ≠ clusterKey) →
        cc1 = cc ++ [{ ClusterID := clusterKey, Monitors := monEndpoints mons }]) ∧
      (∀ i e, cc[i]? = some e → e.ClusterID = clusterKey →
        (∀ j e1, j < i → cc[j]? = some e1 → e1.ClusterID ≠ clusterKey) →
        cc1 = cc.take i ++
          { ClusterID := clusterKey, Monitors := monEndpoints mons } :: cc.drop (i + 1))) ∧
    UpdateCsiClusterConfig "[]" "alpha" fooMons =
      .ok "[\x7b\"clusterID\":\"alpha\",\"monitors\":[\"1.2.3.4:5000\"]\x7d]" := by
  refine ⟨⟨upsertEntry cc clusterKey (monEndpoints mons), ?_, ?_, ?_, ?_⟩, rfl⟩
  · simp only [UpdateCsiClusterConfig, hparse]
  · exact fun _ => parseCsiClusterConfig_format _
  · exact upsertEntry_of_absent cc clusterKey _
  · exact upsertEntry_of_first clusterKey _ cc

/-- The theorem above for the last step of the test: in the configuration of
alpha and beta, the cluster beta is left with two of its mons. -/
theorem UpdateCsiClusterConfig_replaces_or_appends_witness :
    (∃ cc1, UpdateCsiClusterConfig (formatCsiClusterConfig alphaBetaConfig) "beta" fooBarMons =
        .ok (formatCsiClusterConfig cc1) ∧
      ((∀ e ∈ cc1, cleanEntry e) →
        parseCsiClusterConfig (formatCsiClusterConfig cc1) = .ok cc1) ∧
      ((∀ e ∈ alphaBetaConfig, e.ClusterID ≠ "beta") →
        cc1 = alphaBetaConfig ++ [{ ClusterID := "beta", Monitors := monEndpoints fooBarMons }]) ∧
      (∀ i e, alphaBetaConfig[i]? = some e → e.ClusterID = "beta" →
        (∀ j e1, j < i → alphaBetaConfig[j]? = some e1 → e1.ClusterID ≠ "beta") →
        cc1 = alphaBetaConfig.take i ++
          { ClusterID := "beta", Monitors := monEndpoints fooBarMons } ::
            alphaBetaConfig.drop (i + 1))) ∧
    UpdateCsiClusterConfig "[]" "alpha" fooMons =
      .ok "[\x7b\"clusterID\":\"alpha\",\"monitors\":[\"1.2.3.4:5000\"]\x7d]" :=
  UpdateCsiClusterConfig_replaces_or_appends (formatCsiClusterConfig alphaBetaConfig) "beta"
    fooBarMons alphaBetaConfig (by set_option maxRecDepth 4096 in rfl)

/-- The reader on payloads of the stated structure and on payloads outside
it, evaluated.  Accepted: the keys in the other order, an escape in a string, a
member with another key and a nested value, an object without the keys, and
whitespace between the tokens.  Rejected: the text "qqq", the value null, an
object that is not in an array, a tab that is not escaped inside a string, a
number as cluster id, a string as monitors, a comma before the closing
bracket, and text after the array. -/
theorem parseCsiClusterConfig_examples :
    parseCsiClusterConfig "[\x7b\"monitors\":[\"1.2.3.4:5000\"],\"clusterID\":\"alpha\"\x7d]" =
      .ok [{ ClusterID := "alpha", Monitors := ["1.2.3.4:5000"] }] ∧
    parseCsiClusterConfig "[\x7b\"clusterID\":\"al\\u0070ha\\n\",\"monitors\":[]\x7d]" =
      .ok [{ ClusterID := "alpha\n", Monitors := [] }] ∧
    parseCsiClusterConfig
        "[\x7b\"clusterID\":\"alpha\",\"extra\":\x7b\"a\":[1,-2.5e3,true,null]\x7d,\"monitors\":[]\x7d]" =
      .ok [{ ClusterID := "alpha", Monitors := [] }] ∧
    parseCsiClusterConfig "[\x7b\x7d, \x7b\"clusterID\":\"beta\"\x7d]" =
      .ok [{ ClusterID := "", Monitors := [] }, { ClusterID := "beta", Monitors := [] }] ∧
    parseCsiClusterConfig " [ \x7b \"clusterID\" : \"alpha\" , \"monitors\" : [ \"m\" ] \x7d ] \n" =
      .ok [{ ClusterID := "alpha", Monitors := ["m"] }] ∧
    parseCsiClusterConfig "qqq" =
      .error "failed to unmarshal csi cluster config: invalid character" ∧
    parseCsiClusterConfig "null" =
      .error "failed to unmarshal csi cluster config: invalid character" ∧
    parseCsiClusterConfig "\x7b\"clusterID\":\"alpha\",\"monitors\":[]\x7d" =
      .error "failed to unmarshal csi cluster config: invalid character" ∧
    parseCsiClusterConfig "[\x7b\"clusterID\":\"al\tpha\",\"monitors\":[]\x7d]" =
      .error "failed to unmarshal csi cluster config: invalid character" ∧
    parseCsiClusterConfig "[\x7b\"clusterID\":5,\"monitors\":[]\x7d]" =
      .error "failed to unmarshal csi cluster config: invalid character" ∧
    parseCsiClusterConfig "[\x7b\"clusterID\":\"alpha\",\"monitors\":\"m\"\x7d]" =
      .error "failed to unmarshal csi cluster config: invalid character" ∧
    parseCsiClusterConfig "[\x7b\"clusterID\":\"alpha\",\"monitors\":[]\x7d,]" =
      .error "failed to unmarshal csi cluster config: invalid character" ∧
    parseCsiClusterConfig "[] x" =
      .error
        "failed to unmarshal csi cluster config: invalid character after top-level value" :=
  ⟨rfl, rfl, rfl, rfl, rfl, rfl, rfl, rfl, rfl, rfl, rfl, rfl, rfl⟩

/-- C24: UpdateCsiClusterConfig returns an error, and no configuration, for
every current payload that is not the JSON text of an array of objects with the
members clusterID and monitors (the texts of ConfigText, whatever configuration
they denote), whatever the target cluster and the mons.  The payload "qqq" is
not such a text.  Only these payloads are rejected: on every text of ConfigText
the update succeeds, from the configuration that the text denotes. -/
theorem UpdateCsiClusterConfig_rejects_unparsable_payload (curr clusterKey : String)
    (mons : List (String × MonInfo))
    (hbad : ¬ ∃ cc, ConfigText cc curr.data) :
    (∃ err, UpdateCsiClusterConfig curr clusterKey mons = .error err) ∧
    (∀ out, UpdateCsiClusterConfig curr clusterKey mons ≠ .ok out) ∧
    (¬ ∃ cc, ConfigText cc "qqq".data) ∧
    (∀ (good : String) (cc : List CsiClusterConfigEntry), ConfigText cc good.data →
      UpdateCsiClusterConfig good clusterKey mons =
        .ok (formatCsiClusterConfig (upsertEntry cc clusterKey (monEndpoints mons)))) := by
  have hgood : ∀ (good : String) (cc : List CsiClusterConfigEntry), ConfigText cc good.data →
      UpdateCsiClusterConfig good clusterKey mons =
        .ok (formatCsiClusterConfig (upsertEntry cc clusterKey (monEndpoints mons))) := by
    intro good cc h
    simp only [UpdateCsiClusterConfig, parseCsiClusterConfig_complete cc good h]
  cases hp : parseCsiClusterConfig curr with
  | ok cc => exact absurd ⟨cc, parseCsiClusterConfig_sound curr cc hp⟩ hbad
  | error e =>
    refine ⟨⟨"failed to parse current csi cluster config: " ++ e,
      by simp only [UpdateCsiClusterConfig, hp]⟩, ?_, not_ConfigText_qqq, hgood⟩
    intro out h
    simp only [UpdateCsiClusterConfig, hp] at h
    cases h

/-- The theorem above for the payload "qqq" of the test. -/
theorem UpdateCsiClusterConfig_rejects_unparsable_payload_witness :
    (¬ ∃ cc, ConfigText cc "qqq".data) ∧
    (∃ err, UpdateCsiClusterConfig "qqq" "beta" fooBarMons = .error err) ∧
    (∀ out, UpdateCsiClusterConfig "qqq" "beta" fooBarMons ≠ .ok out) ∧
    (¬ ∃ cc, ConfigText cc "qqq".data) ∧
    (∀ (good : String) (cc : List CsiClusterConfigEntry), ConfigText cc good.data →
      UpdateCsiClusterConfig good "beta" fooBarMons =
        .ok (formatCsiClusterConfig (upsertEntry cc "beta" (monEndpoints fooBarMons)))) :=
  ⟨not_ConfigText_qqq,
    UpdateCsiClusterConfig_rejects_unparsable_payload "qqq" "beta" fooBarMons not_ConfigText_qqq⟩

end Rook
